import Mathlib

/-!
# Attendance system: attendance lifecycle, scoring and risk streaks

A shallow embedding of the route handlers of the attendance backend
(`routes/policies.js`, `routes/reportsRisk.js`, `routes/sessions.js`,
`routes/excuses.js`, `routes/appeals.js`, `routes/attendance.js`,
`routes/absenceWarnings.js`), of the guard `middlewares/requireRole.js` and of the
entity declarations under `src/models`, followed by theorems about them.

Conventions of the embedding:
* tables are lists of rows in insertion order; `findOne`/`findByPk` return the
  first matching row, `save` is `UPDATE ... WHERE id = ?`;
* identifiers, counts and status codes are natural numbers; the weights of a
  policy are decimal rationals and the score arithmetic is IEEE 754 binary64,
  each operation rounding the exact rational result (`roundDouble`);
* `new Date()` is the `now` field of the environment, a timestamp;
* a handler returns the HTTP status code together with the database after the
  request (after rollback where the handler rolls back).
-/

namespace AttendanceSystem

/-! ## Entities (src/models) -/

/-- Row of `attendances` (models/attendance.js); status 0..4 means
unknown, present, late, absent, excused. -/
structure Attendance where
  id : Nat
  sessionId : Nat
  studentId : Nat
  status : Nat
  checkedAt : Option Nat
  updatedBy : Option Nat
deriving DecidableEq, Repr

/-- Row of `attendance_policies` (models/attendancePolicy.js). -/
structure AttendancePolicy where
  lateToAbsent : Nat
  wPresent : ℚ
  wLate : ℚ
  wAbsent : ℚ
  wExcused : ℚ
  maxScore : Nat
  missingAsAbsent : Bool
deriving DecidableEq, Repr

/-! ## Score computation (routes/policies.js) -/

/-- The fallback policy `defaultPolicy(courseId)` of routes/policies.js. -/
def defaultPolicy : AttendancePolicy where
  lateToAbsent := 3
  wPresent := 1
  wLate := 1 / 2
  wAbsent := 0
  wExcused := 1
  maxScore := 20
  missingAsAbsent := true

/-- The per-student counters `{ present, late, absent, excused, unknown }`. -/
structure StatusCounts where
  present : Nat
  late : Nat
  absent : Nat
  excused : Nat
  unknown : Nat
deriving DecidableEq, Repr

/-- The initial counters put into `byStudent`. -/
def StatusCounts.zero : StatusCounts := ⟨0, 0, 0, 0, 0⟩

/-- One element of `rows` in the score response (the user columns name, email
and department are left out). -/
structure ScoreRow where
  studentId : Nat
  totalSessions : Nat
  present : Nat
  lateOriginal : Nat
  lateRemain : Nat
  absentOriginal : Nat
  absentConvertedFromLate : Nat
  absentFinal : Nat
  excused : Nat
  unknown : Nat
  raw : ℚ
  score : ℚ
deriving DecidableEq, Repr

/-! ### JavaScript numbers

The weights are DECIMAL(5,2) columns (or the literals of `defaultPolicy`), and the
score arithmetic of routes/policies.js is done on JavaScript numbers, that is on
IEEE 754 binary64 values. A finite double is represented by its exact rational
value and every arithmetic operation rounds the exact result to the nearest
double, ties to the even significand. Overflow to `Infinity` is not represented:
the operands of the score computation are weights below 1000 in magnitude,
session counts and an INTEGER `maxScore`, far from the overflow threshold. The
two zeros of binary64 are one value here; `JSON.stringify` prints both as `0`. -/

/-- Rounding of a rational to the nearest integer, ties to the even integer. -/
def roundHalfEven (x : ℚ) : ℤ :=
  if x - ⌊x⌋ < 1 / 2 then ⌊x⌋
  else if 1 / 2 < x - ⌊x⌋ then ⌊x⌋ + 1
  else if ⌊x⌋ % 2 = 0 then ⌊x⌋ else ⌊x⌋ + 1

/-- The exponent of the unit in the last place of the binade of `q`: 52 below the
binary exponent of `q`, which is at least the subnormal exponent -1022. -/
def ulpExponent (q : ℚ) : ℤ := max (Int.log 2 |q|) (-1022) - 52

/-- The binary64 value nearest to `q` (round to nearest, ties to even): what a
floating-point operation returns when its exact result is `q`, and what `Number`
returns for a decimal numeral of value `q`. -/
def roundDouble (q : ℚ) : ℚ :=
  (roundHalfEven (q / 2 ^ ulpExponent q) : ℚ) * 2 ^ ulpExponent q

/-- The value of `Number(w)` for a decimal column or literal of value `w`. -/
def jsNumber (w : ℚ) : ℚ := roundDouble w

/-- The JavaScript product `a * b` of two doubles. -/
def jsMul (a b : ℚ) : ℚ := roundDouble (a * b)

/-- The JavaScript sum `a + b` of two doubles. -/
def jsAdd (a b : ℚ) : ℚ := roundDouble (a + b)

/-- The JavaScript quotient `a / b` of two doubles, `b` not zero. -/
def jsDiv (a b : ℚ) : ℚ := roundDouble (a / b)

/-- The decimal that `x.toFixed(2)` prints for a double `x` below 10^21 in magnitude:
the multiple of 1/100 nearest to the exact value of `x`, the one larger in magnitude
on a tie. -/
def toFixed2 (x : ℚ) : ℚ :=
  if x < 0 then -((⌊(-x) * 100 + 1 / 2⌋ : ℤ) : ℚ) / 100
  else ((⌊x * 100 + 1 / 2⌋ : ℤ) : ℚ) / 100

/-- The value of `Number(x.toFixed(2))`: the double nearest to the printed decimal;
from 10^21 on `toFixed` prints the number itself. -/
def numberToFixed2 (x : ℚ) : ℚ :=
  if (10 : ℚ) ^ 21 ≤ |x| then x else roundDouble (toFixed2 x)

/-- The `findAll` of Attendance restricted to the sessions of the course; no query
is made when the course has no session. -/
def attendancesOfSessions (sessionIds : List Nat) (table : List Attendance) :
    List Attendance :=
  if sessionIds.length = 0 then [] else table.filter (fun a => decide (a.sessionId ∈ sessionIds))

/-- The map `statusMap` keyed by (studentId, sessionId): rows of students that are
not enrolled are skipped and a later row overwrites an earlier one. -/
def buildStatusMap (studentIds : List Nat) (attendances : List Attendance) :
    Nat → Nat → Option Nat :=
  attendances.foldl
    (fun m a =>
      if a.studentId ∈ studentIds then
        fun sid sessId => if sid = a.studentId ∧ sessId = a.sessionId then some a.status else m sid sessId
      else m)
    (fun _ _ => none)

/-- One pass of the body of the counting loop: the branch on `st`. -/
def countStatus (policy : AttendancePolicy) (cnt : StatusCounts) (st : Option Nat) :
    StatusCounts :=
  if st = some 1 then { cnt with present := cnt.present + 1 }
  else if st = some 2 then { cnt with late := cnt.late + 1 }
  else if st = some 3 then { cnt with absent := cnt.absent + 1 }
  else if st = some 4 then { cnt with excused := cnt.excused + 1 }
  else if policy.missingAsAbsent then { cnt with absent := cnt.absent + 1 }
  else { cnt with unknown := cnt.unknown + 1 }

/-- The inner loop over `sessionIds` for one student, starting from the counters
that `byStudent` holds for that student. -/
def countSessions (policy : AttendancePolicy) (statusMap : Nat → Nat → Option Nat)
    (sessionIds : List Nat) (sid : Nat) (cnt : StatusCounts) : StatusCounts :=
  sessionIds.foldl (fun c sessId => countStatus policy c (statusMap sid sessId)) cnt

/-- The map `byStudent` after the counting loop over `studentIds`. -/
def countByStudent (policy : AttendancePolicy) (statusMap : Nat → Nat → Option Nat)
    (sessionIds studentIds : List Nat) : Nat → StatusCounts :=
  studentIds.foldl
    (fun byStudent sid =>
      Function.update byStudent sid (countSessions policy statusMap sessionIds sid (byStudent sid)))
    (fun _ => StatusCounts.zero)

/-- The row pushed for one student: late-to-absent conversion, raw score and
normalised score. The counters are integers below 2^53 and exact; `raw` and
`score` are computed in binary64, the sum from left to right. -/
def scoreRow (policy : AttendancePolicy) (totalSessions sid : Nat) (cnt : StatusCounts) :
    ScoreRow :=
  let lateToAbsent := if policy.lateToAbsent = 0 then 1 else policy.lateToAbsent
  let convertedAbs := cnt.late / lateToAbsent
  let lateRemain := cnt.late % lateToAbsent
  let absentFinal := cnt.absent + convertedAbs
  let raw : ℚ :=
    jsAdd
      (jsAdd
        (jsAdd (jsMul (cnt.present : ℚ) (jsNumber policy.wPresent))
          (jsMul (lateRemain : ℚ) (jsNumber policy.wLate)))
        (jsMul (absentFinal : ℚ) (jsNumber policy.wAbsent)))
      (jsMul (cnt.excused : ℚ) (jsNumber policy.wExcused))
  let score : ℚ :=
    if totalSessions > 0 then
      jsMul (jsDiv raw (totalSessions : ℚ)) (jsNumber (policy.maxScore : ℚ))
    else 0
  { studentId := sid
    totalSessions := totalSessions
    present := cnt.present
    lateOriginal := cnt.late
    lateRemain := lateRemain
    absentOriginal := cnt.absent
    absentConvertedFromLate := convertedAbs
    absentFinal := absentFinal
    excused := cnt.excused
    unknown := cnt.unknown
    raw := raw
    score := numberToFixed2 score }

/-- The rows before sorting, one per element of `studentIds`. -/
def scoreRowsUnsorted (policy : AttendancePolicy) (sessionIds studentIds : List Nat)
    (table : List Attendance) : List ScoreRow :=
  let attendances := attendancesOfSessions sessionIds table
  let statusMap := buildStatusMap studentIds attendances
  let byStudent := countByStudent policy statusMap sessionIds studentIds
  studentIds.map (fun sid => scoreRow policy sessionIds.length sid (byStudent sid))

/-- The `rows` of GET /courses/:courseId/score/attendance for the session ids and
enrolled student ids of the course: sorted by score, highest first. -/
def scoreAttendance (policy : AttendancePolicy) (sessionIds studentIds : List Nat)
    (table : List Attendance) : List ScoreRow :=
  (scoreRowsUnsorted policy sessionIds studentIds table).mergeSort
    (fun a b => decide (b.score ≤ a.score))

/-- The attendance table of the scoring example: sessions 1..10, student 7 present in
sessions 1..6, late in 7..9 and excused in 10. -/
def exampleScoreTable : List Attendance :=
  [⟨1, 1, 7, 1, none, none⟩, ⟨2, 2, 7, 1, none, none⟩, ⟨3, 3, 7, 1, none, none⟩,
   ⟨4, 4, 7, 1, none, none⟩, ⟨5, 5, 7, 1, none, none⟩, ⟨6, 6, 7, 1, none, none⟩,
   ⟨7, 7, 7, 2, none, none⟩, ⟨8, 8, 7, 2, none, none⟩, ⟨9, 9, 7, 2, none, none⟩,
   ⟨10, 10, 7, 4, none, none⟩]

/-- The row that the scoring example yields for student 7. -/
def exampleScoreRow : ScoreRow :=
  ⟨7, 10, 6, 3, 0, 0, 1, 1, 1, 0, 7, 14⟩

/-- The number of sessions counted into the five counters. -/
def StatusCounts.total (c : StatusCounts) : Nat :=
  c.present + c.late + c.absent + c.excused + c.unknown

/-- A policy with late weight 0.30 and maxScore 100, the other values as in
`defaultPolicy`. -/
def exampleRoundingPolicy : AttendancePolicy where
  lateToAbsent := 3
  wPresent := 1
  wLate := 3 / 10
  wAbsent := 0
  wExcused := 1
  maxScore := 100
  missingAsAbsent := true

/-- Sixteen sessions of one course. -/
def exampleRoundingSessions : List Nat :=
  [1, 2, 3, 4, 5, 6, 7, 8, 9, 10, 11, 12, 13, 14, 15, 16]

/-- Student 7 is present in sessions 1 and 2 and late in session 3; the other
thirteen sessions have no row. -/
def exampleRoundingTable : List Attendance :=
  [⟨1, 1, 7, 1, none, none⟩, ⟨2, 2, 7, 1, none, none⟩, ⟨3, 3, 7, 2, none, none⟩]

/-- The row that the score route returns for student 7 on `exampleRoundingTable`:
`raw` is the double 2.3 and `score` the double 14.37. -/
def exampleRoundingRow : ScoreRow :=
  ⟨7, 16, 2, 1, 1, 13, 0, 13, 0, 0, 2589569785738035 / 2 ^ 50, 8089590830664253 / 2 ^ 49⟩

/-- The raw score in the words of the specification, in exact arithmetic:
`present*wPresent + remainingLate*wLate + (absent+convertedAbsences)*wAbsent
+ excused*wExcused`. -/
def specRaw (policy : AttendancePolicy) (r : ScoreRow) : ℚ :=
  (r.present : ℚ) * policy.wPresent + (r.lateRemain : ℚ) * policy.wLate
    + ((r.absentOriginal + r.absentConvertedFromLate : Nat) : ℚ) * policy.wAbsent
    + (r.excused : ℚ) * policy.wExcused

/-- The normalised score in the words of the specification, in exact arithmetic:
`(raw / totalSessions) * maxScore` rounded to two decimals, 0 without sessions. -/
def specScore (policy : AttendancePolicy) (r : ScoreRow) : ℚ :=
  if r.totalSessions > 0 then
    toFixed2 (specRaw policy r / (r.totalSessions : ℚ) * (policy.maxScore : ℚ))
  else 0

/-! ## Risk streaks (routes/reportsRisk.js) -/

/-- The six variables of the first loop of `calcStreaks`. -/
structure StreakLoop where
  maxLate : Nat
  maxAbsent : Nat
  maxLA : Nat
  curLate : Nat
  curAbsent : Nat
  curLA : Nat
deriving DecidableEq, Repr

/-- The object returned by `calcStreaks`. -/
structure Streaks where
  maxLateStreak : Nat
  maxAbsentStreak : Nat
  maxLateOrAbsentStreak : Nat
  currentLateStreak : Nat
  currentAbsentStreak : Nat
  currentLateOrAbsentStreak : Nat
deriving DecidableEq, Repr

/-- The test `isLate` of `calcStreaks`. -/
def isLate (st : Nat) : Bool := decide (st = 2)

/-- The test `isAbsent` of `calcStreaks`. -/
def isAbsent (st : Nat) : Bool := decide (st = 3)

/-- The test `isLA` of `calcStreaks`; `includeUnknown` is the query flag the closure
captures. -/
def isLA (includeUnknown : Bool) (st : Nat) : Bool :=
  (decide (st = 2) || decide (st = 3)) || (includeUnknown && decide (st = 0))

/-- One pass of the first loop of `calcStreaks`. -/
def streakLoopStep (includeUnknown : Bool) (s : StreakLoop) (st : Nat) : StreakLoop :=
  let curLate := if isLate st then s.curLate + 1 else 0
  let curAbsent := if isAbsent st then s.curAbsent + 1 else 0
  let curLA := if isLA includeUnknown st then s.curLA + 1 else 0
  { maxLate := if curLate > s.maxLate then curLate else s.maxLate
    maxAbsent := if curAbsent > s.maxAbsent then curAbsent else s.maxAbsent
    maxLA := if curLA > s.maxLA then curLA else s.maxLA
    curLate := curLate
    curAbsent := curAbsent
    curLA := curLA }

/-- A backward loop of `calcStreaks`, `for (i = length - 1; i >= 0; i--)`, run on the
sequence read from its end: count while the test holds, stop at the first failure. -/
def tailLoop (test : Nat → Bool) : List Nat → Nat → Nat
  | [], tail => tail
  | st :: rest, tail => if test st then tailLoop test rest (tail + 1) else tail

/-- The helper `calcStreaks(statusSeq)` of GET /reports/risk. -/
def calcStreaks (includeUnknown : Bool) (statusSeq : List Nat) : Streaks :=
  let s := statusSeq.foldl (streakLoopStep includeUnknown) ⟨0, 0, 0, 0, 0, 0⟩
  let tailLate := tailLoop isLate statusSeq.reverse 0
  let tailAbsent := tailLoop isAbsent statusSeq.reverse 0
  let tailLA := tailLoop (isLA includeUnknown) statusSeq.reverse 0
  { maxLateStreak := s.maxLate
    maxAbsentStreak := s.maxAbsent
    maxLateOrAbsentStreak := s.maxLA
    currentLateStreak := tailLate
    currentAbsentStreak := tailAbsent
    currentLateOrAbsentStreak := tailLA }

/-- In the words of the specification: the sequence has `n` consecutive sessions that
are all of the kind `kind`. -/
def HasRun (kind : Nat → Prop) (statusSeq : List Nat) (n : Nat) : Prop :=
  ∃ before run after,
    statusSeq = before ++ run ++ after ∧ run.length = n ∧ ∀ st ∈ run, kind st

/-- In the words of the specification: the last `n` sessions of the sequence are all of
the kind `kind`, a run that ends at the last session. -/
def HasTrailingRun (kind : Nat → Prop) (statusSeq : List Nat) (n : Nat) : Prop :=
  ∃ before run, statusSeq = before ++ run ∧ run.length = n ∧ ∀ st ∈ run, kind st

/-- The kind "late or absent" of the specification: status in {2, 3}, or also 0 when
unknown statuses are included. -/
def LateOrAbsentKind (includeUnknown : Bool) (st : Nat) : Prop :=
  st = 2 ∨ st = 3 ∨ (includeUnknown = true ∧ st = 0)

/-! ## Database and request context -/

/-- The roles of `users.role`. -/
inductive Role where
  | ADMIN
  | INSTRUCTOR
  | STUDENT
deriving DecidableEq, Repr

/-- The identity `req.session.user` of an authenticated request. -/
structure SessionUser where
  id : Nat
  role : Role
deriving DecidableEq, Repr

/-- Row of `courses` (models/course.js); only the columns the handlers read. -/
structure Course where
  id : Nat
  instructorId : Nat
  semester : String
  department : Option String
deriving DecidableEq, Repr

/-- Row of `enrollments` (models/enrollment.js). -/
structure Enrollment where
  courseId : Nat
  studentId : Nat
deriving DecidableEq, Repr

/-- Row of `class_sessions` (models/classSession.js). The handlers read and write
`attendanceMethod` and `status` as strings; `week` is an integer because the week
that generation computes for a makeup before the base date is zero or negative. -/
structure ClassSession where
  id : Nat
  courseId : Nat
  week : Int
  round : Nat
  startAt : Option Nat
  endAt : Option Nat
  room : Option String
  attendanceMethod : String
  status : String
  code : Option String
deriving DecidableEq, Repr

/-- Row of `excuse_requests` (models/excuseRequest.js); the columns reasonCode,
reasonText, filePath and reviewerComment are not touched by resolution and are left
out. -/
structure ExcuseRequest where
  id : Nat
  sessionId : Nat
  studentId : Nat
  status : String
deriving DecidableEq, Repr

/-- Row of `appeals` (models/appeal.js), without the student's message. -/
structure Appeal where
  id : Nat
  attendanceId : Nat
  studentId : Nat
  requestedStatus : Option Nat
  status : String
  reviewedBy : Option Nat
  reviewedAt : Option Nat
  replyText : Option String
deriving DecidableEq, Repr

/-- The JSON documents written to `beforeValue` and `afterValue` of an audit row. -/
inductive AuditValue where
  | excuse (status : String) (replyText : Option String)
  | appeal (status : String) (replyText : Option String)
  | attendanceStatus (status : Nat)
  | attendanceRow (row : Attendance)
deriving DecidableEq, Repr

/-- Row of `audit_logs` (models/auditLog.js). -/
structure AuditLog where
  id : Nat
  targetType : String
  targetId : Nat
  action : String
  actorId : Nat
  beforeValue : AuditValue
  afterValue : AuditValue
deriving DecidableEq, Repr

/-- Row of `notifications` (models/notification.js); the message text and the read
marks are left out. -/
structure Notification where
  id : Nat
  userId : Nat
  type : String
  title : String
  linkUrl : Option String
deriving DecidableEq, Repr

/-- The tables the handlers work on. -/
structure Db where
  courses : List Course
  enrollments : List Enrollment
  sessions : List ClassSession
  attendances : List Attendance
  excuses : List ExcuseRequest
  appeals : List Appeal
  auditLogs : List AuditLog
  notifications : List Notification
deriving DecidableEq, Repr

/-- What a request gets from outside the database: the clock (`new Date()`), the string
returned by `genCode()`, and whether the audit write and the notification write
of this request fail. -/
structure Env where
  now : Nat
  genCode : String
  auditFails : Bool
  notifyFails : Bool
deriving DecidableEq, Repr

/-- The id an auto-increment primary key gives to a new row. -/
def nextId (ids : List Nat) : Nat := ids.foldl max 0 + 1

/-- The lookup `ClassSession.findByPk(id)`. -/
def findSession (db : Db) (id : Nat) : Option ClassSession :=
  db.sessions.find? (fun s => decide (s.id = id))

/-- The lookup `Course.findByPk(id)`. -/
def findCourse (db : Db) (id : Nat) : Option Course :=
  db.courses.find? (fun c => decide (c.id = id))

/-- The lookup `Enrollment.findOne({ where: { courseId, studentId } })`. -/
def findEnrollment (db : Db) (courseId studentId : Nat) : Option Enrollment :=
  db.enrollments.find? (fun e => decide (e.courseId = courseId ∧ e.studentId = studentId))

/-- The lookup by `{ sessionId, studentId }` that `Attendance.findOrCreate` starts with. -/
def findAttendance (rows : List Attendance) (sessionId studentId : Nat) : Option Attendance :=
  rows.find? (fun a => decide (a.sessionId = sessionId ∧ a.studentId = studentId))

/-- The statement `UPDATE attendances SET status, checked_at WHERE id = ?` issued by
`attendance.save()` after self check-in. -/
def saveCheckIn (rows : List Attendance) (id status : Nat) (checkedAt : Option Nat) :
    List Attendance :=
  rows.map (fun r => if r.id = id then { r with status := status, checkedAt := checkedAt } else r)

/-- The statement `UPDATE attendances SET status, checked_at, updated_by WHERE id = ?`
issued by `attendance.save()` in roll call, excuse approval and appeal acceptance. -/
def saveStatus (rows : List Attendance) (id status : Nat) (checkedAt : Option Nat)
    (updatedBy : Nat) : List Attendance :=
  rows.map (fun r =>
    if r.id = id then
      { r with status := status, checkedAt := checkedAt, updatedBy := some updatedBy }
    else r)

/-- The statement `UPDATE attendances SET status, updated_by WHERE id = ?` issued by
`attendance.save()` in a correction. -/
def saveCorrection (rows : List Attendance) (id status updatedBy : Nat) : List Attendance :=
  rows.map (fun r =>
    if r.id = id then { r with status := status, updatedBy := some updatedBy } else r)

/-- The ownership test of the handlers: an INSTRUCTOR who is not the instructor of the
course is refused; the test is not made for other roles. -/
def notOwner (user : SessionUser) (course : Course) : Bool :=
  decide (user.role = Role.INSTRUCTOR) && decide (course.instructorId ≠ user.id)

/-! ## Session lifecycle (routes/sessions.js) -/

/-- The statement `UPDATE class_sessions SET status WHERE id = ?` of `session.save()`. -/
def saveSessionStatus (db : Db) (id : Nat) (status : String) : Db :=
  { db with sessions := db.sessions.map (fun s => if s.id = id then { s with status := status } else s) }

/-- The part of open, pause and close before the status test: session lookup, course
lookup and ownership. The result is the session, or the status code of the refusal
(500 when an INSTRUCTOR request meets a session whose course row is missing). -/
def loadOwnedSession (db : Db) (user : SessionUser) (sessionId : Nat) : Except Nat ClassSession :=
  match findSession db sessionId with
  | none => .error 404
  | some session =>
    match findCourse db session.courseId with
    | none => if user.role = Role.INSTRUCTOR then .error 500 else .ok session
    | some course => if notOwner user course then .error 403 else .ok session

/-- The handler of POST /sessions/:id/open. -/
def openSession (db : Db) (user : SessionUser) (sessionId : Nat) : Nat × Db :=
  match loadOwnedSession db user sessionId with
  | .error status => (status, db)
  | .ok session =>
    if session.status = "OPEN" then (400, db)
    else (200, saveSessionStatus db session.id "OPEN")

/-- The handler of POST /sessions/:id/pause. -/
def pauseSession (db : Db) (user : SessionUser) (sessionId : Nat) : Nat × Db :=
  match loadOwnedSession db user sessionId with
  | .error status => (status, db)
  | .ok session =>
    if session.status = "CLOSED" then (400, db)
    else if session.status = "PAUSED" then (400, db)
    else (200, saveSessionStatus db session.id "PAUSED")

/-- The handler of POST /sessions/:id/close. -/
def closeSession (db : Db) (user : SessionUser) (sessionId : Nat) : Nat × Db :=
  match loadOwnedSession db user sessionId with
  | .error status => (status, db)
  | .ok session =>
    if session.status = "CLOSED" then (400, db)
    else (200, saveSessionStatus db session.id "CLOSED")

/-- The list `allowed` of attendance methods that manual creation and generation
accept. -/
def allowedMethods : List String := ["ELECTRONIC", "CODE", "ROLL_CALL"]

/-- The list of values that generation accepts as `defaultStatus`. -/
def allowedDefaultStatuses : List String := ["OPEN", "CLOSED", "PAUSED"]

/-- The values of `ENUM("ELECTRONIC", "CODE")` that models/classSession.js declares for
`attendanceMethod`. -/
def declaredMethods : List String := ["ELECTRONIC", "CODE"]

/-- The values of `ENUM("OPEN", "CLOSED")` that models/classSession.js declares for
`status`. -/
def declaredStatuses : List String := ["OPEN", "CLOSED"]

/-- The body of POST /courses/:courseId/sessions; `week` 0 stands for a missing or
falsy week, and an absent `round` or `attendanceMethod` takes its default. -/
structure CreateSessionBody where
  week : Nat
  round : Option Nat
  startAt : Option Nat
  endAt : Option Nat
  room : Option String
  attendanceMethod : Option String
deriving DecidableEq, Repr

/-- The handler of POST /courses/:courseId/sessions (manual creation). -/
def createSession (db : Db) (env : Env) (user : SessionUser) (courseId : Nat)
    (body : CreateSessionBody) : Nat × Db :=
  match findCourse db courseId with
  | none => (404, db)
  | some course =>
    if notOwner user course then (403, db)
    else
      let round := body.round.getD 1
      let attendanceMethod := body.attendanceMethod.getD "ELECTRONIC"
      if body.week = 0 then (400, db)
      else if attendanceMethod ∉ allowedMethods then (400, db)
      else
        let code := if attendanceMethod = "CODE" then some env.genCode else none
        let session : ClassSession :=
          { id := nextId (db.sessions.map (fun s => s.id))
            courseId := courseId
            week := (body.week : Int)
            round := round
            startAt := body.startAt
            endAt := body.endAt
            room := if body.room = some "" then none else body.room
            attendanceMethod := attendanceMethod
            status := "CLOSED"
            code := code }
        (201, { db with sessions := db.sessions ++ [session] })

/-! ## Attendance recorder (routes/sessions.js, routes/attendance.js) -/

/-- The truthiness of the body field `code`: `none` stands for a value that is not a
string (missing, null, a number), which never passes the code check. -/
def codeTruthy (code : Option String) : Bool :=
  match code with
  | none => false
  | some c => decide (c ≠ "")

/-- The find-or-create of self check-in and the update of a row that was found:
a new row is present with `checkedAt` now; a found row gets `checkedAt` when it has
none and status 1 when its status is 0. -/
def checkIn (rows : List Attendance) (now sessionId studentId : Nat) : List Attendance :=
  match findAttendance rows sessionId studentId with
  | none =>
    let created : Attendance :=
      { id := nextId (rows.map (fun a => a.id))
        sessionId := sessionId
        studentId := studentId
        status := 1
        checkedAt := some now
        updatedBy := none }
    rows ++ [created]
  | some attendance =>
    let checkedAt := if attendance.checkedAt.isNone then some now else attendance.checkedAt
    let status := if attendance.status = 0 then 1 else attendance.status
    saveCheckIn rows attendance.id status checkedAt

/-- The handler of POST /sessions/:id/attend behind `requireRole("STUDENT")`. -/
def attend (db : Db) (env : Env) (user : SessionUser) (sessionId : Nat)
    (code : Option String) : Nat × Db :=
  match findSession db sessionId with
  | none => (404, db)
  | some session =>
    if session.status ≠ "OPEN" then (400, db)
    else if session.attendanceMethod = "ROLL_CALL" then (400, db)
    else if (findEnrollment db session.courseId user.id).isNone then (403, db)
    else if session.attendanceMethod = "CODE" ∧ (codeTruthy code = false ∨ code ≠ session.code) then
      (400, db)
    else (200, { db with attendances := checkIn db.attendances env.now session.id user.id })

/-- One element of `items` in the roll-call body after `Number(...)`: a studentId or
status that is not a natural number behaves as one that is not enrolled, or not
allowed. -/
structure RollcallItem where
  studentId : Nat
  status : Nat
deriving DecidableEq, Repr

/-- The counters `results` of the roll-call response. -/
structure RollcallResults where
  updated : Nat
  created : Nat
  skipped : Nat
deriving DecidableEq, Repr

/-- One pass of the loop over `items` of PATCH /sessions/:id/rollcall. -/
def rollcallItem (env : Env) (user : SessionUser) (sessionId : Nat) (studentSet : List Nat)
    (acc : List Attendance × RollcallResults) (it : RollcallItem) :
    List Attendance × RollcallResults :=
  if it.studentId = 0 ∨ it.status ∉ [0, 1, 2, 3, 4] then
    (acc.1, { acc.2 with skipped := acc.2.skipped + 1 })
  else if it.studentId ∉ studentSet then
    (acc.1, { acc.2 with skipped := acc.2.skipped + 1 })
  else
    match findAttendance acc.1 sessionId it.studentId with
    | none =>
      let created : Attendance :=
        { id := nextId (acc.1.map (fun a => a.id))
          sessionId := sessionId
          studentId := it.studentId
          status := it.status
          checkedAt := some env.now
          updatedBy := some user.id }
      (acc.1 ++ [created], { acc.2 with created := acc.2.created + 1 })
    | some attendance =>
      let checkedAt := if attendance.checkedAt.isNone then some env.now else attendance.checkedAt
      (saveStatus acc.1 attendance.id it.status checkedAt user.id,
        { acc.2 with updated := acc.2.updated + 1 })

/-- The handler of PATCH /sessions/:id/rollcall; an `items` that is not an array is an
empty list here, both are refused with 400. -/
def rollcall (db : Db) (env : Env) (user : SessionUser) (sessionId : Nat)
    (items : List RollcallItem) : Nat × Db × RollcallResults :=
  match loadOwnedSession db user sessionId with
  | .error status => (status, db, ⟨0, 0, 0⟩)
  | .ok session =>
    if session.attendanceMethod ≠ "ROLL_CALL" then (400, db, ⟨0, 0, 0⟩)
    else if items.length = 0 then (400, db, ⟨0, 0, 0⟩)
    else
      let studentSet :=
        (db.enrollments.filter (fun e => decide (e.courseId = session.courseId))).map
          (fun e => e.studentId)
      let out := items.foldl (rollcallItem env user session.id studentSet)
        (db.attendances, ⟨0, 0, 0⟩)
      (200, { db with attendances := out.1 }, out.2)

/-- The handler of PATCH /attendance/:id (correction); `status` is `Number(status)`,
with a value outside 1..4 for anything that is not such a number. -/
def correctAttendance (db : Db) (env : Env) (user : SessionUser) (attendanceId status : Nat) :
    Nat × Db :=
  match db.attendances.find? (fun a => decide (a.id = attendanceId)) with
  | none => (404, db)
  | some attendance =>
    match findSession db attendance.sessionId with
    | none => (500, db)
    | some session =>
      let refused : Except Nat Unit :=
        match findCourse db session.courseId with
        | none => if user.role = Role.INSTRUCTOR then .error 500 else .ok ()
        | some course => if notOwner user course then .error 403 else .ok ()
      match refused with
      | .error code => (code, db)
      | .ok _ =>
        if status ∉ [1, 2, 3, 4] then (400, db)
        else
          let saved := saveCorrection db.attendances attendance.id status user.id
          let after : Attendance := { attendance with status := status, updatedBy := some user.id }
          let db1 := { db with attendances := saved }
          if env.auditFails then (500, db1)
          else
            let audit : AuditLog :=
              { id := nextId (db.auditLogs.map (fun l => l.id))
                targetType := "ATTENDANCE"
                targetId := attendance.id
                action := "UPDATE"
                actorId := user.id
                beforeValue := AuditValue.attendanceRow attendance
                afterValue := AuditValue.attendanceRow after }
            (200, { db1 with auditLogs := db.auditLogs ++ [audit] })

/-! ## Excuse and appeal resolution (routes/excuses.js, routes/appeals.js) -/

/-- The helper `notifyUser` inside the try/catch of a resolution: a failing write is
logged and leaves the table as it is. -/
def notifyUser (env : Env) (rows : List Notification) (userId : Nat) (type title : String)
    (linkUrl : String) : List Notification :=
  if env.notifyFails then rows
  else rows ++ [{ id := nextId (rows.map (fun n => n.id)), userId := userId, type := type,
                  title := title, linkUrl := some linkUrl }]

/-- The rows that `AuditLog.bulkCreate(auditRows)` appends, numbered in order. -/
def bulkCreateAudit (rows : List AuditLog) (auditRows : List (Nat → AuditLog)) : List AuditLog :=
  auditRows.foldl (fun acc mk => acc ++ [mk (nextId (acc.map (fun l => l.id)))]) rows

/-- The handler of PATCH /excuses/:id. `nextStatus` is `String(status).toUpperCase()`
(the empty string when status is missing) and `replyText` the body field when it is
defined. -/
def resolveExcuse (db : Db) (env : Env) (user : SessionUser) (excuseId : Nat)
    (nextStatus : String) (replyText : Option String) : Nat × Db :=
  if nextStatus ∉ ["APPROVED", "REJECTED"] then (400, db)
  else
    match db.excuses.find? (fun e => decide (e.id = excuseId)) with
    | none => (404, db)
    | some excuse =>
      if excuse.status ≠ "PENDING" then (400, db)
      else
        match findSession db excuse.sessionId with
        | none => (404, db)
        | some session =>
          match findCourse db session.courseId with
          | none => (404, db)
          | some course =>
            if notOwner user course then (403, db)
            else
              let excuses := db.excuses.map
                (fun e => if e.id = excuse.id then { e with status := nextStatus } else e)
              -- attendance side effect: (table, row, changed, before status, after status)
              let side : List Attendance × Option (Nat × Bool × Nat × Nat) :=
                if nextStatus = "APPROVED" then
                  match findAttendance db.attendances session.id excuse.studentId with
                  | none =>
                    let created : Attendance :=
                      { id := nextId (db.attendances.map (fun a => a.id))
                        sessionId := session.id
                        studentId := excuse.studentId
                        status := 4
                        checkedAt := some env.now
                        updatedBy := some user.id }
                    (db.attendances ++ [created], some (created.id, true, 4, 4))
                  | some attendance =>
                    if attendance.status ≠ 4 then
                      let checkedAt :=
                        if attendance.checkedAt.isNone then some env.now else attendance.checkedAt
                      (saveStatus db.attendances attendance.id 4 checkedAt user.id,
                        some (attendance.id, true, attendance.status, 4))
                    else
                      (db.attendances, some (attendance.id, false, attendance.status,
                        attendance.status))
                else (db.attendances, none)
              let excuseAudit : Nat → AuditLog := fun id =>
                { id := id
                  targetType := "EXCUSE"
                  targetId := excuse.id
                  action := if nextStatus = "APPROVED" then "APPROVE" else "REJECT"
                  actorId := user.id
                  beforeValue := AuditValue.excuse excuse.status none
                  afterValue := AuditValue.excuse nextStatus replyText }
              let attendanceAudit : List (Nat → AuditLog) :=
                match side.2 with
                | some (attendanceId, true, before, after) =>
                  [fun id =>
                    { id := id
                      targetType := "ATTENDANCE"
                      targetId := attendanceId
                      action := "UPDATE"
                      actorId := user.id
                      beforeValue := AuditValue.attendanceStatus before
                      afterValue := AuditValue.attendanceStatus after }]
                | _ => []
              if env.auditFails then (500, db)
              else
                (200,
                  { db with
                    excuses := excuses
                    attendances := side.1
                    auditLogs := bulkCreateAudit db.auditLogs (excuseAudit :: attendanceAudit)
                    notifications :=
                      notifyUser env db.notifications excuse.studentId
                        (if nextStatus = "APPROVED" then "EXCUSE_APPROVED" else "EXCUSE_REJECTED")
                        (if nextStatus = "APPROVED" then "공결이 승인되었습니다"
                          else "공결이 반려되었습니다")
                        ("/excuses/" ++ toString excuse.id) })

/-- The lookup `Appeal.findByPk(id, { include: ... required: true })`: the appeal with
its attendance row and the course of the session of that row; an appeal whose
attendance, session or course row is missing is not found. -/
def findAppealJoined (db : Db) (appealId : Nat) : Option (Appeal × Attendance × Course) :=
  match db.appeals.find? (fun p => decide (p.id = appealId)) with
  | none => none
  | some appeal =>
    match db.attendances.find? (fun a => decide (a.id = appeal.attendanceId)) with
    | none => none
    | some attendance =>
      match findSession db attendance.sessionId with
      | none => none
      | some session =>
        match findCourse db session.courseId with
        | none => none
        | some course => some (appeal, attendance, course)

/-- The test on a supplied `applyAttendanceStatus`: it is refused unless it is one of
1, 2, 3, 4. -/
def applyInvalid (applyAttendanceStatus : Option Nat) : Bool :=
  match applyAttendanceStatus with
  | some n => decide (n ∉ [1, 2, 3, 4])
  | none => false

/-- The handler of PATCH /appeals/:id. `nextStatus` is `String(status).toUpperCase()`
(the empty string when status is missing), `applyAttendanceStatus` is
`Number(applyAttendanceStatus)` when the field is neither undefined nor null. -/
def resolveAppeal (db : Db) (env : Env) (user : SessionUser) (appealId : Nat)
    (nextStatus : String) (replyText : Option String) (applyAttendanceStatus : Option Nat) :
    Nat × Db :=
  if nextStatus ∉ ["ACCEPTED", "REJECTED"] then (400, db)
  else
    match findAppealJoined db appealId with
    | none => (404, db)
    | some (appeal, attendance, course) =>
      if appeal.status ≠ "PENDING" then (400, db)
      else if notOwner user course then (403, db)
      else if nextStatus = "ACCEPTED" ∧ applyInvalid applyAttendanceStatus = true then (400, db)
      else
        let newAttendanceStatus : Option Nat :=
          if nextStatus = "ACCEPTED" then
            match applyAttendanceStatus with
            | some n => some n
            | none => appeal.requestedStatus
          else none
        let changedTo : Option Nat :=
          match newAttendanceStatus with
          | some n => if n ∈ [1, 2, 3, 4] ∧ attendance.status ≠ n then some n else none
          | none => none
        let attendances :=
          match changedTo with
          | some n =>
            saveStatus db.attendances attendance.id n
              (if attendance.checkedAt.isNone then some env.now else attendance.checkedAt) user.id
          | none => db.attendances
        let newReply := if replyText.isSome then replyText else appeal.replyText
        let appeals := db.appeals.map (fun p =>
          if p.id = appeal.id then
            { p with status := nextStatus, reviewedBy := some user.id,
                     reviewedAt := some env.now, replyText := newReply }
          else p)
        let appealAudit : Nat → AuditLog := fun id =>
          { id := id
            targetType := "APPEAL"
            targetId := appeal.id
            action := if nextStatus = "ACCEPTED" then "ACCEPT" else "REJECT"
            actorId := user.id
            beforeValue := AuditValue.appeal appeal.status appeal.replyText
            afterValue := AuditValue.appeal nextStatus newReply }
        let attendanceAudit : List (Nat → AuditLog) :=
          match changedTo with
          | some n =>
            [fun id =>
              { id := id
                targetType := "ATTENDANCE"
                targetId := attendance.id
                action := "UPDATE"
                actorId := user.id
                beforeValue := AuditValue.attendanceStatus attendance.status
                afterValue := AuditValue.attendanceStatus n }]
          | none => []
        if env.auditFails then (500, db)
        else
          (200,
            { db with
              appeals := appeals
              attendances := attendances
              auditLogs := bulkCreateAudit db.auditLogs (appealAudit :: attendanceAudit)
              notifications :=
                notifyUser env db.notifications appeal.studentId
                  (if nextStatus = "ACCEPTED" then "APPEAL_ACCEPTED" else "APPEAL_REJECTED")
                  (if nextStatus = "ACCEPTED" then "이의신청이 승인되었습니다"
                    else "이의신청이 반려되었습니다")
                  ("/appeals/" ++ toString appeal.id) })

/-! ## Invariants and examples used by the theorems -/

/-- The stored code of a CODE session is a non-empty string, as `genCode()` and
`random6Digit()` return six digits. -/
def CodeIssued (s : ClassSession) : Prop :=
  s.attendanceMethod = "CODE" → ∃ c, s.code = some c ∧ c ≠ ""

/-- At most one Attendance row per (sessionId, studentId). -/
def AttendanceUnique (rows : List Attendance) : Prop :=
  (rows.map (fun a => (a.sessionId, a.studentId))).Nodup

/-- No two sessions share (courseId, week, round). -/
def SessionKeysUnique (rows : List ClassSession) : Prop :=
  (rows.map (fun s => (s.courseId, s.week, s.round))).Nodup

/-- The requests that write Attendance: self check-in, roll-call batch, excuse
resolution, appeal resolution and correction. -/
inductive AttendanceWrite where
  | checkIn (user : SessionUser) (sessionId : Nat) (code : Option String)
  | rollcall (user : SessionUser) (sessionId : Nat) (items : List RollcallItem)
  | excuse (user : SessionUser) (excuseId : Nat) (nextStatus : String)
      (replyText : Option String)
  | appeal (user : SessionUser) (appealId : Nat) (nextStatus : String)
      (replyText : Option String) (applyAttendanceStatus : Option Nat)
  | correction (user : SessionUser) (attendanceId status : Nat)

/-- The database after one request that writes Attendance. -/
def applyWrite (db : Db) (env : Env) : AttendanceWrite → Db
  | .checkIn user sessionId code => (attend db env user sessionId code).2
  | .rollcall user sessionId items => (rollcall db env user sessionId items).2.1
  | .excuse user excuseId nextStatus replyText =>
    (resolveExcuse db env user excuseId nextStatus replyText).2
  | .appeal user appealId nextStatus replyText applyAttendanceStatus =>
    (resolveAppeal db env user appealId nextStatus replyText applyAttendanceStatus).2
  | .correction user attendanceId status =>
    (correctAttendance db env user attendanceId status).2

/-- An environment for the examples: time 1000, code "123456", no failing write. -/
def exampleEnv : Env := ⟨1000, "123456", false, false⟩

/-- An administrator. -/
def exampleAdmin : SessionUser := ⟨1, Role.ADMIN⟩

/-- A student, enrolled in course 1 of the example database. -/
def exampleStudent : SessionUser := ⟨7, Role.STUDENT⟩

/-- A database with course 1, student 7 enrolled, an OPEN session 1 of method CODE with
code "123456", an Attendance row 1 of student 7 in session 1 with status 3, an
APPROVED excuse 1 and a REJECTED appeal 1 against Attendance row 1. -/
def exampleDb : Db where
  courses := [⟨1, 2, "2025-2", some "소프트웨어"⟩]
  enrollments := [⟨1, 7⟩]
  sessions := [⟨1, 1, 1, 1, none, none, none, "CODE", "OPEN", some "123456"⟩]
  attendances := [⟨1, 1, 7, 3, none, none⟩]
  excuses := [⟨1, 1, 7, "APPROVED"⟩]
  appeals := [⟨1, 1, 7, some 2, "REJECTED", some 1, some 900, none⟩]
  auditLogs := []
  notifications := []

/-- The example database without Attendance rows. -/
def exampleDbNoRows : Db := { exampleDb with attendances := [] }

/-- A database with course 1 and nothing else. -/
def exampleCourseOnly : Db :=
  ⟨[⟨1, 2, "2025-2", some "소프트웨어"⟩], [], [], [], [], [], [], []⟩

/-- The example database with session 1 turned into a ROLL_CALL session and without
Attendance rows. -/
def exampleRollcallDb : Db :=
  { exampleDb with
    sessions := [⟨1, 1, 1, 1, none, none, none, "ROLL_CALL", "OPEN", none⟩]
    attendances := [] }

/-- A creation body for week 1 with every other field left to its default. -/
def exampleWeekOne : CreateSessionBody := ⟨1, none, none, none, none, none⟩

/-- A creation body for week 1 with attendance method ROLL_CALL. -/
def exampleWeekOneRollcall : CreateSessionBody := ⟨1, none, none, none, none, some "ROLL_CALL"⟩

/-! ## Access control guard (src/middlewares/requireRole.js) -/

/-- The test of the guard, negated: a session user exists and `roles.includes(user.role)`. -/
def roleAllowed (roles : List Role) (user : Option SessionUser) : Bool :=
  match user with
  | none => false
  | some u => decide (u.role ∈ roles)

/-- The middleware `requireRole(...roles)` in front of a handler `next`: when the test
fails it answers 403 and returns without calling `next`; `user` is `req.session?.user`. -/
def requireRole (roles : List Role) (user : Option SessionUser)
    (next : SessionUser → Db → Nat × Db) (db : Db) : Nat × Db :=
  match user with
  | none => (403, db)
  | some u => if u.role ∉ roles then (403, db) else next u db

/-! ## Further examples -/

/-- The example database with excuse 1 and appeal 1 (requested status 2) both PENDING;
Attendance row 1 of student 7 in session 1 has status 3. -/
def examplePendingDb : Db :=
  { exampleDb with
    excuses := [⟨1, 1, 7, "PENDING"⟩]
    appeals := [⟨1, 1, 7, some 2, "PENDING", none, none, none⟩] }

/-- The example environment with a failing audit write. -/
def exampleAuditFailEnv : Env := ⟨1000, "123456", true, false⟩

/-- In the words of the specification: the status that acceptance applies is the
reviewer's `applyAttendanceStatus` when supplied, otherwise the appeal's
`requestedStatus` when present, otherwise none. -/
def appliedStatus (applyAttendanceStatus requestedStatus : Option Nat) : Option Nat :=
  match applyAttendanceStatus with
  | some n => some n
  | none => requestedStatus

/-! ## Excuse and appeal creation (routes/excuses.js, routes/appeals.js) -/

/-- The lookup `ExcuseRequest.findOne({ where: { sessionId, studentId, status: "PENDING" } })`. -/
def findPendingExcuse (rows : List ExcuseRequest) (sessionId studentId : Nat) :
    Option ExcuseRequest :=
  rows.find? (fun e =>
    decide (e.sessionId = sessionId ∧ e.studentId = studentId ∧ e.status = "PENDING"))

/-- The handler of POST /sessions/:id/excuses behind `requireRole("STUDENT")`; the body
fields reasonCode, reasonText and filePath go to columns that are left out. The
instructor of the course is notified when the course row names one; a failing
notification write is caught. -/
def createExcuse (db : Db) (env : Env) (user : SessionUser) (sessionId : Nat) : Nat × Db :=
  match findSession db sessionId with
  | none => (404, db)
  | some session =>
    if (findEnrollment db session.courseId user.id).isNone then (403, db)
    else if (findPendingExcuse db.excuses sessionId user.id).isSome then (409, db)
    else
      let excuse : ExcuseRequest :=
        { id := nextId (db.excuses.map (fun e => e.id))
          sessionId := sessionId
          studentId := user.id
          status := "PENDING" }
      let notifications :=
        match findCourse db session.courseId with
        | none => db.notifications
        | some course =>
          if course.instructorId = 0 then db.notifications
          else notifyUser env db.notifications course.instructorId "EXCUSE_REQUESTED"
            "공결 신청이 도착했습니다" ("/excuses/" ++ toString excuse.id)
      (201, { db with excuses := db.excuses ++ [excuse], notifications := notifications })

/-- The helper `isValidRequestedStatus(x)` of routes/appeals.js on `Number(x)`. -/
def isValidRequestedStatus (n : Nat) : Bool := decide (n ∈ [1, 2, 3, 4])

/-- The test `requestedStatus !== undefined && !isValidRequestedStatus(requestedStatus)`. -/
def requestedStatusRefused (requestedStatus : Option Nat) : Bool :=
  match requestedStatus with
  | some n => !isValidRequestedStatus n
  | none => false

/-- The body of POST /attendance/:attendanceId/appeals: `messageLength` is
`String(message).trim().length` (0 for a missing message) and `requestedStatus` is
`Number(requestedStatus)` when the field is defined. -/
structure CreateAppealBody where
  messageLength : Nat
  requestedStatus : Option Nat
deriving DecidableEq, Repr

/-- The lookup `Appeal.findOne({ where: { attendanceId, studentId, status: "PENDING" } })`. -/
def findPendingAppeal (rows : List Appeal) (attendanceId studentId : Nat) : Option Appeal :=
  rows.find? (fun p =>
    decide (p.attendanceId = attendanceId ∧ p.studentId = studentId ∧ p.status = "PENDING"))

/-- The handler of POST /attendance/:attendanceId/appeals behind
`requireRole("STUDENT")`. The instructor of the course of the attendance row is
notified when the joined lookup finds session and course and the course names an
instructor; a failing notification write is caught. -/
def createAppeal (db : Db) (env : Env) (user : SessionUser) (attendanceId : Nat)
    (body : CreateAppealBody) : Nat × Db :=
  if body.messageLength < 2 then (400, db)
  else if requestedStatusRefused body.requestedStatus = true then (400, db)
  else
    match db.attendances.find? (fun a => decide (a.id = attendanceId)) with
    | none => (404, db)
    | some attendance =>
      if attendance.studentId ≠ user.id then (403, db)
      else if (findPendingAppeal db.appeals attendanceId user.id).isSome then (409, db)
      else
        let appeal : Appeal :=
          { id := nextId (db.appeals.map (fun p => p.id))
            attendanceId := attendanceId
            studentId := user.id
            requestedStatus := body.requestedStatus
            status := "PENDING"
            reviewedBy := none
            reviewedAt := none
            replyText := none }
        let course : Option Course :=
          match findSession db attendance.sessionId with
          | none => none
          | some session => findCourse db session.courseId
        let notifications :=
          match course with
          | none => db.notifications
          | some course =>
            if course.instructorId = 0 then db.notifications
            else notifyUser env db.notifications course.instructorId "APPEAL_REQUESTED"
              "이의신청이 도착했습니다" ("/appeals/" ++ toString appeal.id)
        (201, { db with appeals := db.appeals ++ [appeal], notifications := notifications })

/-- At most one PENDING excuse request per (sessionId, studentId). -/
def PendingExcuseUnique (rows : List ExcuseRequest) : Prop :=
  ((rows.filter (fun e => decide (e.status = "PENDING"))).map
    (fun e => (e.sessionId, e.studentId))).Nodup

/-- At most one PENDING appeal per (attendanceId, studentId). -/
def PendingAppealUnique (rows : List Appeal) : Prop :=
  ((rows.filter (fun p => decide (p.status = "PENDING"))).map
    (fun p => (p.attendanceId, p.studentId))).Nodup

/-- The creations and resolutions of excuse requests and appeals. -/
inductive WorkflowRequest where
  | createExcuse (user : SessionUser) (sessionId : Nat)
  | resolveExcuse (user : SessionUser) (excuseId : Nat) (nextStatus : String)
      (replyText : Option String)
  | createAppeal (user : SessionUser) (attendanceId : Nat) (body : CreateAppealBody)
  | resolveAppeal (user : SessionUser) (appealId : Nat) (nextStatus : String)
      (replyText : Option String) (applyAttendanceStatus : Option Nat)

/-- The database after one creation or resolution. -/
def applyWorkflow (db : Db) (env : Env) : WorkflowRequest → Db
  | .createExcuse user sessionId => (createExcuse db env user sessionId).2
  | .resolveExcuse user excuseId nextStatus replyText =>
    (resolveExcuse db env user excuseId nextStatus replyText).2
  | .createAppeal user attendanceId body => (createAppeal db env user attendanceId body).2
  | .resolveAppeal user appealId nextStatus replyText applyAttendanceStatus =>
    (resolveAppeal db env user appealId nextStatus replyText applyAttendanceStatus).2

/-! ## Roll-call batch: specification side -/

/-- The primary keys of the Attendance rows are pairwise distinct. -/
def AttendanceIdsUnique (rows : List Attendance) : Prop :=
  (rows.map (fun a => a.id)).Nodup

/-- The two guards of the roll-call loop body, negated: the item is not skipped. -/
def rollcallKept (studentSet : List Nat) (it : RollcallItem) : Bool :=
  !(decide (it.studentId = 0) || decide (it.status ∉ [0, 1, 2, 3, 4]))
    && decide (it.studentId ∈ studentSet)

/-- The set `studentSet` of the roll-call handler: the students enrolled in the course. -/
def enrolledStudents (db : Db) (courseId : Nat) : List Nat :=
  (db.enrollments.filter (fun e => decide (e.courseId = courseId))).map (fun e => e.studentId)

/-- In the words of the specification: the item is valid, its status is one of 0..4 and
its student is enrolled in the course of the session. -/
def rollcallValid (db : Db) (courseId : Nat) (it : RollcallItem) : Bool :=
  decide (it.status ∈ [0, 1, 2, 3, 4])
    && db.enrollments.any (fun e => decide (e.courseId = courseId ∧ e.studentId = it.studentId))

/-- In the words of the specification: the status of the last valid item that lists the
student, if there is one. -/
def lastValidStatus (db : Db) (courseId : Nat) (items : List RollcallItem) (studentId : Nat) :
    Option Nat :=
  ((items.filter (fun it => rollcallValid db courseId it && decide (it.studentId = studentId))).getLast?).map
    (fun it => it.status)

/-! ## Score computation: specification side -/

/-- In the words of the specification: the status of the student's Attendance row for
the session, if the student has a row for it. -/
def rowStatus (table : List Attendance) (studentId sessionId : Nat) : Option Nat :=
  (findAttendance table sessionId studentId).map (fun a => a.status)

/-- A session that is counted in none of present, late, absent, excused by its status:
the student has no row for it, or a row whose status is none of 1, 2, 3, 4. -/
def isMissing (st : Option Nat) : Bool :=
  !(decide (st = some 1) || decide (st = some 2) || decide (st = some 3) || decide (st = some 4))

/-! ## Session generation (routes/sessions.js, POST /courses/:courseId/sessions/generate)

A calendar day is its day number, the count of days since 1970-01-01 in local time, and a
`Date` is a count of minutes since the midnight that begins day 0; days have 1440
minutes. `parseYmd` is taken as done: the request carries day numbers. -/

/-- The day number of the civil date y-m-d, for dates from March 1970 on. -/
def daysFromCivil (y m d : Nat) : Nat :=
  let y1 := if m ≤ 2 then y - 1 else y
  let era := y1 / 400
  let yoe := y1 - era * 400
  let mp := (m + 9) % 12
  let doy := (153 * mp + 2) / 5 + d - 1
  let doe := yoe * 365 + yoe / 4 - yoe / 100 + doy
  era * 146097 + doe - 719468

/-- The value `date.getDay()` of a day: 0 is Sunday; day 0 was a Thursday. -/
def getDay (day : Nat) : Nat := (day + 4) % 7

/-- The helper `addDays(date, days)` on day numbers. -/
def addDays (day days : Nat) : Nat := day + days

/-- The helper `buildDateTime(baseDateObj, hm)`: the day at `hh:mm`. -/
def buildDateTime (day hh mm : Nat) : Nat := day * 1440 + hh * 60 + mm

/-- The helper `addMinutes(date, minutes)`. -/
def addMinutes (date minutes : Nat) : Nat := date + minutes

/-- The day whose `YYYY-MM-DD` string `toYmd(date)` returns. -/
def toYmd (date : Nat) : Nat := date / 1440

/-- An element of `meetingDays`: a number, or a string after `toUpperCase()`. -/
inductive DayInput where
  | number (n : Nat)
  | name (key : String)
deriving DecidableEq, Repr

/-- The table `DAY_MAP`. -/
def DAY_MAP : List (String × Nat) :=
  [("SUN", 0), ("MON", 1), ("TUE", 2), ("WED", 3), ("THU", 4), ("FRI", 5), ("SAT", 6)]

/-- The loop of `normalizeMeetingDays` that fills `list`, `none` for the early
`return null`. -/
def meetingDayList : List DayInput → Option (List Nat)
  | [] => some []
  | .number n :: rest =>
    if n > 6 then none else (meetingDayList rest).map (fun l => n :: l)
  | .name key :: rest =>
    match DAY_MAP.lookup key with
    | none => none
    | some n => (meetingDayList rest).map (fun l => n :: l)

/-- The helper `normalizeMeetingDays(meetingDays)`: weekday numbers without repetition in
ascending order, `none` (null) for an empty or invalid input. -/
def normalizeMeetingDays (meetingDays : List DayInput) : Option (List Nat) :=
  if meetingDays.length = 0 then none
  else (meetingDayList meetingDays).map (fun l => l.dedup.insertionSort (fun a b => a ≤ b))

/-- An element of `times`: `start` is `parseHm(x.start)` (hours and minutes, `none` for
null) and `durationMinutes` is `Number(x.durationMinutes)`, 0 when that is NaN. -/
structure TimeInput where
  start : Option (Nat × Nat)
  durationMinutes : Nat
deriving DecidableEq, Repr

/-- An element of `timeSpecs`. -/
structure TimeSpec where
  hh : Nat
  mm : Nat
  durationMinutes : Nat
deriving DecidableEq, Repr

/-- The callback of `times.map(...)` that builds `timeSpecs`, `none` for null. -/
def toTimeSpec (x : TimeInput) : Option TimeSpec :=
  match x.start with
  | none => none
  | some (hh, mm) =>
    if x.durationMinutes = 0 ∨ x.durationMinutes < 10 ∨ x.durationMinutes > 300 then none
    else some ⟨hh, mm, x.durationMinutes⟩

/-- An element of `makeups`: `date` is `parseYmd(m.date)`, `start` is `parseHm(m.start)`,
`durationMinutes` is `Number(m.durationMinutes)` when the field is truthy (0 for NaN;
durations are taken non-negative), `week` and `round` are `Number(...)` with 0 for a
missing or falsy value, `attendanceMethod` and `status` are the fields when truthy, and
`room` is the field when it is neither null nor undefined. -/
structure MakeupInput where
  date : Option Nat
  start : Option (Nat × Nat)
  durationMinutes : Option Nat
  week : Int
  round : Nat
  attendanceMethod : Option String
  room : Option String
  status : Option String
deriving DecidableEq, Repr

/-- The body of the generate request; absent fields take their defaults in the handler.
`weeks` is `Number(weeks)` for a whole number, 0 when it is NaN, and `holidays` holds
the days that the strings of the holiday list name. -/
structure GenerateBody where
  baseDate : Option Nat
  weeks : Nat
  meetingDays : List DayInput
  times : List TimeInput
  room : Option String
  attendanceMethod : Option String
  defaultStatus : Option String
  holidays : List Nat
  makeups : List MakeupInput
  mode : Option String
deriving DecidableEq, Repr

/-- An element of `allSlots`. -/
structure Slot where
  startAt : Nat
  endAt : Nat
deriving DecidableEq, Repr

/-- The day `dayBase` of week index `w` and weekday `dow`:
`addDays(base, w * 7 + (dow - baseDow + 7) % 7)`. -/
def meetingDate (base w dow : Nat) : Nat :=
  addDays base (w * 7 + (dow + 7 - getDay base) % 7)

/-- The list `allSlots` of week index `w` before the sort: every meeting day crossed
with every time slot. -/
def allSlots (base w : Nat) (dows : List Nat) (timeSpecs : List TimeSpec) : List Slot :=
  dows.flatMap (fun dow =>
    timeSpecs.map (fun ts =>
      let startAt := buildDateTime (meetingDate base w dow) ts.hh ts.mm
      ⟨startAt, addMinutes startAt ts.durationMinutes⟩))

/-- The list `allSlots` after `allSlots.sort((a, b) => a.startAt - b.startAt)`, a stable
sort. -/
def sortedSlots (base w : Nat) (dows : List Nat) (timeSpecs : List TimeSpec) : List Slot :=
  (allSlots base w dows timeSpecs).insertionSort (fun a b => a.startAt ≤ b.startAt)

/-- A slot of a week with the round `i + 1` that the loop over `allSlots` gives it. -/
structure Candidate where
  week : Int
  round : Nat
  startAt : Nat
  endAt : Nat
deriving DecidableEq, Repr

/-- The slots of week index `w` in loop order, with `week = w + 1` and `round = i + 1`. -/
def weekCandidates (base w : Nat) (dows : List Nat) (timeSpecs : List TimeSpec) :
    List Candidate :=
  ((sortedSlots base w dows timeSpecs).enumFrom 1).map
    (fun p => ⟨((w + 1 : Nat) : Int), p.1, p.2.startAt, p.2.endAt⟩)

/-- The slots of all weeks in the order in which the two nested loops visit them. -/
def allCandidates (base weeks : Nat) (dows : List Nat) (timeSpecs : List TimeSpec) :
    List Candidate :=
  (List.range weeks).flatMap (fun w => weekCandidates base w dows timeSpecs)

/-- The object `payload` handed to create and update: a session row without its id. -/
structure SessionPayload where
  courseId : Nat
  week : Int
  round : Nat
  startAt : Nat
  endAt : Nat
  room : Option String
  attendanceMethod : String
  status : String
  code : Option String
deriving DecidableEq, Repr

/-- An entry of `appliedMakeups`. -/
structure AppliedMakeup where
  action : String
  week : Int
  round : Nat
  sessionId : Nat
deriving DecidableEq, Repr

/-- The variables of one invocation: the sessions table as the transaction sees it,
the counters, `skippedHolidays` as (week, round, day), `missingByWeek` as an
insertion-ordered map from week to its set of rounds, and `appliedMakeups`. -/
structure GenState where
  sessions : List ClassSession
  created : Nat
  updated : Nat
  skipped : Nat
  skippedHolidays : List (Int × Nat × Nat)
  missingByWeek : List (Int × List Nat)
  appliedMakeups : List AppliedMakeup
deriving DecidableEq, Repr

/-- The lookup `ClassSession.findOne({ where: { courseId, week, round } })`. -/
def findSessionByKey (rows : List ClassSession) (courseId : Nat) (week : Int) (round : Nat) :
    Option ClassSession :=
  rows.find? (fun s => decide (s.courseId = courseId ∧ s.week = week ∧ s.round = round))

/-- The row that `ClassSession.create(payload)` inserts. -/
def SessionPayload.toSession (p : SessionPayload) (id : Nat) : ClassSession :=
  { id := id, courseId := p.courseId, week := p.week, round := p.round,
    startAt := some p.startAt, endAt := some p.endAt, room := p.room,
    attendanceMethod := p.attendanceMethod, status := p.status, code := p.code }

/-- The statement of `existing.update(payload)`: every payload field is written to the
rows with the id of `existing`. -/
def updateSession (rows : List ClassSession) (id : Nat) (p : SessionPayload) :
    List ClassSession :=
  rows.map (fun s => if s.id = id then p.toSession s.id else s)

/-- The statements `missingByWeek.set(week, new Set())` when the week has no entry and
`missingByWeek.get(week).add(round)`. -/
def addMissing (m : List (Int × List Nat)) (week : Int) (round : Nat) : List (Int × List Nat) :=
  match m.find? (fun e => decide (e.1 = week)) with
  | none => m ++ [(week, [round])]
  | some _ =>
    m.map (fun e => if e.1 = week then (e.1, if round ∈ e.2 then e.2 else e.2 ++ [round]) else e)

/-- The outcome of the write of one payload under the conflict mode: the table and
the three counters after it together with (action, session id), or 409 for a
collision under errorOnConflict. -/
def writePayload (st : GenState) (mode : String) (p : SessionPayload) :
    Except Nat (GenState × String × Nat) :=
  match findSessionByKey st.sessions p.courseId p.week p.round with
  | some existing =>
    if mode = "errorOnConflict" then .error 409
    else if mode = "overwrite" then
      .ok ({ st with sessions := updateSession st.sessions existing.id p,
                     updated := st.updated + 1 }, "updated", existing.id)
    else .ok ({ st with skipped := st.skipped + 1 }, "skipped", existing.id)
  | none =>
    let id := nextId (st.sessions.map (fun s => s.id))
    .ok ({ st with sessions := st.sessions ++ [p.toSession id], created := st.created + 1 },
      "created", id)

/-- The object `payload` of the slot of a regular week: `room || null` for the room, and
a fresh code exactly for the method CODE. -/
def candidatePayload (env : Env) (courseId : Nat) (room : Option String)
    (attendanceMethod defaultStatus : String) (c : Candidate) : SessionPayload :=
  { courseId := courseId, week := c.week, round := c.round, startAt := c.startAt,
    endAt := c.endAt, room := if room = some "" then none else room,
    attendanceMethod := attendanceMethod, status := defaultStatus,
    code := if attendanceMethod = "CODE" then some env.genCode else none }

/-- The body of the loop over `allSlots` for one slot: a holiday is recorded as skipped
and missing, any other slot is written under the conflict mode. -/
def generateSlot (env : Env) (courseId : Nat) (room : Option String)
    (attendanceMethod defaultStatus mode : String) (holidays : List Nat)
    (st : GenState) (c : Candidate) : Except Nat GenState :=
  if toYmd c.startAt ∈ holidays then
    .ok { st with
      skippedHolidays := st.skippedHolidays ++ [(c.week, c.round, toYmd c.startAt)]
      missingByWeek := addMissing st.missingByWeek c.week c.round }
  else
    match writePayload st mode
        (candidatePayload env courseId room attendanceMethod defaultStatus c) with
    | .error code => .error code
    | .ok (st1, _, _) => .ok st1

/-- The two nested loops of regular generation, stopping at the first error. -/
def generateRegular (env : Env) (courseId : Nat) (room : Option String)
    (attendanceMethod defaultStatus mode : String) (holidays : List Nat)
    (cands : List Candidate) (st : GenState) : Except Nat GenState :=
  cands.foldlM (generateSlot env courseId room attendanceMethod defaultStatus mode holidays) st

/-- The helper `getMaxRound(courseId, week, transaction)`. -/
def getMaxRound (rows : List ClassSession) (courseId : Nat) (week : Int) : Nat :=
  ((rows.filter (fun s => decide (s.courseId = courseId ∧ s.week = week))).map
    (fun s => s.round)).foldl max 0

/-- The round of a makeup without an explicit one: the smallest missing round of the
week, which is deleted from the set, or the largest round of the week plus one. -/
def takeMakeupRound (st : GenState) (courseId : Nat) (week : Int) :
    Nat × List (Int × List Nat) :=
  match (st.missingByWeek.find? (fun e => decide (e.1 = week))).map (fun e => e.2) with
  | some (r :: rs) =>
    let round := (r :: rs).foldl min r
    (round, st.missingByWeek.map (fun e => if e.1 = week then (e.1, e.2.erase round) else e))
  | _ => (getMaxRound st.sessions courseId week + 1, st.missingByWeek)

/-- The week of a makeup on day `d`: `Number(m.week)` when that is truthy, else
`Math.floor(diffDays / 7) + 1` with `diffDays` the days from the base date to `d`. -/
def makeupWeek (base d : Nat) (m : MakeupInput) : Int :=
  if m.week ≠ 0 then m.week else ((d : Int) - (base : Int)) / 7 + 1

/-- The round of a makeup with `missingByWeek` after it is chosen: `Number(m.round)`
when that is truthy, else the round that `takeMakeupRound` picks. -/
def makeupRound (st : GenState) (courseId : Nat) (week : Int) (m : MakeupInput) :
    Nat × List (Int × List Nat) :=
  if m.round ≠ 0 then (m.round, st.missingByWeek) else takeMakeupRound st courseId week

/-- The object `payload` of a makeup on day `d` at `hh:mm` with the chosen round. -/
def makeupPayload (env : Env) (courseId base : Nat) (room : Option String)
    (attendanceMethod defaultStatus : String) (defaultDuration : Nat)
    (m : MakeupInput) (d hh mm round : Nat) : SessionPayload :=
  { courseId := courseId, week := makeupWeek base d m, round := round,
    startAt := buildDateTime d hh mm,
    endAt := addMinutes (buildDateTime d hh mm) (m.durationMinutes.getD defaultDuration),
    room := if m.room.isSome then m.room else room,
    attendanceMethod := m.attendanceMethod.getD attendanceMethod,
    status := m.status.getD defaultStatus,
    code := if m.attendanceMethod.getD attendanceMethod = "CODE" then some env.genCode
      else none }

/-- The body of the loop over `makeups` for one makeup. -/
def generateMakeup (env : Env) (courseId base : Nat) (room : Option String)
    (attendanceMethod defaultStatus mode : String) (defaultDuration : Nat)
    (st : GenState) (m : MakeupInput) : Except Nat GenState :=
  match m.date, m.start with
  | some d, some (hh, mm) =>
    if m.durationMinutes.getD defaultDuration = 0 then .error 400
    else if m.attendanceMethod.getD attendanceMethod ∉ allowedMethods then .error 400
    else
      match writePayload
          { st with missingByWeek := (makeupRound st courseId (makeupWeek base d m) m).2 } mode
          (makeupPayload env courseId base room attendanceMethod defaultStatus defaultDuration
            m d hh mm (makeupRound st courseId (makeupWeek base d m) m).1) with
      | .error code => .error code
      | .ok (st1, action, sessionId) =>
        .ok { st1 with
          appliedMakeups := st1.appliedMakeups ++
            [⟨action ++ "_makeup", makeupWeek base d m,
              (makeupRound st courseId (makeupWeek base d m) m).1, sessionId⟩] }
  | _, _ => .error 400

/-- The response body of a successful generation; `missingSummary` lists the weeks that
still miss rounds with those rounds in ascending order. -/
structure GenSummary where
  created : Nat
  updated : Nat
  skipped : Nat
  skippedHolidays : List (Int × Nat × Nat)
  appliedMakeups : List AppliedMakeup
  missingSummary : List (Int × List Nat)
deriving DecidableEq, Repr

/-- The work of the handler between the validation of the body and the commit: regular
generation and then the makeups, on the table of the database. -/
def generateAll (db : Db) (env : Env) (courseId base weeks : Nat) (dows : List Nat)
    (timeSpecs : List TimeSpec) (room : Option String)
    (attendanceMethod defaultStatus mode : String) (holidays : List Nat)
    (makeups : List MakeupInput) : Except Nat GenState :=
  match generateRegular env courseId room attendanceMethod defaultStatus mode holidays
      (allCandidates base weeks dows timeSpecs) ⟨db.sessions, 0, 0, 0, [], [], []⟩ with
  | .error code => .error code
  | .ok st =>
    makeups.foldlM
      (generateMakeup env courseId base room attendanceMethod defaultStatus mode
        ((timeSpecs.head?.map (fun ts => ts.durationMinutes)).getD 0))
      st

/-- The handler of POST /courses/:courseId/sessions/generate. Every write is made
inside the transaction `t`; each error path calls `t.rollback()` before it answers, so
the database of an answer other than 201 is the database before the call. -/
def generateSessions (db : Db) (env : Env) (user : SessionUser) (courseId : Nat)
    (body : GenerateBody) : Nat × Db × Option GenSummary :=
  match findCourse db courseId with
  | none => (404, db, none)
  | some course =>
    if notOwner user course then (403, db, none)
    else
      let attendanceMethod := body.attendanceMethod.getD "CODE"
      let defaultStatus := body.defaultStatus.getD "CLOSED"
      let mode := body.mode.getD "skipExisting"
      match body.baseDate with
      | none => (400, db, none)
      | some base =>
        if body.weeks = 0 ∨ body.weeks < 1 ∨ body.weeks > 30 then (400, db, none)
        else
          match normalizeMeetingDays body.meetingDays with
          | none => (400, db, none)
          | some dows =>
            if body.times.length = 0 then (400, db, none)
            else if (body.times.map toTimeSpec).any (fun x => x.isNone) then (400, db, none)
            else if attendanceMethod ∉ allowedMethods then (400, db, none)
            else if defaultStatus ∉ allowedDefaultStatuses then (400, db, none)
            else if mode ∉ ["skipExisting", "errorOnConflict", "overwrite"] then (400, db, none)
            else
              match generateAll db env courseId base body.weeks dows
                  (body.times.filterMap toTimeSpec) body.room attendanceMethod defaultStatus mode
                  body.holidays body.makeups with
              | .error code => (code, db, none)
              | .ok st =>
                (201, { db with sessions := st.sessions },
                  some
                    { created := st.created
                      updated := st.updated
                      skipped := st.skipped
                      skippedHolidays := st.skippedHolidays
                      appliedMakeups := st.appliedMakeups
                      missingSummary :=
                        (st.missingByWeek.filter (fun e => decide (e.2.length > 0))).map
                          (fun e => (e.1, e.2.insertionSort (fun a b => a ≤ b))) })

/-- The generate request of the worked example: base date 2025-03-03 (a Monday), two
weeks, Mondays at 09:00 for 60 minutes, and the holiday 2025-03-10. -/
def exampleGenerateBody : GenerateBody :=
  { baseDate := some (daysFromCivil 2025 3 3), weeks := 2, meetingDays := [.name "MON"],
    times := [⟨some (9, 0), 60⟩], room := none, attendanceMethod := none,
    defaultStatus := none, holidays := [daysFromCivil 2025 3 10], makeups := [],
    mode := none }

/-- The worked example without the holiday and under the mode errorOnConflict. -/
def exampleConflictBody : GenerateBody :=
  { exampleGenerateBody with holidays := [], mode := some "errorOnConflict" }

/-- A database with course 1 and one session of it, week 2 round 1. -/
def exampleWeekTwoDb : Db :=
  { exampleCourseOnly with
    sessions := [⟨5, 1, 2, 1, none, none, none, "CODE", "OPEN", some "654321"⟩] }

/-- The database expected after the worked example of generation on the database with
course 1 only: one session, week 1 round 1, on 2025-03-03 from 09:00 to 10:00. -/
def exampleGenerated : Db :=
  { exampleCourseOnly with
    sessions := [⟨1, 1, 1, 1, some (buildDateTime (daysFromCivil 2025 3 3) 9 0),
      some (buildDateTime (daysFromCivil 2025 3 3) 10 0), none, "CODE", "CLOSED",
      some "123456"⟩] }

/-- The summary expected for the worked example of generation: one session created,
week 2 round 1 skipped as a holiday and reported missing. -/
def exampleGenSummary : GenSummary :=
  ⟨1, 0, 0, [(2, 1, daysFromCivil 2025 3 10)], [], [(2, [1])]⟩

/-- The value `missingByWeek.get(week)` as a list, empty when the week has no entry. -/
def missingRounds (m : List (Int × List Nat)) (week : Int) : List Nat :=
  ((m.find? (fun e => decide (e.1 = week))).map (fun e => e.2)).getD []

/-- A makeup of the worked example: 2025-03-12 at 09:00, no week, round, duration,
method, room or status given. -/
def exampleMakeup : MakeupInput :=
  ⟨some (daysFromCivil 2025 3 12), some (9, 0), none, 0, 0, none, none, none⟩

/-- The state of the worked example after its regular loop: the session of week 1
round 1, the holiday of week 2 round 1 skipped and missing. -/
def exampleRegularState : GenState :=
  ⟨exampleGenerated.sessions, 1, 0, 0, [(2, 1, daysFromCivil 2025 3 10)], [(2, [1])], []⟩

/-- The makeup of the worked example with the explicit week 1 and no round. -/
def exampleMakeupWeekOnly : MakeupInput := { exampleMakeup with week := 1 }

/-- The state of the worked example after the makeup of 2025-03-12: a second session,
week 2 round 1, and no missing round left in week 2. -/
def exampleMakeupState : GenState :=
  ⟨exampleGenerated.sessions ++
      [⟨2, 1, 2, 1, some (buildDateTime (daysFromCivil 2025 3 12) 9 0),
        some (buildDateTime (daysFromCivil 2025 3 12) 10 0), none, "CODE", "CLOSED",
        some "123456"⟩],
    2, 0, 0, [(2, 1, daysFromCivil 2025 3 10)], [(2, [])],
    [⟨"created_makeup", 2, 1, 2⟩]⟩

/-! ## Risk report (routes/reportsRisk.js, GET /reports/risk) -/

/-- A query parameter as `toInt` sees it: not supplied, a text that `Number` turns into
a finite number (taken whole), or a text that it turns into NaN or an infinity. -/
inductive QueryNumber where
  | missing
  | finite (n : Int)
  | notFinite
deriving DecidableEq, Repr

/-- The helper `toInt(v, def)`: `Number(v)` when that is finite, else `def`. -/
def toInt (v : QueryNumber) (default : Int) : Int :=
  match v with
  | .finite n => n
  | _ => default

/-- The query of GET /reports/risk: `courseId` is `Number(req.query.courseId)`, 0 when
that is NaN, and `includeUnknown` tells whether the parameter reads "true" in any
letter case. -/
structure RiskQuery where
  courseId : Nat
  absentMin : QueryNumber
  lateStreakMin : QueryNumber
  absentStreakMin : QueryNumber
  lateOrAbsentStreakMin : QueryNumber
  includeUnknown : Bool
deriving DecidableEq, Repr

/-- The object `totals` of a row of the risk report. -/
structure RiskTotals where
  present : Nat
  late : Nat
  absent : Nat
  excused : Nat
  unknown : Nat
  sessionsCount : Nat
deriving DecidableEq, Repr

/-- One pass of the cumulative counting loop of the risk report. -/
def riskCount (t : RiskTotals) (st : Nat) : RiskTotals :=
  if st = 1 then { t with present := t.present + 1 }
  else if st = 2 then { t with late := t.late + 1 }
  else if st = 3 then { t with absent := t.absent + 1 }
  else if st = 4 then { t with excused := t.excused + 1 }
  else { t with unknown := t.unknown + 1 }

/-- The counters after the counting loop, with `sessionsCount: sessions.length`. -/
def riskTotals (statusSeq : List Nat) : RiskTotals :=
  statusSeq.foldl riskCount ⟨0, 0, 0, 0, 0, statusSeq.length⟩

/-- A reason pushed to `flags`; each stands for the text that names the criterion and
its threshold. -/
inductive RiskFlag where
  | absentTotal (min : Int)
  | lateStreak (min : Int)
  | absentStreak (min : Int)
  | lateOrAbsentStreak (min : Int)
deriving DecidableEq, Repr

/-- The four tests that fill `flags`, in the order of the source. -/
def riskFlags (absentMin lateStreakMin absentStreakMin lateOrAbsentStreakMin : Int)
    (totals : RiskTotals) (streak : Streaks) : List RiskFlag :=
  (if (totals.absent : Int) ≥ absentMin then [RiskFlag.absentTotal absentMin] else [])
    ++ (if (streak.maxLateStreak : Int) ≥ lateStreakMin then [RiskFlag.lateStreak lateStreakMin]
      else [])
    ++ (if (streak.maxAbsentStreak : Int) ≥ absentStreakMin then
        [RiskFlag.absentStreak absentStreakMin] else [])
    ++ (if (streak.maxLateOrAbsentStreak : Int) ≥ lateOrAbsentStreakMin then
        [RiskFlag.lateOrAbsentStreak lateOrAbsentStreakMin] else [])

/-- An element of `list` in the risk report (the user columns name, email and
department are left out). -/
structure RiskRow where
  studentId : Nat
  totals : RiskTotals
  streak : Streaks
  flags : List RiskFlag
  riskScore : Nat
deriving DecidableEq, Repr

/-- The element pushed to `list` for the student `sid` with the status sequence
`statusSeq`. -/
def riskRow (absentMin lateStreakMin absentStreakMin lateOrAbsentStreakMin : Int)
    (includeUnknown : Bool) (statusSeq : List Nat) (sid : Nat) : RiskRow :=
  let totals := riskTotals statusSeq
  let streak := calcStreaks includeUnknown statusSeq
  { studentId := sid
    totals := totals
    streak := streak
    flags := riskFlags absentMin lateStreakMin absentStreakMin lateOrAbsentStreakMin totals streak
    riskScore := totals.absent * 10 + streak.maxLateOrAbsentStreak * 3 + totals.late * 2 }

/-- The order `[["week", "ASC"], ["round", "ASC"], ["startAt", "ASC"]]` of the session
query; a missing start time sorts first. -/
def sessionBefore (a b : ClassSession) : Bool :=
  decide (a.week < b.week) ||
    (decide (a.week = b.week) &&
      (decide (a.round < b.round) ||
        (decide (a.round = b.round) &&
          (match a.startAt, b.startAt with
           | none, _ => true
           | some _, none => false
           | some x, some y => decide (x ≤ y)))))

/-- The sessions of the course in the order of the session query. -/
def riskSessions (db : Db) (courseId : Nat) : List ClassSession :=
  (db.sessions.filter (fun s => decide (s.courseId = courseId))).insertionSort
    (fun a b => sessionBefore a b = true)

/-- The list `studentIds` of the risk report:
`enrollments.map((e) => Number(e.studentId)).filter(Boolean)`. -/
def riskStudentIds (db : Db) (courseId : Nat) : List Nat :=
  ((db.enrollments.filter (fun e => decide (e.courseId = courseId))).map
    (fun e => e.studentId)).filter (fun sid => decide (sid ≠ 0))

/-- The sequence `statusSeq` of a student: per session in order the status held in
`statusMap`, 0 when there is none. -/
def riskStatusSeq (db : Db) (courseId : Nat) (sid : Nat) : List Nat :=
  let sessions := riskSessions db courseId
  let statusMap := buildStatusMap (riskStudentIds db courseId)
    (attendancesOfSessions (sessions.map (fun s => s.id)) db.attendances)
  sessions.map (fun s => (statusMap sid s.id).getD 0)

/-- The handler of GET /reports/risk: the HTTP status code and the `list` of the
answer, the rows with at least one flag sorted by falling risk score and then by
falling number of absences. -/
def riskReport (db : Db) (user : SessionUser) (q : RiskQuery) : Nat × List RiskRow :=
  if q.courseId = 0 then (400, [])
  else
    match findCourse db q.courseId with
    | none => (404, [])
    | some course =>
      if notOwner user course then (403, [])
      else if (riskSessions db q.courseId).length = 0 then (200, [])
      else if (riskStudentIds db q.courseId).length = 0 then (200, [])
      else
        let list := (riskStudentIds db q.courseId).map (fun sid =>
          riskRow (toInt q.absentMin 3) (toInt q.lateStreakMin 3) (toInt q.absentStreakMin 2)
            (toInt q.lateOrAbsentStreakMin 3) q.includeUnknown
            (riskStatusSeq db q.courseId sid) sid)
        (200,
          (list.filter (fun x => decide (x.flags.length > 0))).insertionSort
            (fun a b => b.riskScore < a.riskScore ∨
              (b.riskScore = a.riskScore ∧ b.totals.absent ≤ a.totals.absent)))

/-- A database with course 1, student 7 enrolled, and no session. -/
def exampleNoSessionDb : Db := { exampleCourseOnly with enrollments := [⟨1, 7⟩] }

/-- A risk query for course 1 with `absentMin=0` and no other parameter. -/
def exampleZeroQuery : RiskQuery := ⟨1, .finite 0, .missing, .missing, .missing, false⟩

/-- A risk query for course 1 without any threshold parameter. -/
def exampleRiskQuery : RiskQuery := ⟨1, .missing, .missing, .missing, .missing, false⟩

/-- A database with course 1, students 7 and 8 enrolled, three sessions, student 7
absent in all three and student 8 present in all three. -/
def exampleRiskDb : Db :=
  { exampleCourseOnly with
    enrollments := [⟨1, 7⟩, ⟨1, 8⟩]
    sessions := [⟨1, 1, 1, 1, none, none, none, "CODE", "CLOSED", none⟩,
      ⟨2, 1, 2, 1, none, none, none, "CODE", "CLOSED", none⟩,
      ⟨3, 1, 3, 1, none, none, none, "CODE", "CLOSED", none⟩]
    attendances := [⟨1, 1, 7, 3, none, none⟩, ⟨2, 2, 7, 3, none, none⟩,
      ⟨3, 3, 7, 3, none, none⟩, ⟨4, 1, 8, 1, none, none⟩, ⟨5, 2, 8, 1, none, none⟩,
      ⟨6, 3, 8, 1, none, none⟩] }

/-- The example database with a PENDING excuse and without Attendance rows. -/
def examplePendingNoRows : Db := { examplePendingDb with attendances := [] }

/-! ## Absence warnings (routes/absenceWarnings.js, POST /admin/absence-warnings/run) -/

/-- The object `thresholds` of the absence-warning job. -/
structure Thresholds where
  warnAbsences : Nat
  dangerAbsences : Nat
  failAbsences : Nat
  lateToAbsent : Nat
deriving DecidableEq, Repr

/-- The constant `DEFAULT_THRESHOLDS`. -/
def DEFAULT_THRESHOLDS : Thresholds := ⟨2, 4, 6, 3⟩

/-- The helper `pickPolicy(policyRow)`. The model of `attendance_policies` declares no
column warnAbsences, dangerAbsences or failAbsences, so for a row these three fields
are undefined and `??` yields the defaults; `lateToAbsent` is the column of the row. -/
def pickPolicy (policyRow : Option AttendancePolicy) : Thresholds :=
  match policyRow with
  | none => DEFAULT_THRESHOLDS
  | some p =>
    { warnAbsences := DEFAULT_THRESHOLDS.warnAbsences
      dangerAbsences := DEFAULT_THRESHOLDS.dangerAbsences
      failAbsences := DEFAULT_THRESHOLDS.failAbsences
      lateToAbsent := p.lateToAbsent }

/-- The helper `decideLevel(absEq, thresholds)`, `none` for null. -/
def decideLevel (absEq : Nat) (thresholds : Thresholds) : Option String :=
  if absEq ≥ thresholds.failAbsences then some "FAIL"
  else if absEq ≥ thresholds.dangerAbsences then some "DANGER"
  else if absEq ≥ thresholds.warnAbsences then some "WARN"
  else none

/-- The helper `buildTitle(level)`. -/
def buildTitle (level : String) : String :=
  if level = "WARN" then "결석 누적 경고"
  else if level = "DANGER" then "결석 누적 위험"
  else "결석 누적 한계"

/-- The helper `buildType(level)`. -/
def buildType (level : String) : String :=
  if level = "WARN" then "ABSENCE_WARN"
  else if level = "DANGER" then "ABSENCE_DANGER"
  else "ABSENCE_FAIL"

/-- The object `payload` of a warning without its message text. -/
structure NotificationPayload where
  userId : Nat
  type : String
  title : String
  linkUrl : String
deriving DecidableEq, Repr

/-- The `where` clause of the lookup in `createNotificationIfNotExists`: the same
user, type and title, and `linkUrl` equal to `payload.linkUrl || null`. -/
def sameNotification (payload : NotificationPayload) (n : Notification) : Bool :=
  decide (n.userId = payload.userId) && decide (n.type = payload.type) &&
    decide (n.title = payload.title) &&
    decide (n.linkUrl = if payload.linkUrl = "" then none else some payload.linkUrl)

/-- The helper `createNotificationIfNotExists(payload, t)`: the table afterwards and
the flag `created`. -/
def createNotificationIfNotExists (rows : List Notification) (payload : NotificationPayload) :
    List Notification × Bool :=
  match rows.find? (sameNotification payload) with
  | some _ => (rows, false)
  | none =>
    (rows ++ [{ id := nextId (rows.map (fun n => n.id)), userId := payload.userId,
                type := payload.type, title := payload.title,
                linkUrl := some payload.linkUrl }], true)

/-- An entry `{ abs, late }` of the map of the job. -/
structure AbsStat where
  abs : Nat
  late : Nat
deriving DecidableEq, Repr

/-- The keys of a `Map` filled in the order of the list: each value once, at the
place of its first occurrence. -/
def mapKeys : List Nat → List Nat
  | [] => []
  | x :: xs => x :: (mapKeys xs).filter (fun y => decide (y ≠ x))

/-- The list `studentIds` of a course in the job:
`enrollments.map((e) => Number(e.studentId)).filter(Boolean)`. -/
def enrolledIds (db : Db) (courseId : Nat) : List Nat :=
  ((db.enrollments.filter (fun e => decide (e.courseId = courseId))).map
    (fun e => e.studentId)).filter (fun sid => decide (sid ≠ 0))

/-- The query for `rows`: the Attendance rows of the listed students joined with
their session, the session being one of the course. -/
def courseAttendances (db : Db) (courseId : Nat) (studentIds : List Nat) : List Attendance :=
  db.attendances.filter (fun a =>
    decide (a.studentId ∈ studentIds) &&
      (match findSession db a.sessionId with
       | some s => decide (s.courseId = courseId)
       | none => false))

/-- The map from student to `{ abs, late }` after the loop over `rows`: status 3
counts as an absence, status 2 as a late arrival. -/
def absenceStats (studentIds : List Nat) (rows : List Attendance) : Nat → AbsStat :=
  rows.foldl
    (fun m a =>
      if a.studentId ∈ studentIds then
        if a.status = 3 then
          Function.update m a.studentId { m a.studentId with abs := (m a.studentId).abs + 1 }
        else if a.status = 2 then
          Function.update m a.studentId { m a.studentId with late := (m a.studentId).late + 1 }
        else m
      else m)
    (fun _ => ⟨0, 0⟩)

/-- The value `absEq` of a student: with
`lateToAbsent = Math.max(1, Number(thresholds.lateToAbsent || 3))` it is
`stat.abs + Math.floor(stat.late / lateToAbsent)`. -/
def absenceEquivalent (thresholds : Thresholds) (stat : AbsStat) : Nat :=
  stat.abs + stat.late / max 1 (if thresholds.lateToAbsent = 0 then 3 else thresholds.lateToAbsent)

/-- The payload of the warning of a student of the course, `none` when `decideLevel`
returns null and the loop continues. -/
def warningFor (courseId : Nat) (thresholds : Thresholds) (stat : AbsStat) (sid : Nat) :
    Option NotificationPayload :=
  (decideLevel (absenceEquivalent thresholds stat) thresholds).map (fun level =>
    { userId := sid, type := buildType level, title := buildTitle level,
      linkUrl := "/courses/" ++ toString courseId })

/-- The variables of the job while it works on the students of one course: the
Notification table as the transaction sees it and the counters. -/
structure WarnLoop where
  notifications : List Notification
  createdCount : Nat
  skippedCount : Nat
  checkedStudents : Nat
  courseCreated : Nat
  courseSkipped : Nat
deriving DecidableEq, Repr

/-- The body of the loop over the entries of the map for one student. -/
def warnStudent (dryRun : Bool) (courseId : Nat) (thresholds : Thresholds)
    (stats : Nat → AbsStat) (acc : WarnLoop) (sid : Nat) : WarnLoop :=
  match warningFor courseId thresholds (stats sid) sid with
  | none => { acc with checkedStudents := acc.checkedStudents + 1 }
  | some payload =>
    if dryRun then
      { acc with
        checkedStudents := acc.checkedStudents + 1
        courseSkipped := acc.courseSkipped + 1 }
    else if (createNotificationIfNotExists acc.notifications payload).2 then
      { acc with
        notifications := (createNotificationIfNotExists acc.notifications payload).1
        checkedStudents := acc.checkedStudents + 1
        createdCount := acc.createdCount + 1
        courseCreated := acc.courseCreated + 1 }
    else
      { acc with
        checkedStudents := acc.checkedStudents + 1
        skippedCount := acc.skippedCount + 1
        courseSkipped := acc.courseSkipped + 1 }

/-- An entry of `perCourseSummary`. -/
structure CourseSummary where
  courseId : Nat
  students : Nat
  created : Nat
  skipped : Nat
deriving DecidableEq, Repr

/-- The variables of the job across courses. -/
structure WarnRun where
  notifications : List Notification
  createdCount : Nat
  skippedCount : Nat
  checkedStudents : Nat
  perCourseSummary : List CourseSummary
deriving DecidableEq, Repr

/-- The body of the loop over `courses` for one course; `policyOf` gives the row of
`attendance_policies` of a course, if there is one. -/
def warnCourse (db : Db) (policyOf : Nat → Option AttendancePolicy) (dryRun : Bool)
    (run : WarnRun) (course : Course) : WarnRun :=
  let thresholds := pickPolicy (policyOf course.id)
  let studentIds := enrolledIds db course.id
  if studentIds.length = 0 then
    { run with perCourseSummary := run.perCourseSummary ++ [⟨course.id, 0, 0, 0⟩] }
  else
    let stats := absenceStats studentIds (courseAttendances db course.id studentIds)
    let out := (mapKeys studentIds).foldl (warnStudent dryRun course.id thresholds stats)
      ⟨run.notifications, run.createdCount, run.skippedCount, run.checkedStudents, 0, 0⟩
    { notifications := out.notifications
      createdCount := out.createdCount
      skippedCount := out.skippedCount
      checkedStudents := out.checkedStudents
      perCourseSummary := run.perCourseSummary ++
        [⟨course.id, studentIds.length, out.courseCreated, out.courseSkipped⟩] }

/-- The body of the run request: `courseId` is 0 when the field is missing or falsy,
`dryRun` tells whether the field is truthy. -/
structure WarnBody where
  semester : Option String
  department : Option String
  courseId : Nat
  dryRun : Bool
deriving DecidableEq, Repr

/-- The query `Course.findAll({ where: whereCourse })`: the course of the given id,
or the courses of the semester and department (defaults "2025-2" and "소프트웨어"),
for an INSTRUCTOR only the own ones. -/
def selectCourses (db : Db) (user : SessionUser) (body : WarnBody) : List Course :=
  db.courses.filter (fun c =>
    (if body.courseId ≠ 0 then decide (c.id = body.courseId)
      else decide (c.semester = body.semester.getD "2025-2") &&
        decide (c.department = some (body.department.getD "소프트웨어"))) &&
    (if user.role = Role.INSTRUCTOR then decide (c.instructorId = user.id) else true))

/-- The state of the job after the loop over the selected courses. -/
def warnRun (db : Db) (policyOf : Nat → Option AttendancePolicy) (dryRun : Bool)
    (courses : List Course) : WarnRun :=
  courses.foldl (warnCourse db policyOf dryRun) ⟨db.notifications, 0, 0, 0, []⟩

/-- The JSON answer of the run request. -/
structure WarnResponse where
  dryRun : Bool
  checkedCourses : Nat
  checkedStudents : Nat
  created : Nat
  skipped : Nat
  perCourseSummary : List CourseSummary
deriving DecidableEq, Repr

/-- The handler of POST /admin/absence-warnings/run: status code, database after the
request and answer. Without a selected course and in a dry run the transaction is
rolled back, otherwise it is committed. -/
def runAbsenceWarnings (db : Db) (policyOf : Nat → Option AttendancePolicy)
    (user : SessionUser) (body : WarnBody) : Nat × Db × WarnResponse :=
  let courses := selectCourses db user body
  if courses.length = 0 then (200, db, ⟨false, 0, 0, 0, 0, []⟩)
  else
    let run := warnRun db policyOf body.dryRun courses
    if body.dryRun then
      (200, db, ⟨true, courses.length, run.checkedStudents, 0, run.skippedCount,
        run.perCourseSummary⟩)
    else
      (200, { db with notifications := run.notifications },
        ⟨false, courses.length, run.checkedStudents, run.createdCount, run.skippedCount,
          run.perCourseSummary⟩)

/-- A database with course 1, student 7 enrolled, four sessions, and student 7 absent
in sessions 1 and 2 and late in sessions 3 and 4. -/
def exampleWarnDb : Db :=
  { exampleCourseOnly with
    enrollments := [⟨1, 7⟩]
    sessions := [⟨1, 1, 1, 1, none, none, none, "CODE", "CLOSED", none⟩,
      ⟨2, 1, 2, 1, none, none, none, "CODE", "CLOSED", none⟩,
      ⟨3, 1, 3, 1, none, none, none, "CODE", "CLOSED", none⟩,
      ⟨4, 1, 4, 1, none, none, none, "CODE", "CLOSED", none⟩]
    attendances := [⟨1, 1, 7, 3, none, none⟩, ⟨2, 2, 7, 3, none, none⟩,
      ⟨3, 3, 7, 2, none, none⟩, ⟨4, 4, 7, 2, none, none⟩] }

/-- The run request for course 1, not a dry run. -/
def exampleWarnBody : WarnBody := ⟨none, none, 1, false⟩

/-- The run request for course 1 as a dry run. -/
def exampleDryBody : WarnBody := ⟨none, none, 1, true⟩

/-- A policy lookup that finds no row for any course. -/
def exampleNoPolicy : Nat → Option AttendancePolicy := fun _ => none

/-- The warning that the job computes for the student `sid` of a course from the
policy, the enrollments and the attendance of the course. -/
def courseWarning (db : Db) (policyOf : Nat → Option AttendancePolicy) (course : Course)
    (sid : Nat) : Option NotificationPayload :=
  warningFor course.id (pickPolicy (policyOf course.id))
    (absenceStats (enrolledIds db course.id)
      (courseAttendances db course.id (enrolledIds db course.id)) sid) sid

/-! ## Theorems -/

/-! ### Rounding to binary64 -/

theorem roundHalfEven_cases (x : ℚ) :
    roundHalfEven x = ⌊x⌋ ∨ roundHalfEven x = ⌊x⌋ + 1 := by
  unfold roundHalfEven
  split_ifs <;> simp

theorem roundHalfEven_abs_sub_le (x : ℚ) : |(roundHalfEven x : ℚ) - x| ≤ 1 / 2 := by
  have h1 := Int.floor_le x
  have h2 := Int.lt_floor_add_one x
  unfold roundHalfEven
  rw [abs_le]
  split_ifs with a b c
  · constructor <;> linarith
  · push_cast; constructor <;> linarith
  · constructor <;> linarith
  · push_cast; constructor <;> linarith

theorem roundHalfEven_eq_of_abs_lt (x : ℚ) (m : ℤ) (h : |x - (m : ℚ)| < 1 / 2) :
    roundHalfEven x = m := by
  rw [abs_lt] at h
  have h1 := roundHalfEven_abs_sub_le x
  rw [abs_le] at h1
  have hlt : ((roundHalfEven x : ℤ) : ℚ) - (m : ℚ) < 1 := by linarith
  have hgt : (-1 : ℚ) < ((roundHalfEven x : ℤ) : ℚ) - (m : ℚ) := by linarith
  have hlt' : roundHalfEven x - m < 1 := by exact_mod_cast hlt
  have hgt' : -1 < roundHalfEven x - m := by exact_mod_cast hgt
  omega

theorem roundHalfEven_intCast (k : ℤ) : roundHalfEven (k : ℚ) = k :=
  roundHalfEven_eq_of_abs_lt _ k (by simp)

theorem roundHalfEven_tie_up (x : ℚ) (m : ℤ) (h : x = (m : ℚ) - 1 / 2) (hm : m % 2 = 0) :
    roundHalfEven x = m := by
  have hf : ⌊x⌋ = m - 1 := by
    rw [Int.floor_eq_iff]
    push_cast
    constructor <;> linarith
  unfold roundHalfEven
  rw [hf]
  push_cast
  have e : x - ((m : ℚ) - 1) = 1 / 2 := by rw [h]; ring
  rw [e]
  rw [if_neg (lt_irrefl _), if_neg (lt_irrefl _), if_neg (by omega)]
  ring

theorem roundHalfEven_tie_down (x : ℚ) (m : ℤ) (h : x = (m : ℚ) + 1 / 2) (hm : m % 2 = 0) :
    roundHalfEven x = m := by
  have hf : ⌊x⌋ = m := by
    rw [Int.floor_eq_iff]
    constructor <;> linarith
  unfold roundHalfEven
  rw [hf]
  have e : x - (m : ℚ) = 1 / 2 := by rw [h]; ring
  rw [e]
  rw [if_neg (lt_irrefl _), if_neg (lt_irrefl _), if_pos hm]

theorem roundHalfEven_mono {x y : ℚ} (h : x ≤ y) : roundHalfEven x ≤ roundHalfEven y := by
  have hfl : ⌊x⌋ ≤ ⌊y⌋ := Int.floor_mono h
  rcases lt_or_eq_of_le hfl with hlt | heq
  · -- floor x + 1 ≤ floor y
    rcases roundHalfEven_cases x with hx | hx <;> rcases roundHalfEven_cases y with hy | hy <;>
      rw [hx, hy] <;> omega
  · unfold roundHalfEven
    rw [heq]
    have hxy : x - (⌊y⌋ : ℚ) ≤ y - (⌊y⌋ : ℚ) := by linarith
    by_cases a : x - (⌊y⌋ : ℚ) < 1 / 2
    · rw [if_pos a]
      split_ifs <;> omega
    · rw [if_neg a]
      have a' : ¬ y - (⌊y⌋ : ℚ) < 1 / 2 := by
        intro h1; apply a; linarith
      rw [if_neg a']
      by_cases b : 1 / 2 < x - (⌊y⌋ : ℚ)
      · have b' : 1 / 2 < y - (⌊y⌋ : ℚ) := by linarith
        rw [if_pos b, if_pos b']
      · rw [if_neg b]
        split_ifs <;> omega

theorem roundHalfEven_nonneg {x : ℚ} (h : 0 ≤ x) : 0 ≤ roundHalfEven x := by
  have := roundHalfEven_mono h
  rw [show roundHalfEven (0 : ℚ) = 0 from by
    have := roundHalfEven_intCast 0
    simpa using this] at this
  exact this

theorem ulp_pos (q : ℚ) : (0 : ℚ) < 2 ^ ulpExponent q := zpow_pos (by norm_num) _

theorem two_zpow_le_iff_le_log {x : ℤ} {r : ℚ} (hr : 0 < r) :
    (2 : ℚ) ^ x ≤ r ↔ x ≤ Int.log 2 r := by
  have h := Int.zpow_le_iff_le_log (R := ℚ) (b := 2) (by norm_num) (x := x) hr
  simpa using h

theorem lt_two_zpow_iff_log_lt {x : ℤ} {r : ℚ} (hr : 0 < r) :
    r < (2 : ℚ) ^ x ↔ Int.log 2 r < x := by
  have h := Int.lt_zpow_iff_log_lt (R := ℚ) (b := 2) (by norm_num) (x := x) hr
  simpa using h

theorem log_two_eq {e : ℤ} {r : ℚ} (hlo : (2 : ℚ) ^ e ≤ r) (hhi : r < (2 : ℚ) ^ (e + 1)) :
    Int.log 2 r = e := by
  have hr : 0 < r := lt_of_lt_of_le (zpow_pos (by norm_num) _) hlo
  have h1 := (two_zpow_le_iff_le_log hr).1 hlo
  have h2 := (lt_two_zpow_iff_log_lt hr).1 hhi
  omega

theorem ulpExponent_eq {e : ℤ} {q : ℚ} (he : -1022 ≤ e) (hlo : (2 : ℚ) ^ e ≤ |q|)
    (hhi : |q| < (2 : ℚ) ^ (e + 1)) : ulpExponent q = e - 52 := by
  unfold ulpExponent
  rw [log_two_eq hlo hhi, max_eq_left he]

theorem roundDouble_zero : roundDouble 0 = 0 := by
  unfold roundDouble
  rw [zero_div]
  have h : roundHalfEven (0 : ℚ) = 0 := by
    have := roundHalfEven_intCast 0
    simpa using this
  rw [h]
  simp

theorem roundDouble_nonneg {q : ℚ} (h : 0 ≤ q) : 0 ≤ roundDouble q := by
  unfold roundDouble
  have hp := ulp_pos q
  have h1 : 0 ≤ q / 2 ^ ulpExponent q := div_nonneg h hp.le
  have h2 := roundHalfEven_nonneg h1
  have h3 : (0 : ℚ) ≤ (roundHalfEven (q / 2 ^ ulpExponent q) : ℚ) := by exact_mod_cast h2
  exact mul_nonneg h3 hp.le

theorem roundDouble_abs_sub_le (q : ℚ) :
    |roundDouble q - q| ≤ 2 ^ ulpExponent q / 2 := by
  unfold roundDouble
  have hp := ulp_pos q
  have h := roundHalfEven_abs_sub_le (q / 2 ^ ulpExponent q)
  have e : (roundHalfEven (q / 2 ^ ulpExponent q) : ℚ) * 2 ^ ulpExponent q - q
      = ((roundHalfEven (q / 2 ^ ulpExponent q) : ℚ) - q / 2 ^ ulpExponent q)
          * 2 ^ ulpExponent q := by
    field_simp
  rw [e, abs_mul, abs_of_pos hp]
  calc |(roundHalfEven (q / 2 ^ ulpExponent q) : ℚ) - q / 2 ^ ulpExponent q| * 2 ^ ulpExponent q
      ≤ 1 / 2 * 2 ^ ulpExponent q := mul_le_mul_of_nonneg_right h hp.le
    _ = 2 ^ ulpExponent q / 2 := by ring

/-- Evaluation of `roundDouble` on a value of known binade. -/
theorem roundDouble_eq {q : ℚ} (e m : ℤ) (he : -1022 ≤ e) (hlo : (2 : ℚ) ^ e ≤ |q|)
    (hhi : |q| < (2 : ℚ) ^ (e + 1)) (hm : roundHalfEven (q / 2 ^ (e - 52)) = m) :
    roundDouble q = (m : ℚ) * 2 ^ (e - 52) := by
  unfold roundDouble
  rw [ulpExponent_eq he hlo hhi, hm]

/-- A value that is an integer multiple of its own unit in the last place is a double. -/
theorem roundDouble_of_int_mul {q : ℚ} (m : ℤ) (h : q = (m : ℚ) * 2 ^ ulpExponent q) :
    roundDouble q = q := by
  unfold roundDouble
  have hp := ulp_pos q
  have e : q / 2 ^ ulpExponent q = (m : ℚ) := by
    rw [div_eq_iff hp.ne']
    exact h
  rw [e, roundHalfEven_intCast]
  exact h.symm

theorem ulpExponent_natCast {n : Nat} (h0 : 0 < n) (h : n < 2 ^ 53) :
    ulpExponent (n : ℚ) = (Nat.log 2 n : ℤ) - 52 ∧ Nat.log 2 n ≤ 52 := by
  have hl : Nat.log 2 n < 53 := by
    rw [← Nat.lt_pow_iff_log_lt (by norm_num) (by omega)]
    exact h
  unfold ulpExponent
  rw [abs_of_nonneg (by positivity), Int.log_natCast]
  constructor
  · rw [max_eq_left (by omega)]
  · omega

theorem roundDouble_natCast (n : Nat) (h : n < 2 ^ 53) : roundDouble (n : ℚ) = n := by
  rcases Nat.eq_zero_or_pos n with h0 | h0
  · subst h0
    simpa using roundDouble_zero
  obtain ⟨he, hl⟩ := ulpExponent_natCast h0 h
  apply roundDouble_of_int_mul ((n : ℤ) * 2 ^ (52 - Nat.log 2 n))
  rw [he]
  have e : ((Nat.log 2 n : ℤ) - 52) = -((52 - Nat.log 2 n : ℕ) : ℤ) := by omega
  rw [e, zpow_neg, zpow_natCast]
  push_cast
  field_simp

theorem two_pow53_mul_zpow (L : ℤ) :
    (((2 : ℤ) ^ 53 : ℤ) : ℚ) * 2 ^ (L - 52) = 2 ^ (L + 1) := by
  have h : (((2 : ℤ) ^ 53 : ℤ) : ℚ) = (2 : ℚ) ^ (53 : ℤ) := by norm_num
  rw [h, ← zpow_add₀ (by norm_num : (2 : ℚ) ≠ 0)]
  congr 1
  ring

theorem two_pow52_mul_zpow (L : ℤ) :
    (((2 : ℤ) ^ 52 : ℤ) : ℚ) * 2 ^ (L - 52) = 2 ^ L := by
  have h : (((2 : ℤ) ^ 52 : ℤ) : ℚ) = (2 : ℚ) ^ (52 : ℤ) := by norm_num
  rw [h, ← zpow_add₀ (by norm_num : (2 : ℚ) ≠ 0)]
  congr 1
  ring

theorem roundDouble_mono_nonneg {a b : ℚ} (ha : 0 ≤ a) (hab : a ≤ b) :
    roundDouble a ≤ roundDouble b := by
  rcases eq_or_lt_of_le ha with h0 | hpos
  · rw [← h0, roundDouble_zero]
    exact roundDouble_nonneg (le_trans ha hab)
  have hbpos : 0 < b := lt_of_lt_of_le hpos hab
  have hlog : Int.log 2 a ≤ Int.log 2 b := Int.log_mono_right hpos hab
  have hea : ulpExponent a = max (Int.log 2 a) (-1022) - 52 := by
    unfold ulpExponent; rw [abs_of_pos hpos]
  have heb : ulpExponent b = max (Int.log 2 b) (-1022) - 52 := by
    unfold ulpExponent; rw [abs_of_pos hbpos]
  have hle : ulpExponent a ≤ ulpExponent b := by
    rw [hea, heb]
    have := max_le_max hlog (le_refl (-1022 : ℤ))
    omega
  rcases eq_or_lt_of_le hle with heq | hlt
  · unfold roundDouble
    rw [heq]
    have hp := ulp_pos b
    have h1 : a / 2 ^ ulpExponent b ≤ b / 2 ^ ulpExponent b :=
      div_le_div_of_nonneg_right hab hp.le
    have h2 := roundHalfEven_mono h1
    have h3 : (roundHalfEven (a / 2 ^ ulpExponent b) : ℚ)
        ≤ (roundHalfEven (b / 2 ^ ulpExponent b) : ℚ) := by exact_mod_cast h2
    exact mul_le_mul_of_nonneg_right h3 hp.le
  · -- different binades: the power of two between them separates the results
    have hLb : max (Int.log 2 b) (-1022) = Int.log 2 b := by
      apply max_eq_left
      by_contra hc
      rw [hea, heb] at hlt
      rw [max_eq_right (by omega : Int.log 2 b ≤ -1022)] at hlt
      have := le_max_right (Int.log 2 a) (-1022)
      omega
    have hLa : max (Int.log 2 a) (-1022) + 1 ≤ Int.log 2 b := by
      rw [hea, heb, hLb] at hlt
      omega
    -- upper bound for the rounding of a
    have h2 : (2 : ℚ) ≠ 0 := by norm_num
    have ha_lt : a < 2 ^ (max (Int.log 2 a) (-1022) + 1) := by
      have h := Int.lt_zpow_succ_log_self (R := ℚ) (b := 2) (by norm_num) a
      have h' : a < (2 : ℚ) ^ (Int.log 2 a + 1) := by simpa using h
      refine lt_of_lt_of_le h' (zpow_le_zpow_right₀ (by norm_num) ?_)
      have := le_max_left (Int.log 2 a) (-1022)
      omega
    have hpa := ulp_pos a
    have hda : a / 2 ^ ulpExponent a ≤ ((2 ^ 53 : ℤ) : ℚ) := by
      rw [div_le_iff₀ hpa]
      have e : (((2 : ℤ) ^ 53 : ℤ) : ℚ) * 2 ^ ulpExponent a
          = 2 ^ (max (Int.log 2 a) (-1022) + 1) := by
        rw [hea]
        exact two_pow53_mul_zpow _
      rw [e]
      exact ha_lt.le
    have hra : roundDouble a ≤ 2 ^ (max (Int.log 2 a) (-1022) + 1) := by
      have h3 := roundHalfEven_mono hda
      rw [roundHalfEven_intCast] at h3
      have h4 : (roundHalfEven (a / 2 ^ ulpExponent a) : ℚ) ≤ ((2 ^ 53 : ℤ) : ℚ) := by
        exact_mod_cast h3
      unfold roundDouble
      calc (roundHalfEven (a / 2 ^ ulpExponent a) : ℚ) * 2 ^ ulpExponent a
          ≤ ((2 ^ 53 : ℤ) : ℚ) * 2 ^ ulpExponent a := mul_le_mul_of_nonneg_right h4 hpa.le
        _ = 2 ^ (max (Int.log 2 a) (-1022) + 1) := by
          rw [hea]
          exact two_pow53_mul_zpow _
    -- lower bound for the rounding of b
    have hb_ge : (2 : ℚ) ^ Int.log 2 b ≤ b := by
      have h := Int.zpow_log_le_self (R := ℚ) (b := 2) (by norm_num) hbpos
      simpa using h
    have hpb := ulp_pos b
    have hdb : ((2 ^ 52 : ℤ) : ℚ) ≤ b / 2 ^ ulpExponent b := by
      rw [le_div_iff₀ hpb]
      have e : (((2 : ℤ) ^ 52 : ℤ) : ℚ) * 2 ^ ulpExponent b = 2 ^ Int.log 2 b := by
        rw [heb, hLb]
        exact two_pow52_mul_zpow _
      rw [e]
      exact hb_ge
    have hrb : (2 : ℚ) ^ Int.log 2 b ≤ roundDouble b := by
      have h3 := roundHalfEven_mono hdb
      rw [roundHalfEven_intCast] at h3
      have h4 : ((2 ^ 52 : ℤ) : ℚ) ≤ (roundHalfEven (b / 2 ^ ulpExponent b) : ℚ) := by
        exact_mod_cast h3
      unfold roundDouble
      calc (2 : ℚ) ^ Int.log 2 b = ((2 ^ 52 : ℤ) : ℚ) * 2 ^ ulpExponent b := by
            rw [heb, hLb]
            exact (two_pow52_mul_zpow _).symm
        _ ≤ (roundHalfEven (b / 2 ^ ulpExponent b) : ℚ) * 2 ^ ulpExponent b :=
            mul_le_mul_of_nonneg_right h4 hpb.le
    calc roundDouble a ≤ 2 ^ (max (Int.log 2 a) (-1022) + 1) := hra
      _ ≤ 2 ^ Int.log 2 b := zpow_le_zpow_right₀ (by norm_num) hLa
      _ ≤ roundDouble b := hrb

/-- The rounding error of one operation: at most 2^-53 relative to the exact result,
or half the smallest subnormal. -/
theorem roundDouble_error (q : ℚ) :
    |roundDouble q - q| ≤ |q| / 2 ^ 53 + 1 / 2 ^ 1075 := by
  by_cases hq : q = 0
  · subst hq
    rw [roundDouble_zero]
    simp
  have habs : 0 < |q| := abs_pos.mpr hq
  have h := roundDouble_abs_sub_le q
  have hL : (2 : ℚ) ^ Int.log 2 |q| ≤ |q| := by
    have h := Int.zpow_log_le_self (R := ℚ) (b := 2) (by norm_num) habs
    simpa using h
  refine le_trans h ?_
  unfold ulpExponent
  by_cases hc : -1022 ≤ Int.log 2 |q|
  · rw [max_eq_left hc, zpow_sub₀ (by norm_num : (2 : ℚ) ≠ 0)]
    have e : (2 : ℚ) ^ (52 : ℤ) = 2 ^ 52 := by norm_num
    rw [e]
    have h1 : (2 : ℚ) ^ Int.log 2 |q| / 2 ^ 52 / 2 = (2 : ℚ) ^ Int.log 2 |q| / 2 ^ 53 := by
      ring
    rw [h1]
    have h2 : (2 : ℚ) ^ Int.log 2 |q| / 2 ^ 53 ≤ |q| / 2 ^ 53 :=
      div_le_div_of_nonneg_right hL (by positivity)
    have h3 : (0 : ℚ) ≤ 1 / 2 ^ 1075 := by positivity
    linarith
  · rw [max_eq_right (by omega)]
    have e : (2 : ℚ) ^ ((-1022 : ℤ) - 52) / 2 = 1 / 2 ^ 1075 := by norm_num
    rw [e]
    have h3 : (0 : ℚ) ≤ |q| / 2 ^ 53 := by positivity
    linarith

theorem abs_roundDouble_sub_le {x y e b : ℚ} (h1 : |x - y| ≤ e) (h2 : |x| ≤ b) :
    |roundDouble x - y| ≤ e + b / 2 ^ 53 + 1 / 2 ^ 1075 := by
  have h := roundDouble_error x
  have h3 : |roundDouble x - y| ≤ |roundDouble x - x| + |x - y| := abs_sub_le _ _ _
  have h4 : |x| / 2 ^ 53 ≤ b / 2 ^ 53 := div_le_div_of_nonneg_right h2 (by positivity)
  linarith

theorem abs_le_of_abs_sub_le {x y e b : ℚ} (h1 : |x - y| ≤ e) (h2 : |y| ≤ b) :
    |x| ≤ b + e := by
  have h : |x| ≤ |x - y| + |y| := by
    have := abs_add (x - y) y
    simpa using this
  linarith

/-! ### Score computation -/

theorem toFixed2_nonneg_eq (x : ℚ) (hx : 0 ≤ x) :
    toFixed2 x = ((⌊x * 100 + 1 / 2⌋ : ℤ) : ℚ) / 100 := by
  unfold toFixed2
  rw [if_neg (not_lt.mpr hx)]

/-- Rounding to two decimals yields a multiple of 1/100 within 1/200 of the argument. -/
theorem toFixed2_spec (x : ℚ) :
    (∃ n : ℤ, toFixed2 x = (n : ℚ) / 100) ∧ |toFixed2 x - x| ≤ 1 / 200 := by
  unfold toFixed2
  split_ifs with h
  · refine ⟨⟨-⌊(-x) * 100 + 1 / 2⌋, by push_cast; ring⟩, ?_⟩
    have h1 := Int.floor_le ((-x) * 100 + 1 / 2)
    have h2 := Int.lt_floor_add_one ((-x) * 100 + 1 / 2)
    rw [abs_le]
    constructor <;> linarith
  · refine ⟨⟨⌊x * 100 + 1 / 2⌋, rfl⟩, ?_⟩
    have h1 := Int.floor_le (x * 100 + 1 / 2)
    have h2 := Int.lt_floor_add_one (x * 100 + 1 / 2)
    rw [abs_le]
    constructor <;> linarith

theorem toFixed2_zero : toFixed2 0 = 0 := by
  unfold toFixed2
  norm_num

theorem mem_scoreAttendance_iff (policy : AttendancePolicy) (sessionIds studentIds : List Nat)
    (table : List Attendance) (r : ScoreRow) :
    r ∈ scoreAttendance policy sessionIds studentIds table ↔
      ∃ sid ∈ studentIds,
        r = scoreRow policy sessionIds.length sid
          (countByStudent policy
            (buildStatusMap studentIds (attendancesOfSessions sessionIds table))
            sessionIds studentIds sid) := by
  unfold scoreAttendance scoreRowsUnsorted
  rw [List.mem_mergeSort, List.mem_map]
  constructor
  · rintro ⟨sid, hs, rfl⟩
    exact ⟨sid, hs, rfl⟩
  · rintro ⟨sid, hs, rfl⟩
    exact ⟨sid, hs, rfl⟩

theorem countStatus_total (policy : AttendancePolicy) (c : StatusCounts) (st : Option Nat) :
    (countStatus policy c st).total = c.total + 1 := by
  unfold countStatus StatusCounts.total
  split_ifs <;> simp only <;> omega

theorem countSessions_total (policy : AttendancePolicy) (statusMap : Nat → Nat → Option Nat)
    (sessionIds : List Nat) (sid : Nat) (c : StatusCounts) :
    (countSessions policy statusMap sessionIds sid c).total = c.total + sessionIds.length := by
  unfold countSessions
  induction sessionIds generalizing c with
  | nil => simp
  | cons s rest ih =>
    simp only [List.foldl_cons, List.length_cons]
    rw [ih, countStatus_total]
    omega

theorem countByStudent_not_mem (policy : AttendancePolicy) (statusMap : Nat → Nat → Option Nat)
    (sessionIds studentIds : List Nat) (init : Nat → StatusCounts) (sid : Nat)
    (h : sid ∉ studentIds) :
    studentIds.foldl
      (fun byStudent s =>
        Function.update byStudent s (countSessions policy statusMap sessionIds s (byStudent s)))
      init sid = init sid := by
  induction studentIds generalizing init with
  | nil => rfl
  | cons s rest ih =>
    simp only [List.mem_cons, not_or] at h
    simp only [List.foldl_cons]
    rw [ih _ h.2, Function.update_noteq h.1]

theorem countByStudent_nodup (policy : AttendancePolicy) (statusMap : Nat → Nat → Option Nat)
    (sessionIds studentIds : List Nat) (init : Nat → StatusCounts) (sid : Nat)
    (hnd : studentIds.Nodup) (h : sid ∈ studentIds) :
    studentIds.foldl
      (fun byStudent s =>
        Function.update byStudent s (countSessions policy statusMap sessionIds s (byStudent s)))
      init sid = countSessions policy statusMap sessionIds sid (init sid) := by
  induction studentIds generalizing init with
  | nil => simp at h
  | cons s rest ih =>
    rw [List.nodup_cons] at hnd
    simp only [List.foldl_cons]
    rcases List.mem_cons.mp h with rfl | hmem
    · rw [countByStudent_not_mem _ _ _ _ _ _ hnd.1, Function.update_same]
    · have hne : sid ≠ s := fun e => hnd.1 (e ▸ hmem)
      rw [ih _ hnd.2 hmem, Function.update_noteq hne]

theorem countByStudent_total (policy : AttendancePolicy) (statusMap : Nat → Nat → Option Nat)
    (sessionIds studentIds : List Nat) (sid : Nat)
    (hnd : studentIds.Nodup) (h : sid ∈ studentIds) :
    (countByStudent policy statusMap sessionIds studentIds sid).total = sessionIds.length := by
  unfold countByStudent
  rw [countByStudent_nodup _ _ _ _ _ _ hnd h, countSessions_total]
  simp [StatusCounts.zero, StatusCounts.total]

theorem toFixed2_bounds (x : ℚ) (M : Nat) (h0 : 0 ≤ x) (h1 : x ≤ (M : ℚ)) :
    0 ≤ toFixed2 x ∧ toFixed2 x ≤ (M : ℚ) := by
  rw [toFixed2_nonneg_eq x h0]
  constructor
  · apply div_nonneg _ (by norm_num)
    have : (0 : ℤ) ≤ ⌊x * 100 + 1 / 2⌋ := Int.floor_nonneg.mpr (by linarith)
    exact_mod_cast this
  · have hlt : ⌊x * 100 + 1 / 2⌋ < (100 * (M : ℤ) + 1) := by
      rw [Int.floor_lt]
      push_cast
      linarith
    have hle : ⌊x * 100 + 1 / 2⌋ ≤ 100 * (M : ℤ) := by omega
    have hq : ((⌊x * 100 + 1 / 2⌋ : ℤ) : ℚ) ≤ 100 * (M : ℚ) := by exact_mod_cast hle
    rw [div_le_iff₀ (by norm_num)]
    linarith

theorem roundDouble_one : roundDouble 1 = 1 := by
  simpa using roundDouble_natCast 1 (by norm_num)

theorem roundDouble_le_natCast {x : ℚ} {n : Nat} (h0 : 0 ≤ x) (h : x ≤ (n : ℚ))
    (hn : n < 2 ^ 53) : roundDouble x ≤ (n : ℚ) := by
  have h1 := roundDouble_mono_nonneg h0 h
  rwa [roundDouble_natCast n hn] at h1

theorem jsNumber_unit {w : ℚ} (h : 0 ≤ w ∧ w ≤ 1) : 0 ≤ jsNumber w ∧ jsNumber w ≤ 1 := by
  unfold jsNumber
  refine ⟨roundDouble_nonneg h.1, ?_⟩
  have h1 := roundDouble_mono_nonneg h.1 h.2
  rwa [roundDouble_one] at h1

theorem jsMul_count_weight (c : Nat) {W : ℚ} (hc : c < 2 ^ 53) (hW : 0 ≤ W ∧ W ≤ 1) :
    0 ≤ jsMul (c : ℚ) W ∧ jsMul (c : ℚ) W ≤ (c : ℚ) := by
  unfold jsMul
  have c0 : (0 : ℚ) ≤ (c : ℚ) := by positivity
  have h0 : 0 ≤ (c : ℚ) * W := mul_nonneg c0 hW.1
  have h1 : (c : ℚ) * W ≤ (c : ℚ) := mul_le_of_le_one_right c0 hW.2
  exact ⟨roundDouble_nonneg h0, roundDouble_le_natCast h0 h1 hc⟩

theorem jsAdd_le_natCast {a b : ℚ} {m n : Nat} (ha : 0 ≤ a ∧ a ≤ (m : ℚ))
    (hb : 0 ≤ b ∧ b ≤ (n : ℚ)) (h : m + n < 2 ^ 53) :
    0 ≤ jsAdd a b ∧ jsAdd a b ≤ ((m + n : Nat) : ℚ) := by
  unfold jsAdd
  have h0 : 0 ≤ a + b := add_nonneg ha.1 hb.1
  have h1 : a + b ≤ ((m + n : Nat) : ℚ) := by
    push_cast
    linarith [ha.2, hb.2]
  exact ⟨roundDouble_nonneg h0, roundDouble_le_natCast h0 h1 h⟩

theorem numberToFixed2_bounds (x : ℚ) (M : Nat) (hM : M < 2 ^ 53) (h0 : 0 ≤ x)
    (h1 : x ≤ (M : ℚ)) : 0 ≤ numberToFixed2 x ∧ numberToFixed2 x ≤ (M : ℚ) := by
  unfold numberToFixed2
  by_cases hbig : (10 : ℚ) ^ 21 ≤ |x|
  · rw [if_pos hbig]
    exact ⟨h0, h1⟩
  · rw [if_neg hbig]
    have hb := toFixed2_bounds x M h0 h1
    exact ⟨roundDouble_nonneg hb.1, roundDouble_le_natCast hb.1 hb.2 hM⟩

theorem numberToFixed2_zero : numberToFixed2 0 = 0 := by
  unfold numberToFixed2
  rw [if_neg (by norm_num), toFixed2_zero, roundDouble_zero]

theorem scoreRow_bounds (policy : AttendancePolicy) (N sid : Nat) (cnt : StatusCounts)
    (hP : 0 ≤ policy.wPresent ∧ policy.wPresent ≤ 1)
    (hL : 0 ≤ policy.wLate ∧ policy.wLate ≤ 1)
    (hA : 0 ≤ policy.wAbsent ∧ policy.wAbsent ≤ 1)
    (hE : 0 ≤ policy.wExcused ∧ policy.wExcused ≤ 1)
    (hN53 : N < 2 ^ 53) (hM53 : policy.maxScore < 2 ^ 53)
    (hN : cnt.total = N) :
    0 ≤ (scoreRow policy N sid cnt).score ∧
      (scoreRow policy N sid cnt).score ≤ (policy.maxScore : ℚ) := by
  simp only [scoreRow]
  have hkpos : 0 < (if policy.lateToAbsent = 0 then 1 else policy.lateToAbsent) := by
    split_ifs <;> omega
  generalize (if policy.lateToAbsent = 0 then 1 else policy.lateToAbsent) = k at hkpos ⊢
  by_cases hpos : N > 0
  swap
  · rw [if_neg hpos, numberToFixed2_zero]
    exact ⟨le_refl _, by positivity⟩
  rw [if_pos hpos]
  have hconv : cnt.late % k + cnt.late / k ≤ cnt.late := by
    have := Nat.mod_add_div cnt.late k
    have h2 : cnt.late / k ≤ k * (cnt.late / k) := Nat.le_mul_of_pos_left _ hkpos
    omega
  generalize cnt.late / k = dv at hconv ⊢
  generalize cnt.late % k = md at hconv ⊢
  have hsum : cnt.present + md + (cnt.absent + dv) + cnt.excused ≤ N := by
    unfold StatusCounts.total at hN
    omega
  have c1 : cnt.present ≤ N := by omega
  have c2 : md ≤ N := by omega
  have c3 : cnt.absent + dv ≤ N := by omega
  have c4 : cnt.excused ≤ N := by omega
  have c12 : cnt.present + md ≤ N := by omega
  have c123 : cnt.present + md + (cnt.absent + dv) ≤ N := by omega
  have b1 := jsMul_count_weight cnt.present (lt_of_le_of_lt c1 hN53) (jsNumber_unit hP)
  have b2 := jsMul_count_weight md (lt_of_le_of_lt c2 hN53) (jsNumber_unit hL)
  have b3 := jsMul_count_weight (cnt.absent + dv) (lt_of_le_of_lt c3 hN53)
    (jsNumber_unit hA)
  have b4 := jsMul_count_weight cnt.excused (lt_of_le_of_lt c4 hN53) (jsNumber_unit hE)
  have s2 := jsAdd_le_natCast b1 b2 (lt_of_le_of_lt c12 hN53)
  have s3 := jsAdd_le_natCast s2 b3 (lt_of_le_of_lt c123 hN53)
  have s4 := jsAdd_le_natCast s3 b4 (lt_of_le_of_lt hsum hN53)
  generalize jsAdd
      (jsAdd
        (jsAdd (jsMul (cnt.present : ℚ) (jsNumber policy.wPresent))
          (jsMul (md : ℚ) (jsNumber policy.wLate)))
        (jsMul ((cnt.absent + dv : Nat) : ℚ) (jsNumber policy.wAbsent)))
      (jsMul (cnt.excused : ℚ) (jsNumber policy.wExcused)) = raw at s4 ⊢
  have hNq : (0 : ℚ) < (N : ℚ) := by exact_mod_cast hpos
  have hrawN : raw ≤ (N : ℚ) := by
    refine le_trans s4.2 ?_
    exact_mod_cast hsum
  have hq0 : 0 ≤ raw / (N : ℚ) := div_nonneg s4.1 hNq.le
  have hq1 : raw / (N : ℚ) ≤ ((1 : Nat) : ℚ) := by
    rw [Nat.cast_one, div_le_one hNq]
    exact hrawN
  have hQ0 : 0 ≤ jsDiv raw (N : ℚ) := roundDouble_nonneg hq0
  have hQ1 : jsDiv raw (N : ℚ) ≤ 1 := by
    have := roundDouble_le_natCast hq0 hq1 (by norm_num)
    simpa [jsDiv] using this
  have hMq : (0 : ℚ) ≤ (policy.maxScore : ℚ) := by positivity
  have hMd : jsNumber (policy.maxScore : ℚ) = (policy.maxScore : ℚ) :=
    roundDouble_natCast _ hM53
  rw [hMd]
  have hx0 : 0 ≤ jsDiv raw (N : ℚ) * (policy.maxScore : ℚ) := mul_nonneg hQ0 hMq
  have hx1 : jsDiv raw (N : ℚ) * (policy.maxScore : ℚ) ≤ (policy.maxScore : ℚ) :=
    mul_le_of_le_one_left hMq hQ1
  apply numberToFixed2_bounds _ _ hM53
  · exact roundDouble_nonneg hx0
  · exact roundDouble_le_natCast hx0 hx1 hM53

theorem roundDouble_ofNat (n : Nat) [n.AtLeastTwo] (h : n < 2 ^ 53) :
    roundDouble (OfNat.ofNat n : ℚ) = OfNat.ofNat n := by
  have := roundDouble_natCast n h
  simpa using this

theorem roundDouble_half : roundDouble (1 / 2) = 1 / 2 := by
  rw [roundDouble_eq (-1) (2 ^ 52) (by norm_num) (by norm_num [abs_of_nonneg])
    (by norm_num [abs_of_nonneg])
    (roundHalfEven_eq_of_abs_lt _ _ (by norm_num))]
  norm_num

theorem roundDouble_seven_tenths :
    roundDouble (7 / 10) = 6305039478318694 / 2 ^ 53 := by
  rw [roundDouble_eq (-1) 6305039478318694 (by norm_num) (by norm_num [abs_of_nonneg])
    (by norm_num [abs_of_nonneg])
    (roundHalfEven_eq_of_abs_lt _ _ (by norm_num [abs_lt]))]
  norm_num

theorem roundDouble_fourteen_tie :
    roundDouble (6305039478318694 / 2 ^ 53 * 20) = 14 := by
  rw [roundDouble_eq 3 7881299347898368 (by norm_num) (by norm_num [abs_of_nonneg])
    (by norm_num [abs_of_nonneg])
    (roundHalfEven_tie_up _ _ (by norm_num) (by norm_num))]
  norm_num

theorem scoreRow_example :
    scoreRow defaultPolicy 10 7 ⟨6, 3, 0, 1, 0⟩ = exampleScoreRow := by
  have h6 : roundDouble 6 = 6 := roundDouble_ofNat 6 (by norm_num)
  have h7 : roundDouble 7 = 7 := roundDouble_ofNat 7 (by norm_num)
  have h14 : roundDouble 14 = 14 := roundDouble_ofNat 14 (by norm_num)
  have h20 : roundDouble 20 = 20 := roundDouble_ofNat 20 (by norm_num)
  have hraw : roundDouble (roundDouble (roundDouble (roundDouble (6 * roundDouble 1)
      + roundDouble 0) + roundDouble (roundDouble 0)) + roundDouble (roundDouble 1)) = 7 := by
    simp only [roundDouble_one, roundDouble_zero, mul_one, add_zero, h6]
    norm_num
    exact h7
  have hfix : numberToFixed2 14 = 14 := by
    unfold numberToFixed2
    rw [if_neg (by norm_num)]
    have e : toFixed2 14 = 14 := by
      unfold toFixed2
      norm_num
    rw [e, h14]
  simp only [scoreRow, defaultPolicy, exampleScoreRow, jsNumber, jsMul, jsAdd, jsDiv]
  norm_num
  rw [hraw, roundDouble_seven_tenths, h20, roundDouble_fourteen_tie, hfix]
  exact ⟨rfl, rfl⟩

/-- The score route on the scoring example returns the single row of student 7. -/
theorem scoreAttendance_example :
    scoreAttendance defaultPolicy [1, 2, 3, 4, 5, 6, 7, 8, 9, 10] [7] exampleScoreTable
      = [exampleScoreRow] := by
  have hc : countByStudent defaultPolicy
      (buildStatusMap [7] (attendancesOfSessions [1, 2, 3, 4, 5, 6, 7, 8, 9, 10] exampleScoreTable))
      [1, 2, 3, 4, 5, 6, 7, 8, 9, 10] [7] 7 = ⟨6, 3, 0, 1, 0⟩ := by decide
  unfold scoreAttendance scoreRowsUnsorted
  simp only [List.map, List.mergeSort_singleton, hc, List.length_cons, List.length_nil]
  exact congrArg (fun r => [r]) scoreRow_example

theorem abs_roundDouble_le {x b : ℚ} (h : |x| ≤ b) :
    |roundDouble x| ≤ b + b / 2 ^ 53 + 1 / 2 ^ 1075 := by
  have h1 := roundDouble_error x
  have h2 := abs_le_of_abs_sub_le h1 (le_refl |x|)
  have h4 : |x| / 2 ^ 53 ≤ b / 2 ^ 53 := div_le_div_of_nonneg_right h (by positivity)
  linarith

theorem jsNumber_weight_error {w : ℚ} (hw : |w| ≤ 1000) :
    |jsNumber w - w| ≤ 1000 / 2 ^ 53 + 1 / 2 ^ 1075 := by
  unfold jsNumber
  have h := roundDouble_error w
  have h4 : |w| / 2 ^ 53 ≤ 1000 / 2 ^ 53 := div_le_div_of_nonneg_right hw (by positivity)
  linarith

theorem jsMul_count_error (c : Nat) {W w : ℚ} (hw : |w| ≤ 1000)
    (hWw : |W - w| ≤ 1000 / 2 ^ 53 + 1 / 2 ^ 1075) :
    |jsMul (c : ℚ) W - (c : ℚ) * w| ≤ (c : ℚ) * (2002 / 2 ^ 53) + 1 / 2 ^ 1075 ∧
      |jsMul (c : ℚ) W| ≤ (c : ℚ) * 1002 + 1 / 2 ^ 1075 := by
  unfold jsMul
  have c0 : (0 : ℚ) ≤ (c : ℚ) := by positivity
  have hW : |W| ≤ 1001 := by
    have h := abs_le_of_abs_sub_le hWw hw
    have e : (1000 : ℚ) + (1000 / 2 ^ 53 + 1 / 2 ^ 1075) ≤ 1001 := by norm_num
    linarith
  have h1 : |(c : ℚ) * W - (c : ℚ) * w| ≤ (c : ℚ) * (1000 / 2 ^ 53 + 1 / 2 ^ 1075) := by
    rw [← mul_sub, abs_mul, abs_of_nonneg c0]
    exact mul_le_mul_of_nonneg_left hWw c0
  have h2 : |(c : ℚ) * W| ≤ (c : ℚ) * 1001 := by
    rw [abs_mul, abs_of_nonneg c0]
    exact mul_le_mul_of_nonneg_left hW c0
  have h3 := abs_roundDouble_sub_le h1 h2
  have h4 := abs_roundDouble_le h2
  have e1 : (c : ℚ) * (1000 / 2 ^ 53 + 1 / 2 ^ 1075) + (c : ℚ) * 1001 / 2 ^ 53
      ≤ (c : ℚ) * (2002 / 2 ^ 53) := by
    have : (c : ℚ) * (2002 / 2 ^ 53) - ((c : ℚ) * (1000 / 2 ^ 53 + 1 / 2 ^ 1075)
        + (c : ℚ) * 1001 / 2 ^ 53) = (c : ℚ) * (1 / 2 ^ 53 - 1 / 2 ^ 1075) := by ring
    have hpos : (0 : ℚ) ≤ 1 / 2 ^ 53 - 1 / 2 ^ 1075 := by norm_num
    have := mul_nonneg c0 hpos
    linarith
  have e2 : (c : ℚ) * 1001 + (c : ℚ) * 1001 / 2 ^ 53 ≤ (c : ℚ) * 1002 := by
    have : (c : ℚ) * 1002 - ((c : ℚ) * 1001 + (c : ℚ) * 1001 / 2 ^ 53)
        = (c : ℚ) * (1 - 1001 / 2 ^ 53) := by ring
    have hpos : (0 : ℚ) ≤ 1 - 1001 / 2 ^ 53 := by norm_num
    have := mul_nonneg c0 hpos
    linarith
  constructor <;> linarith

theorem jsAdd_error {a b A B ea eb ma mb : ℚ} (ha : |a - A| ≤ ea) (hb : |b - B| ≤ eb)
    (hma : |a| ≤ ma) (hmb : |b| ≤ mb) :
    |jsAdd a b - (A + B)| ≤ ea + eb + (ma + mb) / 2 ^ 53 + 1 / 2 ^ 1075 ∧
      |jsAdd a b| ≤ (ma + mb) + (ma + mb) / 2 ^ 53 + 1 / 2 ^ 1075 := by
  unfold jsAdd
  have h1 : |a + b - (A + B)| ≤ ea + eb := by
    have e : a + b - (A + B) = (a - A) + (b - B) := by ring
    rw [e]
    exact le_trans (abs_add _ _) (add_le_add ha hb)
  have h2 : |a + b| ≤ ma + mb := le_trans (abs_add _ _) (add_le_add hma hmb)
  exact ⟨abs_roundDouble_sub_le h1 h2, abs_roundDouble_le h2⟩

/-- Accumulated rounding error of the raw score for weights of magnitude at most 1000. -/
theorem score_raw_error (c1 c2 c3 c4 N : Nat) (w1 w2 w3 w4 : ℚ)
    (h1 : |w1| ≤ 1000) (h2 : |w2| ≤ 1000) (h3 : |w3| ≤ 1000) (h4 : |w4| ≤ 1000)
    (hC : c1 + c2 + c3 + c4 ≤ N) :
    |jsAdd (jsAdd (jsAdd (jsMul (c1 : ℚ) (jsNumber w1)) (jsMul (c2 : ℚ) (jsNumber w2)))
          (jsMul (c3 : ℚ) (jsNumber w3))) (jsMul (c4 : ℚ) (jsNumber w4))
        - ((c1 : ℚ) * w1 + (c2 : ℚ) * w2 + (c3 : ℚ) * w3 + (c4 : ℚ) * w4)|
      ≤ (N : ℚ) * (5011 / 2 ^ 53) + 10 * (1 / 2 ^ 1075) ∧
    |jsAdd (jsAdd (jsAdd (jsMul (c1 : ℚ) (jsNumber w1)) (jsMul (c2 : ℚ) (jsNumber w2)))
          (jsMul (c3 : ℚ) (jsNumber w3))) (jsMul (c4 : ℚ) (jsNumber w4))|
      ≤ (N : ℚ) * 1005 + 10 * (1 / 2 ^ 1075) ∧
    |(c1 : ℚ) * w1 + (c2 : ℚ) * w2 + (c3 : ℚ) * w3 + (c4 : ℚ) * w4| ≤ 1000 * (N : ℚ) := by
  obtain ⟨p1e, p1m⟩ := jsMul_count_error c1 h1 (jsNumber_weight_error h1)
  obtain ⟨p2e, p2m⟩ := jsMul_count_error c2 h2 (jsNumber_weight_error h2)
  obtain ⟨p3e, p3m⟩ := jsMul_count_error c3 h3 (jsNumber_weight_error h3)
  obtain ⟨p4e, p4m⟩ := jsMul_count_error c4 h4 (jsNumber_weight_error h4)
  obtain ⟨s2e, s2m⟩ := jsAdd_error p1e p2e p1m p2m
  obtain ⟨s3e, s3m⟩ := jsAdd_error s2e p3e s2m p3m
  obtain ⟨s4e, s4m⟩ := jsAdd_error s3e p4e s3m p4m
  generalize jsAdd (jsAdd (jsAdd (jsMul (c1 : ℚ) (jsNumber w1)) (jsMul (c2 : ℚ) (jsNumber w2)))
          (jsMul (c3 : ℚ) (jsNumber w3))) (jsMul (c4 : ℚ) (jsNumber w4)) = raw at s4e s4m ⊢
  clear p1e p1m p2e p2m p3e p3m p4e p4m s2e s2m s3e s3m
  have d1 : (0 : ℚ) ≤ (c1 : ℚ) := by positivity
  have d2 : (0 : ℚ) ≤ (c2 : ℚ) := by positivity
  have d3 : (0 : ℚ) ≤ (c3 : ℚ) := by positivity
  have d4 : (0 : ℚ) ≤ (c4 : ℚ) := by positivity
  have hCq : (c1 : ℚ) + (c2 : ℚ) + (c3 : ℚ) + (c4 : ℚ) ≤ (N : ℚ) := by exact_mod_cast hC
  have hE : |(c1 : ℚ) * w1 + (c2 : ℚ) * w2 + (c3 : ℚ) * w3 + (c4 : ℚ) * w4|
      ≤ 1000 * (N : ℚ) := by
    have a1 : |(c1 : ℚ) * w1| ≤ (c1 : ℚ) * 1000 := by
      rw [abs_mul, abs_of_nonneg d1]; exact mul_le_mul_of_nonneg_left h1 d1
    have a2 : |(c2 : ℚ) * w2| ≤ (c2 : ℚ) * 1000 := by
      rw [abs_mul, abs_of_nonneg d2]; exact mul_le_mul_of_nonneg_left h2 d2
    have a3 : |(c3 : ℚ) * w3| ≤ (c3 : ℚ) * 1000 := by
      rw [abs_mul, abs_of_nonneg d3]; exact mul_le_mul_of_nonneg_left h3 d3
    have a4 : |(c4 : ℚ) * w4| ≤ (c4 : ℚ) * 1000 := by
      rw [abs_mul, abs_of_nonneg d4]; exact mul_le_mul_of_nonneg_left h4 d4
    have t1 := abs_add ((c1 : ℚ) * w1 + (c2 : ℚ) * w2 + (c3 : ℚ) * w3) ((c4 : ℚ) * w4)
    have t2 := abs_add ((c1 : ℚ) * w1 + (c2 : ℚ) * w2) ((c3 : ℚ) * w3)
    have t3 := abs_add ((c1 : ℚ) * w1) ((c2 : ℚ) * w2)
    linarith only [a1, a2, a3, a4, t1, t2, t3, hCq]
  refine ⟨?_, ?_, hE⟩
  · generalize (c1 : ℚ) * w1 + (c2 : ℚ) * w2 + (c3 : ℚ) * w3 + (c4 : ℚ) * w4 = rawE at s4e ⊢
    have hH0 : (0 : ℚ) < 1 / 2 ^ 1075 := by positivity
    generalize (1 : ℚ) / 2 ^ 1075 = H at s4e hH0 ⊢
    norm_num at s4e ⊢
    linarith only [s4e, d1, d2, d3, d4, hCq, hH0]
  · have hH0 : (0 : ℚ) < 1 / 2 ^ 1075 := by positivity
    generalize (1 : ℚ) / 2 ^ 1075 = H at s4m hH0 ⊢
    norm_num at s4m ⊢
    linarith only [s4m, d1, d2, d3, d4, hCq, hH0]

/-- Rounding error of the normalisation `(raw / N) * maxScore` given the error of `raw`. -/
theorem score_norm_error (N M : Nat) (raw rawE : ℚ) (hN : 0 < N) (hM : M < 2 ^ 31)
    (hrawe : |raw - rawE| ≤ (N : ℚ) * (5011 / 2 ^ 53) + 10 * (1 / 2 ^ 1075))
    (hrawm : |raw| ≤ (N : ℚ) * 1005 + 10 * (1 / 2 ^ 1075))
    (hE : |rawE| ≤ 1000 * (N : ℚ)) :
    |jsMul (jsDiv raw (N : ℚ)) (jsNumber (M : ℚ)) - rawE / (N : ℚ) * (M : ℚ)| ≤ 1 / 500 ∧
    |jsMul (jsDiv raw (N : ℚ)) (jsNumber (M : ℚ))| < 10 ^ 21 := by
  have hMd : jsNumber (M : ℚ) = (M : ℚ) :=
    roundDouble_natCast M (lt_trans hM (by norm_num))
  rw [hMd]
  have hN1 : (1 : ℚ) ≤ (N : ℚ) := by exact_mod_cast hN
  have hNpos : (0 : ℚ) < (N : ℚ) := by linarith only [hN1]
  have hM0 : (0 : ℚ) ≤ (M : ℚ) := by positivity
  have hMq : (M : ℚ) ≤ 2147483648 := by
    have : M ≤ 2147483648 := hM.le
    exact_mod_cast this
  have hH0 : (0 : ℚ) < 1 / 2 ^ 1075 := by positivity
  have hH1 : (1 : ℚ) / 2 ^ 1075 ≤ 1 / 1267650600228229401496703205376 := by norm_num
  generalize hHdef : (1 : ℚ) / 2 ^ 1075 = H at hrawe hrawm hH0 hH1
  have hnn : 0 ≤ 10 * H * ((N : ℚ) - 1) :=
    mul_nonneg (mul_nonneg (by norm_num) hH0.le) (sub_nonneg.mpr hN1)
  have hqe : |raw / (N : ℚ) - rawE / (N : ℚ)| ≤ 5011 / 2 ^ 53 + 10 * H := by
    rw [← sub_div, abs_div, abs_of_pos hNpos, div_le_iff₀ hNpos]
    have : (5011 / 2 ^ 53 + 10 * H) * (N : ℚ)
        = (N : ℚ) * (5011 / 2 ^ 53) + 10 * H + 10 * H * ((N : ℚ) - 1) := by ring
    linarith only [this, hnn, hrawe]
  have hqm : |raw / (N : ℚ)| ≤ 1005 + 10 * H := by
    rw [abs_div, abs_of_pos hNpos, div_le_iff₀ hNpos]
    have : (1005 + 10 * H) * (N : ℚ)
        = (N : ℚ) * 1005 + 10 * H + 10 * H * ((N : ℚ) - 1) := by ring
    linarith only [this, hnn, hrawm]
  have hEq : |rawE / (N : ℚ)| ≤ 1000 := by
    rw [abs_div, abs_of_pos hNpos, div_le_iff₀ hNpos]
    exact hE
  have hQe : |jsDiv raw (N : ℚ) - rawE / (N : ℚ)| ≤ 6017 / 2 ^ 53 + 12 * H := by
    have h := abs_roundDouble_sub_le hqe hqm
    rw [hHdef] at h
    unfold jsDiv
    norm_num at h hH1 ⊢
    linarith only [h, hH0, hH1]
  have hQm : |jsDiv raw (N : ℚ)| ≤ 1001 := by
    have h := abs_le_of_abs_sub_le hQe hEq
    norm_num at h hH1 ⊢
    linarith only [h, hH0, hH1]
  generalize jsDiv raw (N : ℚ) = Q at hQe hQm ⊢
  generalize rawE / (N : ℚ) = qE at hQe hEq ⊢
  have hxe : |Q * (M : ℚ) - qE * (M : ℚ)| ≤ (6017 / 2 ^ 53 + 12 * H) * (M : ℚ) := by
    rw [← sub_mul, abs_mul, abs_of_nonneg hM0]
    exact mul_le_mul_of_nonneg_right hQe hM0
  have hxm : |Q * (M : ℚ)| ≤ 1001 * (M : ℚ) := by
    rw [abs_mul, abs_of_nonneg hM0]
    exact mul_le_mul_of_nonneg_right hQm hM0
  have hXe := abs_roundDouble_sub_le hxe hxm
  have hXm := abs_roundDouble_le hxm
  rw [hHdef] at hXe hXm
  have hpos : (0 : ℚ) ≤ 6017 / 2 ^ 53 + 12 * H := by
    have : (0 : ℚ) ≤ 6017 / 2 ^ 53 := by norm_num
    linarith only [this, hH0]
  have k1 : (6017 / 2 ^ 53 + 12 * H) * (M : ℚ) ≤ (6017 / 2 ^ 53 + 12 * H) * 2147483648 :=
    mul_le_mul_of_nonneg_left hMq hpos
  unfold jsMul
  constructor
  · norm_num at hXe hH1 k1 ⊢
    linarith only [hXe, hH1, k1, hMq, hH0, hM0]
  · refine lt_of_le_of_lt hXm ?_
    norm_num at hH1 ⊢
    linarith only [hH1, hMq, hH0, hM0]

/-- Two-decimal rounding of two values at most 1/500 apart gives the same decimal or
two neighbouring ones. -/
theorem toFixed2_near {x y : ℚ} (h : |x - y| ≤ 1 / 500) :
    ∃ n : ℤ, toFixed2 x = (n : ℚ) / 100 ∧ |(n : ℚ) / 100 - toFixed2 y| ≤ 1 / 100 := by
  obtain ⟨⟨n, hn⟩, hx⟩ := toFixed2_spec x
  obtain ⟨⟨m, hm⟩, hy⟩ := toFixed2_spec y
  refine ⟨n, hn, ?_⟩
  rw [hn] at hx
  rw [hm] at hy ⊢
  rw [abs_le] at h hx hy
  have h1 : ((n - m : ℤ) : ℚ) < 2 := by
    push_cast
    linarith only [h.1, h.2, hx.1, hx.2, hy.1, hy.2]
  have h2 : (-2 : ℚ) < ((n - m : ℤ) : ℚ) := by
    push_cast
    linarith only [h.1, h.2, hx.1, hx.2, hy.1, hy.2]
  have h3 : n - m < 2 := by exact_mod_cast h1
  have h4 : -2 < n - m := by exact_mod_cast h2
  have h5 : n - m ≤ 1 := by omega
  have h6 : -1 ≤ n - m := by omega
  have h7 : ((n - m : ℤ) : ℚ) ≤ 1 := by exact_mod_cast h5
  have h8 : (-1 : ℚ) ≤ ((n - m : ℤ) : ℚ) := by exact_mod_cast h6
  push_cast at h7 h8
  rw [abs_le]
  constructor <;> linarith only [h7, h8]

/-- Accuracy of one score row against the exact formula of the specification, for
DECIMAL(5,2) weights and an INTEGER `maxScore`. -/
theorem scoreRow_accuracy (policy : AttendancePolicy) (N sid : Nat) (cnt : StatusCounts)
    (hP : |policy.wPresent| ≤ 1000) (hL : |policy.wLate| ≤ 1000)
    (hA : |policy.wAbsent| ≤ 1000) (hE : |policy.wExcused| ≤ 1000)
    (hM : policy.maxScore < 2 ^ 31) (hN0 : 0 < N) (hN : cnt.total = N) :
    |(scoreRow policy N sid cnt).raw - specRaw policy (scoreRow policy N sid cnt)|
        ≤ (N : ℚ) / 10 ^ 12 ∧
      ∃ n : ℤ, (scoreRow policy N sid cnt).score = roundDouble ((n : ℚ) / 100) ∧
        |(n : ℚ) / 100 - specScore policy (scoreRow policy N sid cnt)| ≤ 1 / 100 := by
  simp only [scoreRow, specRaw, specScore]
  have hkpos : 0 < (if policy.lateToAbsent = 0 then 1 else policy.lateToAbsent) := by
    split_ifs <;> omega
  generalize (if policy.lateToAbsent = 0 then 1 else policy.lateToAbsent) = k at hkpos ⊢
  have hpos : N > 0 := hN0
  rw [if_pos hpos, if_pos hpos]
  have hconv : cnt.late % k + cnt.late / k ≤ cnt.late := by
    have := Nat.mod_add_div cnt.late k
    have h2 : cnt.late / k ≤ k * (cnt.late / k) := Nat.le_mul_of_pos_left _ hkpos
    omega
  generalize cnt.late / k = dv at hconv ⊢
  generalize cnt.late % k = md at hconv ⊢
  have hsum : cnt.present + md + (cnt.absent + dv) + cnt.excused ≤ N := by
    unfold StatusCounts.total at hN
    omega
  obtain ⟨re, rm, rE⟩ := score_raw_error cnt.present md (cnt.absent + dv) cnt.excused N
    policy.wPresent policy.wLate policy.wAbsent policy.wExcused hP hL hA hE hsum
  obtain ⟨xe, xm⟩ := score_norm_error N policy.maxScore _ _ hN0 hM re rm rE
  constructor
  · refine le_trans re ?_
    have hN1 : (1 : ℚ) ≤ (N : ℚ) := by exact_mod_cast hN0
    have hH1 : (1 : ℚ) / 2 ^ 1075 ≤ 1 / 1267650600228229401496703205376 := by norm_num
    generalize (1 : ℚ) / 2 ^ 1075 = H at hH1 ⊢
    norm_num at hH1 ⊢
    linarith only [hN1, hH1]
  · obtain ⟨n, hn, hclose⟩ := toFixed2_near xe
    refine ⟨n, ?_, hclose⟩
    unfold numberToFixed2
    rw [if_neg (not_le.mpr xm), hn]

theorem roundDouble_three_tenths :
    roundDouble (3 / 10) = 5404319552844595 / 18014398509481984 := by
  rw [roundDouble_eq (-2) 5404319552844595 (by norm_num) (by norm_num [abs_of_nonneg])
    (by norm_num [abs_of_nonneg])
    (roundHalfEven_eq_of_abs_lt _ _ (by norm_num [abs_lt]))]
  norm_num

theorem roundDouble_three_tenths_idem :
    roundDouble (5404319552844595 / 18014398509481984)
      = 5404319552844595 / 18014398509481984 := by
  rw [roundDouble_eq (-2) 5404319552844595 (by norm_num) (by norm_num [abs_of_nonneg])
    (by norm_num [abs_of_nonneg])
    (roundHalfEven_eq_of_abs_lt _ _ (by norm_num [abs_lt]))]
  norm_num

theorem roundDouble_raw_sum :
    roundDouble (2 + 5404319552844595 / 18014398509481984)
      = 2589569785738035 / 1125899906842624 := by
  rw [roundDouble_eq 1 5179139571476070 (by norm_num) (by norm_num [abs_of_nonneg])
    (by norm_num [abs_of_nonneg])
    (roundHalfEven_eq_of_abs_lt _ _ (by norm_num [abs_lt]))]
  norm_num

theorem roundDouble_raw_idem :
    roundDouble (2589569785738035 / 1125899906842624)
      = 2589569785738035 / 1125899906842624 := by
  rw [roundDouble_eq 1 5179139571476070 (by norm_num) (by norm_num [abs_of_nonneg])
    (by norm_num [abs_of_nonneg])
    (roundHalfEven_eq_of_abs_lt _ _ (by norm_num [abs_lt]))]
  norm_num

theorem roundDouble_raw_div :
    roundDouble (2589569785738035 / 1125899906842624 / 16)
      = 2589569785738035 / 18014398509481984 := by
  rw [roundDouble_eq (-3) 5179139571476070 (by norm_num) (by norm_num [abs_of_nonneg])
    (by norm_num [abs_of_nonneg])
    (roundHalfEven_eq_of_abs_lt _ _ (by norm_num [abs_lt]))]
  norm_num

theorem roundDouble_raw_scaled :
    roundDouble (2589569785738035 / 18014398509481984 * 100)
      = 8092405580431359 / 562949953421312 := by
  rw [roundDouble_eq 3 8092405580431359 (by norm_num) (by norm_num [abs_of_nonneg])
    (by norm_num [abs_of_nonneg])
    (roundHalfEven_eq_of_abs_lt _ _ (by norm_num [abs_lt]))]
  norm_num

theorem roundDouble_1437 :
    roundDouble (1437 / 100) = 8089590830664253 / 562949953421312 := by
  rw [roundDouble_eq 3 8089590830664253 (by norm_num) (by norm_num [abs_of_nonneg])
    (by norm_num [abs_of_nonneg])
    (roundHalfEven_eq_of_abs_lt _ _ (by norm_num [abs_lt]))]
  norm_num

theorem toFixed2_raw_scaled :
    toFixed2 (8092405580431359 / 562949953421312) = 1437 / 100 := by
  unfold toFixed2
  rw [if_neg (by norm_num)]
  have h : ⌊(8092405580431359 / 562949953421312 : ℚ) * 100 + 1 / 2⌋ = 1437 := by
    rw [Int.floor_eq_iff]
    constructor <;> norm_num
  rw [h]
  norm_num

theorem scoreRow_rounding_example :
    scoreRow exampleRoundingPolicy 16 7 ⟨2, 1, 13, 0, 0⟩ = exampleRoundingRow := by
  have h2 : roundDouble 2 = 2 := roundDouble_ofNat 2 (by norm_num)
  have h100 : roundDouble 100 = 100 := roundDouble_ofNat 100 (by norm_num)
  have hfix : numberToFixed2 (8092405580431359 / 562949953421312)
      = 8089590830664253 / 562949953421312 := by
    unfold numberToFixed2
    rw [if_neg (by norm_num [abs_of_nonneg]), toFixed2_raw_scaled, roundDouble_1437]
  simp only [scoreRow, exampleRoundingPolicy, exampleRoundingRow, jsNumber, jsMul, jsAdd, jsDiv]
  norm_num
  simp only [roundDouble_one, roundDouble_zero, mul_one, mul_zero, add_zero, h2, h100,
    roundDouble_three_tenths, roundDouble_three_tenths_idem, roundDouble_raw_sum,
    roundDouble_raw_idem, roundDouble_raw_div, roundDouble_raw_scaled, hfix]
  exact ⟨trivial, trivial⟩

theorem roundDouble_1438 :
    roundDouble (1438 / 100) = 8095220330198467 / 562949953421312 := by
  rw [roundDouble_eq 3 8095220330198467 (by norm_num) (by norm_num [abs_of_nonneg])
    (by norm_num [abs_of_nonneg])
    (roundHalfEven_eq_of_abs_lt _ _ (by norm_num [abs_lt]))]
  norm_num

/-- C1, as amended: every row of the attendance score computation, for a policy with
lateToAbsent k >= 1 and N = totalSessions, has absentConvertedFromLate = floor(L/k),
lateRemain = L mod k and absentFinal = absent + floor(L/k) exactly. Its raw score is
the double-precision sum, taken from left to right, of the rounded products
present*Number(wPresent), lateRemain*Number(wLate), absentFinal*Number(wAbsent) and
excused*Number(wExcused); its score is Number(x.toFixed(2)) for the double
x = (raw/N)*Number(maxScore) when N > 0 and 0 when N = 0. With one enrollment per
student, weights of magnitude at most 1000, maxScore below 2^31 and N > 0, raw is
within N/10^12 of the exact sum and score is the double nearest to a two-decimal
value that is the exactly computed and rounded score or lies 0.01 from it. -/
theorem score_row_formula (policy : AttendancePolicy) (sessionIds studentIds : List Nat)
    (table : List Attendance) (r : ScoreRow)
    (hk : 1 ≤ policy.lateToAbsent)
    (hr : r ∈ scoreAttendance policy sessionIds studentIds table) :
    r.totalSessions = sessionIds.length ∧
    r.absentConvertedFromLate = r.lateOriginal / policy.lateToAbsent ∧
    r.lateRemain = r.lateOriginal % policy.lateToAbsent ∧
    r.absentFinal = r.absentOriginal + r.lateOriginal / policy.lateToAbsent ∧
    r.raw =
      jsAdd
        (jsAdd
          (jsAdd (jsMul (r.present : ℚ) (jsNumber policy.wPresent))
            (jsMul (r.lateRemain : ℚ) (jsNumber policy.wLate)))
          (jsMul (r.absentFinal : ℚ) (jsNumber policy.wAbsent)))
        (jsMul (r.excused : ℚ) (jsNumber policy.wExcused)) ∧
    (0 < r.totalSessions →
      r.score = numberToFixed2
        (jsMul (jsDiv r.raw (r.totalSessions : ℚ)) (jsNumber (policy.maxScore : ℚ)))) ∧
    (r.totalSessions = 0 → r.score = 0) ∧
    (studentIds.Nodup → |policy.wPresent| ≤ 1000 → |policy.wLate| ≤ 1000 →
      |policy.wAbsent| ≤ 1000 → |policy.wExcused| ≤ 1000 → policy.maxScore < 2 ^ 31 →
      0 < r.totalSessions →
        |r.raw - specRaw policy r| ≤ (r.totalSessions : ℚ) / 10 ^ 12 ∧
        ∃ n : ℤ, r.score = roundDouble ((n : ℚ) / 100) ∧
          |(n : ℚ) / 100 - specScore policy r| ≤ 1 / 100) := by
  obtain ⟨sid, hs, rfl⟩ := (mem_scoreAttendance_iff _ _ _ _ _).mp hr
  have hk0 : policy.lateToAbsent ≠ 0 := by omega
  refine ⟨?_, ?_, ?_, ?_, ?_, ?_, ?_, ?_⟩
  · simp only [scoreRow]
  · simp only [scoreRow, if_neg hk0]
  · simp only [scoreRow, if_neg hk0]
  · simp only [scoreRow, if_neg hk0]
  · simp only [scoreRow]
  · intro hN
    have hN2 : sessionIds.length > 0 := hN
    simp only [scoreRow, if_pos hN2]
  · intro hN
    have hN2 : ¬ (sessionIds.length > 0) := by
      have : sessionIds.length = 0 := hN
      omega
    simp only [scoreRow, if_neg hN2]
    exact numberToFixed2_zero
  · intro hnd hP hL hA hE hM hN
    exact scoreRow_accuracy policy _ sid _ hP hL hA hE hM hN
      (countByStudent_total _ _ _ _ _ hnd hs)

/-- Witness of C1: weights 1/0.5/0/1, lateToAbsent 3, maxScore 20 and ten sessions with
6 present, 3 late, 1 excused give convertedAbsences 1, lateRemain 0, raw 7 and score 14,
also in double precision. -/
theorem score_row_formula_witness :
    scoreAttendance defaultPolicy [1, 2, 3, 4, 5, 6, 7, 8, 9, 10] [7] exampleScoreTable
      = [exampleScoreRow] ∧
    exampleScoreRow.absentConvertedFromLate = 1 ∧ exampleScoreRow.lateRemain = 0 ∧
    exampleScoreRow.raw = 7 ∧ exampleScoreRow.score = 14 ∧
    specRaw defaultPolicy exampleScoreRow = 7 ∧ specScore defaultPolicy exampleScoreRow = 14 ∧
    (exampleScoreRow.totalSessions = 10 ∧
    exampleScoreRow.absentConvertedFromLate
      = exampleScoreRow.lateOriginal / defaultPolicy.lateToAbsent ∧
    exampleScoreRow.lateRemain = exampleScoreRow.lateOriginal % defaultPolicy.lateToAbsent ∧
    exampleScoreRow.absentFinal
      = exampleScoreRow.absentOriginal
          + exampleScoreRow.lateOriginal / defaultPolicy.lateToAbsent ∧
    exampleScoreRow.raw =
      jsAdd
        (jsAdd
          (jsAdd (jsMul (exampleScoreRow.present : ℚ) (jsNumber defaultPolicy.wPresent))
            (jsMul (exampleScoreRow.lateRemain : ℚ) (jsNumber defaultPolicy.wLate)))
          (jsMul (exampleScoreRow.absentFinal : ℚ) (jsNumber defaultPolicy.wAbsent)))
        (jsMul (exampleScoreRow.excused : ℚ) (jsNumber defaultPolicy.wExcused)) ∧
    (0 < exampleScoreRow.totalSessions →
      exampleScoreRow.score = numberToFixed2
        (jsMul (jsDiv exampleScoreRow.raw (exampleScoreRow.totalSessions : ℚ))
          (jsNumber (defaultPolicy.maxScore : ℚ)))) ∧
    (exampleScoreRow.totalSessions = 0 → exampleScoreRow.score = 0) ∧
    ([7].Nodup → |defaultPolicy.wPresent| ≤ 1000 → |defaultPolicy.wLate| ≤ 1000 →
      |defaultPolicy.wAbsent| ≤ 1000 → |defaultPolicy.wExcused| ≤ 1000 →
      defaultPolicy.maxScore < 2 ^ 31 → 0 < exampleScoreRow.totalSessions →
        |exampleScoreRow.raw - specRaw defaultPolicy exampleScoreRow|
            ≤ (exampleScoreRow.totalSessions : ℚ) / 10 ^ 12 ∧
        ∃ n : ℤ, exampleScoreRow.score = roundDouble ((n : ℚ) / 100) ∧
          |(n : ℚ) / 100 - specScore defaultPolicy exampleScoreRow| ≤ 1 / 100)) :=
  ⟨scoreAttendance_example, rfl, rfl, rfl, rfl,
    by norm_num [specRaw, defaultPolicy, exampleScoreRow],
    by norm_num [specScore, specRaw, defaultPolicy, exampleScoreRow, toFixed2],
    score_row_formula defaultPolicy [1, 2, 3, 4, 5, 6, 7, 8, 9, 10] [7] exampleScoreTable
      exampleScoreRow (by decide)
      (by rw [scoreAttendance_example]; exact List.mem_singleton.mpr rfl)⟩

/-- Counterexample to C1 as stated: with weights 1/0.30/0/1, lateToAbsent 3, maxScore 100
and sixteen sessions of which the student is present in two and late in one, the
route returns the double nearest to 14.37 as score, whereas
(raw/N)*maxScore = (2.3/16)*100 = 14.375 rounded to two decimals is 14.38; the raw
score returned is the double nearest to 2.3, not 2.3. -/
theorem score_not_exactly_rounded :
    scoreAttendance exampleRoundingPolicy exampleRoundingSessions [7] exampleRoundingTable
      = [exampleRoundingRow] ∧
    exampleRoundingRow.totalSessions = 16 ∧ exampleRoundingRow.present = 2 ∧
    exampleRoundingRow.lateRemain = 1 ∧ exampleRoundingRow.absentFinal = 13 ∧
    exampleRoundingRow.score = roundDouble (1437 / 100) ∧
    specRaw exampleRoundingPolicy exampleRoundingRow = 23 / 10 ∧
    specScore exampleRoundingPolicy exampleRoundingRow = 1438 / 100 ∧
    exampleRoundingRow.score ≠ specScore exampleRoundingPolicy exampleRoundingRow ∧
    exampleRoundingRow.score
      ≠ roundDouble (specScore exampleRoundingPolicy exampleRoundingRow) ∧
    exampleRoundingRow.score
      ≠ toFixed2 (exampleRoundingRow.raw / (exampleRoundingRow.totalSessions : ℚ)
          * (exampleRoundingPolicy.maxScore : ℚ)) ∧
    exampleRoundingRow.raw ≠ specRaw exampleRoundingPolicy exampleRoundingRow := by
  have hc : countByStudent exampleRoundingPolicy
      (buildStatusMap [7] (attendancesOfSessions exampleRoundingSessions exampleRoundingTable))
      exampleRoundingSessions [7] 7 = ⟨2, 1, 13, 0, 0⟩ := by decide
  have hlen : exampleRoundingSessions.length = 16 := by decide
  have hraw : specRaw exampleRoundingPolicy exampleRoundingRow = 23 / 10 := by
    norm_num [specRaw, exampleRoundingPolicy, exampleRoundingRow]
  have hfl : ⌊(23 / 10 : ℚ) / 16 * 100 * 100 + 1 / 2⌋ = 1438 := by
    rw [Int.floor_eq_iff]
    constructor <;> norm_num
  have hspec : specScore exampleRoundingPolicy exampleRoundingRow = 1438 / 100 := by
    unfold specScore
    rw [hraw]
    have h16 : exampleRoundingRow.totalSessions = 16 := rfl
    have h100 : exampleRoundingPolicy.maxScore = 100 := rfl
    rw [h16, h100, if_pos (by norm_num)]
    unfold toFixed2
    rw [if_neg (by norm_num)]
    push_cast
    rw [hfl]
    norm_num
  have hscore : exampleRoundingRow.score = 8089590830664253 / 562949953421312 := by
    norm_num [exampleRoundingRow]
  have hrawv : exampleRoundingRow.raw = 2589569785738035 / 1125899906842624 := by
    norm_num [exampleRoundingRow]
  refine ⟨?_, rfl, rfl, rfl, rfl, ?_, hraw, hspec, ?_, ?_, ?_, ?_⟩
  · unfold scoreAttendance scoreRowsUnsorted
    simp only [List.map, List.mergeSort_singleton, hc, hlen]
    rw [scoreRow_rounding_example]
  · rw [hscore, roundDouble_1437]
  · rw [hspec, hscore]
    norm_num
  · rw [hspec, hscore, roundDouble_1438]
    norm_num
  · have h16 : exampleRoundingRow.totalSessions = 16 := rfl
    have h100 : exampleRoundingPolicy.maxScore = 100 := rfl
    rw [hscore, hrawv, h16, h100]
    intro h
    have h2 := (toFixed2_spec (2589569785738035 / 1125899906842624 / ((16 : Nat) : ℚ)
      * ((100 : Nat) : ℚ))).1
    obtain ⟨n, hn⟩ := h2
    rw [hn] at h
    have h3 : (8089590830664253 : ℚ) * 100 = (n : ℚ) * 562949953421312 := by
      field_simp at h
      linarith
    have h4 : (8089590830664253 : ℤ) * 100 = n * 562949953421312 := by exact_mod_cast h3
    omega
  · rw [hraw, hrawv]
    norm_num

/-- C2: for weights in [0,1] and every list of sessions, enrollments (one per
student, as the unique index of enrollments has it) and Attendance rows, each
normalised score, computed in double precision, lies between 0 and maxScore. The
session list is shorter than 2^53 (array lengths are below 2^32) and maxScore, an
INTEGER column, is below 2^53, so that both are exact doubles. -/
theorem score_bounded (policy : AttendancePolicy) (sessionIds studentIds : List Nat)
    (table : List Attendance) (r : ScoreRow)
    (hP : 0 ≤ policy.wPresent ∧ policy.wPresent ≤ 1)
    (hL : 0 ≤ policy.wLate ∧ policy.wLate ≤ 1)
    (hA : 0 ≤ policy.wAbsent ∧ policy.wAbsent ≤ 1)
    (hE : 0 ≤ policy.wExcused ∧ policy.wExcused ≤ 1)
    (hN53 : sessionIds.length < 2 ^ 53) (hM53 : policy.maxScore < 2 ^ 53)
    (hnd : studentIds.Nodup)
    (hr : r ∈ scoreAttendance policy sessionIds studentIds table) :
    0 ≤ r.score ∧ r.score ≤ (policy.maxScore : ℚ) := by
  obtain ⟨sid, hs, rfl⟩ := (mem_scoreAttendance_iff _ _ _ _ _).mp hr
  exact scoreRow_bounds policy _ sid _ hP hL hA hE hN53 hM53
    (countByStudent_total _ _ _ _ _ hnd hs)

/-- Witness of C2: the default policy on the scoring example. -/
theorem score_bounded_witness :
    0 ≤ exampleScoreRow.score ∧ exampleScoreRow.score ≤ ((defaultPolicy.maxScore : Nat) : ℚ) :=
  score_bounded defaultPolicy [1, 2, 3, 4, 5, 6, 7, 8, 9, 10] [7] exampleScoreTable
    exampleScoreRow (by norm_num [defaultPolicy]) (by norm_num [defaultPolicy])
    (by norm_num [defaultPolicy]) (by norm_num [defaultPolicy]) (by norm_num)
    (by norm_num [defaultPolicy]) (by decide)
    (by rw [scoreAttendance_example]; exact List.mem_singleton.mpr rfl)

theorem tailLoop_eq (test : Nat → Bool) (l : List Nat) (tail : Nat) :
    tailLoop test l tail = tail + (l.takeWhile test).length := by
  induction l generalizing tail with
  | nil => simp [tailLoop]
  | cons st rest ih =>
    unfold tailLoop
    by_cases h : test st = true
    · rw [if_pos h, ih, List.takeWhile_cons_of_pos h]
      simp only [List.length_cons]
      omega
    · rw [if_neg h, List.takeWhile_cons_of_neg h]
      simp

/-- The last `n` sessions are all of a kind exactly when `n` is at most the number of
sessions that pass the test counting back from the end. -/
theorem hasTrailingRun_iff (test : Nat → Bool) (l : List Nat) (n : Nat) :
    HasTrailingRun (fun st => test st = true) l n ↔ n ≤ (l.reverse.takeWhile test).length := by
  constructor
  · rintro ⟨before, run, rfl, rfl, hall⟩
    rw [List.reverse_append, List.takeWhile_append_of_pos]
    · simp
    · intro a ha
      exact hall a (List.mem_reverse.mp ha)
  · intro hn
    have hsplit := List.takeWhile_append_dropWhile test l.reverse
    have hl : l = (l.reverse.dropWhile test).reverse ++ (l.reverse.takeWhile test).reverse := by
      rw [← List.reverse_append, hsplit, List.reverse_reverse]
    have htd := List.take_append_drop n (l.reverse.takeWhile test)
    refine ⟨(l.reverse.dropWhile test).reverse ++ ((l.reverse.takeWhile test).drop n).reverse,
      ((l.reverse.takeWhile test).take n).reverse, ?_, ?_, ?_⟩
    · rw [List.append_assoc, ← List.reverse_append, htd]
      exact hl
    · rw [List.length_reverse, List.length_take]
      omega
    · intro st hst
      exact List.mem_takeWhile_imp (List.mem_of_mem_take (List.mem_reverse.mp hst))
theorem trailing_snoc (test : Nat → Bool) (l : List Nat) (x : Nat) :
    ((l ++ [x]).reverse.takeWhile test).length
      = if test x then (l.reverse.takeWhile test).length + 1 else 0 := by
  rw [List.reverse_append, List.reverse_singleton, List.singleton_append]
  by_cases h : test x = true
  · rw [if_pos h, List.takeWhile_cons_of_pos h, List.length_cons]
  · rw [if_neg h, List.takeWhile_cons_of_neg h, List.length_nil]

theorem hasRun_nil (kind : Nat → Prop) (n : Nat) : HasRun kind [] n ↔ n = 0 := by
  constructor
  · rintro ⟨before, run, after, h, rfl, -⟩
    have h1 : before ++ run ++ after = [] := h.symm
    simp only [List.append_eq_nil] at h1
    rw [h1.1.2]
    rfl
  · rintro rfl
    exact ⟨[], [], [], rfl, rfl, by simp⟩

theorem hasRun_snoc_iff (kind : Nat → Prop) (l : List Nat) (x n : Nat) :
    HasRun kind (l ++ [x]) n ↔ HasRun kind l n ∨ HasTrailingRun kind (l ++ [x]) n := by
  constructor
  · rintro ⟨before, run, after, h, hlen, hall⟩
    rcases List.eq_nil_or_concat after with rfl | ⟨after1, y, rfl⟩
    · right
      rw [List.append_nil] at h
      exact ⟨before, run, h, hlen, hall⟩
    · left
      rw [List.concat_eq_append, ← List.append_assoc] at h
      have h1 := List.append_inj_left' h rfl
      exact ⟨before, run, after1, h1, hlen, hall⟩
  · rintro (⟨before, run, after, h, hlen, hall⟩ | ⟨before, run, h, hlen, hall⟩)
    · refine ⟨before, run, after ++ [x], ?_, hlen, hall⟩
      rw [h, List.append_assoc (before ++ run)]
    · exact ⟨before, run, [], by rw [List.append_nil]; exact h, hlen, hall⟩

/-- The value `m` is the length of the longest run of the kind `test` in `l`. -/
theorem longest_snoc (test : Nat → Bool) (l : List Nat) (x m : Nat)
    (hm : IsGreatest {n | HasRun (fun st => test st = true) l n} m) :
    IsGreatest {n | HasRun (fun st => test st = true) (l ++ [x]) n}
      (if (if test x then (l.reverse.takeWhile test).length + 1 else 0) > m
        then (if test x then (l.reverse.takeWhile test).length + 1 else 0) else m) := by
  rw [← trailing_snoc]
  constructor
  · show HasRun _ _ _
    rw [hasRun_snoc_iff]
    split_ifs with h
    · right
      exact (hasTrailingRun_iff test _ _).mpr (le_refl _)
    · left
      exact hm.1
  · intro n hn
    have hn1 : HasRun _ _ _ := hn
    rw [hasRun_snoc_iff] at hn1
    rcases hn1 with h | h
    · have := hm.2 h
      split_ifs <;> omega
    · have := (hasTrailingRun_iff test _ _).mp h
      split_ifs <;> omega

/-- The invariant of the first loop of `calcStreaks` after the statuses `l`. -/
theorem streakLoop_invariant (includeUnknown : Bool) (l : List Nat) :
    let s := l.foldl (streakLoopStep includeUnknown) ⟨0, 0, 0, 0, 0, 0⟩
    s.curLate = (l.reverse.takeWhile isLate).length ∧
    s.curAbsent = (l.reverse.takeWhile isAbsent).length ∧
    s.curLA = (l.reverse.takeWhile (isLA includeUnknown)).length ∧
    IsGreatest {n | HasRun (fun st => isLate st = true) l n} s.maxLate ∧
    IsGreatest {n | HasRun (fun st => isAbsent st = true) l n} s.maxAbsent ∧
    IsGreatest {n | HasRun (fun st => isLA includeUnknown st = true) l n} s.maxLA := by
  induction l using List.reverseRecOn with
  | nil =>
    have h0 : ∀ kind : Nat → Prop, IsGreatest {n | HasRun kind [] n} 0 := by
      intro kind
      refine ⟨(hasRun_nil kind 0).mpr rfl, ?_⟩
      intro n hn
      exact le_of_eq ((hasRun_nil kind n).mp hn)
    exact ⟨rfl, rfl, rfl, h0 _, h0 _, h0 _⟩
  | append_singleton l x ih =>
    simp only [List.foldl_append, List.foldl_cons, List.foldl_nil] at ih ⊢
    obtain ⟨h1, h2, h3, h4, h5, h6⟩ := ih
    refine ⟨?_, ?_, ?_, ?_, ?_, ?_⟩
    · rw [trailing_snoc]; simp only [streakLoopStep, h1]
    · rw [trailing_snoc]; simp only [streakLoopStep, h2]
    · rw [trailing_snoc]; simp only [streakLoopStep, h3]
    · have := longest_snoc isLate l x _ h4
      simpa only [streakLoopStep, h1] using this
    · have := longest_snoc isAbsent l x _ h5
      simpa only [streakLoopStep, h2] using this
    · have := longest_snoc (isLA includeUnknown) l x _ h6
      simpa only [streakLoopStep, h3] using this
theorem isLate_kind : (fun st => isLate st = true) = (fun st : Nat => st = 2) := by
  funext st
  simp [isLate]

theorem isAbsent_kind : (fun st => isAbsent st = true) = (fun st : Nat => st = 3) := by
  funext st
  simp [isAbsent]

theorem isLA_kind (includeUnknown : Bool) :
    (fun st => isLA includeUnknown st = true) = LateOrAbsentKind includeUnknown := by
  funext st
  simp [isLA, LateOrAbsentKind, or_assoc]

theorem trailing_isGreatest (test : Nat → Bool) (l : List Nat) :
    IsGreatest {n | HasTrailingRun (fun st => test st = true) l n}
      (tailLoop test l.reverse 0) := by
  rw [tailLoop_eq, Nat.zero_add]
  constructor
  · exact (hasTrailingRun_iff test l _).mpr (le_refl _)
  · intro n hn
    exact (hasTrailingRun_iff test l n).mp hn

theorem trailing_zero_of_last (test : Nat → Bool) (l : List Nat) (st : Nat)
    (hlast : l.getLast? = some st) (hst : test st = false) :
    tailLoop test l.reverse 0 = 0 := by
  rcases List.eq_nil_or_concat l with rfl | ⟨l1, y, rfl⟩
  · simp at hlast
  · rw [List.concat_eq_append] at hlast ⊢
    simp only [List.getLast?_append, List.getLast?_singleton, Option.or_some,
      Option.some.injEq] at hlast
    subst hlast
    rw [tailLoop_eq, trailing_snoc, hst]
    simp

/-- C3: for every status sequence, calcStreaks returns as maxLateStreak, maxAbsentStreak
and maxLateOrAbsentStreak the length of the longest run of consecutive sessions whose
status is 2, is 3, and is in {2,3} (or also 0 when includeUnknown is true), and as
currentLateStreak, currentAbsentStreak and currentLateOrAbsentStreak the length of the
longest run of that kind that ends at the last session, which is 0 when the last
session is not of that kind; on [3,3,1,3,3] maxAbsentStreak and currentAbsentStreak
are both 2. -/
theorem calcStreaks_longest_runs (includeUnknown : Bool) (statusSeq : List Nat) :
    IsGreatest {n | HasRun (fun st => st = 2) statusSeq n}
      (calcStreaks includeUnknown statusSeq).maxLateStreak ∧
    IsGreatest {n | HasRun (fun st => st = 3) statusSeq n}
      (calcStreaks includeUnknown statusSeq).maxAbsentStreak ∧
    IsGreatest {n | HasRun (LateOrAbsentKind includeUnknown) statusSeq n}
      (calcStreaks includeUnknown statusSeq).maxLateOrAbsentStreak ∧
    IsGreatest {n | HasTrailingRun (fun st => st = 2) statusSeq n}
      (calcStreaks includeUnknown statusSeq).currentLateStreak ∧
    IsGreatest {n | HasTrailingRun (fun st => st = 3) statusSeq n}
      (calcStreaks includeUnknown statusSeq).currentAbsentStreak ∧
    IsGreatest {n | HasTrailingRun (LateOrAbsentKind includeUnknown) statusSeq n}
      (calcStreaks includeUnknown statusSeq).currentLateOrAbsentStreak ∧
    (∀ st, statusSeq.getLast? = some st →
      (st ≠ 2 → (calcStreaks includeUnknown statusSeq).currentLateStreak = 0) ∧
      (st ≠ 3 → (calcStreaks includeUnknown statusSeq).currentAbsentStreak = 0) ∧
      (¬ LateOrAbsentKind includeUnknown st →
        (calcStreaks includeUnknown statusSeq).currentLateOrAbsentStreak = 0)) ∧
    (calcStreaks false [3, 3, 1, 3, 3]).maxAbsentStreak = 2 ∧
    (calcStreaks false [3, 3, 1, 3, 3]).currentAbsentStreak = 2 := by
  obtain ⟨-, -, -, h4, h5, h6⟩ := streakLoop_invariant includeUnknown statusSeq
  have t1 := trailing_isGreatest isLate statusSeq
  have t2 := trailing_isGreatest isAbsent statusSeq
  have t3 := trailing_isGreatest (isLA includeUnknown) statusSeq
  rw [isLate_kind] at h4 t1
  rw [isAbsent_kind] at h5 t2
  rw [isLA_kind] at h6 t3
  refine ⟨h4, h5, h6, t1, t2, t3, ?_, by decide, by decide⟩
  intro st hlast
  refine ⟨fun h => ?_, fun h => ?_, fun h => ?_⟩
  · exact trailing_zero_of_last isLate statusSeq st hlast (by simp [isLate, h])
  · exact trailing_zero_of_last isAbsent statusSeq st hlast (by simp [isAbsent, h])
  · apply trailing_zero_of_last (isLA includeUnknown) statusSeq st hlast
    have := congrFun (isLA_kind includeUnknown) st
    simp only [eq_iff_iff] at this
    cases hb : isLA includeUnknown st
    · rfl
    · exact absurd (this.mp hb) h

/-- Witness of C3 on the sequence [3,3,1,3,3]: the longest absent run and the absent
run ending at the last session both have length 2. -/
theorem calcStreaks_longest_runs_witness :
    IsGreatest {n | HasRun (fun st => st = 3) [3, 3, 1, 3, 3] n} 2 ∧
    IsGreatest {n | HasTrailingRun (fun st => st = 3) [3, 3, 1, 3, 3] n} 2 :=
  ⟨(calcStreaks_longest_runs false [3, 3, 1, 3, 3]).2.1,
    (calcStreaks_longest_runs false [3, 3, 1, 3, 3]).2.2.2.2.1⟩

theorem findSession_some (db : Db) (id : Nat) (s : ClassSession)
    (h : findSession db id = some s) : s.id = id ∧ s ∈ db.sessions := by
  unfold findSession at h
  have h1 := List.find?_some h
  exact ⟨of_decide_eq_true h1, List.mem_of_find?_eq_some h⟩

theorem codeTruthy_some (c : String) (hc : c ≠ "") : codeTruthy (some c) = true := by
  simp [codeTruthy, hc]

/-- Any outcome of self check-in other than 200 leaves the database as it was. -/
theorem attend_rejected_unchanged (db : Db) (env : Env) (user : SessionUser) (sessionId : Nat)
    (code : Option String) (h : (attend db env user sessionId code).1 ≠ 200) :
    (attend db env user sessionId code).2 = db := by
  unfold attend at h ⊢
  split
  · rfl
  · rename_i session hs
    rw [hs] at h
    simp only at h
    split_ifs at h ⊢ with h1 h2 h3 h4
    · rfl
    · rfl
    · rfl
    · rfl
    · exact absurd rfl h

theorem saveCheckIn_keys (rows : List Attendance) (id status : Nat) (checkedAt : Option Nat) :
    (saveCheckIn rows id status checkedAt).map (fun a => (a.sessionId, a.studentId))
      = rows.map (fun a => (a.sessionId, a.studentId)) := by
  unfold saveCheckIn
  rw [List.map_map]
  apply List.map_congr_left
  intro a _
  simp only [Function.comp]
  split_ifs <;> rfl

theorem saveStatus_keys (rows : List Attendance) (id status : Nat) (checkedAt : Option Nat)
    (updatedBy : Nat) :
    (saveStatus rows id status checkedAt updatedBy).map (fun a => (a.sessionId, a.studentId))
      = rows.map (fun a => (a.sessionId, a.studentId)) := by
  unfold saveStatus
  rw [List.map_map]
  apply List.map_congr_left
  intro a _
  simp only [Function.comp]
  split_ifs <;> rfl

theorem saveCorrection_keys (rows : List Attendance) (id status updatedBy : Nat) :
    (saveCorrection rows id status updatedBy).map (fun a => (a.sessionId, a.studentId))
      = rows.map (fun a => (a.sessionId, a.studentId)) := by
  unfold saveCorrection
  rw [List.map_map]
  apply List.map_congr_left
  intro a _
  simp only [Function.comp]
  split_ifs <;> rfl

/-- A row created after a failed lookup by (sessionId, studentId) keeps the rows unique. -/
theorem attendanceUnique_append (rows : List Attendance) (row : Attendance)
    (h : AttendanceUnique rows)
    (hnone : findAttendance rows row.sessionId row.studentId = none) :
    AttendanceUnique (rows ++ [row]) := by
  unfold AttendanceUnique at h ⊢
  rw [List.map_append, List.map_singleton]
  apply List.Nodup.append h (List.nodup_singleton _)
  rw [List.disjoint_singleton]
  intro hmem
  obtain ⟨a, ha, hkey⟩ := List.mem_map.mp hmem
  unfold findAttendance at hnone
  have := List.find?_eq_none.mp hnone a ha
  simp only [Prod.mk.injEq] at hkey
  simp [hkey.1, hkey.2] at this

theorem rollcallItem_unique (env : Env) (user : SessionUser) (sessionId : Nat)
    (studentSet : List Nat) (acc : List Attendance × RollcallResults) (it : RollcallItem)
    (h : AttendanceUnique acc.1) :
    AttendanceUnique (rollcallItem env user sessionId studentSet acc it).1 := by
  unfold rollcallItem
  by_cases h1 : it.studentId = 0 ∨ it.status ∉ [0, 1, 2, 3, 4]
  · rw [if_pos h1]; exact h
  · rw [if_neg h1]
    by_cases h2 : it.studentId ∉ studentSet
    · rw [if_pos h2]; exact h
    · rw [if_neg h2]
      cases hf : findAttendance acc.1 sessionId it.studentId with
      | none => exact attendanceUnique_append _ _ h hf
      | some a =>
        unfold AttendanceUnique
        simp only
        rw [saveStatus_keys]
        exact h

theorem rollcallLoop_unique (env : Env) (user : SessionUser) (sessionId : Nat)
    (studentSet : List Nat) (items : List RollcallItem)
    (acc : List Attendance × RollcallResults) (h : AttendanceUnique acc.1) :
    AttendanceUnique (items.foldl (rollcallItem env user sessionId studentSet) acc).1 := by
  induction items generalizing acc with
  | nil => exact h
  | cons it rest ih =>
    rw [List.foldl_cons]
    exact ih _ (rollcallItem_unique env user sessionId studentSet acc it h)

theorem checkIn_unique (rows : List Attendance) (now sessionId studentId : Nat)
    (h : AttendanceUnique rows) : AttendanceUnique (checkIn rows now sessionId studentId) := by
  unfold checkIn
  cases hf : findAttendance rows sessionId studentId with
  | none => exact attendanceUnique_append _ _ h hf
  | some a =>
    unfold AttendanceUnique
    simp only
    rw [saveCheckIn_keys]
    exact h

theorem attend_unique (db : Db) (env : Env) (user : SessionUser) (sessionId : Nat)
    (code : Option String) (h : AttendanceUnique db.attendances) :
    AttendanceUnique (attend db env user sessionId code).2.attendances := by
  unfold attend
  cases hs : findSession db sessionId with
  | none => exact h
  | some session =>
    simp only
    by_cases h1 : session.status ≠ "OPEN"
    · rw [if_pos h1]; exact h
    rw [if_neg h1]
    by_cases h2 : session.attendanceMethod = "ROLL_CALL"
    · rw [if_pos h2]; exact h
    rw [if_neg h2]
    by_cases h3 : (findEnrollment db session.courseId user.id).isNone = true
    · rw [if_pos h3]; exact h
    rw [if_neg h3]
    by_cases h4 : session.attendanceMethod = "CODE" ∧ (codeTruthy code = false ∨ code ≠ session.code)
    · rw [if_pos h4]; exact h
    rw [if_neg h4]
    exact checkIn_unique _ _ _ _ h

theorem rollcall_unique (db : Db) (env : Env) (user : SessionUser) (sessionId : Nat)
    (items : List RollcallItem) (h : AttendanceUnique db.attendances) :
    AttendanceUnique (rollcall db env user sessionId items).2.1.attendances := by
  unfold rollcall
  cases hl : loadOwnedSession db user sessionId with
  | error status => exact h
  | ok session =>
    simp only
    by_cases h1 : session.attendanceMethod ≠ "ROLL_CALL"
    · rw [if_pos h1]; exact h
    rw [if_neg h1]
    by_cases h2 : items.length = 0
    · rw [if_pos h2]; exact h
    rw [if_neg h2]
    exact rollcallLoop_unique _ _ _ _ _ _ h

theorem resolveExcuse_unique (db : Db) (env : Env) (user : SessionUser) (excuseId : Nat)
    (nextStatus : String) (replyText : Option String) (h : AttendanceUnique db.attendances) :
    AttendanceUnique (resolveExcuse db env user excuseId nextStatus replyText).2.attendances := by
  unfold resolveExcuse
  by_cases h1 : nextStatus ∉ ["APPROVED", "REJECTED"]
  · rw [if_pos h1]; exact h
  rw [if_neg h1]
  cases hx : db.excuses.find? (fun e => decide (e.id = excuseId)) with
  | none => exact h
  | some excuse =>
    simp only
    by_cases h2 : excuse.status ≠ "PENDING"
    · rw [if_pos h2]; exact h
    rw [if_neg h2]
    cases hs : findSession db excuse.sessionId with
    | none => exact h
    | some session =>
      simp only
      cases hc : findCourse db session.courseId with
      | none => exact h
      | some course =>
        simp only
        by_cases h3 : notOwner user course = true
        · rw [if_pos h3]; exact h
        rw [if_neg h3]
        by_cases h4 : env.auditFails = true
        · rw [if_pos h4]; exact h
        rw [if_neg h4]
        simp only
        by_cases h5 : nextStatus = "APPROVED"
        · rw [if_pos h5]
          cases hf : findAttendance db.attendances session.id excuse.studentId with
          | none => exact attendanceUnique_append _ _ h hf
          | some a =>
            simp only
            by_cases h6 : a.status ≠ 4
            · rw [if_pos h6]
              unfold AttendanceUnique
              simp only
              rw [saveStatus_keys]
              exact h
            · rw [if_neg h6]; exact h
        · rw [if_neg h5]; exact h

theorem resolveAppeal_unique (db : Db) (env : Env) (user : SessionUser) (appealId : Nat)
    (nextStatus : String) (replyText : Option String) (applyAttendanceStatus : Option Nat)
    (h : AttendanceUnique db.attendances) :
    AttendanceUnique
      (resolveAppeal db env user appealId nextStatus replyText applyAttendanceStatus).2.attendances := by
  unfold resolveAppeal
  by_cases h1 : nextStatus ∉ ["ACCEPTED", "REJECTED"]
  · rw [if_pos h1]; exact h
  rw [if_neg h1]
  cases hx : findAppealJoined db appealId with
  | none => exact h
  | some x =>
    obtain ⟨appeal, attendance, course⟩ := x
    simp only
    by_cases h2 : appeal.status ≠ "PENDING"
    · rw [if_pos h2]; exact h
    rw [if_neg h2]
    by_cases h3 : notOwner user course = true
    · rw [if_pos h3]; exact h
    rw [if_neg h3]
    by_cases h4 : nextStatus = "ACCEPTED" ∧ applyInvalid applyAttendanceStatus = true
    · rw [if_pos h4]; exact h
    rw [if_neg h4]
    by_cases h5 : env.auditFails = true
    · rw [if_pos h5]; exact h
    rw [if_neg h5]
    simp only
    split
    · unfold AttendanceUnique
      rw [saveStatus_keys]
      exact h
    · exact h

theorem correctAttendance_unique (db : Db) (env : Env) (user : SessionUser)
    (attendanceId status : Nat) (h : AttendanceUnique db.attendances) :
    AttendanceUnique (correctAttendance db env user attendanceId status).2.attendances := by
  have hsave : AttendanceUnique (saveCorrection db.attendances attendanceId status user.id) := by
    unfold AttendanceUnique
    rw [saveCorrection_keys]
    exact h
  unfold correctAttendance
  cases hx : db.attendances.find? (fun a => decide (a.id = attendanceId)) with
  | none => exact h
  | some attendance =>
    have hid : attendance.id = attendanceId := by
      have := List.find?_some hx
      simpa using this
    simp only
    cases hs : findSession db attendance.sessionId with
    | none => exact h
    | some session =>
      simp only
      split
      · exact h
      · by_cases h4 : status ∉ [1, 2, 3, 4]
        · rw [if_pos h4]; exact h
        rw [if_neg h4]
        rw [hid]
        split_ifs <;> exact hsave

/-- C5: starting from a table with at most one Attendance row per (sessionId,
studentId), every request that writes Attendance (self check-in, roll-call batch with
any items, repeated students included, excuse resolution, appeal resolution and
correction) leaves a table with at most one row per (sessionId, studentId). -/
theorem attendance_unique_preserved (db : Db) (env : Env) (op : AttendanceWrite)
    (h : AttendanceUnique db.attendances) :
    AttendanceUnique (applyWrite db env op).attendances := by
  cases op with
  | checkIn user sessionId code => exact attend_unique db env user sessionId code h
  | rollcall user sessionId items => exact rollcall_unique db env user sessionId items h
  | excuse user excuseId nextStatus replyText =>
    exact resolveExcuse_unique db env user excuseId nextStatus replyText h
  | appeal user appealId nextStatus replyText applyAttendanceStatus =>
    exact resolveAppeal_unique db env user appealId nextStatus replyText applyAttendanceStatus h
  | correction user attendanceId status =>
    exact correctAttendance_unique db env user attendanceId status h
theorem foldl_max_ge (l : List Nat) (acc : Nat) :
    acc ≤ l.foldl max acc ∧ ∀ x ∈ l, x ≤ l.foldl max acc := by
  induction l generalizing acc with
  | nil => simp
  | cons y rest ih =>
    simp only [List.foldl_cons, List.mem_cons]
    obtain ⟨h1, h2⟩ := ih (max acc y)
    refine ⟨le_trans (le_max_left _ _) h1, ?_⟩
    rintro x (rfl | hx)
    · exact le_trans (le_max_right _ _) h1
    · exact h2 x hx

/-- A new auto-increment id is larger than every id in the table. -/
theorem lt_nextId (ids : List Nat) (x : Nat) (hx : x ∈ ids) : x < nextId ids := by
  unfold nextId
  exact Nat.lt_succ_of_le ((foldl_max_ge ids 0).2 x hx)

theorem findAttendance_saveCheckIn (rows : List Attendance) (sessionId studentId : Nat)
    (a : Attendance) (status : Nat) (checkedAt : Option Nat)
    (h : findAttendance rows sessionId studentId = some a) :
    findAttendance (saveCheckIn rows a.id status checkedAt) sessionId studentId
      = some { a with status := status, checkedAt := checkedAt } := by
  unfold findAttendance saveCheckIn at *
  rw [List.find?_map]
  have hp : ((fun (x : Attendance) => decide (x.sessionId = sessionId ∧ x.studentId = studentId)) ∘
      fun (r : Attendance) =>
        if r.id = a.id then { r with status := status, checkedAt := checkedAt } else r)
      = fun (x : Attendance) => decide (x.sessionId = sessionId ∧ x.studentId = studentId) := by
    funext r
    simp only [Function.comp]
    split_ifs <;> rfl
  rw [hp, h]
  simp

theorem saveCheckIn_idem (rows : List Attendance) (id status : Nat) (checkedAt : Option Nat) :
    saveCheckIn (saveCheckIn rows id status checkedAt) id status checkedAt
      = saveCheckIn rows id status checkedAt := by
  unfold saveCheckIn
  rw [List.map_map]
  apply List.map_congr_left
  intro r _
  simp only [Function.comp]
  by_cases h : r.id = id
  · simp [h]
  · simp [h]

/-- Checking in again, at any later time, leaves the table as the first check-in left
it. -/
theorem checkIn_idem (rows : List Attendance) (now now2 sessionId studentId : Nat) :
    checkIn (checkIn rows now sessionId studentId) now2 sessionId studentId
      = checkIn rows now sessionId studentId := by
  cases hf : findAttendance rows sessionId studentId with
  | none =>
    have h1 : checkIn rows now sessionId studentId
        = rows ++ [⟨nextId (rows.map (fun a => a.id)), sessionId, studentId, 1, some now, none⟩] := by
      unfold checkIn
      rw [hf]
    have h2 : findAttendance
        (rows ++ [⟨nextId (rows.map (fun a => a.id)), sessionId, studentId, 1, some now, none⟩])
        sessionId studentId
        = some ⟨nextId (rows.map (fun a => a.id)), sessionId, studentId, 1, some now, none⟩ := by
      unfold findAttendance at hf ⊢
      rw [List.find?_append, hf]
      simp
    rw [h1]
    conv_lhs => unfold checkIn
    rw [h2]
    simp only [saveCheckIn, List.map_append, List.map_cons, List.map_nil]
    congr 1
    · conv_rhs => rw [← List.map_id rows]
      apply List.map_congr_left
      intro r hr
      have hlt := lt_nextId (rows.map (fun a => a.id)) r.id (List.mem_map_of_mem _ hr)
      have hne : r.id ≠ nextId (rows.map (fun a => a.id)) := Nat.ne_of_lt hlt
      simp [hne]
  | some a =>
    have h1 : checkIn rows now sessionId studentId
        = saveCheckIn rows a.id (if a.status = 0 then 1 else a.status)
            (if a.checkedAt.isNone then some now else a.checkedAt) := by
      unfold checkIn
      rw [hf]
    have h2 := findAttendance_saveCheckIn rows sessionId studentId a
      (if a.status = 0 then 1 else a.status)
      (if a.checkedAt.isNone then some now else a.checkedAt) hf
    rw [h1]
    conv_lhs => unfold checkIn
    rw [h2]
    simp only
    have hs : (if (if a.status = 0 then 1 else a.status) = 0 then 1
        else (if a.status = 0 then 1 else a.status)) = (if a.status = 0 then 1 else a.status) := by
      split_ifs <;> simp_all
    have hc : (if (if a.checkedAt.isNone then some now else a.checkedAt).isNone
        then some now2 else (if a.checkedAt.isNone then some now else a.checkedAt))
        = (if a.checkedAt.isNone then some now else a.checkedAt) := by
      cases a.checkedAt <;> simp
    rw [hs, hc, saveCheckIn_idem]

/-- A check-in that passed all checks wrote the table that `checkIn` computes. -/
theorem attend_ok_eq (db : Db) (env : Env) (user : SessionUser) (sessionId : Nat)
    (code : Option String) (h : (attend db env user sessionId code).1 = 200) :
    ∃ s, findSession db sessionId = some s ∧
      ¬ s.status ≠ "OPEN" ∧ ¬ s.attendanceMethod = "ROLL_CALL" ∧
      ¬ (findEnrollment db s.courseId user.id).isNone = true ∧
      ¬ (s.attendanceMethod = "CODE" ∧ (codeTruthy code = false ∨ code ≠ s.code)) ∧
      attend db env user sessionId code
        = (200, { db with attendances := checkIn db.attendances env.now s.id user.id }) := by
  unfold attend at h ⊢
  cases hs : findSession db sessionId with
  | none => rw [hs] at h; simp at h
  | some s =>
    rw [hs] at h
    refine ⟨s, rfl, ?_⟩
    simp only at h ⊢
    by_cases h1 : s.status ≠ "OPEN"
    · rw [if_pos h1] at h; simp at h
    by_cases h2 : s.attendanceMethod = "ROLL_CALL"
    · rw [if_neg h1, if_pos h2] at h; simp at h
    by_cases h3 : (findEnrollment db s.courseId user.id).isNone = true
    · rw [if_neg h1, if_neg h2, if_pos h3] at h; simp at h
    by_cases h4 : s.attendanceMethod = "CODE" ∧ (codeTruthy code = false ∨ code ≠ s.code)
    · rw [if_neg h1, if_neg h2, if_neg h3, if_pos h4] at h; simp at h
    rw [if_neg h1, if_neg h2, if_neg h3, if_neg h4]
    exact ⟨h1, h2, h3, h4, rfl⟩

/-- C6: for a self check-in that passes all checks, a row of the student with status 0
becomes 1, a row with another status keeps it, `checkedAt` is set when it was absent and
kept otherwise; the same check-in made again, at any time, succeeds and leaves the
database exactly as the first one left it. -/
theorem attend_idempotent (db : Db) (env env2 : Env) (user : SessionUser) (sessionId : Nat)
    (code : Option String) (hok : (attend db env user sessionId code).1 = 200) :
    (∀ s a, findSession db sessionId = some s →
      findAttendance db.attendances s.id user.id = some a →
      ∃ row, findAttendance (attend db env user sessionId code).2.attendances s.id user.id
          = some row ∧
        (a.status = 0 → row.status = 1) ∧ (a.status ≠ 0 → row.status = a.status) ∧
        (a.checkedAt = none → row.checkedAt = some env.now) ∧
        (a.checkedAt ≠ none → row.checkedAt = a.checkedAt) ∧
        row.id = a.id ∧ row.updatedBy = a.updatedBy ∧
        (attend db env user sessionId code).2.attendances.length = db.attendances.length) ∧
    attend (attend db env user sessionId code).2 env2 user sessionId code
      = (200, (attend db env user sessionId code).2) := by
  obtain ⟨s, hs, c1, c2, c3, c4, heq⟩ := attend_ok_eq db env user sessionId code hok
  constructor
  · intro s1 a hs1 ha
    rw [hs] at hs1
    cases hs1
    rw [heq]
    simp only
    have h1 : checkIn db.attendances env.now s.id user.id
        = saveCheckIn db.attendances a.id (if a.status = 0 then 1 else a.status)
            (if a.checkedAt.isNone then some env.now else a.checkedAt) := by
      unfold checkIn
      rw [ha]
    rw [h1, findAttendance_saveCheckIn _ _ _ _ _ _ ha]
    refine ⟨_, rfl, ?_, ?_, ?_, ?_, rfl, rfl, ?_⟩
    · intro h0; simp [h0]
    · intro h0; simp [h0]
    · intro h0; simp [h0]
    · intro h0
      cases hc : a.checkedAt with
      | none => exact absurd hc h0
      | some c => simp
    · simp [saveCheckIn]
  · rw [heq]
    unfold attend
    have hs2 : findSession { db with attendances := checkIn db.attendances env.now s.id user.id }
        sessionId = some s := hs
    have c3b : ¬ (findEnrollment
        { db with attendances := checkIn db.attendances env.now s.id user.id }
        s.courseId user.id).isNone = true := c3
    rw [hs2]
    simp only
    rw [if_neg c1, if_neg c2, if_neg c3b, if_neg c4, checkIn_idem]
theorem findSession_saveSessionStatus (db : Db) (id : Nat) (s : ClassSession) (status : String)
    (h : findSession db id = some s) :
    findSession (saveSessionStatus db s.id status) id = some { s with status := status } := by
  unfold findSession saveSessionStatus at *
  simp only
  rw [List.find?_map]
  have hp : ((fun (x : ClassSession) => decide (x.id = id)) ∘
      fun (x : ClassSession) => if x.id = s.id then { x with status := status } else x)
      = fun (x : ClassSession) => decide (x.id = id) := by
    funext r
    simp only [Function.comp]
    split_ifs <;> rfl
  rw [hp, h]
  simp

theorem loadOwnedSession_saveSessionStatus (db : Db) (user : SessionUser) (id : Nat)
    (s : ClassSession) (status : String) (h : loadOwnedSession db user id = .ok s) :
    loadOwnedSession (saveSessionStatus db s.id status) user id
      = .ok { s with status := status } := by
  unfold loadOwnedSession at h ⊢
  cases hs : findSession db id with
  | none => rw [hs] at h; simp at h
  | some s0 =>
    rw [hs] at h
    simp only at h
    have hc : ∀ c, findCourse (saveSessionStatus db s.id status) c = findCourse db c :=
      fun _ => rfl
    cases hcrs : findCourse db s0.courseId with
    | none =>
      rw [hcrs] at h
      simp only at h
      split_ifs at h with hr
      cases h
      rw [findSession_saveSessionStatus db id _ status hs]
      simp only [hc, hcrs]
      rw [if_neg hr]
    | some course =>
      rw [hcrs] at h
      simp only at h
      split_ifs at h with hr
      cases h
      rw [findSession_saveSessionStatus db id _ status hs]
      simp only [hc, hcrs]
      rw [if_neg hr]

theorem loadOwnedSession_find (db : Db) (user : SessionUser) (id : Nat) (s : ClassSession)
    (h : loadOwnedSession db user id = .ok s) : findSession db id = some s := by
  unfold loadOwnedSession at h
  cases hs : findSession db id with
  | none => rw [hs] at h; simp at h
  | some s0 =>
    rw [hs] at h
    simp only at h
    cases hcrs : findCourse db s0.courseId with
    | none =>
      rw [hcrs] at h
      simp only at h
      split_ifs at h
      cases h
      rfl
    | some course =>
      rw [hcrs] at h
      simp only at h
      split_ifs at h
      cases h
      rfl

/-- A transition that does not answer 200 leaves the database as it was. -/
theorem transition_failed_unchanged (db : Db) (user : SessionUser) (sessionId : Nat) :
    ((openSession db user sessionId).1 ≠ 200 → (openSession db user sessionId).2 = db) ∧
    ((pauseSession db user sessionId).1 ≠ 200 → (pauseSession db user sessionId).2 = db) ∧
    ((closeSession db user sessionId).1 ≠ 200 → (closeSession db user sessionId).2 = db) := by
  unfold openSession pauseSession closeSession
  cases loadOwnedSession db user sessionId with
  | error e => exact ⟨fun _ => rfl, fun _ => rfl, fun _ => rfl⟩
  | ok s =>
    simp only
    refine ⟨?_, ?_, ?_⟩
    · split_ifs
      · exact fun _ => rfl
      · exact fun h => absurd rfl h
    · split_ifs
      · exact fun _ => rfl
      · exact fun _ => rfl
      · exact fun h => absurd rfl h
    · split_ifs
      · exact fun _ => rfl
      · exact fun h => absurd rfl h

/-- C7: for a session that exists, that the caller may manage, and whose status is one
of OPEN, PAUSED, CLOSED: open succeeds iff the status is PAUSED or CLOSED and then
stores OPEN; pause succeeds iff the status is OPEN and then stores PAUSED; close
succeeds iff the status is OPEN or PAUSED and then stores CLOSED; a failed transition
answers 400 and leaves the database unchanged; a successful close followed by open
succeeds; from CLOSED pause and close fail and open succeeds. -/
theorem session_transitions (db : Db) (user : SessionUser) (sessionId : Nat) (s : ClassSession)
    (hload : loadOwnedSession db user sessionId = .ok s)
    (hdom : s.status ∈ ["OPEN", "PAUSED", "CLOSED"]) :
    ((openSession db user sessionId).1 = 200 ↔ s.status = "PAUSED" ∨ s.status = "CLOSED") ∧
    ((pauseSession db user sessionId).1 = 200 ↔ s.status = "OPEN") ∧
    ((closeSession db user sessionId).1 = 200 ↔ s.status = "OPEN" ∨ s.status = "PAUSED") ∧
    ((openSession db user sessionId).1 = 200 →
      (openSession db user sessionId).2 = saveSessionStatus db s.id "OPEN" ∧
      findSession (openSession db user sessionId).2 sessionId = some { s with status := "OPEN" }) ∧
    ((pauseSession db user sessionId).1 = 200 →
      (pauseSession db user sessionId).2 = saveSessionStatus db s.id "PAUSED" ∧
      findSession (pauseSession db user sessionId).2 sessionId
        = some { s with status := "PAUSED" }) ∧
    ((closeSession db user sessionId).1 = 200 →
      (closeSession db user sessionId).2 = saveSessionStatus db s.id "CLOSED" ∧
      findSession (closeSession db user sessionId).2 sessionId
        = some { s with status := "CLOSED" }) ∧
    ((openSession db user sessionId).1 ≠ 200 → openSession db user sessionId = (400, db)) ∧
    ((pauseSession db user sessionId).1 ≠ 200 → pauseSession db user sessionId = (400, db)) ∧
    ((closeSession db user sessionId).1 ≠ 200 → closeSession db user sessionId = (400, db)) ∧
    ((closeSession db user sessionId).1 = 200 →
      (openSession (closeSession db user sessionId).2 user sessionId).1 = 200) ∧
    (s.status = "CLOSED" →
      pauseSession db user sessionId = (400, db) ∧ closeSession db user sessionId = (400, db) ∧
      (openSession db user sessionId).1 = 200) := by
  have hfind := loadOwnedSession_find db user sessionId s hload
  have hO := findSession_saveSessionStatus db sessionId s "OPEN" hfind
  have hP := findSession_saveSessionStatus db sessionId s "PAUSED" hfind
  have hC := findSession_saveSessionStatus db sessionId s "CLOSED" hfind
  have hloadC := loadOwnedSession_saveSessionStatus db user sessionId s "CLOSED" hload
  have hid : s.id = sessionId := (findSession_some db sessionId s hfind).1
  simp only [List.mem_cons, List.mem_singleton, List.not_mem_nil, or_false] at hdom
  rcases hdom with h | h | h
  · have e1 : openSession db user sessionId = (400, db) := by
      unfold openSession; rw [hload]; simp [h]
    have e2 : pauseSession db user sessionId = (200, saveSessionStatus db s.id "PAUSED") := by
      unfold pauseSession; rw [hload]; simp [h]
    have e3 : closeSession db user sessionId = (200, saveSessionStatus db s.id "CLOSED") := by
      unfold closeSession; rw [hload]; simp [h]
    have e4 : (openSession (saveSessionStatus db s.id "CLOSED") user sessionId).1 = 200 := by
      unfold openSession; rw [hloadC]; simp
    rw [e1, e2, e3]
    simp [h, hP, hC, e4]
  · have e1 : openSession db user sessionId = (200, saveSessionStatus db s.id "OPEN") := by
      unfold openSession; rw [hload]; simp [h]
    have e2 : pauseSession db user sessionId = (400, db) := by
      unfold pauseSession; rw [hload]; simp [h]
    have e3 : closeSession db user sessionId = (200, saveSessionStatus db s.id "CLOSED") := by
      unfold closeSession; rw [hload]; simp [h]
    have e4 : (openSession (saveSessionStatus db s.id "CLOSED") user sessionId).1 = 200 := by
      unfold openSession; rw [hloadC]; simp
    rw [e1, e2, e3]
    simp [h, hO, hC, e4]
  · have e1 : openSession db user sessionId = (200, saveSessionStatus db s.id "OPEN") := by
      unfold openSession; rw [hload]; simp [h]
    have e2 : pauseSession db user sessionId = (400, db) := by
      unfold pauseSession; rw [hload]; simp [h]
    have e3 : closeSession db user sessionId = (400, db) := by
      unfold closeSession; rw [hload]; simp [h]
    rw [e1, e2, e3]
    simp [h, hO]
/-- C4: self check-in succeeds iff the session exists, is OPEN, is not a ROLL_CALL
session, the caller is enrolled in its course and, for a CODE session, a non-empty
code is supplied that equals the stored code; when every CODE session carries the
non-empty code issued for it, this is: the supplied code equals the stored code. A
rejected check-in, a wrong code (400) included, leaves every table unchanged, and a
CODE check-in with the right code by a student without a row appends one row with
status 1. -/
theorem attend_succeeds_iff (db : Db) (env : Env) (user : SessionUser) (sessionId : Nat)
    (code : Option String) :
    ((attend db env user sessionId code).1 = 200 ↔
      ∃ s, findSession db sessionId = some s ∧ s.status = "OPEN" ∧
        s.attendanceMethod ≠ "ROLL_CALL" ∧
        (findEnrollment db s.courseId user.id).isSome = true ∧
        (s.attendanceMethod = "CODE" → codeTruthy code = true ∧ code = s.code)) ∧
    ((∀ s ∈ db.sessions, CodeIssued s) →
      ((attend db env user sessionId code).1 = 200 ↔
        ∃ s, findSession db sessionId = some s ∧ s.status = "OPEN" ∧
          s.attendanceMethod ≠ "ROLL_CALL" ∧
          (findEnrollment db s.courseId user.id).isSome = true ∧
          (s.attendanceMethod = "CODE" → code = s.code))) ∧
    ((attend db env user sessionId code).1 ≠ 200 →
      (attend db env user sessionId code).2 = db) ∧
    (∀ s, findSession db sessionId = some s → s.status = "OPEN" →
      (findEnrollment db s.courseId user.id).isSome = true →
      s.attendanceMethod = "CODE" → code ≠ s.code →
      attend db env user sessionId code = (400, db)) ∧
    (∀ s, findSession db sessionId = some s → s.status = "OPEN" →
      (findEnrollment db s.courseId user.id).isSome = true →
      s.attendanceMethod = "CODE" → codeTruthy code = true → code = s.code →
      findAttendance db.attendances s.id user.id = none →
      (attend db env user sessionId code).1 = 200 ∧
      ∃ row : Attendance, row.sessionId = s.id ∧ row.studentId = user.id ∧ row.status = 1 ∧
        (attend db env user sessionId code).2
          = { db with attendances := db.attendances ++ [row] }) := by
  have henr : ∀ s : ClassSession, (findEnrollment db s.courseId user.id).isSome = true ↔
      ¬ (findEnrollment db s.courseId user.id).isNone = true := by
    intro s
    cases findEnrollment db s.courseId user.id <;> simp
  have hmain : (attend db env user sessionId code).1 = 200 ↔
      ∃ s, findSession db sessionId = some s ∧ s.status = "OPEN" ∧
        s.attendanceMethod ≠ "ROLL_CALL" ∧
        (findEnrollment db s.courseId user.id).isSome = true ∧
        (s.attendanceMethod = "CODE" → codeTruthy code = true ∧ code = s.code) := by
    constructor
    · intro h
      obtain ⟨s, hs, c1, c2, c3, c4, -⟩ := attend_ok_eq db env user sessionId code h
      refine ⟨s, hs, not_not.mp c1, c2, (henr s).mpr c3, ?_⟩
      intro hm
      constructor
      · by_contra hb
        exact c4 ⟨hm, Or.inl (by simpa using hb)⟩
      · by_contra hb
        exact c4 ⟨hm, Or.inr hb⟩
    · rintro ⟨s, hs, hopen, hrc, he, hc⟩
      unfold attend
      rw [hs]
      simp only
      have h4 : ¬ (s.attendanceMethod = "CODE" ∧ (codeTruthy code = false ∨ code ≠ s.code)) := by
        rintro ⟨hm, hbad⟩
        obtain ⟨ht, heq⟩ := hc hm
        rcases hbad with hb | hb
        · rw [ht] at hb; simp at hb
        · exact hb heq
      rw [if_neg (not_not.mpr hopen), if_neg hrc, if_neg ((henr s).mp he), if_neg h4]
  refine ⟨hmain, ?_, attend_rejected_unchanged db env user sessionId code, ?_, ?_⟩
  · intro hcode
    rw [hmain]
    constructor
    · rintro ⟨s, hs, hopen, hrc, he, hc⟩
      exact ⟨s, hs, hopen, hrc, he, fun hm => (hc hm).2⟩
    · rintro ⟨s, hs, hopen, hrc, he, hc⟩
      refine ⟨s, hs, hopen, hrc, he, fun hm => ⟨?_, hc hm⟩⟩
      obtain ⟨c, hsc, hne⟩ := hcode s (findSession_some db sessionId s hs).2 hm
      rw [hc hm, hsc]
      exact codeTruthy_some c hne
  · intro s hs hopen he hm hne
    unfold attend
    rw [hs]
    simp only
    have hrc : ¬ s.attendanceMethod = "ROLL_CALL" := by rw [hm]; decide
    rw [if_neg (not_not.mpr hopen), if_neg hrc, if_neg ((henr s).mp he),
      if_pos ⟨hm, Or.inr hne⟩]
  · intro s hs hopen he hm ht hc hnone
    have hrc : ¬ s.attendanceMethod = "ROLL_CALL" := by rw [hm]; decide
    have hok : (attend db env user sessionId code).1 = 200 :=
      hmain.mpr ⟨s, hs, hopen, hrc, he, fun _ => ⟨ht, hc⟩⟩
    obtain ⟨s1, hs1, -, -, -, -, heq⟩ := attend_ok_eq db env user sessionId code hok
    rw [hs] at hs1
    cases hs1
    refine ⟨hok, ?_⟩
    rw [heq]
    unfold checkIn
    rw [hnone]
    exact ⟨_, rfl, rfl, rfl, rfl⟩

/-- Witness of C4 on the example database without rows: the right code is accepted and
a wrong code is refused with 400, the database unchanged. -/
theorem attend_succeeds_iff_witness :
    (∀ s ∈ exampleDbNoRows.sessions, CodeIssued s) ∧
    (attend exampleDbNoRows exampleEnv exampleStudent 1 (some "123456")).1 = 200 ∧
    attend exampleDbNoRows exampleEnv exampleStudent 1 (some "654321") = (400, exampleDbNoRows) :=
  have hcode : ∀ s ∈ exampleDbNoRows.sessions, CodeIssued s := by
    intro s hs
    simp only [exampleDbNoRows, exampleDb, List.mem_singleton] at hs
    subst hs
    intro _
    exact ⟨"123456", rfl, by decide⟩
  ⟨hcode,
    ((attend_succeeds_iff exampleDbNoRows exampleEnv exampleStudent 1 (some "123456")).2.1
      hcode).mpr
      ⟨⟨1, 1, 1, 1, none, none, none, "CODE", "OPEN", some "123456"⟩, by decide, by decide,
        by decide, by decide, fun _ => rfl⟩,
    (attend_succeeds_iff exampleDbNoRows exampleEnv exampleStudent 1 (some "654321")).2.2.2.1
      ⟨1, 1, 1, 1, none, none, none, "CODE", "OPEN", some "123456"⟩ (by decide) (by decide)
      (by decide) (by decide) (by decide)⟩

/-- Manual creation stores the code of `genCode()` in a CODE session, so that every
session keeps a non-empty code when `genCode()` returns a non-empty string. -/
theorem createSession_codeIssued (db : Db) (env : Env) (user : SessionUser) (courseId : Nat)
    (body : CreateSessionBody) (hgen : env.genCode ≠ "")
    (h : ∀ s ∈ db.sessions, CodeIssued s) :
    ∀ s ∈ (createSession db env user courseId body).2.sessions, CodeIssued s := by
  unfold createSession
  cases findCourse db courseId with
  | none => exact h
  | some course =>
    simp only
    by_cases h1 : notOwner user course = true
    · rw [if_pos h1]; exact h
    rw [if_neg h1]
    by_cases h2 : body.week = 0
    · rw [if_pos h2]; exact h
    rw [if_neg h2]
    by_cases h3 : body.attendanceMethod.getD "ELECTRONIC" ∉ allowedMethods
    · rw [if_pos h3]; exact h
    rw [if_neg h3]
    intro s hs
    simp only [List.mem_append, List.mem_singleton] at hs
    rcases hs with hs | rfl
    · exact h s hs
    · intro hm
      simp only at hm
      exact ⟨env.genCode, by simp [hm], hgen⟩

/-- Witness of C5: a roll call that lists student 7 twice leaves one row, with the status
of the last item. -/
theorem attendance_unique_preserved_witness :
    AttendanceUnique exampleRollcallDb.attendances ∧
    AttendanceUnique
      (applyWrite exampleRollcallDb exampleEnv
        (.rollcall exampleAdmin 1 [⟨7, 1⟩, ⟨7, 2⟩])).attendances ∧
    (applyWrite exampleRollcallDb exampleEnv
        (.rollcall exampleAdmin 1 [⟨7, 1⟩, ⟨7, 2⟩])).attendances
      = [⟨1, 1, 7, 2, some 1000, some 1⟩] :=
  have h0 : AttendanceUnique exampleRollcallDb.attendances := by
    unfold AttendanceUnique
    decide
  ⟨h0, attendance_unique_preserved exampleRollcallDb exampleEnv
    (.rollcall exampleAdmin 1 [⟨7, 1⟩, ⟨7, 2⟩]) h0, by decide⟩

/-- Witness of C6 on the example database, where student 7 has a row with status 3 and
no `checkedAt`: a second check-in at time 2000 changes nothing. -/
theorem attend_idempotent_witness :
    (attend exampleDb exampleEnv exampleStudent 1 (some "123456")).1 = 200 ∧
    attend (attend exampleDb exampleEnv exampleStudent 1 (some "123456")).2
        ⟨2000, "123456", false, false⟩ exampleStudent 1 (some "123456")
      = (200, (attend exampleDb exampleEnv exampleStudent 1 (some "123456")).2) ∧
    (attend exampleDb exampleEnv exampleStudent 1 (some "123456")).2.attendances
      = [⟨1, 1, 7, 3, some 1000, none⟩] :=
  ⟨by decide,
    (attend_idempotent exampleDb exampleEnv ⟨2000, "123456", false, false⟩ exampleStudent 1
      (some "123456") (by decide)).2,
    by decide⟩

/-- Witness of C7 on session 1 of the example database, which is OPEN: close succeeds
and open after it succeeds, while open on the OPEN session is refused. -/
theorem session_transitions_witness :
    (closeSession exampleDb exampleAdmin 1).1 = 200 ∧
    (openSession (closeSession exampleDb exampleAdmin 1).2 exampleAdmin 1).1 = 200 ∧
    openSession exampleDb exampleAdmin 1 = (400, exampleDb) :=
  have h := session_transitions exampleDb exampleAdmin 1
    ⟨1, 1, 1, 1, none, none, none, "CODE", "OPEN", some "123456"⟩ (by rfl) (by decide)
  ⟨by decide, h.2.2.2.2.2.2.2.2.2.1 (by decide), h.2.2.2.2.2.2.1 (by decide)⟩

/-- C8, at the failing inputs: ROLL_CALL is accepted as attendance method and PAUSED is
written as status, and neither is a member of the value domain that the ClassSession
entity declares; manual creation with ROLL_CALL and pause of an OPEN session store
values outside the declared domains. -/
theorem session_values_outside_declared_domain :
    "ROLL_CALL" ∈ allowedMethods ∧ "ROLL_CALL" ∉ declaredMethods ∧
    "PAUSED" ∈ allowedDefaultStatuses ∧ "PAUSED" ∉ declaredStatuses ∧
    (∃ s, createSession exampleCourseOnly exampleEnv exampleAdmin 1 exampleWeekOneRollcall
        = (201, { exampleCourseOnly with sessions := [s] }) ∧
      s.attendanceMethod = "ROLL_CALL" ∧ s.attendanceMethod ∉ declaredMethods) ∧
    (∃ s, (pauseSession exampleDb exampleAdmin 1).1 = 200 ∧
      findSession (pauseSession exampleDb exampleAdmin 1).2 1 = some s ∧
      s.status = "PAUSED" ∧ s.status ∉ declaredStatuses) := by
  refine ⟨by decide, by decide, by decide, by decide, ?_, ?_⟩
  · exact ⟨⟨1, 1, 1, 1, none, none, none, "ROLL_CALL", "CLOSED", none⟩, by decide, by decide,
      by decide⟩
  · exact ⟨⟨1, 1, 1, 1, none, none, none, "CODE", "PAUSED", some "123456"⟩, by decide, by decide,
      by decide, by decide⟩

/-- C9, at the failing input: two manual creations for week 1 (round defaulting to 1)
of course 1 both answer 201 and leave two sessions that share (courseId, week, round),
although the table had no such pair before. -/
theorem createSession_duplicates_key :
    SessionKeysUnique exampleCourseOnly.sessions ∧
    (createSession exampleCourseOnly exampleEnv exampleAdmin 1 exampleWeekOne).1 = 201 ∧
    (createSession
      (createSession exampleCourseOnly exampleEnv exampleAdmin 1 exampleWeekOne).2
      exampleEnv exampleAdmin 1 exampleWeekOne).1 = 201 ∧
    ¬ SessionKeysUnique
      (createSession
        (createSession exampleCourseOnly exampleEnv exampleAdmin 1 exampleWeekOne).2
        exampleEnv exampleAdmin 1 exampleWeekOne).2.sessions := by
  unfold SessionKeysUnique
  decide

/-- Counterexample to C10 as stated: on the example database, resolving the APPROVED
excuse 1 and the REJECTED appeal 1 is answered with 400, not with 409. -/
theorem resolve_non_pending_not_conflict :
    (resolveExcuse exampleDb exampleEnv exampleAdmin 1 "REJECTED" none).1 = 400 ∧
    ¬ (resolveExcuse exampleDb exampleEnv exampleAdmin 1 "REJECTED" none).1 = 409 ∧
    (resolveAppeal exampleDb exampleEnv exampleAdmin 1 "ACCEPTED" none none).1 = 400 ∧
    ¬ (resolveAppeal exampleDb exampleEnv exampleAdmin 1 "ACCEPTED" none none).1 = 409 := by
  decide

/-- C10 as amended: resolving an excuse request whose status is not PENDING, or an
appeal that the lookup finds (its attendance, session and course rows exist) and whose
status is not PENDING, is answered with 400 and leaves every table (excuses, appeals,
Attendance, AuditLog, Notifications) as before the call. -/
theorem resolve_non_pending_rejected (db : Db) (env : Env) (user : SessionUser) :
    (∀ (excuseId : Nat) (nextStatus : String) (replyText : Option String) (e : ExcuseRequest),
      db.excuses.find? (fun x => decide (x.id = excuseId)) = some e → e.status ≠ "PENDING" →
      resolveExcuse db env user excuseId nextStatus replyText = (400, db)) ∧
    (∀ (appealId : Nat) (nextStatus : String) (replyText : Option String)
      (applyAttendanceStatus : Option Nat) (p : Appeal) (a : Attendance) (c : Course),
      findAppealJoined db appealId = some (p, a, c) → p.status ≠ "PENDING" →
      resolveAppeal db env user appealId nextStatus replyText applyAttendanceStatus
        = (400, db)) := by
  constructor
  · intro excuseId nextStatus replyText e he hne
    unfold resolveExcuse
    by_cases h1 : nextStatus ∉ ["APPROVED", "REJECTED"]
    · rw [if_pos h1]
    · rw [if_neg h1, he]
      simp only
      rw [if_pos hne]
  · intro appealId nextStatus replyText applyAttendanceStatus p a c hp hne
    unfold resolveAppeal
    by_cases h1 : nextStatus ∉ ["ACCEPTED", "REJECTED"]
    · rw [if_pos h1]
    · rw [if_neg h1, hp]
      simp only
      rw [if_pos hne]

/-- Witness of C10 as amended on the example database. -/
theorem resolve_non_pending_rejected_witness :
    resolveExcuse exampleDb exampleEnv exampleAdmin 1 "APPROVED" none = (400, exampleDb) ∧
    resolveAppeal exampleDb exampleEnv exampleAdmin 1 "ACCEPTED" none (some 2)
      = (400, exampleDb) :=
  ⟨(resolve_non_pending_rejected exampleDb exampleEnv exampleAdmin).1 1 "APPROVED" none
      ⟨1, 1, 7, "APPROVED"⟩ (by decide) (by decide),
    (resolve_non_pending_rejected exampleDb exampleEnv exampleAdmin).2 1 "ACCEPTED" none (some 2)
      ⟨1, 1, 7, some 2, "REJECTED", some 1, some 900, none⟩ ⟨1, 1, 7, 3, none, none⟩
      ⟨1, 2, "2025-2", some "소프트웨어"⟩ (by decide) (by decide)⟩

/-- C11, the failing requests: with a failing audit write, approving the PENDING
excuse 1 and accepting the PENDING appeal 1 of the example answer 500 and leave the
database, the PENDING statuses included, as it was, and correcting Attendance row 1
answers 500. The claim promises the mutation persisted and a success answer. -/
theorem audit_failure_not_success :
    resolveExcuse examplePendingDb exampleAuditFailEnv exampleAdmin 1 "APPROVED" none
      = (500, examplePendingDb) ∧
    resolveAppeal examplePendingDb exampleAuditFailEnv exampleAdmin 1 "ACCEPTED" none none
      = (500, examplePendingDb) ∧
    (correctAttendance examplePendingDb exampleAuditFailEnv exampleAdmin 1 1).1 = 500 := by
  decide

theorem resolveExcuse_auditFails (db : Db) (env : Env) (user : SessionUser) (excuseId : Nat)
    (nextStatus : String) (replyText : Option String) (hfail : env.auditFails = true) :
    resolveExcuse db env user excuseId nextStatus replyText
      = if (resolveExcuse db { env with auditFails := false } user excuseId nextStatus
            replyText).1 = 200
        then (500, db)
        else resolveExcuse db { env with auditFails := false } user excuseId nextStatus
          replyText := by
  unfold resolveExcuse
  by_cases h1 : nextStatus ∉ ["APPROVED", "REJECTED"]
  · simp only [if_pos h1]; simp
  simp only [if_neg h1]
  cases hx : db.excuses.find? (fun e => decide (e.id = excuseId)) with
  | none => simp
  | some excuse =>
    simp only
    by_cases h2 : excuse.status ≠ "PENDING"
    · simp only [if_pos h2]; simp
    simp only [if_neg h2]
    cases hs : findSession db excuse.sessionId with
    | none => simp
    | some session =>
      simp only
      cases hc : findCourse db session.courseId with
      | none => simp
      | some course =>
        simp only
        by_cases h3 : notOwner user course = true
        · simp only [if_pos h3]; simp
        simp only [if_neg h3, hfail]
        simp

theorem resolveAppeal_auditFails (db : Db) (env : Env) (user : SessionUser) (appealId : Nat)
    (nextStatus : String) (replyText : Option String) (applyAttendanceStatus : Option Nat)
    (hfail : env.auditFails = true) :
    resolveAppeal db env user appealId nextStatus replyText applyAttendanceStatus
      = if (resolveAppeal db { env with auditFails := false } user appealId nextStatus
            replyText applyAttendanceStatus).1 = 200
        then (500, db)
        else resolveAppeal db { env with auditFails := false } user appealId nextStatus
          replyText applyAttendanceStatus := by
  unfold resolveAppeal
  by_cases h1 : nextStatus ∉ ["ACCEPTED", "REJECTED"]
  · simp only [if_pos h1]; simp
  simp only [if_neg h1]
  cases hx : findAppealJoined db appealId with
  | none => simp
  | some x =>
    obtain ⟨appeal, attendance, course⟩ := x
    simp only
    by_cases h2 : appeal.status ≠ "PENDING"
    · simp only [if_pos h2]; simp
    simp only [if_neg h2]
    by_cases h3 : notOwner user course = true
    · simp only [if_pos h3]; simp
    simp only [if_neg h3]
    by_cases h4 : nextStatus = "ACCEPTED" ∧ applyInvalid applyAttendanceStatus = true
    · simp only [if_pos h4]; simp
    simp only [if_neg h4, hfail]
    simp

theorem correctAttendance_auditFails (db : Db) (env : Env) (user : SessionUser)
    (attendanceId status : Nat) (hfail : env.auditFails = true) :
    correctAttendance db env user attendanceId status
      = if (correctAttendance db { env with auditFails := false } user attendanceId
            status).1 = 200
        then (500, { db with
          attendances := saveCorrection db.attendances attendanceId status user.id })
        else correctAttendance db { env with auditFails := false } user attendanceId
          status := by
  unfold correctAttendance
  cases hx : db.attendances.find? (fun a => decide (a.id = attendanceId)) with
  | none => simp
  | some attendance =>
    have hid : attendance.id = attendanceId := by
      have := List.find?_some hx
      simpa using this
    simp only
    cases hs : findSession db attendance.sessionId with
    | none => simp
    | some session =>
      simp only
      cases hc : findCourse db session.courseId with
      | none =>
        simp only
        by_cases hr : user.role = Role.INSTRUCTOR
        · simp [hr]
        · by_cases h4 : status ∉ [1, 2, 3, 4]
          · simp only [if_neg hr, if_pos h4]; simp
          · simp only [if_neg hr, if_neg h4, hfail, hid]; simp
      | some course =>
        simp only
        by_cases h3 : notOwner user course = true
        · simp [h3]
        · by_cases h4 : status ∉ [1, 2, 3, 4]
          · simp only [if_neg h3, if_pos h4]; simp
          · simp only [if_neg h3, if_neg h4, hfail, hid]; simp

/-- C11, what the three handlers do against the claim: when the audit write fails, an
excuse or appeal resolution that would otherwise succeed answers 500 and is rolled
back, the database staying exactly as before the call; a correction that would
otherwise succeed answers 500 with the Attendance status change persisted and no audit
row; a request that would be refused anyway is refused as before. None of the three
treats the audit write as best-effort. -/
theorem audit_failure_outcome (db : Db) (env : Env) (user : SessionUser)
    (hfail : env.auditFails = true) :
    (∀ (excuseId : Nat) (nextStatus : String) (replyText : Option String),
      resolveExcuse db env user excuseId nextStatus replyText
        = if (resolveExcuse db { env with auditFails := false } user excuseId nextStatus
              replyText).1 = 200
          then (500, db)
          else resolveExcuse db { env with auditFails := false } user excuseId nextStatus
            replyText) ∧
    (∀ (appealId : Nat) (nextStatus : String) (replyText : Option String)
      (applyAttendanceStatus : Option Nat),
      resolveAppeal db env user appealId nextStatus replyText applyAttendanceStatus
        = if (resolveAppeal db { env with auditFails := false } user appealId nextStatus
              replyText applyAttendanceStatus).1 = 200
          then (500, db)
          else resolveAppeal db { env with auditFails := false } user appealId nextStatus
            replyText applyAttendanceStatus) ∧
    (∀ (attendanceId status : Nat),
      correctAttendance db env user attendanceId status
        = if (correctAttendance db { env with auditFails := false } user attendanceId
              status).1 = 200
          then (500, { db with
            attendances := saveCorrection db.attendances attendanceId status user.id })
          else correctAttendance db { env with auditFails := false } user attendanceId
            status) :=
  ⟨fun excuseId nextStatus replyText =>
      resolveExcuse_auditFails db env user excuseId nextStatus replyText hfail,
    fun appealId nextStatus replyText applyAttendanceStatus =>
      resolveAppeal_auditFails db env user appealId nextStatus replyText applyAttendanceStatus
        hfail,
    fun attendanceId status =>
      correctAttendance_auditFails db env user attendanceId status hfail⟩

/-- C11 on the example with PENDING requests and a failing audit write: the excuse
approval is rolled back, and the correction to status 1 is persisted although 500 is
answered. -/
theorem audit_failure_outcome_witness :
    exampleAuditFailEnv.auditFails = true ∧
    resolveExcuse examplePendingDb exampleAuditFailEnv exampleAdmin 1 "APPROVED" none
      = (500, examplePendingDb) ∧
    correctAttendance examplePendingDb exampleAuditFailEnv exampleAdmin 1 1
      = (500, { examplePendingDb with attendances := [⟨1, 1, 7, 1, none, some 1⟩] }) :=
  ⟨rfl,
    ((audit_failure_outcome examplePendingDb exampleAuditFailEnv exampleAdmin rfl).1 1
      "APPROVED" none).trans (by decide),
    ((audit_failure_outcome examplePendingDb exampleAuditFailEnv exampleAdmin rfl).2.2 1
      1).trans (by decide)⟩
/-- Counterexample to C12 as stated: a request without an authenticated user is
answered by `requireRole("STUDENT")` with 403, not with 401. -/
theorem requireRole_unauthenticated_not_401 :
    requireRole [Role.STUDENT] none (fun u db => attend db exampleEnv u 1 none) exampleDb
      = (403, exampleDb) ∧
    ¬ (requireRole [Role.STUDENT] none (fun u db => attend db exampleEnv u 1 none)
        exampleDb).1 = 401 := by
  decide

/-- C12 as amended: requireRole lets a request proceed, running the handler behind it,
iff an authenticated session user exists and its role is in the role set; a request
with no authenticated user and a request whose user has a role outside the role set
both fail with 403, and in both cases the handler is not run: the answer is the same
for every handler and the database is untouched. -/
theorem requireRole_guard (roles : List Role) (user : Option SessionUser) (db : Db) :
    (roleAllowed roles user = true ↔ ∃ u, user = some u ∧ u.role ∈ roles) ∧
    (∀ (next : SessionUser → Db → Nat × Db) (u : SessionUser), user = some u →
      u.role ∈ roles → requireRole roles user next db = next u db) ∧
    (user = none → ∀ next : SessionUser → Db → Nat × Db,
      requireRole roles user next db = (403, db)) ∧
    (∀ u, user = some u → u.role ∉ roles → ∀ next : SessionUser → Db → Nat × Db,
      requireRole roles user next db = (403, db)) ∧
    (roleAllowed roles user = false → ∀ next : SessionUser → Db → Nat × Db,
      requireRole roles user next db = (403, db)) := by
  cases user with
  | none =>
    refine ⟨?_, ?_, ?_, ?_, ?_⟩
    · simp [roleAllowed]
    · intro next u h; cases h
    · intro _ next; rfl
    · intro u h; cases h
    · intro _ next; rfl
  | some v =>
    refine ⟨?_, ?_, ?_, ?_, ?_⟩
    · simp [roleAllowed]
    · intro next u h hr
      cases h
      unfold requireRole
      simp only
      rw [if_neg (not_not.mpr hr)]
    · intro h; cases h
    · intro u h hr next
      cases h
      unfold requireRole
      simp only
      rw [if_pos hr]
    · intro h next
      have hr : v.role ∉ roles := by simpa [roleAllowed] using h
      unfold requireRole
      simp only
      rw [if_pos hr]

/-- Witness of C12 as amended: a student passes `requireRole("STUDENT")`, an
administrator is answered 403. -/
theorem requireRole_guard_witness :
    requireRole [Role.STUDENT] (some exampleStudent)
        (fun u db => attend db exampleEnv u 1 (some "123456")) exampleDb
      = attend exampleDb exampleEnv exampleStudent 1 (some "123456") ∧
    requireRole [Role.STUDENT] (some exampleAdmin)
        (fun u db => attend db exampleEnv u 1 (some "123456")) exampleDb
      = (403, exampleDb) :=
  ⟨(requireRole_guard [Role.STUDENT] (some exampleStudent) exampleDb).2.1 _ exampleStudent rfl
      (by decide),
    (requireRole_guard [Role.STUDENT] (some exampleAdmin) exampleDb).2.2.2.1 exampleAdmin rfl
      (by decide) _⟩
theorem findAttendance_saveStatus (rows : List Attendance) (sessionId studentId : Nat)
    (a : Attendance) (status : Nat) (checkedAt : Option Nat) (updatedBy : Nat)
    (h : findAttendance rows sessionId studentId = some a) :
    findAttendance (saveStatus rows a.id status checkedAt updatedBy) sessionId studentId
      = some { a with status := status, checkedAt := checkedAt, updatedBy := some updatedBy } := by
  unfold findAttendance saveStatus at *
  rw [List.find?_map]
  have hp : ((fun (x : Attendance) => decide (x.sessionId = sessionId ∧ x.studentId = studentId)) ∘
      fun (r : Attendance) =>
        if r.id = a.id then
          { r with status := status, checkedAt := checkedAt, updatedBy := some updatedBy }
        else r)
      = fun (x : Attendance) => decide (x.sessionId = sessionId ∧ x.studentId = studentId) := by
    funext r
    simp only [Function.comp]
    split_ifs <;> rfl
  rw [hp, h]
  simp

theorem findAttendance_append_created (rows : List Attendance) (row : Attendance)
    (h : findAttendance rows row.sessionId row.studentId = none) :
    findAttendance (rows ++ [row]) row.sessionId row.studentId = some row := by
  unfold findAttendance at h ⊢
  rw [List.find?_append, h]
  simp

/-- C13: approving a PENDING excuse leaves the Attendance row of (session, student)
with status 4. Without a row, one is created with status 4; a row with status s other
than 4 is updated to 4 and the audit log gets the EXCUSE row followed by an
ATTENDANCE row with before s and after 4; a row already at 4 is left untouched, the
Attendance table is unchanged and only the EXCUSE audit row is appended. -/
theorem approve_excuse_sets_excused (db : Db) (env : Env) (user : SessionUser)
    (excuseId : Nat) (replyText : Option String) (e : ExcuseRequest) (s : ClassSession)
    (he : db.excuses.find? (fun x => decide (x.id = excuseId)) = some e)
    (hs : findSession db e.sessionId = some s)
    (hok : (resolveExcuse db env user excuseId "APPROVED" replyText).1 = 200) :
    e.status = "PENDING" ∧
    (∃ row, findAttendance
        (resolveExcuse db env user excuseId "APPROVED" replyText).2.attendances
        s.id e.studentId = some row ∧ row.status = 4) ∧
    (findAttendance db.attendances s.id e.studentId = none →
      (resolveExcuse db env user excuseId "APPROVED" replyText).2.attendances
        = db.attendances ++
          [⟨nextId (db.attendances.map (fun a => a.id)), s.id, e.studentId, 4, some env.now,
            some user.id⟩]) ∧
    (∀ a, findAttendance db.attendances s.id e.studentId = some a → a.status ≠ 4 →
      findAttendance (resolveExcuse db env user excuseId "APPROVED" replyText).2.attendances
          s.id e.studentId
        = some { a with
            status := 4
            checkedAt := if a.checkedAt.isNone then some env.now else a.checkedAt
            updatedBy := some user.id } ∧
      (resolveExcuse db env user excuseId "APPROVED" replyText).2.auditLogs
        = db.auditLogs ++
          [⟨nextId (db.auditLogs.map (fun l => l.id)), "EXCUSE", e.id, "APPROVE", user.id,
              AuditValue.excuse "PENDING" none, AuditValue.excuse "APPROVED" replyText⟩,
            ⟨nextId (db.auditLogs.map (fun l => l.id)) + 1, "ATTENDANCE", a.id, "UPDATE",
              user.id, AuditValue.attendanceStatus a.status,
              AuditValue.attendanceStatus 4⟩]) ∧
    (∀ a, findAttendance db.attendances s.id e.studentId = some a → a.status = 4 →
      (resolveExcuse db env user excuseId "APPROVED" replyText).2.attendances
        = db.attendances ∧
      (resolveExcuse db env user excuseId "APPROVED" replyText).2.auditLogs
        = db.auditLogs ++
          [⟨nextId (db.auditLogs.map (fun l => l.id)), "EXCUSE", e.id, "APPROVE", user.id,
              AuditValue.excuse "PENDING" none, AuditValue.excuse "APPROVED" replyText⟩]) := by
  have hmem : ¬ ("APPROVED" ∉ ["APPROVED", "REJECTED"]) := by decide
  unfold resolveExcuse at hok ⊢
  rw [if_neg hmem, he] at hok
  rw [if_neg hmem, he]
  simp only at hok ⊢
  by_cases h2 : e.status ≠ "PENDING"
  · rw [if_pos h2] at hok; simp at hok
  rw [if_neg h2, hs] at hok
  rw [if_neg h2, hs]
  simp only at hok ⊢
  cases hc : findCourse db s.courseId with
  | none => rw [hc] at hok; simp at hok
  | some course =>
    rw [hc] at hok
    simp only at hok ⊢
    by_cases h3 : notOwner user course = true
    · rw [if_pos h3] at hok; simp at hok
    rw [if_neg h3] at hok
    rw [if_neg h3]
    by_cases h4 : env.auditFails = true
    · rw [if_pos h4] at hok; simp at hok
    rw [if_neg h4]
    have hpend : e.status = "PENDING" := not_not.mp h2
    simp only [if_true]
    refine ⟨hpend, ?_, ?_, ?_, ?_⟩
    · cases hf : findAttendance db.attendances s.id e.studentId with
      | none =>
        simp only
        exact ⟨_, findAttendance_append_created db.attendances
          ⟨nextId (db.attendances.map (fun a => a.id)), s.id, e.studentId, 4, some env.now,
            some user.id⟩ hf, rfl⟩
      | some a =>
        simp only
        by_cases h5 : a.status ≠ 4
        · rw [if_pos h5]
          simp only
          rw [findAttendance_saveStatus _ _ _ _ _ _ _ hf]
          exact ⟨_, rfl, rfl⟩
        · rw [if_neg h5]
          exact ⟨a, hf, not_not.mp h5⟩
    · intro hf
      rw [hf]
    · intro a hf h5
      rw [hf]
      simp only
      rw [if_pos h5]
      simp only
      refine ⟨findAttendance_saveStatus _ _ _ _ _ _ _ hf, ?_⟩
      simp [bulkCreateAudit, hpend, nextId, List.foldl_append]
    · intro a hf h5
      rw [hf]
      simp only
      rw [if_neg (not_not.mpr h5)]
      simp [bulkCreateAudit, hpend]
/-- Witness of C13 on the example with a PENDING excuse and an Attendance row of
status 3: the row becomes 4 and the audit rows record before 3, after 4. -/
theorem approve_excuse_sets_excused_witness :
    (resolveExcuse examplePendingDb exampleEnv exampleAdmin 1 "APPROVED" none).1 = 200 ∧
    findAttendance
        (resolveExcuse examplePendingDb exampleEnv exampleAdmin 1 "APPROVED" none).2.attendances
        1 7
      = some ⟨1, 1, 7, 4, some 1000, some 1⟩ ∧
    (resolveExcuse examplePendingDb exampleEnv exampleAdmin 1 "APPROVED" none).2.auditLogs
      = [⟨1, "EXCUSE", 1, "APPROVE", 1, AuditValue.excuse "PENDING" none,
            AuditValue.excuse "APPROVED" none⟩,
          ⟨2, "ATTENDANCE", 1, "UPDATE", 1, AuditValue.attendanceStatus 3,
            AuditValue.attendanceStatus 4⟩] :=
  have h := (approve_excuse_sets_excused examplePendingDb exampleEnv exampleAdmin 1 none
    ⟨1, 1, 7, "PENDING"⟩ ⟨1, 1, 1, 1, none, none, none, "CODE", "OPEN", some "123456"⟩
    (by decide) (by decide) (by decide)).2.2.2.1 ⟨1, 1, 7, 3, none, none⟩ (by decide) (by decide)
  ⟨by decide, h.1, h.2⟩

theorem findAppealJoined_attendance (db : Db) (appealId : Nat) (p : Appeal) (a : Attendance)
    (c : Course) (h : findAppealJoined db appealId = some (p, a, c)) :
    db.attendances.find? (fun x => decide (x.id = a.id)) = some a := by
  unfold findAppealJoined at h
  cases h1 : db.appeals.find? (fun p => decide (p.id = appealId)) with
  | none => rw [h1] at h; simp at h
  | some p1 =>
    rw [h1] at h
    simp only at h
    cases h2 : db.attendances.find? (fun x => decide (x.id = p1.attendanceId)) with
    | none => rw [h2] at h; simp at h
    | some a1 =>
      rw [h2] at h
      simp only at h
      cases h3 : findSession db a1.sessionId with
      | none => rw [h3] at h; simp at h
      | some s1 =>
        rw [h3] at h
        simp only at h
        cases h4 : findCourse db s1.courseId with
        | none => rw [h4] at h; simp at h
        | some c1 =>
          rw [h4] at h
          simp only [Option.some.injEq, Prod.mk.injEq] at h
          obtain ⟨-, rfl, -⟩ := h
          have hid : a1.id = p1.attendanceId := by
            have := List.find?_some h2
            simpa using this
          rw [hid]
          exact h2

theorem findById_saveStatus (rows : List Attendance) (a : Attendance) (status : Nat)
    (checkedAt : Option Nat) (updatedBy : Nat)
    (h : rows.find? (fun x => decide (x.id = a.id)) = some a) :
    (saveStatus rows a.id status checkedAt updatedBy).find? (fun x => decide (x.id = a.id))
      = some { a with status := status, checkedAt := checkedAt, updatedBy := some updatedBy } := by
  unfold saveStatus
  rw [List.find?_map]
  have hp : ((fun (x : Attendance) => decide (x.id = a.id)) ∘
      fun (r : Attendance) =>
        if r.id = a.id then
          { r with status := status, checkedAt := checkedAt, updatedBy := some updatedBy }
        else r)
      = fun (x : Attendance) => decide (x.id = a.id) := by
    funext r
    simp only [Function.comp]
    split_ifs <;> rfl
  rw [hp, h]
  simp

/-- C14: accepting a PENDING appeal applies the status n that is the reviewer's
`applyAttendanceStatus` when supplied, otherwise the appeal's `requestedStatus` (one
of 1..4 when present), otherwise none. A supplied status outside 1..4 makes the call
fail, 400 once the earlier checks pass, with nothing changed. When n exists and
differs from the current status, the Attendance row gets status n and the audit log
gets the APPEAL row followed by an ATTENDANCE row with before = old status and
after = n; otherwise the Attendance table is unchanged and only the APPEAL audit row
is appended. -/
theorem accept_appeal_applies_status (db : Db) (env : Env) (user : SessionUser)
    (appealId : Nat) (replyText : Option String) (applyAttendanceStatus : Option Nat)
    (p : Appeal) (a : Attendance) (c : Course)
    (hj : findAppealJoined db appealId = some (p, a, c))
    (hreq : ∀ n, p.requestedStatus = some n → n ∈ [1, 2, 3, 4]) :
    (applyInvalid applyAttendanceStatus = true →
      (resolveAppeal db env user appealId "ACCEPTED" replyText applyAttendanceStatus).2 = db ∧
      (resolveAppeal db env user appealId "ACCEPTED" replyText applyAttendanceStatus).1 ≠ 200 ∧
      (p.status = "PENDING" → notOwner user c = false →
        resolveAppeal db env user appealId "ACCEPTED" replyText applyAttendanceStatus
          = (400, db))) ∧
    ((resolveAppeal db env user appealId "ACCEPTED" replyText applyAttendanceStatus).1 = 200 →
      p.status = "PENDING" ∧
      (∀ n, appliedStatus applyAttendanceStatus p.requestedStatus = some n → n ≠ a.status →
        (resolveAppeal db env user appealId "ACCEPTED" replyText
            applyAttendanceStatus).2.attendances.find? (fun x => decide (x.id = a.id))
          = some { a with
              status := n
              checkedAt := if a.checkedAt.isNone then some env.now else a.checkedAt
              updatedBy := some user.id } ∧
        (resolveAppeal db env user appealId "ACCEPTED" replyText
            applyAttendanceStatus).2.auditLogs
          = db.auditLogs ++
            [⟨nextId (db.auditLogs.map (fun l => l.id)), "APPEAL", p.id, "ACCEPT", user.id,
                AuditValue.appeal "PENDING" p.replyText,
                AuditValue.appeal "ACCEPTED"
                  (if replyText.isSome then replyText else p.replyText)⟩,
              ⟨nextId (db.auditLogs.map (fun l => l.id)) + 1, "ATTENDANCE", a.id, "UPDATE",
                user.id, AuditValue.attendanceStatus a.status,
                AuditValue.attendanceStatus n⟩]) ∧
      ((∀ n, appliedStatus applyAttendanceStatus p.requestedStatus = some n → n = a.status) →
        (resolveAppeal db env user appealId "ACCEPTED" replyText
            applyAttendanceStatus).2.attendances = db.attendances ∧
        (resolveAppeal db env user appealId "ACCEPTED" replyText
            applyAttendanceStatus).2.auditLogs
          = db.auditLogs ++
            [⟨nextId (db.auditLogs.map (fun l => l.id)), "APPEAL", p.id, "ACCEPT", user.id,
                AuditValue.appeal "PENDING" p.replyText,
                AuditValue.appeal "ACCEPTED"
                  (if replyText.isSome then replyText else p.replyText)⟩])) := by
  have hmem : ¬ ("ACCEPTED" ∉ ["ACCEPTED", "REJECTED"]) := by decide
  have hfind := findAppealJoined_attendance db appealId p a c hj
  constructor
  · intro hinv
    have h400 : ((400 : Nat), db).1 ≠ 200 := by simp
    have h403 : ((403 : Nat), db).1 ≠ 200 := by simp
    unfold resolveAppeal
    rw [if_neg hmem, hj]
    dsimp only
    by_cases h2 : p.status ≠ "PENDING"
    · rw [if_pos h2]
      exact ⟨rfl, h400, fun hp => absurd hp h2⟩
    rw [if_neg h2]
    by_cases h3 : notOwner user c = true
    · rw [if_pos h3]
      exact ⟨rfl, h403, fun _ hn => by rw [hn] at h3; simp at h3⟩
    rw [if_neg h3, if_pos ⟨rfl, hinv⟩]
    exact ⟨rfl, h400, fun _ _ => rfl⟩
  · intro hok
    unfold resolveAppeal at hok ⊢
    rw [if_neg hmem, hj] at hok
    rw [if_neg hmem, hj]
    dsimp only at hok ⊢
    by_cases h2 : p.status ≠ "PENDING"
    · rw [if_pos h2] at hok; simp at hok
    rw [if_neg h2] at hok
    rw [if_neg h2]
    by_cases h3 : notOwner user c = true
    · rw [if_pos h3] at hok; simp at hok
    rw [if_neg h3] at hok
    rw [if_neg h3]
    by_cases h4 : "ACCEPTED" = "ACCEPTED" ∧ applyInvalid applyAttendanceStatus = true
    · rw [if_pos h4] at hok; simp at hok
    rw [if_neg h4] at hok
    rw [if_neg h4]
    by_cases h5 : env.auditFails = true
    · rw [if_pos h5] at hok; simp at hok
    rw [if_neg h5]
    have hpend : p.status = "PENDING" := not_not.mp h2
    have hvalid : ∀ n, appliedStatus applyAttendanceStatus p.requestedStatus = some n →
        n ∈ [1, 2, 3, 4] := by
      intro n hn
      cases happ : applyAttendanceStatus with
      | none =>
        rw [happ] at hn
        exact hreq n hn
      | some m =>
        rw [happ] at hn
        simp only [appliedStatus, Option.some.injEq] at hn
        subst hn
        by_contra hbad
        exact h4 ⟨rfl, by simp [applyInvalid, happ, hbad]⟩
    clear hok
    have hnew : ∀ x r : Option Nat, (match x with
        | some n => some n
        | none => r) = appliedStatus x r := fun x r => by cases x <;> rfl
    simp only [if_true, hnew]
    refine ⟨hpend, ?_, ?_⟩
    · intro n hn hne
      have hv := hvalid n hn
      rw [hn]
      simp only
      rw [if_pos ⟨hv, fun h => hne h.symm⟩]
      simp only
      refine ⟨findById_saveStatus _ _ _ _ _ hfind, ?_⟩
      simp [bulkCreateAudit, hpend, nextId, List.foldl_append]
    · intro hall
      cases hn : appliedStatus applyAttendanceStatus p.requestedStatus with
      | none =>
        simp [bulkCreateAudit, hpend]
      | some n =>
        have hsame := hall n hn
        simp only
        rw [if_neg (fun h => h.2 hsame.symm)]
        simp [bulkCreateAudit, hpend]

/-- Witness of C14: accepting the PENDING appeal of the example, whose requested status
is 2, without override sets the status of Attendance row 1 from 3 to 2. -/
theorem accept_appeal_applies_status_witness :
    (resolveAppeal examplePendingDb exampleEnv exampleAdmin 1 "ACCEPTED" none none).1 = 200 ∧
    (resolveAppeal examplePendingDb exampleEnv exampleAdmin 1 "ACCEPTED" none
        none).2.attendances.find? (fun x => decide (x.id = 1))
      = some ⟨1, 1, 7, 2, some 1000, some 1⟩ :=
  ⟨by decide,
    ((accept_appeal_applies_status examplePendingDb exampleEnv exampleAdmin 1 none none
      ⟨1, 1, 7, some 2, "PENDING", none, none, none⟩ ⟨1, 1, 7, 3, none, none⟩
      ⟨1, 2, "2025-2", some "소프트웨어"⟩ (by decide) (by decide)).2 (by decide)).2.1 2 rfl (by decide) |>.1⟩

/-- C15: a REJECTED resolution of an excuse request or of an appeal, whatever replyText
or applyAttendanceStatus is sent and whatever the outcome, leaves the Attendance
table equal to the table before it. -/
theorem reject_keeps_attendance (db : Db) (env : Env) (user : SessionUser) (id : Nat)
    (replyText : Option String) (applyAttendanceStatus : Option Nat) :
    (resolveExcuse db env user id "REJECTED" replyText).2.attendances = db.attendances ∧
    (resolveAppeal db env user id "REJECTED" replyText applyAttendanceStatus).2.attendances
      = db.attendances := by
  have hne : ¬ ("REJECTED" = "APPROVED") := by decide
  have hne2 : ¬ ("REJECTED" = "ACCEPTED") := by decide
  constructor
  · unfold resolveExcuse
    by_cases h1 : "REJECTED" ∉ ["APPROVED", "REJECTED"]
    · rw [if_pos h1]
    rw [if_neg h1]
    cases hx : db.excuses.find? (fun e => decide (e.id = id)) with
    | none => rfl
    | some excuse =>
      dsimp only
      by_cases h2 : excuse.status ≠ "PENDING"
      · rw [if_pos h2]
      rw [if_neg h2]
      cases hs : findSession db excuse.sessionId with
      | none => rfl
      | some session =>
        dsimp only
        cases hc : findCourse db session.courseId with
        | none => rfl
        | some course =>
          dsimp only
          by_cases h3 : notOwner user course = true
          · rw [if_pos h3]
          rw [if_neg h3]
          by_cases h4 : env.auditFails = true
          · rw [if_pos h4]
          rw [if_neg h4, if_neg hne]
  · unfold resolveAppeal
    by_cases h1 : "REJECTED" ∉ ["ACCEPTED", "REJECTED"]
    · rw [if_pos h1]
    rw [if_neg h1]
    cases hx : findAppealJoined db id with
    | none => rfl
    | some x =>
      obtain ⟨appeal, attendance, course⟩ := x
      dsimp only
      by_cases h2 : appeal.status ≠ "PENDING"
      · rw [if_pos h2]
      rw [if_neg h2]
      by_cases h3 : notOwner user course = true
      · rw [if_pos h3]
      rw [if_neg h3]
      by_cases h4 : "REJECTED" = "ACCEPTED" ∧ applyInvalid applyAttendanceStatus = true
      · rw [if_pos h4]
      rw [if_neg h4]
      by_cases h5 : env.auditFails = true
      · rw [if_pos h5]
      rw [if_neg h5, if_neg hne2]

theorem pendingExcuse_append (rows : List ExcuseRequest) (e : ExcuseRequest)
    (h : PendingExcuseUnique rows)
    (hnone : findPendingExcuse rows e.sessionId e.studentId = none) :
    PendingExcuseUnique (rows ++ [e]) := by
  unfold PendingExcuseUnique at h ⊢
  rw [List.filter_append, List.map_append]
  apply List.Nodup.append h
  · by_cases hp : e.status = "PENDING"
    · simp [List.filter, hp]
    · simp [List.filter, hp]
  · intro k hk1 hk2
    obtain ⟨x, hx, rfl⟩ := List.mem_map.mp hk1
    obtain ⟨y, hy, hkey⟩ := List.mem_map.mp hk2
    have hye : y = e := by
      have := List.mem_of_mem_filter hy
      simpa using this
    subst hye
    rw [List.mem_filter] at hx
    unfold findPendingExcuse at hnone
    have := List.find?_eq_none.mp hnone x hx.1
    simp only [Prod.mk.injEq] at hkey
    simp [hkey.1, hkey.2] at this
    exact this (by simpa using hx.2)

theorem pendingAppeal_append (rows : List Appeal) (p : Appeal)
    (h : PendingAppealUnique rows)
    (hnone : findPendingAppeal rows p.attendanceId p.studentId = none) :
    PendingAppealUnique (rows ++ [p]) := by
  unfold PendingAppealUnique at h ⊢
  rw [List.filter_append, List.map_append]
  apply List.Nodup.append h
  · by_cases hp : p.status = "PENDING"
    · simp [List.filter, hp]
    · simp [List.filter, hp]
  · intro k hk1 hk2
    obtain ⟨x, hx, rfl⟩ := List.mem_map.mp hk1
    obtain ⟨y, hy, hkey⟩ := List.mem_map.mp hk2
    have hye : y = p := by
      have := List.mem_of_mem_filter hy
      simpa using this
    subst hye
    rw [List.mem_filter] at hx
    unfold findPendingAppeal at hnone
    have := List.find?_eq_none.mp hnone x hx.1
    simp only [Prod.mk.injEq] at hkey
    simp [hkey.1, hkey.2] at this
    exact this (by simpa using hx.2)

/-- Setting the status of some rows to a value other than PENDING, the keys kept,
leaves at most the PENDING keys there were. -/
theorem pendingExcuse_resolve (rows : List ExcuseRequest) (id : Nat) (nextStatus : String)
    (hns : nextStatus ≠ "PENDING") (h : PendingExcuseUnique rows) :
    PendingExcuseUnique
      (rows.map (fun e => if e.id = id then { e with status := nextStatus } else e)) := by
  unfold PendingExcuseUnique at h ⊢
  have hsub : (((rows.map (fun e => if e.id = id then { e with status := nextStatus } else e)).filter
      (fun e => decide (e.status = "PENDING"))).map (fun e => (e.sessionId, e.studentId))).Sublist
      ((rows.filter (fun e => decide (e.status = "PENDING"))).map
        (fun e => (e.sessionId, e.studentId))) := by
    clear h
    induction rows with
    | nil => simp
    | cons e rest ih =>
      simp only [List.map_cons, List.filter_cons]
      by_cases hid : e.id = id
      · simp only [if_pos hid, hns, decide_False, Bool.false_eq_true, if_false]
        by_cases hp : e.status = "PENDING"
        · simp only [hp, decide_True, if_true, List.map_cons]
          exact List.Sublist.cons _ ih
        · simp only [hp, decide_False, Bool.false_eq_true, if_false]
          exact ih
      · simp only [if_neg hid]
        by_cases hp : e.status = "PENDING"
        · simp only [hp, decide_True, if_true, List.map_cons]
          exact List.Sublist.cons₂ _ ih
        · simp only [hp, decide_False, Bool.false_eq_true, if_false]
          exact ih
  exact List.Nodup.sublist hsub h

theorem pendingAppeal_resolve (rows : List Appeal) (id : Nat) (nextStatus : String)
    (reviewedBy reviewedAt : Option Nat) (replyText : Option String)
    (hns : nextStatus ≠ "PENDING") (h : PendingAppealUnique rows) :
    PendingAppealUnique
      (rows.map (fun p =>
        if p.id = id then
          { p with status := nextStatus, reviewedBy := reviewedBy, reviewedAt := reviewedAt,
                   replyText := replyText }
        else p)) := by
  unfold PendingAppealUnique at h ⊢
  have hsub : (((rows.map (fun p =>
        if p.id = id then
          { p with status := nextStatus, reviewedBy := reviewedBy, reviewedAt := reviewedAt,
                   replyText := replyText }
        else p)).filter
      (fun p => decide (p.status = "PENDING"))).map (fun p => (p.attendanceId, p.studentId))).Sublist
      ((rows.filter (fun p => decide (p.status = "PENDING"))).map
        (fun p => (p.attendanceId, p.studentId))) := by
    clear h
    induction rows with
    | nil => simp
    | cons e rest ih =>
      simp only [List.map_cons, List.filter_cons]
      by_cases hid : e.id = id
      · simp only [if_pos hid, hns, decide_False, Bool.false_eq_true, if_false]
        by_cases hp : e.status = "PENDING"
        · simp only [hp, decide_True, if_true, List.map_cons]
          exact List.Sublist.cons _ ih
        · simp only [hp, decide_False, Bool.false_eq_true, if_false]
          exact ih
      · simp only [if_neg hid]
        by_cases hp : e.status = "PENDING"
        · simp only [hp, decide_True, if_true, List.map_cons]
          exact List.Sublist.cons₂ _ ih
        · simp only [hp, decide_False, Bool.false_eq_true, if_false]
          exact ih
  exact List.Nodup.sublist hsub h

theorem createExcuse_tables (db : Db) (env : Env) (user : SessionUser) (sessionId : Nat) :
    (createExcuse db env user sessionId).2.appeals = db.appeals ∧
    ((createExcuse db env user sessionId).2.excuses = db.excuses ∨
      (findPendingExcuse db.excuses sessionId user.id = none ∧
        (createExcuse db env user sessionId).2.excuses
          = db.excuses ++ [⟨nextId (db.excuses.map (fun e => e.id)), sessionId, user.id,
              "PENDING"⟩])) := by
  unfold createExcuse
  cases hs : findSession db sessionId with
  | none => exact ⟨rfl, Or.inl rfl⟩
  | some session =>
    dsimp only
    by_cases h1 : (findEnrollment db session.courseId user.id).isNone = true
    · rw [if_pos h1]; exact ⟨rfl, Or.inl rfl⟩
    rw [if_neg h1]
    by_cases h2 : (findPendingExcuse db.excuses sessionId user.id).isSome = true
    · rw [if_pos h2]; exact ⟨rfl, Or.inl rfl⟩
    rw [if_neg h2]
    refine ⟨rfl, Or.inr ⟨?_, rfl⟩⟩
    cases hf : findPendingExcuse db.excuses sessionId user.id with
    | none => rfl
    | some x => rw [hf] at h2; simp at h2

theorem createAppeal_tables (db : Db) (env : Env) (user : SessionUser) (attendanceId : Nat)
    (body : CreateAppealBody) :
    (createAppeal db env user attendanceId body).2.excuses = db.excuses ∧
    ((createAppeal db env user attendanceId body).2.appeals = db.appeals ∨
      (findPendingAppeal db.appeals attendanceId user.id = none ∧
        (createAppeal db env user attendanceId body).2.appeals
          = db.appeals ++ [⟨nextId (db.appeals.map (fun p => p.id)), attendanceId, user.id,
              body.requestedStatus, "PENDING", none, none, none⟩])) := by
  unfold createAppeal
  by_cases h0 : body.messageLength < 2
  · rw [if_pos h0]; exact ⟨rfl, Or.inl rfl⟩
  rw [if_neg h0]
  by_cases h00 : requestedStatusRefused body.requestedStatus = true
  · rw [if_pos h00]; exact ⟨rfl, Or.inl rfl⟩
  rw [if_neg h00]
  cases hs : db.attendances.find? (fun a => decide (a.id = attendanceId)) with
  | none => exact ⟨rfl, Or.inl rfl⟩
  | some attendance =>
    dsimp only
    by_cases h1 : attendance.studentId ≠ user.id
    · rw [if_pos h1]; exact ⟨rfl, Or.inl rfl⟩
    rw [if_neg h1]
    by_cases h2 : (findPendingAppeal db.appeals attendanceId user.id).isSome = true
    · rw [if_pos h2]; exact ⟨rfl, Or.inl rfl⟩
    rw [if_neg h2]
    refine ⟨rfl, Or.inr ⟨?_, rfl⟩⟩
    cases hf : findPendingAppeal db.appeals attendanceId user.id with
    | none => rfl
    | some x => rw [hf] at h2; simp at h2

theorem resolveExcuse_tables (db : Db) (env : Env) (user : SessionUser) (excuseId : Nat)
    (nextStatus : String) (replyText : Option String) :
    (resolveExcuse db env user excuseId nextStatus replyText).2.appeals = db.appeals ∧
    ((resolveExcuse db env user excuseId nextStatus replyText).2.excuses = db.excuses ∨
      ∃ id, nextStatus ≠ "PENDING" ∧
        (resolveExcuse db env user excuseId nextStatus replyText).2.excuses
          = db.excuses.map (fun e => if e.id = id then { e with status := nextStatus } else e)) := by
  unfold resolveExcuse
  by_cases h1 : nextStatus ∉ ["APPROVED", "REJECTED"]
  · rw [if_pos h1]; exact ⟨rfl, Or.inl rfl⟩
  rw [if_neg h1]
  have hns : nextStatus ≠ "PENDING" := by
    intro h
    apply h1
    rw [h]
    decide
  cases hx : db.excuses.find? (fun e => decide (e.id = excuseId)) with
  | none => exact ⟨rfl, Or.inl rfl⟩
  | some excuse =>
    dsimp only
    by_cases h2 : excuse.status ≠ "PENDING"
    · rw [if_pos h2]; exact ⟨rfl, Or.inl rfl⟩
    rw [if_neg h2]
    cases hs : findSession db excuse.sessionId with
    | none => exact ⟨rfl, Or.inl rfl⟩
    | some session =>
      dsimp only
      cases hc : findCourse db session.courseId with
      | none => exact ⟨rfl, Or.inl rfl⟩
      | some course =>
        dsimp only
        by_cases h3 : notOwner user course = true
        · rw [if_pos h3]; exact ⟨rfl, Or.inl rfl⟩
        rw [if_neg h3]
        by_cases h4 : env.auditFails = true
        · rw [if_pos h4]; exact ⟨rfl, Or.inl rfl⟩
        rw [if_neg h4]
        exact ⟨rfl, Or.inr ⟨excuse.id, hns, rfl⟩⟩

theorem resolveAppeal_tables (db : Db) (env : Env) (user : SessionUser) (appealId : Nat)
    (nextStatus : String) (replyText : Option String) (applyAttendanceStatus : Option Nat) :
    (resolveAppeal db env user appealId nextStatus replyText applyAttendanceStatus).2.excuses
      = db.excuses ∧
    ((resolveAppeal db env user appealId nextStatus replyText applyAttendanceStatus).2.appeals
        = db.appeals ∨
      ∃ (id : Nat) (reviewedBy reviewedAt : Option Nat) (reply : Option String),
        nextStatus ≠ "PENDING" ∧
        (resolveAppeal db env user appealId nextStatus replyText
            applyAttendanceStatus).2.appeals
          = db.appeals.map (fun p =>
              if p.id = id then
                { p with status := nextStatus, reviewedBy := reviewedBy,
                         reviewedAt := reviewedAt, replyText := reply }
              else p)) := by
  unfold resolveAppeal
  by_cases h1 : nextStatus ∉ ["ACCEPTED", "REJECTED"]
  · rw [if_pos h1]; exact ⟨rfl, Or.inl rfl⟩
  rw [if_neg h1]
  have hns : nextStatus ≠ "PENDING" := by
    intro h
    apply h1
    rw [h]
    decide
  cases hx : findAppealJoined db appealId with
  | none => exact ⟨rfl, Or.inl rfl⟩
  | some x =>
    obtain ⟨appeal, attendance, course⟩ := x
    dsimp only
    by_cases h2 : appeal.status ≠ "PENDING"
    · rw [if_pos h2]; exact ⟨rfl, Or.inl rfl⟩
    rw [if_neg h2]
    by_cases h3 : notOwner user course = true
    · rw [if_pos h3]; exact ⟨rfl, Or.inl rfl⟩
    rw [if_neg h3]
    by_cases h4 : nextStatus = "ACCEPTED" ∧ applyInvalid applyAttendanceStatus = true
    · rw [if_pos h4]; exact ⟨rfl, Or.inl rfl⟩
    rw [if_neg h4]
    by_cases h5 : env.auditFails = true
    · rw [if_pos h5]; exact ⟨rfl, Or.inl rfl⟩
    rw [if_neg h5]
    exact ⟨rfl, Or.inr ⟨appeal.id, _, _, _, hns, rfl⟩⟩
/-- C16: from a state with at most one PENDING excuse request per (sessionId,
studentId) and at most one PENDING appeal per (attendanceId, studentId), every creation
and every resolution leads to such a state; and when a PENDING request for the key
exists, a creation creates nothing, the database staying as it was: it is refused,
with 409 once the checks that precede the lookup pass (session found and caller
enrolled; message and requested status valid, attendance row found and owned). -/
theorem pending_unique_preserved (db : Db) (env : Env)
    (hinv : PendingExcuseUnique db.excuses ∧ PendingAppealUnique db.appeals) :
    (∀ req : WorkflowRequest,
      PendingExcuseUnique (applyWorkflow db env req).excuses ∧
      PendingAppealUnique (applyWorkflow db env req).appeals) ∧
    (∀ (user : SessionUser) (sessionId : Nat),
      (findPendingExcuse db.excuses sessionId user.id).isSome = true →
      (createExcuse db env user sessionId).2 = db ∧
      (createExcuse db env user sessionId).1 ≠ 201 ∧
      (∀ s, findSession db sessionId = some s →
        (findEnrollment db s.courseId user.id).isSome = true →
        createExcuse db env user sessionId = (409, db))) ∧
    (∀ (user : SessionUser) (attendanceId : Nat) (body : CreateAppealBody),
      (findPendingAppeal db.appeals attendanceId user.id).isSome = true →
      (createAppeal db env user attendanceId body).2 = db ∧
      (createAppeal db env user attendanceId body).1 ≠ 201 ∧
      (∀ a, 2 ≤ body.messageLength → requestedStatusRefused body.requestedStatus = false →
        db.attendances.find? (fun x => decide (x.id = attendanceId)) = some a →
        a.studentId = user.id →
        createAppeal db env user attendanceId body = (409, db))) := by
  obtain ⟨hE, hA⟩ := hinv
  refine ⟨?_, ?_, ?_⟩
  · intro req
    cases req with
    | createExcuse user sessionId =>
      obtain ⟨h1, h2⟩ := createExcuse_tables db env user sessionId
      simp only [applyWorkflow]
      rw [h1]
      refine ⟨?_, hA⟩
      rcases h2 with h2 | ⟨hnone, h2⟩
      · rw [h2]; exact hE
      · rw [h2]
        exact pendingExcuse_append _ _ hE hnone
    | resolveExcuse user excuseId nextStatus replyText =>
      obtain ⟨h1, h2⟩ := resolveExcuse_tables db env user excuseId nextStatus replyText
      simp only [applyWorkflow]
      rw [h1]
      refine ⟨?_, hA⟩
      rcases h2 with h2 | ⟨id, hns, h2⟩
      · rw [h2]; exact hE
      · rw [h2]
        exact pendingExcuse_resolve _ _ _ hns hE
    | createAppeal user attendanceId body =>
      obtain ⟨h1, h2⟩ := createAppeal_tables db env user attendanceId body
      simp only [applyWorkflow]
      rw [h1]
      refine ⟨hE, ?_⟩
      rcases h2 with h2 | ⟨hnone, h2⟩
      · rw [h2]; exact hA
      · rw [h2]
        exact pendingAppeal_append _ _ hA hnone
    | resolveAppeal user appealId nextStatus replyText applyAttendanceStatus =>
      obtain ⟨h1, h2⟩ :=
        resolveAppeal_tables db env user appealId nextStatus replyText applyAttendanceStatus
      simp only [applyWorkflow]
      rw [h1]
      refine ⟨hE, ?_⟩
      rcases h2 with h2 | ⟨id, rb, ra, rt, hns, h2⟩
      · rw [h2]; exact hA
      · rw [h2]
        exact pendingAppeal_resolve _ _ _ _ _ _ hns hA
  · intro user sessionId hp
    have h404 : ((404 : Nat), db).1 ≠ 201 := by simp
    have h403 : ((403 : Nat), db).1 ≠ 201 := by simp
    have h409 : ((409 : Nat), db).1 ≠ 201 := by simp
    unfold createExcuse
    cases hs : findSession db sessionId with
    | none => exact ⟨rfl, h404, fun s h => by cases h⟩
    | some session =>
      dsimp only
      by_cases h1 : (findEnrollment db session.courseId user.id).isNone = true
      · rw [if_pos h1]
        refine ⟨rfl, h403, ?_⟩
        intro s h he
        cases h
        cases hfe : findEnrollment db session.courseId user.id with
        | none => rw [hfe] at he; simp at he
        | some x => rw [hfe] at h1; simp at h1
      rw [if_neg h1, if_pos hp]
      exact ⟨rfl, h409, fun _ _ _ => rfl⟩
  · intro user attendanceId body hp
    have h400 : ((400 : Nat), db).1 ≠ 201 := by simp
    have h404 : ((404 : Nat), db).1 ≠ 201 := by simp
    have h403 : ((403 : Nat), db).1 ≠ 201 := by simp
    have h409 : ((409 : Nat), db).1 ≠ 201 := by simp
    unfold createAppeal
    by_cases h0 : body.messageLength < 2
    · rw [if_pos h0]
      exact ⟨rfl, h400, fun a h2 => by omega⟩
    rw [if_neg h0]
    by_cases h00 : requestedStatusRefused body.requestedStatus = true
    · rw [if_pos h00]
      exact ⟨rfl, h400, fun a _ hr => by rw [hr] at h00; simp at h00⟩
    rw [if_neg h00]
    cases hs : db.attendances.find? (fun a => decide (a.id = attendanceId)) with
    | none => exact ⟨rfl, h404, fun a _ _ h => by cases h⟩
    | some attendance =>
      dsimp only
      by_cases h1 : attendance.studentId ≠ user.id
      · rw [if_pos h1]
        refine ⟨rfl, h403, ?_⟩
        intro a _ _ h hown
        cases h
        exact absurd hown h1
      rw [if_neg h1, if_pos hp]
      exact ⟨rfl, h409, fun _ _ _ _ _ => rfl⟩

/-- Witness of C16 on the example with a PENDING excuse and a PENDING appeal: a second
creation for the same key is refused with 409 and creates nothing, and the resolution
of the excuse keeps the invariants. -/
theorem pending_unique_preserved_witness :
    (PendingExcuseUnique examplePendingDb.excuses ∧
      PendingAppealUnique examplePendingDb.appeals) ∧
    createExcuse examplePendingDb exampleEnv exampleStudent 1 = (409, examplePendingDb) ∧
    createAppeal examplePendingDb exampleEnv exampleStudent 1 ⟨12, some 2⟩
      = (409, examplePendingDb) ∧
    PendingExcuseUnique
      (applyWorkflow examplePendingDb exampleEnv
        (.resolveExcuse exampleAdmin 1 "APPROVED" none)).excuses :=
  have hinv : PendingExcuseUnique examplePendingDb.excuses ∧
      PendingAppealUnique examplePendingDb.appeals := by
    unfold PendingExcuseUnique PendingAppealUnique
    decide
  have h := pending_unique_preserved examplePendingDb exampleEnv hinv
  ⟨hinv,
    (h.2.1 exampleStudent 1 (by decide)).2.2
      ⟨1, 1, 1, 1, none, none, none, "CODE", "OPEN", some "123456"⟩ (by decide) (by decide),
    (h.2.2 exampleStudent 1 ⟨12, some 2⟩ (by decide)).2.2 ⟨1, 1, 7, 3, none, none⟩ (by decide)
      (by decide) (by decide) (by decide),
    (h.1 (.resolveExcuse exampleAdmin 1 "APPROVED" none)).1⟩

theorem findAttendance_saveStatusGen (rows : List Attendance) (sessionId studentId : Nat)
    (r : Attendance) (id status : Nat) (checkedAt : Option Nat) (updatedBy : Nat)
    (h : findAttendance rows sessionId studentId = some r) :
    findAttendance (saveStatus rows id status checkedAt updatedBy) sessionId studentId
      = some (if r.id = id then
          { r with status := status, checkedAt := checkedAt, updatedBy := some updatedBy }
        else r) := by
  unfold findAttendance saveStatus at *
  rw [List.find?_map]
  have hp : ((fun (x : Attendance) => decide (x.sessionId = sessionId ∧ x.studentId = studentId)) ∘
      fun (r : Attendance) =>
        if r.id = id then
          { r with status := status, checkedAt := checkedAt, updatedBy := some updatedBy }
        else r)
      = fun (x : Attendance) => decide (x.sessionId = sessionId ∧ x.studentId = studentId) := by
    funext r
    simp only [Function.comp]
    split_ifs <;> rfl
  rw [hp, h]
  simp
theorem rollcallItem_skip (env : Env) (user : SessionUser) (sessionId : Nat)
    (studentSet : List Nat) (acc : List Attendance × RollcallResults) (it : RollcallItem)
    (h : rollcallKept studentSet it = false) :
    rollcallItem env user sessionId studentSet acc it
      = (acc.1, { acc.2 with skipped := acc.2.skipped + 1 }) := by
  unfold rollcallItem
  by_cases h1 : it.studentId = 0 ∨ it.status ∉ [0, 1, 2, 3, 4]
  · rw [if_pos h1]
  · rw [if_neg h1]
    by_cases h2 : it.studentId ∉ studentSet
    · rw [if_pos h2]
    · exfalso
      have h2b : it.studentId ∈ studentSet := not_not.mp h2
      have h1a : ¬ it.studentId = 0 := fun h => h1 (Or.inl h)
      have h1b : it.status ∈ [0, 1, 2, 3, 4] := by
        by_contra hb
        exact h1 (Or.inr hb)
      simp [rollcallKept, h1a, h2b] at h
      exact absurd h1b (by simpa using h)

theorem findAttendance_mem (rows : List Attendance) (sessionId studentId : Nat) (a : Attendance)
    (h : findAttendance rows sessionId studentId = some a) :
    a ∈ rows ∧ a.sessionId = sessionId ∧ a.studentId = studentId := by
  unfold findAttendance at h
  have h1 := List.find?_some h
  have h2 := List.mem_of_find?_eq_some h
  simp only [decide_eq_true_eq] at h1
  exact ⟨h2, h1.1, h1.2⟩

theorem findAttendance_saveStatus_other (rows : List Attendance) (sessionId studentId other : Nat)
    (a : Attendance) (status : Nat) (checkedAt : Option Nat) (updatedBy : Nat)
    (hids : AttendanceIdsUnique rows)
    (h : findAttendance rows sessionId studentId = some a) (hne : other ≠ studentId) :
    findAttendance (saveStatus rows a.id status checkedAt updatedBy) sessionId other
      = findAttendance rows sessionId other := by
  obtain ⟨hamem, -, hastu⟩ := findAttendance_mem rows sessionId studentId a h
  cases hf : findAttendance rows sessionId other with
  | none =>
    unfold findAttendance saveStatus at *
    rw [List.find?_eq_none] at hf ⊢
    intro x hx
    obtain ⟨y, hy, rfl⟩ := List.mem_map.mp hx
    have := hf y hy
    split_ifs <;> simpa using this
  | some r =>
    obtain ⟨hrmem, -, hrstu⟩ := findAttendance_mem rows sessionId other r hf
    have hrid : r.id ≠ a.id := by
      intro hid
      have : r = a := List.inj_on_of_nodup_map hids hrmem hamem hid
      rw [this, hastu] at hrstu
      exact hne hrstu.symm
    have := findAttendance_saveStatusGen rows sessionId other r a.id status checkedAt updatedBy hf
    rw [this, if_neg hrid]
theorem saveStatus_ids (rows : List Attendance) (id status : Nat) (checkedAt : Option Nat)
    (updatedBy : Nat) :
    (saveStatus rows id status checkedAt updatedBy).map (fun a => a.id)
      = rows.map (fun a => a.id) := by
  unfold saveStatus
  rw [List.map_map]
  apply List.map_congr_left
  intro a _
  simp only [Function.comp]
  split_ifs <;> rfl

theorem attendanceIdsUnique_append (rows : List Attendance) (row : Attendance)
    (h : AttendanceIdsUnique rows) (hid : row.id = nextId (rows.map (fun a => a.id))) :
    AttendanceIdsUnique (rows ++ [row]) := by
  unfold AttendanceIdsUnique at h ⊢
  rw [List.map_append, List.map_singleton]
  apply List.Nodup.append h (List.nodup_singleton _)
  rw [List.disjoint_singleton]
  intro hmem
  have := lt_nextId _ _ hmem
  omega

theorem findAttendance_append_other (rows : List Attendance) (row : Attendance)
    (sessionId other : Nat) (hne : ¬ (row.sessionId = sessionId ∧ row.studentId = other)) :
    findAttendance (rows ++ [row]) sessionId other = findAttendance rows sessionId other := by
  unfold findAttendance
  rw [List.find?_append]
  have : List.find? (fun a => decide (a.sessionId = sessionId ∧ a.studentId = other)) [row]
      = none := by
    simp [List.find?, hne]
  rw [this]
  simp

/-- A kept item leaves the row of its student with the status of the item, leaves the
rows of the other students as they were, keeps the ids distinct and counts as created
or updated. -/
theorem rollcallItem_kept (env : Env) (user : SessionUser) (sessionId : Nat)
    (studentSet : List Nat) (acc : List Attendance × RollcallResults) (it : RollcallItem)
    (hids : AttendanceIdsUnique acc.1) (h : rollcallKept studentSet it = true) :
    AttendanceIdsUnique (rollcallItem env user sessionId studentSet acc it).1 ∧
    (∃ row, findAttendance (rollcallItem env user sessionId studentSet acc it).1 sessionId
        it.studentId = some row ∧ row.status = it.status) ∧
    (∀ other, other ≠ it.studentId →
      findAttendance (rollcallItem env user sessionId studentSet acc it).1 sessionId other
        = findAttendance acc.1 sessionId other) ∧
    (rollcallItem env user sessionId studentSet acc it).2.skipped = acc.2.skipped ∧
    (rollcallItem env user sessionId studentSet acc it).2.created
        + (rollcallItem env user sessionId studentSet acc it).2.updated
      = acc.2.created + acc.2.updated + 1 := by
  have hk : ¬ (it.studentId = 0 ∨ it.status ∉ [0, 1, 2, 3, 4]) ∧ ¬ it.studentId ∉ studentSet := by
    simp only [rollcallKept, Bool.and_eq_true, Bool.not_eq_true', Bool.or_eq_false_iff,
      decide_eq_false_iff_not, decide_eq_true_eq] at h
    exact ⟨fun hor => hor.elim h.1.1 h.1.2, not_not.mpr h.2⟩
  unfold rollcallItem
  rw [if_neg hk.1, if_neg hk.2]
  cases hf : findAttendance acc.1 sessionId it.studentId with
  | none =>
    dsimp only
    refine ⟨attendanceIdsUnique_append _ _ hids rfl, ?_, ?_, rfl, ?_⟩
    · exact ⟨_, findAttendance_append_created acc.1
        ⟨nextId (acc.1.map (fun a => a.id)), sessionId, it.studentId, it.status, some env.now,
          some user.id⟩ hf, rfl⟩
    · intro other hne
      exact findAttendance_append_other _ _ _ _ (fun hh => hne hh.2.symm)
    · omega
  | some a =>
    dsimp only
    refine ⟨?_, ?_, ?_, rfl, ?_⟩
    · unfold AttendanceIdsUnique
      rw [saveStatus_ids]
      exact hids
    · rw [findAttendance_saveStatus _ _ _ _ _ _ _ hf]
      exact ⟨_, rfl, rfl⟩
    · intro other hne
      exact findAttendance_saveStatus_other _ _ _ _ _ _ _ _ hids hf hne
    · omega

theorem rollcallItem_ids (env : Env) (user : SessionUser) (sessionId : Nat)
    (studentSet : List Nat) (acc : List Attendance × RollcallResults) (it : RollcallItem)
    (hids : AttendanceIdsUnique acc.1) :
    AttendanceIdsUnique (rollcallItem env user sessionId studentSet acc it).1 := by
  cases hk : rollcallKept studentSet it with
  | false =>
    rw [rollcallItem_skip env user sessionId studentSet acc it hk]
    exact hids
  | true => exact (rollcallItem_kept env user sessionId studentSet acc it hids hk).1

/-- The roll-call loop: the counters add up, the skipped counter counts the items that
are not kept, and each student's row ends with the status of the last kept item that
lists the student, or as it was when no kept item does. -/
theorem rollcallLoop_spec (env : Env) (user : SessionUser) (sessionId : Nat)
    (studentSet : List Nat) (items : List RollcallItem)
    (acc : List Attendance × RollcallResults) (hids : AttendanceIdsUnique acc.1) :
    (items.foldl (rollcallItem env user sessionId studentSet) acc).2.skipped
      = acc.2.skipped + (items.filter (fun it => !rollcallKept studentSet it)).length ∧
    (items.foldl (rollcallItem env user sessionId studentSet) acc).2.created
        + (items.foldl (rollcallItem env user sessionId studentSet) acc).2.updated
        + (items.foldl (rollcallItem env user sessionId studentSet) acc).2.skipped
      = acc.2.created + acc.2.updated + acc.2.skipped + items.length ∧
    (∀ sid,
      match ((items.filter
          (fun it => rollcallKept studentSet it && decide (it.studentId = sid))).getLast?) with
      | some it => ∃ row,
          findAttendance (items.foldl (rollcallItem env user sessionId studentSet) acc).1
            sessionId sid = some row ∧ row.status = it.status
      | none =>
          findAttendance (items.foldl (rollcallItem env user sessionId studentSet) acc).1
            sessionId sid = findAttendance acc.1 sessionId sid) := by
  induction items generalizing acc with
  | nil =>
    refine ⟨by simp, by simp, ?_⟩
    intro sid
    simp
  | cons it rest ih =>
    rw [List.foldl_cons]
    have hids2 := rollcallItem_ids env user sessionId studentSet acc it hids
    obtain ⟨ih1, ih2, ih3⟩ := ih (rollcallItem env user sessionId studentSet acc it) hids2
    cases hk : rollcallKept studentSet it with
    | false =>
      have hstep := rollcallItem_skip env user sessionId studentSet acc it hk
      refine ⟨?_, ?_, ?_⟩
      · rw [ih1, hstep]
        simp only [List.filter_cons, hk, Bool.not_false, if_true, List.length_cons]
        omega
      · rw [ih2, hstep]
        simp only [List.length_cons]
        omega
      · intro sid
        have h3 := ih3 sid
        simp only [List.filter_cons, hk, Bool.false_and, Bool.false_eq_true, if_false]
        rw [hstep] at h3
        rw [hstep]
        exact h3
    | true =>
      obtain ⟨-, hrow, hother, hsk, hcu⟩ :=
        rollcallItem_kept env user sessionId studentSet acc it hids hk
      refine ⟨?_, ?_, ?_⟩
      · rw [ih1, hsk]
        simp only [List.filter_cons, hk, Bool.not_true, Bool.false_eq_true, if_false]
      · rw [ih2, hsk]
        simp only [List.length_cons]
        omega
      · intro sid
        have h3 := ih3 sid
        by_cases hsid : it.studentId = sid
        · simp only [List.filter_cons, hk, hsid, decide_True, Bool.and_self, if_true,
            List.getLast?_cons]
          cases hl : (rest.filter
              (fun it => rollcallKept studentSet it && decide (it.studentId = sid))).getLast? with
          | none =>
            rw [hl] at h3
            simp only [Option.getD_none]
            rw [h3]
            rw [hsid] at hrow
            exact hrow
          | some x =>
            rw [hl] at h3
            simp only [Option.getD_some]
            exact h3
        · simp only [List.filter_cons, hk, hsid, decide_False, Bool.and_false,
            Bool.false_eq_true, if_false]
          cases hl : (rest.filter
              (fun it => rollcallKept studentSet it && decide (it.studentId = sid))).getLast? with
          | none =>
            rw [hl] at h3
            simp only
            rw [h3]
            exact hother sid (fun h => hsid h.symm)
          | some x =>
            rw [hl] at h3
            exact h3
theorem mem_enrolledStudents (db : Db) (courseId studentId : Nat) :
    studentId ∈ enrolledStudents db courseId ↔
      ∃ e ∈ db.enrollments, e.courseId = courseId ∧ e.studentId = studentId := by
  unfold enrolledStudents
  simp only [List.mem_map, List.mem_filter, decide_eq_true_eq]
  constructor
  · rintro ⟨e, ⟨he, hc⟩, hs⟩
    exact ⟨e, he, hc, hs⟩
  · rintro ⟨e, he, hc, hs⟩
    exact ⟨e, ⟨he, hc⟩, hs⟩

theorem rollcallValid_iff (db : Db) (courseId : Nat) (it : RollcallItem) :
    rollcallValid db courseId it = true ↔
      it.status ∈ [0, 1, 2, 3, 4] ∧
      ∃ e ∈ db.enrollments, e.courseId = courseId ∧ e.studentId = it.studentId := by
  unfold rollcallValid
  simp only [Bool.and_eq_true, decide_eq_true_eq, List.any_eq_true]

theorem rollcallKept_eq_valid (db : Db) (courseId : Nat) (it : RollcallItem)
    (hpos : ∀ e ∈ db.enrollments, e.studentId ≠ 0) :
    rollcallKept (enrolledStudents db courseId) it = rollcallValid db courseId it := by
  rw [Bool.eq_iff_iff, rollcallValid_iff]
  simp only [rollcallKept, Bool.and_eq_true, Bool.not_eq_true', Bool.or_eq_false_iff,
    decide_eq_false_iff_not, decide_eq_true_eq, mem_enrolledStudents, not_not]
  constructor
  · rintro ⟨⟨-, hs⟩, he⟩
    exact ⟨hs, he⟩
  · rintro ⟨hs, e, he, hc, hst⟩
    refine ⟨⟨?_, hs⟩, e, he, hc, hst⟩
    rw [← hst]
    exact hpos e he

/-- C17: a roll-call batch on a ROLL_CALL session with a non-empty items list is
answered 200 whatever items are skipped. An item is skipped, counted in `skipped` and
nothing else, iff its status is not one of 0..4 or its student is not enrolled in the
course of the session; the reported skipped count is the number of such items and
created + updated + skipped is the number of items. Afterwards the Attendance row of
(session, student) carries the status of the last valid item that lists the
student, and the rows of students without a valid item are as before. -/
theorem rollcall_batch (db : Db) (env : Env) (user : SessionUser) (sessionId : Nat)
    (items : List RollcallItem) (s : ClassSession)
    (hload : loadOwnedSession db user sessionId = .ok s)
    (hm : s.attendanceMethod = "ROLL_CALL") (hne : items ≠ [])
    (hids : AttendanceIdsUnique db.attendances)
    (hpos : ∀ e ∈ db.enrollments, e.studentId ≠ 0) :
    (rollcall db env user sessionId items).1 = 200 ∧
    (∀ (acc : List Attendance × RollcallResults) (it : RollcallItem),
      ((rollcallItem env user s.id (enrolledStudents db s.courseId) acc it).2.skipped
          = acc.2.skipped + 1 ↔
        (it.status ∉ [0, 1, 2, 3, 4] ∨
          ¬ ∃ e ∈ db.enrollments, e.courseId = s.courseId ∧ e.studentId = it.studentId)) ∧
      ((it.status ∉ [0, 1, 2, 3, 4] ∨
          ¬ ∃ e ∈ db.enrollments, e.courseId = s.courseId ∧ e.studentId = it.studentId) →
        (rollcallItem env user s.id (enrolledStudents db s.courseId) acc it).1 = acc.1)) ∧
    (rollcall db env user sessionId items).2.2.skipped
      = (items.filter (fun it => !rollcallValid db s.courseId it)).length ∧
    (rollcall db env user sessionId items).2.2.created
        + (rollcall db env user sessionId items).2.2.updated
        + (rollcall db env user sessionId items).2.2.skipped = items.length ∧
    (∀ sid st, lastValidStatus db s.courseId items sid = some st →
      ∃ row, findAttendance (rollcall db env user sessionId items).2.1.attendances s.id sid
          = some row ∧ row.status = st) ∧
    (∀ sid, lastValidStatus db s.courseId items sid = none →
      findAttendance (rollcall db env user sessionId items).2.1.attendances s.id sid
        = findAttendance db.attendances s.id sid) := by
  have hlen : ¬ items.length = 0 := by
    intro h
    exact hne (List.length_eq_zero.mp h)
  have heq : rollcall db env user sessionId items
      = (200,
          { db with attendances :=
              (items.foldl (rollcallItem env user s.id (enrolledStudents db s.courseId))
                (db.attendances, ⟨0, 0, 0⟩)).1 },
          (items.foldl (rollcallItem env user s.id (enrolledStudents db s.courseId))
            (db.attendances, ⟨0, 0, 0⟩)).2) := by
    unfold rollcall
    rw [hload]
    dsimp only
    rw [if_neg (not_not.mpr hm), if_neg hlen]
    rfl
  obtain ⟨l1, l2, l3⟩ := rollcallLoop_spec env user s.id (enrolledStudents db s.courseId) items
    (db.attendances, ⟨0, 0, 0⟩) hids
  rw [heq]
  refine ⟨rfl, ?_, ?_, ?_, ?_, ?_⟩
  · intro acc it
    have hiff : (it.status ∉ [0, 1, 2, 3, 4] ∨
        ¬ ∃ e ∈ db.enrollments, e.courseId = s.courseId ∧ e.studentId = it.studentId) ↔
        rollcallKept (enrolledStudents db s.courseId) it = false := by
      rw [rollcallKept_eq_valid db s.courseId it hpos, ← Bool.not_eq_true, rollcallValid_iff,
        not_and_or]
    constructor
    · rw [hiff]
      constructor
      · intro h
        cases hk : rollcallKept (enrolledStudents db s.courseId) it with
        | false => rfl
        | true =>
          unfold rollcallKept at hk
          unfold rollcallItem at h
          simp only [Bool.and_eq_true, Bool.not_eq_true', Bool.or_eq_false_iff,
            decide_eq_false_iff_not, decide_eq_true_eq, not_not] at hk
          have c1 : ¬ (it.studentId = 0 ∨ it.status ∉ [0, 1, 2, 3, 4]) :=
            fun hor => hor.elim hk.1.1 (fun hh => hh hk.1.2)
          rw [if_neg c1, if_neg (not_not.mpr hk.2)] at h
          cases hf : findAttendance acc.1 s.id it.studentId with
          | none => rw [hf] at h; simp at h
          | some a => rw [hf] at h; simp at h
      · intro hk
        rw [rollcallItem_skip env user s.id _ acc it hk]
    · intro h
      rw [rollcallItem_skip env user s.id _ acc it (hiff.mp h)]
  · dsimp only
    rw [l1]
    have : (fun it => !rollcallKept (enrolledStudents db s.courseId) it)
        = fun it => !rollcallValid db s.courseId it := by
      funext it
      rw [rollcallKept_eq_valid db s.courseId it hpos]
    rw [this]
    simp
  · dsimp only
    rw [l2]
    simp
  · intro sid st hst
    have h3 := l3 sid
    unfold lastValidStatus at hst
    have hf : (fun it => rollcallKept (enrolledStudents db s.courseId) it
          && decide (it.studentId = sid))
        = fun it => rollcallValid db s.courseId it && decide (it.studentId = sid) := by
      funext it
      rw [rollcallKept_eq_valid db s.courseId it hpos]
    rw [hf] at h3
    cases hl : (items.filter
        (fun it => rollcallValid db s.courseId it && decide (it.studentId = sid))).getLast? with
    | none => rw [hl] at hst; simp at hst
    | some x =>
      rw [hl] at hst h3
      simp only [Option.map_some', Option.some.injEq] at hst
      obtain ⟨row, hrow, hstat⟩ := h3
      exact ⟨row, hrow, by rw [hstat, hst]⟩
  · intro sid hst
    have h3 := l3 sid
    unfold lastValidStatus at hst
    have hf : (fun it => rollcallKept (enrolledStudents db s.courseId) it
          && decide (it.studentId = sid))
        = fun it => rollcallValid db s.courseId it && decide (it.studentId = sid) := by
      funext it
      rw [rollcallKept_eq_valid db s.courseId it hpos]
    rw [hf] at h3
    cases hl : (items.filter
        (fun it => rollcallValid db s.courseId it && decide (it.studentId = sid))).getLast? with
    | none =>
      rw [hl] at h3
      exact h3
    | some x => rw [hl] at hst; simp at hst

/-- Witness of C17 on the ROLL_CALL example: of the items (7, 1), (9, 1), (7, 9) and
(7, 2) the second (student not enrolled) and the third (status 9) are skipped, and
student 7 ends with status 2, the status of the last valid item. -/
theorem rollcall_batch_witness :
    (rollcall exampleRollcallDb exampleEnv exampleAdmin 1
        [⟨7, 1⟩, ⟨9, 1⟩, ⟨7, 9⟩, ⟨7, 2⟩]).2.2 = ⟨1, 1, 2⟩ ∧
    ∃ row, findAttendance
        (rollcall exampleRollcallDb exampleEnv exampleAdmin 1
          [⟨7, 1⟩, ⟨9, 1⟩, ⟨7, 9⟩, ⟨7, 2⟩]).2.1.attendances 1 7 = some row ∧
      row.status = 2 :=
  ⟨by decide,
    (rollcall_batch exampleRollcallDb exampleEnv exampleAdmin 1
      [⟨7, 1⟩, ⟨9, 1⟩, ⟨7, 9⟩, ⟨7, 2⟩]
      ⟨1, 1, 1, 1, none, none, none, "ROLL_CALL", "OPEN", none⟩ (by rfl) (by decide)
      (by decide) (by unfold AttendanceIdsUnique; decide) (by decide)).2.2.2.2.1 7 2
      (by decide)⟩

theorem countSessions_counts (policy : AttendancePolicy) (statusMap : Nat → Nat → Option Nat)
    (sessionIds : List Nat) (sid : Nat) (c : StatusCounts) :
    (countSessions policy statusMap sessionIds sid c).present
      = c.present + (sessionIds.filter (fun s => decide (statusMap sid s = some 1))).length ∧
    (countSessions policy statusMap sessionIds sid c).late
      = c.late + (sessionIds.filter (fun s => decide (statusMap sid s = some 2))).length ∧
    (countSessions policy statusMap sessionIds sid c).excused
      = c.excused + (sessionIds.filter (fun s => decide (statusMap sid s = some 4))).length ∧
    (countSessions policy statusMap sessionIds sid c).absent
      = c.absent + (sessionIds.filter (fun s => decide (statusMap sid s = some 3))).length
        + (if policy.missingAsAbsent then
            (sessionIds.filter (fun s => isMissing (statusMap sid s))).length else 0) ∧
    (countSessions policy statusMap sessionIds sid c).unknown
      = c.unknown + (if policy.missingAsAbsent then 0
          else (sessionIds.filter (fun s => isMissing (statusMap sid s))).length) := by
  unfold countSessions
  induction sessionIds generalizing c with
  | nil => simp
  | cons s rest ih =>
    simp only [List.foldl_cons, List.filter_cons]
    obtain ⟨i1, i2, i3, i4, i5⟩ := ih (countStatus policy c (statusMap sid s))
    rw [i1, i2, i3, i4, i5]
    unfold countStatus isMissing
    by_cases h1 : statusMap sid s = some 1
    · simp [h1]
      all_goals (try omega)
    by_cases h2 : statusMap sid s = some 2
    · simp [h2]
      all_goals (try omega)
    by_cases h3 : statusMap sid s = some 3
    · simp [h3]
      all_goals (try omega)
    by_cases h4 : statusMap sid s = some 4
    · simp [h4]
      all_goals (try omega)
    cases hm : policy.missingAsAbsent
    · simp [h1, h2, h3, h4, hm]
      all_goals (try omega)
    · simp [h1, h2, h3, h4, hm]
      all_goals (try omega)
theorem buildStatusMap_fold (studentIds : List Nat) (l : List Attendance)
    (m0 : Nat → Nat → Option Nat) (sid s : Nat) (hsid : sid ∈ studentIds)
    (huniq : AttendanceUnique l) :
    l.foldl
      (fun m a =>
        if a.studentId ∈ studentIds then
          fun sid sessId =>
            if sid = a.studentId ∧ sessId = a.sessionId then some a.status else m sid sessId
        else m)
      m0 sid s
      = match findAttendance l s sid with
        | some a => some a.status
        | none => m0 sid s := by
  induction l generalizing m0 with
  | nil => rfl
  | cons a rest ih =>
    have hu : AttendanceUnique rest := by
      unfold AttendanceUnique at huniq ⊢
      rw [List.map_cons, List.nodup_cons] at huniq
      exact huniq.2
    rw [List.foldl_cons, ih _ hu]
    by_cases hkey : a.sessionId = s ∧ a.studentId = sid
    · have hnone : findAttendance rest s sid = none := by
        unfold findAttendance
        rw [List.find?_eq_none]
        intro x hx
        unfold AttendanceUnique at huniq
        rw [List.map_cons, List.nodup_cons] at huniq
        intro hxk
        simp only [decide_eq_true_eq] at hxk
        apply huniq.1
        rw [List.mem_map]
        exact ⟨x, hx, by rw [hxk.1, hxk.2, hkey.1, hkey.2]⟩
      have hfind : findAttendance (a :: rest) s sid = some a := by
        unfold findAttendance
        simp [List.find?, hkey]
      rw [hnone, hfind]
      have hin : a.studentId ∈ studentIds := by rw [hkey.2]; exact hsid
      rw [if_pos hin]
      dsimp only
      rw [if_pos ⟨hkey.2.symm, hkey.1.symm⟩]
    · have hfind : findAttendance (a :: rest) s sid = findAttendance rest s sid := by
        unfold findAttendance
        simp [List.find?, hkey]
      rw [hfind]
      cases hr : findAttendance rest s sid with
      | some x => rfl
      | none =>
        simp only
        by_cases hin : a.studentId ∈ studentIds
        · rw [if_pos hin]
          have : ¬ (sid = a.studentId ∧ s = a.sessionId) := fun h => hkey ⟨h.2.symm, h.1.symm⟩
          rw [if_neg this]
        · rw [if_neg hin]

theorem findAttendance_ofSessions (sessionIds : List Nat) (table : List Attendance)
    (sid s : Nat) (hs : s ∈ sessionIds) :
    findAttendance (attendancesOfSessions sessionIds table) s sid = findAttendance table s sid := by
  have hlen : ¬ sessionIds.length = 0 := by
    intro h
    rw [List.length_eq_zero] at h
    rw [h] at hs
    simp at hs
  unfold attendancesOfSessions findAttendance
  rw [if_neg hlen, List.find?_filter]
  congr 1
  funext a
  by_cases hk : a.sessionId = s
  · simp [hk, hs]
  · simp [hk]

theorem attendanceUnique_ofSessions (sessionIds : List Nat) (table : List Attendance)
    (h : AttendanceUnique table) : AttendanceUnique (attendancesOfSessions sessionIds table) := by
  unfold attendancesOfSessions
  split_ifs
  · unfold AttendanceUnique; simp
  · unfold AttendanceUnique at h ⊢
    exact List.Nodup.sublist (List.Sublist.map _ (List.filter_sublist _)) h

/-- The map `statusMap` of the score route returns, for an enrolled student and a
session of the course, the status of the student's row for that session. -/
theorem buildStatusMap_eq_rowStatus (sessionIds studentIds : List Nat) (table : List Attendance)
    (sid s : Nat) (hsid : sid ∈ studentIds) (hs : s ∈ sessionIds)
    (huniq : AttendanceUnique table) :
    buildStatusMap studentIds (attendancesOfSessions sessionIds table) sid s
      = rowStatus table sid s := by
  unfold buildStatusMap rowStatus
  rw [buildStatusMap_fold studentIds _ _ sid s hsid
    (attendanceUnique_ofSessions sessionIds table huniq),
    findAttendance_ofSessions sessionIds table sid s hs]
  cases findAttendance table s sid <;> rfl
/-- C18: for every enrolled student each session of the course is counted exactly
once by the score computation, by the status of the student's Attendance row for it:
into present, late, absent or excused for status 1, 2, 3 or 4, and otherwise (no row,
or a row with status 0) into absent when missingAsAbsent is true and into unknown
when it is false. Hence the five counters add up to totalSessions and unknown is 0
whenever missingAsAbsent is true. -/
theorem score_counts_each_session_once (policy : AttendancePolicy)
    (sessionIds studentIds : List Nat) (table : List Attendance) (r : ScoreRow)
    (hnd : studentIds.Nodup) (huniq : AttendanceUnique table)
    (hr : r ∈ scoreAttendance policy sessionIds studentIds table) :
    r.studentId ∈ studentIds ∧
    r.present
      = (sessionIds.filter (fun s => decide (rowStatus table r.studentId s = some 1))).length ∧
    r.lateOriginal
      = (sessionIds.filter (fun s => decide (rowStatus table r.studentId s = some 2))).length ∧
    r.excused
      = (sessionIds.filter (fun s => decide (rowStatus table r.studentId s = some 4))).length ∧
    r.absentOriginal
      = (sessionIds.filter (fun s => decide (rowStatus table r.studentId s = some 3))).length
        + (if policy.missingAsAbsent then
            (sessionIds.filter (fun s => isMissing (rowStatus table r.studentId s))).length
          else 0) ∧
    r.unknown
      = (if policy.missingAsAbsent then 0
          else (sessionIds.filter (fun s => isMissing (rowStatus table r.studentId s))).length) ∧
    r.present + r.lateOriginal + r.absentOriginal + r.excused + r.unknown = r.totalSessions ∧
    (policy.missingAsAbsent = true → r.unknown = 0) ∧
    ((∀ a ∈ table, a.status ≤ 4) → ∀ s,
      (isMissing (rowStatus table r.studentId s) = true ↔
        rowStatus table r.studentId s = none ∨ rowStatus table r.studentId s = some 0)) := by
  obtain ⟨sid, hs, rfl⟩ := (mem_scoreAttendance_iff _ _ _ _ _).mp hr
  have htotal := countByStudent_total policy
    (buildStatusMap studentIds (attendancesOfSessions sessionIds table)) sessionIds studentIds
    sid hnd hs
  have hcnt : countByStudent policy
      (buildStatusMap studentIds (attendancesOfSessions sessionIds table)) sessionIds studentIds sid
      = countSessions policy
          (buildStatusMap studentIds (attendancesOfSessions sessionIds table)) sessionIds sid
          StatusCounts.zero := by
    unfold countByStudent
    exact countByStudent_nodup _ _ _ _ _ _ hnd hs
  obtain ⟨c1, c2, c3, c4, c5⟩ := countSessions_counts policy
    (buildStatusMap studentIds (attendancesOfSessions sessionIds table)) sessionIds sid
    StatusCounts.zero
  have hf : ∀ (g : Option Nat → Bool),
      sessionIds.filter (fun s =>
        g (buildStatusMap studentIds (attendancesOfSessions sessionIds table) sid s))
      = sessionIds.filter (fun s => g (rowStatus table sid s)) := by
    intro g
    apply List.filter_congr
    intro s hsm
    rw [buildStatusMap_eq_rowStatus sessionIds studentIds table sid s hs hsm huniq]
  have e1 := hf (fun st => decide (st = some 1))
  have e2 := hf (fun st => decide (st = some 2))
  have e3 := hf (fun st => decide (st = some 3))
  have e4 := hf (fun st => decide (st = some 4))
  have e5 := hf isMissing
  simp only at e1 e2 e3 e4
  rw [e1] at c1
  rw [e2] at c2
  rw [e4] at c3
  rw [e3, e5] at c4
  rw [e5] at c5
  have z1 : StatusCounts.zero.present = 0 := rfl
  have z2 : StatusCounts.zero.late = 0 := rfl
  have z3 : StatusCounts.zero.excused = 0 := rfl
  have z4 : StatusCounts.zero.absent = 0 := rfl
  have z5 : StatusCounts.zero.unknown = 0 := rfl
  rw [z1, Nat.zero_add] at c1
  rw [z2, Nat.zero_add] at c2
  rw [z3, Nat.zero_add] at c3
  rw [z4, Nat.zero_add] at c4
  rw [z5, Nat.zero_add] at c5
  simp only [scoreRow]
  rw [hcnt]
  refine ⟨hs, c1, c2, c3, c4, c5, ?_, ?_, ?_⟩
  · rw [hcnt] at htotal
    unfold StatusCounts.total at htotal
    omega
  · intro hm
    rw [c5, hm]
    simp
  · intro hdom s
    unfold rowStatus isMissing
    cases hfa : findAttendance table s sid with
    | none => simp
    | some a =>
      have hle := hdom a (findAttendance_mem table s sid a hfa).1
      simp only [Option.map_some', Option.some.injEq, Bool.not_eq_true', Bool.or_eq_false_iff,
        decide_eq_false_iff_not, false_or, reduceCtorEq]
      constructor
      · intro h
        omega
      · intro h
        omega

/-- Witness of C18 on the scoring example: 6 present, 3 late, no absent, 1 excused and
no unknown session add up to the 10 sessions. -/
theorem score_counts_each_session_once_witness :
    exampleScoreRow.present + exampleScoreRow.lateOriginal + exampleScoreRow.absentOriginal
        + exampleScoreRow.excused + exampleScoreRow.unknown = exampleScoreRow.totalSessions ∧
    exampleScoreRow.present
      = ([1, 2, 3, 4, 5, 6, 7, 8, 9, 10].filter
          (fun s => decide (rowStatus exampleScoreTable exampleScoreRow.studentId s = some 1))).length :=
  have h := score_counts_each_session_once defaultPolicy [1, 2, 3, 4, 5, 6, 7, 8, 9, 10] [7]
    exampleScoreTable exampleScoreRow (by decide) (by unfold AttendanceUnique; decide)
    (by rw [scoreAttendance_example]; exact List.mem_singleton.mpr rfl)
  ⟨h.2.2.2.2.2.2.1, h.2.1⟩

/-! ### Session generation -/

theorem foldlM_except_cons {ε α β : Type} (f : β → α → Except ε β) (b : β) (a : α)
    (l : List α) :
    (a :: l).foldlM f b =
      match f b a with
      | .error e => .error e
      | .ok b1 => l.foldlM f b1 := by
  rw [List.foldlM_cons]
  cases f b a <;> rfl

theorem foldlM_except_error {ε α β : Type} (f : β → α → Except ε β) (P : ε → Prop)
    (hstep : ∀ b a e, f b a = .error e → P e) :
    ∀ (l : List α) (b : β) (e : ε), l.foldlM f b = .error e → P e := by
  intro l
  induction l with
  | nil => intro b e h; simp [List.foldlM_nil, pure, Except.pure] at h
  | cons a l ih =>
    intro b e h
    rw [foldlM_except_cons] at h
    cases hf : f b a with
    | error e1 =>
      rw [hf] at h
      have he : e1 = e := by injection h
      subst he
      exact hstep b a e1 hf
    | ok b1 =>
      rw [hf] at h
      exact ih b1 e h

theorem foldlM_except_invariant {ε α β : Type} (f : β → α → Except ε β) (I : β → Prop)
    (Q : α → Prop) (hstep : ∀ b a b1, I b → f b a = .ok b1 → I b1 ∧ Q a) :
    ∀ (l : List α) (b b2 : β), I b → l.foldlM f b = .ok b2 → I b2 ∧ ∀ a ∈ l, Q a := by
  intro l
  induction l with
  | nil =>
    intro b b2 hI h
    simp only [List.foldlM_nil, pure, Except.pure, Except.ok.injEq] at h
    subst h
    exact ⟨hI, by simp⟩
  | cons a l ih =>
    intro b b2 hI h
    rw [foldlM_except_cons] at h
    cases hf : f b a with
    | error e1 => rw [hf] at h; cases h
    | ok b1 =>
      rw [hf] at h
      obtain ⟨h1, hq⟩ := hstep b a b1 hI hf
      obtain ⟨h2, hall⟩ := ih b1 b2 h1 h
      refine ⟨h2, ?_⟩
      intro x hx
      rcases List.mem_cons.1 hx with rfl | hx
      · exact hq
      · exact hall x hx

theorem foldlM_except_prefix {ε α β : Type} (f : β → α → Except ε β)
    (I : List α → β → Prop)
    (hstep : ∀ done b a b1, I done b → f b a = .ok b1 → I (done ++ [a]) b1) :
    ∀ (l done : List α) (b b2 : β), I done b → l.foldlM f b = .ok b2 → I (done ++ l) b2 := by
  intro l
  induction l with
  | nil =>
    intro done b b2 hI h
    simp only [List.foldlM_nil, pure, Except.pure, Except.ok.injEq] at h
    subst h
    simpa using hI
  | cons a l ih =>
    intro done b b2 hI h
    rw [foldlM_except_cons] at h
    cases hf : f b a with
    | error e1 => rw [hf] at h; cases h
    | ok b1 =>
      rw [hf] at h
      have := ih (done ++ [a]) b1 b2 (hstep done b a b1 hI hf) h
      simpa using this

theorem writePayload_error (st : GenState) (mode : String) (p : SessionPayload) (e : Nat)
    (h : writePayload st mode p = .error e) : e = 409 := by
  unfold writePayload at h
  cases hf : findSessionByKey st.sessions p.courseId p.week p.round with
  | none => rw [hf] at h; cases h
  | some existing =>
    rw [hf] at h
    dsimp only at h
    by_cases h1 : mode = "errorOnConflict"
    · rw [if_pos h1] at h; cases h; rfl
    · rw [if_neg h1] at h
      by_cases h2 : mode = "overwrite"
      · rw [if_pos h2] at h; cases h
      · rw [if_neg h2] at h; cases h

theorem writePayload_ok (st : GenState) (mode : String) (p : SessionPayload)
    (st1 : GenState) (action : String) (sid : Nat)
    (h : writePayload st mode p = .ok (st1, action, sid)) :
    st1.skippedHolidays = st.skippedHolidays ∧ st1.missingByWeek = st.missingByWeek ∧
    st1.appliedMakeups = st.appliedMakeups ∧
    ((findSessionByKey st.sessions p.courseId p.week p.round = none ∧
        st1.sessions = st.sessions ++ [p.toSession sid] ∧
        sid = nextId (st.sessions.map (fun s => s.id))) ∨
      (mode ≠ "errorOnConflict" ∧
        ∃ existing, findSessionByKey st.sessions p.courseId p.week p.round = some existing ∧
          sid = existing.id ∧
          ((mode = "overwrite" ∧ st1.sessions = updateSession st.sessions existing.id p) ∨
            (mode ≠ "overwrite" ∧ st1.sessions = st.sessions)))) := by
  unfold writePayload at h
  cases hf : findSessionByKey st.sessions p.courseId p.week p.round with
  | none =>
    rw [hf] at h
    dsimp only at h
    cases h
    exact ⟨rfl, rfl, rfl, Or.inl ⟨rfl, rfl, rfl⟩⟩
  | some existing =>
    rw [hf] at h
    dsimp only at h
    by_cases h1 : mode = "errorOnConflict"
    · rw [if_pos h1] at h; cases h
    · rw [if_neg h1] at h
      by_cases h2 : mode = "overwrite"
      · rw [if_pos h2] at h; cases h
        exact ⟨rfl, rfl, rfl, Or.inr ⟨h1, existing, rfl, rfl, Or.inl ⟨h2, rfl⟩⟩⟩
      · rw [if_neg h2] at h; cases h
        exact ⟨rfl, rfl, rfl, Or.inr ⟨h1, existing, rfl, rfl, Or.inr ⟨h2, rfl⟩⟩⟩

theorem generateSlot_error (env : Env) (courseId : Nat) (room : Option String)
    (attendanceMethod defaultStatus mode : String) (holidays : List Nat)
    (st : GenState) (c : Candidate) (e : Nat)
    (h : generateSlot env courseId room attendanceMethod defaultStatus mode holidays st c =
      .error e) : e = 409 := by
  unfold generateSlot at h
  by_cases hh : toYmd c.startAt ∈ holidays
  · rw [if_pos hh] at h; cases h
  · rw [if_neg hh] at h
    cases hw : writePayload st mode
        (candidatePayload env courseId room attendanceMethod defaultStatus c) with
    | error e1 =>
      rw [hw] at h
      dsimp only at h
      cases h
      exact writePayload_error _ _ _ _ hw
    | ok r =>
      rw [hw] at h
      obtain ⟨st1, a, i⟩ := r
      cases h

theorem generateSlot_holiday (env : Env) (courseId : Nat) (room : Option String)
    (attendanceMethod defaultStatus mode : String) (holidays : List Nat)
    (st : GenState) (c : Candidate) (hh : toYmd c.startAt ∈ holidays) :
    generateSlot env courseId room attendanceMethod defaultStatus mode holidays st c =
      .ok { st with
        skippedHolidays := st.skippedHolidays ++ [(c.week, c.round, toYmd c.startAt)]
        missingByWeek := addMissing st.missingByWeek c.week c.round } := by
  unfold generateSlot
  rw [if_pos hh]

theorem generateSlot_write (env : Env) (courseId : Nat) (room : Option String)
    (attendanceMethod defaultStatus mode : String) (holidays : List Nat)
    (st st1 : GenState) (c : Candidate) (hh : toYmd c.startAt ∉ holidays)
    (h : generateSlot env courseId room attendanceMethod defaultStatus mode holidays st c =
      .ok st1) :
    ∃ action sid, writePayload st mode
      (candidatePayload env courseId room attendanceMethod defaultStatus c) =
        .ok (st1, action, sid) := by
  unfold generateSlot at h
  rw [if_neg hh] at h
  cases hw : writePayload st mode
      (candidatePayload env courseId room attendanceMethod defaultStatus c) with
  | error e1 => rw [hw] at h; cases h
  | ok r =>
    rw [hw] at h
    obtain ⟨st2, a, i⟩ := r
    dsimp only at h
    cases h
    exact ⟨a, i, rfl⟩
theorem generateMakeup_error (env : Env) (courseId base : Nat) (room : Option String)
    (attendanceMethod defaultStatus mode : String) (defaultDuration : Nat)
    (st : GenState) (m : MakeupInput) (e : Nat)
    (h : generateMakeup env courseId base room attendanceMethod defaultStatus mode
      defaultDuration st m = .error e) : e = 400 ∨ e = 409 := by
  unfold generateMakeup at h
  cases hd : m.date with
  | none =>
    rw [hd] at h
    dsimp only at h
    left; injection h with h; exact h.symm
  | some d =>
    cases hs : m.start with
    | none =>
      rw [hd, hs] at h
      dsimp only at h
      left; injection h with h; exact h.symm
    | some hm =>
      obtain ⟨hh, mm⟩ := hm
      rw [hd, hs] at h
      dsimp only at h
      by_cases h1 : m.durationMinutes.getD defaultDuration = 0
      · rw [if_pos h1] at h
        left; injection h with h; exact h.symm
      · rw [if_neg h1] at h
        by_cases h2 : m.attendanceMethod.getD attendanceMethod ∉ allowedMethods
        · rw [if_pos h2] at h
          left; injection h with h; exact h.symm
        · rw [if_neg h2] at h
          cases hw : writePayload
              { st with missingByWeek := (makeupRound st courseId (makeupWeek base d m) m).2 }
              mode
              (makeupPayload env courseId base room attendanceMethod defaultStatus
                defaultDuration m d hh mm
                (makeupRound st courseId (makeupWeek base d m) m).1) with
          | error e1 =>
            rw [hw] at h
            dsimp only at h
            have he : e1 = e := by injection h
            subst he
            right
            exact writePayload_error _ _ _ _ hw
          | ok r =>
            rw [hw] at h
            obtain ⟨st2, a, i⟩ := r
            cases h

theorem generateMakeup_ok (env : Env) (courseId base : Nat) (room : Option String)
    (attendanceMethod defaultStatus mode : String) (defaultDuration : Nat)
    (st st1 : GenState) (m : MakeupInput)
    (h : generateMakeup env courseId base room attendanceMethod defaultStatus mode
      defaultDuration st m = .ok st1) :
    ∃ d hh mm, m.date = some d ∧ m.start = some (hh, mm) ∧
      m.durationMinutes.getD defaultDuration ≠ 0 ∧
      m.attendanceMethod.getD attendanceMethod ∈ allowedMethods ∧
      ∃ st2 action sid,
        writePayload
          { st with missingByWeek := (makeupRound st courseId (makeupWeek base d m) m).2 } mode
          (makeupPayload env courseId base room attendanceMethod defaultStatus defaultDuration
            m d hh mm (makeupRound st courseId (makeupWeek base d m) m).1) =
          .ok (st2, action, sid) ∧
        st1 = { st2 with
          appliedMakeups := st2.appliedMakeups ++
            [⟨action ++ "_makeup", makeupWeek base d m,
              (makeupRound st courseId (makeupWeek base d m) m).1, sid⟩] } := by
  unfold generateMakeup at h
  cases hd : m.date with
  | none =>
    rw [hd] at h
    cases h
  | some d =>
    cases hs : m.start with
    | none =>
      rw [hd, hs] at h
      cases h
    | some hm =>
      obtain ⟨hh, mm⟩ := hm
      rw [hd, hs] at h
      dsimp only at h
      by_cases h1 : m.durationMinutes.getD defaultDuration = 0
      · rw [if_pos h1] at h
        cases h
      · rw [if_neg h1] at h
        by_cases h2 : m.attendanceMethod.getD attendanceMethod ∉ allowedMethods
        · rw [if_pos h2] at h
          cases h
        · rw [if_neg h2] at h
          cases hw : writePayload
              { st with missingByWeek := (makeupRound st courseId (makeupWeek base d m) m).2 }
              mode
              (makeupPayload env courseId base room attendanceMethod defaultStatus
                defaultDuration m d hh mm
                (makeupRound st courseId (makeupWeek base d m) m).1) with
          | error e1 =>
            rw [hw] at h
            cases h
          | ok r =>
            rw [hw] at h
            obtain ⟨st2, a, i⟩ := r
            dsimp only at h
            injection h with h
            exact ⟨d, hh, mm, rfl, rfl, h1, not_not.1 h2, st2, a, i, hw, h.symm⟩

theorem generateAll_error (db : Db) (env : Env) (courseId base weeks : Nat) (dows : List Nat)
    (timeSpecs : List TimeSpec) (room : Option String)
    (attendanceMethod defaultStatus mode : String) (holidays : List Nat)
    (makeups : List MakeupInput) (e : Nat)
    (h : generateAll db env courseId base weeks dows timeSpecs room attendanceMethod
      defaultStatus mode holidays makeups = .error e) : e = 400 ∨ e = 409 := by
  unfold generateAll at h
  cases hr : generateRegular env courseId room attendanceMethod defaultStatus mode holidays
      (allCandidates base weeks dows timeSpecs) ⟨db.sessions, 0, 0, 0, [], [], []⟩ with
  | error e1 =>
    rw [hr] at h
    dsimp only at h
    have he : e1 = e := by injection h
    subst he
    right
    exact foldlM_except_error _ (fun e => e = 409)
      (fun b a e hba => generateSlot_error _ _ _ _ _ _ _ b a e hba) _ _ e1 hr
  | ok st =>
    rw [hr] at h
    dsimp only at h
    exact foldlM_except_error _ (fun e => e = 400 ∨ e = 409)
      (fun b a e hba => generateMakeup_error _ _ _ _ _ _ _ _ b a e hba) _ _ e h

/-- The outcomes of the handler: an error answer with the database as it was, or 201
after all validations passed and the whole generation went through. -/
theorem generateSessions_cases (db : Db) (env : Env) (user : SessionUser) (courseId : Nat)
    (body : GenerateBody) :
    ((generateSessions db env user courseId body).1 ∈ [400, 403, 404, 409] ∧
      (generateSessions db env user courseId body).2 = (db, none)) ∨
    (∃ course base dows st,
      findCourse db courseId = some course ∧ notOwner user course = false ∧
      body.baseDate = some base ∧ 1 ≤ body.weeks ∧ body.weeks ≤ 30 ∧
      normalizeMeetingDays body.meetingDays = some dows ∧ body.times ≠ [] ∧
      (∀ x ∈ body.times, (toTimeSpec x).isSome) ∧
      body.attendanceMethod.getD "CODE" ∈ allowedMethods ∧
      body.defaultStatus.getD "CLOSED" ∈ allowedDefaultStatuses ∧
      body.mode.getD "skipExisting" ∈ ["skipExisting", "errorOnConflict", "overwrite"] ∧
      generateAll db env courseId base body.weeks dows (body.times.filterMap toTimeSpec)
        body.room (body.attendanceMethod.getD "CODE") (body.defaultStatus.getD "CLOSED")
        (body.mode.getD "skipExisting") body.holidays body.makeups = .ok st ∧
      generateSessions db env user courseId body =
        (201, { db with sessions := st.sessions },
          some
            { created := st.created
              updated := st.updated
              skipped := st.skipped
              skippedHolidays := st.skippedHolidays
              appliedMakeups := st.appliedMakeups
              missingSummary :=
                (st.missingByWeek.filter (fun e => decide (e.2.length > 0))).map
                  (fun e => (e.1, e.2.insertionSort (fun a b => a ≤ b))) })) := by
  unfold generateSessions
  cases hc : findCourse db courseId with
  | none => left; simp
  | some course =>
    dsimp only
    by_cases h1 : notOwner user course = true
    · rw [if_pos h1]; left; simp
    · rw [if_neg h1]
      cases hb : body.baseDate with
      | none => left; simp
      | some base =>
        dsimp only
        by_cases h2 : body.weeks = 0 ∨ body.weeks < 1 ∨ body.weeks > 30
        · rw [if_pos h2]; left; simp
        · rw [if_neg h2]
          cases hn : normalizeMeetingDays body.meetingDays with
          | none => left; simp
          | some dows =>
            dsimp only
            by_cases h3 : body.times.length = 0
            · rw [if_pos h3]; left; simp
            · rw [if_neg h3]
              by_cases h4 : (body.times.map toTimeSpec).any (fun x => x.isNone) = true
              · rw [if_pos h4]; left; simp
              · rw [if_neg h4]
                by_cases h5 : body.attendanceMethod.getD "CODE" ∉ allowedMethods
                · rw [if_pos h5]; left; simp
                · rw [if_neg h5]
                  by_cases h6 : body.defaultStatus.getD "CLOSED" ∉ allowedDefaultStatuses
                  · rw [if_pos h6]; left; simp
                  · rw [if_neg h6]
                    by_cases h7 : body.mode.getD "skipExisting" ∉
                        ["skipExisting", "errorOnConflict", "overwrite"]
                    · rw [if_pos h7]; left; simp
                    · rw [if_neg h7]
                      cases hg : generateAll db env courseId base body.weeks dows
                          (body.times.filterMap toTimeSpec) body.room
                          (body.attendanceMethod.getD "CODE")
                          (body.defaultStatus.getD "CLOSED")
                          (body.mode.getD "skipExisting") body.holidays body.makeups with
                      | error e =>
                        left
                        dsimp only
                        rcases generateAll_error _ _ _ _ _ _ _ _ _ _ _ _ _ e hg with he | he
                        · subst he; simp
                        · subst he; simp
                      | ok st =>
                        right
                        refine ⟨course, base, dows, st, rfl, by simpa using h1, rfl, ?_, ?_, rfl,
                          ?_, ?_, not_not.1 h5, not_not.1 h6, not_not.1 h7, hg, rfl⟩
                        · omega
                        · omega
                        · intro hnil; apply h3; rw [hnil]; rfl
                        · intro x hx
                          cases hx1 : toTimeSpec x with
                          | some ts => rfl
                          | none =>
                            exfalso
                            apply h4
                            rw [List.any_eq_true]
                            exact ⟨none, List.mem_map.2 ⟨x, hx, hx1⟩, rfl⟩
theorem findSessionByKey_none_of_subset (old rows : List ClassSession) (courseId : Nat)
    (week : Int) (round : Nat) (hsub : ∀ s ∈ old, s ∈ rows)
    (h : findSessionByKey rows courseId week round = none) :
    findSessionByKey old courseId week round = none := by
  unfold findSessionByKey at *
  rw [List.find?_eq_none] at *
  intro x hx
  exact h x (hsub x hx)

theorem writePayload_conflict (st st1 : GenState) (p : SessionPayload) (action : String)
    (sid : Nat) (h : writePayload st "errorOnConflict" p = .ok (st1, action, sid)) :
    findSessionByKey st.sessions p.courseId p.week p.round = none ∧
      ∀ s ∈ st.sessions, s ∈ st1.sessions := by
  obtain ⟨-, -, -, h1 | h1⟩ := writePayload_ok _ _ _ _ _ _ h
  · refine ⟨h1.1, ?_⟩
    intro s hs
    rw [h1.2.1]
    exact List.mem_append_left _ hs
  · exact absurd rfl h1.1

theorem generateSlot_conflict (env : Env) (courseId : Nat) (room : Option String)
    (attendanceMethod defaultStatus : String) (holidays : List Nat)
    (old : List ClassSession) (st : GenState) (c : Candidate) (st1 : GenState)
    (hsub : ∀ s ∈ old, s ∈ st.sessions)
    (h : generateSlot env courseId room attendanceMethod defaultStatus "errorOnConflict"
      holidays st c = .ok st1) :
    (∀ s ∈ old, s ∈ st1.sessions) ∧
      (toYmd c.startAt ∉ holidays → findSessionByKey old courseId c.week c.round = none) := by
  by_cases hh : toYmd c.startAt ∈ holidays
  · rw [generateSlot_holiday _ _ _ _ _ _ _ _ _ hh] at h
    injection h with h
    subst h
    exact ⟨hsub, fun hn => absurd hh hn⟩
  · obtain ⟨action, sid, hw⟩ := generateSlot_write _ _ _ _ _ _ _ _ _ _ hh h
    obtain ⟨hnone, hkeep⟩ := writePayload_conflict _ _ _ _ _ hw
    refine ⟨fun s hs => hkeep s (hsub s hs), fun _ => ?_⟩
    exact findSessionByKey_none_of_subset old st.sessions courseId c.week c.round hsub hnone

theorem generateMakeup_conflict (env : Env) (courseId base : Nat) (room : Option String)
    (attendanceMethod defaultStatus : String) (defaultDuration : Nat)
    (old : List ClassSession) (st : GenState) (m : MakeupInput) (st1 : GenState)
    (hsub : ∀ s ∈ old, s ∈ st.sessions)
    (h : generateMakeup env courseId base room attendanceMethod defaultStatus
      "errorOnConflict" defaultDuration st m = .ok st1) :
    (∀ s ∈ old, s ∈ st1.sessions) ∧
      (m.week ≠ 0 → m.round ≠ 0 → findSessionByKey old courseId m.week m.round = none) := by
  obtain ⟨d, hh, mm, -, -, -, -, st2, action, sid, hw, hst⟩ :=
    generateMakeup_ok _ _ _ _ _ _ _ _ _ _ _ h
  obtain ⟨hnone, hkeep⟩ := writePayload_conflict _ _ _ _ _ hw
  subst hst
  refine ⟨fun s hs => hkeep s (hsub s hs), fun hw0 hr0 => ?_⟩
  have hwk : makeupWeek base d m = m.week := by
    unfold makeupWeek
    rw [if_pos hw0]
  have hrd : ∀ wk, (makeupRound st courseId wk m).1 = m.round := by
    intro wk
    unfold makeupRound
    rw [if_pos hr0]
  have hnone2 : findSessionByKey st.sessions courseId m.week m.round = none := by
    have := hnone
    simp only [makeupPayload, hwk, hrd] at this
    exact this
  exact findSessionByKey_none_of_subset old st.sessions courseId m.week m.round hsub hnone2

theorem generateAll_conflict (db : Db) (env : Env) (courseId base weeks : Nat)
    (dows : List Nat) (timeSpecs : List TimeSpec) (room : Option String)
    (attendanceMethod defaultStatus : String) (holidays : List Nat)
    (makeups : List MakeupInput) (st : GenState)
    (h : generateAll db env courseId base weeks dows timeSpecs room attendanceMethod
      defaultStatus "errorOnConflict" holidays makeups = .ok st) :
    (∀ c ∈ allCandidates base weeks dows timeSpecs, toYmd c.startAt ∉ holidays →
      findSessionByKey db.sessions courseId c.week c.round = none) ∧
    (∀ m ∈ makeups, m.week ≠ 0 → m.round ≠ 0 →
      findSessionByKey db.sessions courseId m.week m.round = none) := by
  unfold generateAll at h
  cases hr : generateRegular env courseId room attendanceMethod defaultStatus
      "errorOnConflict" holidays (allCandidates base weeks dows timeSpecs)
      ⟨db.sessions, 0, 0, 0, [], [], []⟩ with
  | error e1 => rw [hr] at h; cases h
  | ok st0 =>
    rw [hr] at h
    dsimp only at h
    obtain ⟨hsub0, hreg⟩ := foldlM_except_invariant _
      (fun (b : GenState) => ∀ s ∈ db.sessions, s ∈ b.sessions)
      (fun (c : Candidate) => toYmd c.startAt ∉ holidays →
        findSessionByKey db.sessions courseId c.week c.round = none)
      (fun b a b1 hI hba => generateSlot_conflict _ _ _ _ _ _ db.sessions b a b1 hI hba)
      _ _ _ (fun s hs => hs) hr
    obtain ⟨-, hmk⟩ := foldlM_except_invariant _
      (fun (b : GenState) => ∀ s ∈ db.sessions, s ∈ b.sessions)
      (fun (m : MakeupInput) => m.week ≠ 0 → m.round ≠ 0 →
        findSessionByKey db.sessions courseId m.week m.round = none)
      (fun b a b1 hI hba => generateMakeup_conflict _ _ _ _ _ _ _ db.sessions b a b1 hI hba)
      _ _ _ hsub0 h
    exact ⟨hreg, hmk⟩

theorem generateAll_makeups_valid (db : Db) (env : Env) (courseId base weeks : Nat)
    (dows : List Nat) (timeSpecs : List TimeSpec) (room : Option String)
    (attendanceMethod defaultStatus mode : String) (holidays : List Nat)
    (makeups : List MakeupInput) (st : GenState)
    (h : generateAll db env courseId base weeks dows timeSpecs room attendanceMethod
      defaultStatus mode holidays makeups = .ok st) :
    ∀ m ∈ makeups, m.date.isSome ∧ m.start.isSome ∧
      m.durationMinutes.getD ((timeSpecs.head?.map (fun ts => ts.durationMinutes)).getD 0) ≠ 0 ∧
      m.attendanceMethod.getD attendanceMethod ∈ allowedMethods := by
  unfold generateAll at h
  cases hr : generateRegular env courseId room attendanceMethod defaultStatus
      mode holidays (allCandidates base weeks dows timeSpecs)
      ⟨db.sessions, 0, 0, 0, [], [], []⟩ with
  | error e1 => rw [hr] at h; cases h
  | ok st0 =>
    rw [hr] at h
    dsimp only at h
    refine (foldlM_except_invariant _ (fun (_ : GenState) => True)
      (fun (m : MakeupInput) => m.date.isSome ∧ m.start.isSome ∧
        m.durationMinutes.getD ((timeSpecs.head?.map (fun ts => ts.durationMinutes)).getD 0)
          ≠ 0 ∧
        m.attendanceMethod.getD attendanceMethod ∈ allowedMethods)
      ?_ _ _ _ trivial h).2
    intro b a b1 _ hba
    obtain ⟨d, hh, mm, hd, hs, hdur, hmeth, -⟩ := generateMakeup_ok _ _ _ _ _ _ _ _ _ _ _ hba
    exact ⟨trivial, by rw [hd]; rfl, by rw [hs]; rfl, hdur, hmeth⟩

/-- C19: session generation is all-or-nothing. The handler answers 201 or one of the
error codes 400, 403, 404, 409, and with every error answer the database, the persisted
sessions included, is exactly the one before the call and nothing is reported as
written. Every failed validation and every errorOnConflict collision leads to such an
error answer: an answer 201 implies that the course exists and is the caller's to
manage, that every check of the body passed, that every makeup has a date, a start
time, a non-zero duration and an allowed method, and, under errorOnConflict, that no
candidate of any week outside the holidays and no makeup with an explicit (week, round)
has the key of a session that existed before the call. -/
theorem generate_all_or_nothing (db : Db) (env : Env) (user : SessionUser) (courseId : Nat)
    (body : GenerateBody) :
    (generateSessions db env user courseId body).1 ∈ [201, 400, 403, 404, 409] ∧
    ((generateSessions db env user courseId body).1 ≠ 201 →
      (generateSessions db env user courseId body).2 = (db, none)) ∧
    ((generateSessions db env user courseId body).1 = 201 →
      (∃ course, findCourse db courseId = some course ∧ notOwner user course = false) ∧
      body.baseDate.isSome ∧ 1 ≤ body.weeks ∧ body.weeks ≤ 30 ∧
      (normalizeMeetingDays body.meetingDays).isSome ∧ body.times ≠ [] ∧
      (∀ x ∈ body.times, (toTimeSpec x).isSome) ∧
      body.attendanceMethod.getD "CODE" ∈ allowedMethods ∧
      body.defaultStatus.getD "CLOSED" ∈ allowedDefaultStatuses ∧
      body.mode.getD "skipExisting" ∈ ["skipExisting", "errorOnConflict", "overwrite"] ∧
      ∀ m ∈ body.makeups, m.date.isSome ∧ m.start.isSome ∧
        m.durationMinutes.getD
          (((body.times.filterMap toTimeSpec).head?.map (fun ts => ts.durationMinutes)).getD 0)
          ≠ 0 ∧
        m.attendanceMethod.getD (body.attendanceMethod.getD "CODE") ∈ allowedMethods) ∧
    ((generateSessions db env user courseId body).1 = 201 →
      body.mode = some "errorOnConflict" →
      ∃ base dows, body.baseDate = some base ∧
        normalizeMeetingDays body.meetingDays = some dows ∧
        (∀ c ∈ allCandidates base body.weeks dows (body.times.filterMap toTimeSpec),
          toYmd c.startAt ∉ body.holidays →
          findSessionByKey db.sessions courseId c.week c.round = none) ∧
        (∀ m ∈ body.makeups, m.week ≠ 0 → m.round ≠ 0 →
          findSessionByKey db.sessions courseId m.week m.round = none)) := by
  rcases generateSessions_cases db env user courseId body with ⟨hcode, hdb⟩ |
    ⟨course, base, dows, st, hc, ho, hb, hw1, hw30, hn, ht, hts, hm, hs, hmode, hg, heq⟩
  · have hne : (generateSessions db env user courseId body).1 ≠ 201 := by
      intro h
      rw [h] at hcode
      simp at hcode
    refine ⟨?_, fun _ => hdb, fun h => absurd h hne, fun h => absurd h hne⟩
    simp only [List.mem_cons, List.mem_singleton, List.not_mem_nil, or_false] at hcode ⊢
    right
    exact hcode
  · refine ⟨?_, ?_, ?_, ?_⟩
    · rw [heq]; simp
    · intro h; rw [heq] at h; exact absurd rfl h
    · intro _
      refine ⟨⟨course, hc, ho⟩, by rw [hb]; rfl, hw1, hw30, by rw [hn]; rfl, ht, hts, hm, hs,
        hmode, ?_⟩
      exact generateAll_makeups_valid _ _ _ _ _ _ _ _ _ _ _ _ _ _ hg
    · intro _ hmd
      have hmode2 : body.mode.getD "skipExisting" = "errorOnConflict" := by rw [hmd]; rfl
      rw [hmode2] at hg
      exact ⟨base, dows, hb, hn, generateAll_conflict _ _ _ _ _ _ _ _ _ _ _ _ _ hg⟩

/-- C19, at concrete requests. On a database whose course 1 has a session of week 2,
round 1, generation over two Mondays under errorOnConflict creates week 1 inside the
transaction, collides on week 2 and answers 409 with the database as before. On a
database without sessions the same request answers 201, and then no candidate has the
key of an earlier session. -/
theorem generate_all_or_nothing_witness :
    (generateSessions exampleWeekTwoDb exampleEnv exampleAdmin 1 exampleConflictBody).1 = 409 ∧
    (generateSessions exampleWeekTwoDb exampleEnv exampleAdmin 1 exampleConflictBody).2
      = (exampleWeekTwoDb, none) ∧
    (generateSessions exampleCourseOnly exampleEnv exampleAdmin 1 exampleConflictBody).1 = 201 ∧
    exampleConflictBody.mode = some "errorOnConflict" ∧
    (∃ base dows, exampleConflictBody.baseDate = some base ∧
      normalizeMeetingDays exampleConflictBody.meetingDays = some dows ∧
      (∀ c ∈ allCandidates base exampleConflictBody.weeks dows
          (exampleConflictBody.times.filterMap toTimeSpec),
        toYmd c.startAt ∉ exampleConflictBody.holidays →
        findSessionByKey exampleCourseOnly.sessions 1 c.week c.round = none) ∧
      (∀ m ∈ exampleConflictBody.makeups, m.week ≠ 0 → m.round ≠ 0 →
        findSessionByKey exampleCourseOnly.sessions 1 m.week m.round = none)) :=
  ⟨by decide,
    (generate_all_or_nothing exampleWeekTwoDb exampleEnv exampleAdmin 1
      exampleConflictBody).2.1 (by decide),
    by decide, rfl,
    (generate_all_or_nothing exampleCourseOnly exampleEnv exampleAdmin 1
      exampleConflictBody).2.2.2 (by decide) rfl⟩

theorem allSlots_length (base w : Nat) (dows : List Nat) (timeSpecs : List TimeSpec) :
    (allSlots base w dows timeSpecs).length = dows.length * timeSpecs.length := by
  unfold allSlots
  induction dows with
  | nil => simp
  | cons d ds ih =>
    rw [List.flatMap_cons, List.length_append, ih, List.length_map, List.length_cons]
    ring

theorem sortedSlots_length (base w : Nat) (dows : List Nat) (timeSpecs : List TimeSpec) :
    (sortedSlots base w dows timeSpecs).length = dows.length * timeSpecs.length := by
  unfold sortedSlots
  rw [List.length_insertionSort, allSlots_length]

theorem sortedSlots_sorted (base w : Nat) (dows : List Nat) (timeSpecs : List TimeSpec) :
    (sortedSlots base w dows timeSpecs).Pairwise (fun a b => a.startAt ≤ b.startAt) := by
  unfold sortedSlots
  haveI : IsTotal Slot (fun a b => a.startAt ≤ b.startAt) :=
    ⟨fun a b => Nat.le_total a.startAt b.startAt⟩
  haveI : IsTrans Slot (fun a b => a.startAt ≤ b.startAt) :=
    ⟨fun a b c hab hbc => Nat.le_trans hab hbc⟩
  exact List.sorted_insertionSort (fun (a b : Slot) => a.startAt ≤ b.startAt) _

theorem weekCandidates_rounds (base w : Nat) (dows : List Nat) (timeSpecs : List TimeSpec) :
    (weekCandidates base w dows timeSpecs).map (fun c => c.round)
      = List.range' 1 (dows.length * timeSpecs.length) := by
  unfold weekCandidates
  rw [List.map_map]
  have hf : ((fun (c : Candidate) => c.round) ∘
      fun (p : Nat × Slot) => (⟨((w + 1 : Nat) : Int), p.1, p.2.startAt, p.2.endAt⟩ : Candidate))
      = Prod.fst := by
    funext p
    rfl
  rw [hf, List.enumFrom_map_fst, sortedSlots_length]

theorem weekCandidates_slots (base w : Nat) (dows : List Nat) (timeSpecs : List TimeSpec) :
    (weekCandidates base w dows timeSpecs).map (fun c => (⟨c.startAt, c.endAt⟩ : Slot))
      = sortedSlots base w dows timeSpecs := by
  unfold weekCandidates
  rw [List.map_map]
  have hf : ((fun (c : Candidate) => (⟨c.startAt, c.endAt⟩ : Slot)) ∘
      fun (p : Nat × Slot) => (⟨((w + 1 : Nat) : Int), p.1, p.2.startAt, p.2.endAt⟩ : Candidate))
      = Prod.snd := by
    funext p
    rfl
  rw [hf, List.enumFrom_map_snd]

theorem weekCandidates_ordered (base w : Nat) (dows : List Nat) (timeSpecs : List TimeSpec) :
    ∀ a ∈ weekCandidates base w dows timeSpecs, ∀ b ∈ weekCandidates base w dows timeSpecs,
      a.round < b.round → a.startAt ≤ b.startAt := by
  have h1 : (weekCandidates base w dows timeSpecs).Pairwise
      (fun a b => a.round < b.round) := by
    have := List.pairwise_lt_range' 1 (dows.length * timeSpecs.length)
    rw [← weekCandidates_rounds base w dows timeSpecs, List.pairwise_map] at this
    exact this
  have h2 : (weekCandidates base w dows timeSpecs).Pairwise
      (fun a b => a.startAt ≤ b.startAt) := by
    have := sortedSlots_sorted base w dows timeSpecs
    rw [← weekCandidates_slots base w dows timeSpecs, List.pairwise_map] at this
    exact this
  have h3 := h1.and h2
  intro a ha b hb
  refine List.Pairwise.forall_of_forall_of_flip
    (R := fun (a b : Candidate) => a.round < b.round → a.startAt ≤ b.startAt)
    ?_ ?_ ?_ ha hb
  · intro x _ hx
    exact absurd hx (Nat.lt_irrefl _)
  · exact h3.imp (fun h _ => h.2)
  · exact h3.imp (fun h hlt => absurd hlt (Nat.lt_asymm h.1))

theorem mem_weekCandidates (base w : Nat) (dows : List Nat) (timeSpecs : List TimeSpec)
    (c : Candidate) :
    c ∈ weekCandidates base w dows timeSpecs ↔
      c.week = ((w + 1 : Nat) : Int) ∧ 1 ≤ c.round ∧
      (sortedSlots base w dows timeSpecs)[c.round - 1]? = some ⟨c.startAt, c.endAt⟩ := by
  unfold weekCandidates
  rw [List.mem_map]
  constructor
  · rintro ⟨⟨i, s⟩, hp, rfl⟩
    rw [List.mk_mem_enumFrom_iff_le_and_getElem?_sub] at hp
    exact ⟨rfl, hp.1, hp.2⟩
  · rintro ⟨hw, hr, hs⟩
    refine ⟨(c.round, ⟨c.startAt, c.endAt⟩), ?_, ?_⟩
    · rw [List.mk_mem_enumFrom_iff_le_and_getElem?_sub]
      exact ⟨hr, hs⟩
    · cases c
      simp only at hw
      simp [hw]

theorem mem_allCandidates (base weeks : Nat) (dows : List Nat) (timeSpecs : List TimeSpec)
    (c : Candidate) :
    c ∈ allCandidates base weeks dows timeSpecs ↔
      ∃ w, w < weeks ∧ c ∈ weekCandidates base w dows timeSpecs := by
  unfold allCandidates
  rw [List.mem_flatMap]
  constructor
  · rintro ⟨w, hw, hc⟩
    exact ⟨w, List.mem_range.1 hw, hc⟩
  · rintro ⟨w, hw, hc⟩
    exact ⟨w, List.mem_range.2 hw, hc⟩

theorem allCandidates_key_inj (base weeks : Nat) (dows : List Nat) (timeSpecs : List TimeSpec)
    (a b : Candidate) (ha : a ∈ allCandidates base weeks dows timeSpecs)
    (hb : b ∈ allCandidates base weeks dows timeSpecs)
    (hw : a.week = b.week) (hr : a.round = b.round) : a = b := by
  obtain ⟨w1, -, h1⟩ := (mem_allCandidates _ _ _ _ _).1 ha
  obtain ⟨w2, -, h2⟩ := (mem_allCandidates _ _ _ _ _).1 hb
  rw [mem_weekCandidates] at h1 h2
  have hww : w1 = w2 := by
    have : ((w1 + 1 : Nat) : Int) = ((w2 + 1 : Nat) : Int) := by
      rw [← h1.1, ← h2.1, hw]
    omega
  subst hww
  have hs := h1.2.2
  rw [hr, h2.2.2] at hs
  cases a
  cases b
  simp only at hw hr hs
  simp only [Option.some.injEq, Slot.mk.injEq] at hs
  simp [hw, hr, hs.1, hs.2]
theorem findSessionByKey_some (rows : List ClassSession) (courseId : Nat) (week : Int)
    (round : Nat) (e : ClassSession) (h : findSessionByKey rows courseId week round = some e) :
    e ∈ rows ∧ e.courseId = courseId ∧ e.week = week ∧ e.round = round := by
  unfold findSessionByKey at h
  have h1 := List.mem_of_find?_eq_some h
  have h2 := List.find?_some h
  exact ⟨h1, by simpa using h2⟩

theorem addMissing_keep (m : List (Int × List Nat)) (week : Int) (round : Nat) (wk : Int)
    (rs : List Nat) (r : Nat) (hmem : (wk, rs) ∈ m) (hr : r ∈ rs) :
    ∃ rs1, (wk, rs1) ∈ addMissing m week round ∧ r ∈ rs1 := by
  unfold addMissing
  cases hf : m.find? (fun e => decide (e.1 = week)) with
  | none => exact ⟨rs, List.mem_append_left _ hmem, hr⟩
  | some e =>
    dsimp only
    by_cases hw : wk = week
    · refine ⟨if round ∈ rs then rs else rs ++ [round], ?_, ?_⟩
      · rw [List.mem_map]
        refine ⟨(wk, rs), hmem, ?_⟩
        rw [if_pos hw]
      · by_cases hin : round ∈ rs
        · rw [if_pos hin]; exact hr
        · rw [if_neg hin]; exact List.mem_append_left _ hr
    · refine ⟨rs, ?_, hr⟩
      rw [List.mem_map]
      refine ⟨(wk, rs), hmem, ?_⟩
      rw [if_neg hw]

theorem addMissing_new (m : List (Int × List Nat)) (week : Int) (round : Nat) :
    ∃ rs1, (week, rs1) ∈ addMissing m week round ∧ round ∈ rs1 := by
  unfold addMissing
  cases hf : m.find? (fun e => decide (e.1 = week)) with
  | none => exact ⟨[round], List.mem_append_right _ (List.mem_singleton.2 rfl), by simp⟩
  | some e =>
    dsimp only
    have hmem := List.mem_of_find?_eq_some hf
    have hk : e.1 = week := by
      have := List.find?_some hf
      simpa using this
    refine ⟨if round ∈ e.2 then e.2 else e.2 ++ [round], ?_, ?_⟩
    · rw [List.mem_map]
      refine ⟨e, hmem, ?_⟩
      rw [if_pos hk, hk]
    · by_cases hin : round ∈ e.2
      · rw [if_pos hin]; exact hin
      · rw [if_neg hin]; exact List.mem_append_right _ (List.mem_singleton.2 rfl)

/-- The rows of the table after the regular loop: rows of the table before, or rows
with the fields of the payload of a candidate outside the holidays. -/
theorem generateRegular_rows (env : Env) (courseId : Nat) (room : Option String)
    (attendanceMethod defaultStatus mode : String) (holidays : List Nat)
    (old : List ClassSession) (cands : List Candidate) (st st1 : GenState)
    (hst : ∀ s ∈ st.sessions, s ∈ old)
    (h : generateRegular env courseId room attendanceMethod defaultStatus mode holidays
      cands st = .ok st1) :
    ∀ s ∈ st1.sessions, s ∈ old ∨ ∃ c ∈ cands, toYmd c.startAt ∉ holidays ∧
      s = (candidatePayload env courseId room attendanceMethod defaultStatus c).toSession
        s.id := by
  have key := foldlM_except_prefix
    (generateSlot env courseId room attendanceMethod defaultStatus mode holidays)
    (fun (done : List Candidate) (b : GenState) =>
      ∀ s ∈ b.sessions, s ∈ old ∨ ∃ c ∈ done, toYmd c.startAt ∉ holidays ∧
        s = (candidatePayload env courseId room attendanceMethod defaultStatus c).toSession
          s.id)
    ?_ cands [] st st1 (fun s hs => Or.inl (hst s hs)) h
  · simpa using key
  · intro done b a b1 hI hba
    have hmono : ∀ s, (s ∈ old ∨ ∃ c ∈ done, toYmd c.startAt ∉ holidays ∧
        s = (candidatePayload env courseId room attendanceMethod defaultStatus c).toSession
          s.id) →
        (s ∈ old ∨ ∃ c ∈ done ++ [a], toYmd c.startAt ∉ holidays ∧
        s = (candidatePayload env courseId room attendanceMethod defaultStatus c).toSession
          s.id) := by
      rintro s (hs | ⟨c, hc, hh, hs⟩)
      · exact Or.inl hs
      · exact Or.inr ⟨c, List.mem_append_left _ hc, hh, hs⟩
    by_cases hh : toYmd a.startAt ∈ holidays
    · rw [generateSlot_holiday _ _ _ _ _ _ _ _ _ hh] at hba
      injection hba with hba
      subst hba
      intro s hs
      exact hmono s (hI s hs)
    · obtain ⟨action, sid, hw⟩ := generateSlot_write _ _ _ _ _ _ _ _ _ _ hh hba
      obtain ⟨-, -, -, hcase | ⟨-, e, -, -, hcase | hcase⟩⟩ := writePayload_ok _ _ _ _ _ _ hw
      · intro s hs
        rw [hcase.2.1] at hs
        rcases List.mem_append.1 hs with hs | hs
        · exact hmono s (hI s hs)
        · rw [List.mem_singleton] at hs
          right
          refine ⟨a, List.mem_append_right _ (List.mem_singleton.2 rfl), hh, ?_⟩
          rw [hs]
          rfl
      · intro s hs
        rw [hcase.2] at hs
        unfold updateSession at hs
        rw [List.mem_map] at hs
        obtain ⟨s0, hs0, hs1⟩ := hs
        by_cases hid : s0.id = e.id
        · rw [if_pos hid] at hs1
          right
          refine ⟨a, List.mem_append_right _ (List.mem_singleton.2 rfl), hh, ?_⟩
          rw [← hs1]
          rfl
        · rw [if_neg hid] at hs1
          rw [← hs1]
          exact hmono s0 (hI s0 hs0)
      · intro s hs
        rw [hcase.2] at hs
        exact hmono s (hI s hs)

/-- The holiday candidates of the regular loop are recorded in `skippedHolidays` and
in `missingByWeek`. -/
theorem generateRegular_holidays (env : Env) (courseId : Nat) (room : Option String)
    (attendanceMethod defaultStatus mode : String) (holidays : List Nat)
    (cands : List Candidate) (st st1 : GenState)
    (h : generateRegular env courseId room attendanceMethod defaultStatus mode holidays
      cands st = .ok st1) :
    ∀ c ∈ cands, toYmd c.startAt ∈ holidays →
      (c.week, c.round, toYmd c.startAt) ∈ st1.skippedHolidays ∧
      ∃ rs, (c.week, rs) ∈ st1.missingByWeek ∧ c.round ∈ rs := by
  have key := foldlM_except_prefix
    (generateSlot env courseId room attendanceMethod defaultStatus mode holidays)
    (fun (done : List Candidate) (b : GenState) =>
      ∀ c ∈ done, toYmd c.startAt ∈ holidays →
        (c.week, c.round, toYmd c.startAt) ∈ b.skippedHolidays ∧
        ∃ rs, (c.week, rs) ∈ b.missingByWeek ∧ c.round ∈ rs)
    ?_ cands [] st st1 (by simp) h
  · simpa using key
  · intro done b a b1 hI hba c hc hch
    by_cases hh : toYmd a.startAt ∈ holidays
    · rw [generateSlot_holiday _ _ _ _ _ _ _ _ _ hh] at hba
      injection hba with hba
      subst hba
      dsimp only
      rcases List.mem_append.1 hc with hc | hc
      · obtain ⟨h1, rs, h2, h3⟩ := hI c hc hch
        exact ⟨List.mem_append_left _ h1, addMissing_keep _ _ _ _ rs _ h2 h3⟩
      · rw [List.mem_singleton] at hc
        subst hc
        exact ⟨List.mem_append_right _ (List.mem_singleton.2 rfl), addMissing_new _ _ _⟩
    · obtain ⟨action, sid, hw⟩ := generateSlot_write _ _ _ _ _ _ _ _ _ _ hh hba
      obtain ⟨h1, h2, -, -⟩ := writePayload_ok _ _ _ _ _ _ hw
      rw [h1, h2]
      rcases List.mem_append.1 hc with hc | hc
      · exact hI c hc hch
      · rw [List.mem_singleton] at hc
        subst hc
        exact absurd hch hh

theorem sessionIds_append (rows : List ClassSession) (row : ClassSession)
    (h : (rows.map (fun s => s.id)).Nodup) (hid : row.id = nextId (rows.map (fun s => s.id))) :
    ((rows ++ [row]).map (fun s => s.id)).Nodup := by
  rw [List.map_append, List.map_singleton]
  apply List.Nodup.append h (List.nodup_singleton _)
  rw [List.disjoint_singleton]
  intro hmem
  have := lt_nextId _ _ hmem
  omega

theorem updateSession_ids (rows : List ClassSession) (id : Nat) (p : SessionPayload) :
    (updateSession rows id p).map (fun s => s.id) = rows.map (fun s => s.id) := by
  unfold updateSession
  rw [List.map_map]
  apply List.map_congr_left
  intro s _
  dsimp only [Function.comp]
  by_cases hid : s.id = id
  · rw [if_pos hid]; rfl
  · rw [if_neg hid]

/-- With unique session ids, every candidate of the regular loop outside the holidays
has a session of its (course, week, round) in the table after the loop. -/
theorem generateRegular_written (env : Env) (courseId : Nat) (room : Option String)
    (attendanceMethod defaultStatus mode : String) (holidays : List Nat)
    (cands : List Candidate) (st st1 : GenState)
    (hids : (st.sessions.map (fun s => s.id)).Nodup)
    (h : generateRegular env courseId room attendanceMethod defaultStatus mode holidays
      cands st = .ok st1) :
    ∀ c ∈ cands, toYmd c.startAt ∉ holidays →
      ∃ s ∈ st1.sessions, s.courseId = courseId ∧ s.week = c.week ∧ s.round = c.round := by
  have key := foldlM_except_prefix
    (generateSlot env courseId room attendanceMethod defaultStatus mode holidays)
    (fun (done : List Candidate) (b : GenState) =>
      (b.sessions.map (fun s => s.id)).Nodup ∧
      ∀ c ∈ done, toYmd c.startAt ∉ holidays →
        ∃ s ∈ b.sessions, s.courseId = courseId ∧ s.week = c.week ∧ s.round = c.round)
    ?_ cands [] st st1 ⟨hids, by simp⟩ h
  · simpa using key.2
  · intro done b a b1 hI hba
    obtain ⟨hnd, hex⟩ := hI
    by_cases hh : toYmd a.startAt ∈ holidays
    · rw [generateSlot_holiday _ _ _ _ _ _ _ _ _ hh] at hba
      injection hba with hba
      subst hba
      refine ⟨hnd, ?_⟩
      intro c hc hch
      rcases List.mem_append.1 hc with hc | hc
      · exact hex c hc hch
      · rw [List.mem_singleton] at hc
        subst hc
        exact absurd hh hch
    · obtain ⟨action, sid, hw⟩ := generateSlot_write _ _ _ _ _ _ _ _ _ _ hh hba
      obtain ⟨-, -, -, hcase | ⟨-, e, hfind, -, hcase | hcase⟩⟩ :=
        writePayload_ok _ _ _ _ _ _ hw
      · obtain ⟨-, hs1, hsid⟩ := hcase
        rw [hs1]
        refine ⟨sessionIds_append _ _ hnd hsid, ?_⟩
        intro c hc hch
        rcases List.mem_append.1 hc with hc | hc
        · obtain ⟨s, hs, hk⟩ := hex c hc hch
          exact ⟨s, List.mem_append_left _ hs, hk⟩
        · rw [List.mem_singleton] at hc
          subst hc
          exact ⟨_, List.mem_append_right _ (List.mem_singleton.2 rfl), rfl, rfl, rfl⟩
      · obtain ⟨he, hk1, hk2, hk3⟩ := findSessionByKey_some _ _ _ _ _ hfind
        rw [hcase.2]
        refine ⟨by rw [updateSession_ids]; exact hnd, ?_⟩
        have himg : ∀ s ∈ b.sessions,
            (if s.id = e.id then
              (candidatePayload env courseId room attendanceMethod defaultStatus a).toSession
                s.id
            else s) ∈ updateSession b.sessions e.id
              (candidatePayload env courseId room attendanceMethod defaultStatus a) := by
          intro s hs
          unfold updateSession
          exact List.mem_map.2 ⟨s, hs, rfl⟩
        intro c hc hch
        rcases List.mem_append.1 hc with hc | hc
        · obtain ⟨s, hs, hk⟩ := hex c hc hch
          refine ⟨_, himg s hs, ?_⟩
          by_cases hid : s.id = e.id
          · rw [if_pos hid]
            have hse : s = e := List.inj_on_of_nodup_map hnd hs he hid
            subst hse
            refine ⟨rfl, ?_, ?_⟩
            · exact hk2.symm.trans hk.2.1
            · exact hk3.symm.trans hk.2.2
          · rw [if_neg hid]
            exact hk
        · rw [List.mem_singleton] at hc
          subst hc
          refine ⟨_, himg e he, ?_⟩
          rw [if_pos rfl]
          exact ⟨rfl, rfl, rfl⟩
      · obtain ⟨he, hk1, hk2, hk3⟩ := findSessionByKey_some _ _ _ _ _ hfind
        rw [hcase.2]
        refine ⟨hnd, ?_⟩
        intro c hc hch
        rcases List.mem_append.1 hc with hc | hc
        · exact hex c hc hch
        · rw [List.mem_singleton] at hc
          subst hc
          exact ⟨e, he, hk1, hk2, hk3⟩
/-- C20: in session generation the candidates of week index `w` are all the slots of
the week, every meeting day crossed with every time slot, in ascending order of start
time; they carry week `w + 1` and the rounds 1..N in that order, N being the number of
meeting days times the number of time slots, whether or not a slot falls on a holiday.
After a generation without makeups that answers 201, every session of the table is a
session from before the call or carries the course, week, round, start and end of a
candidate outside the holidays; a candidate on a holiday has no session of its (week,
round) other than one from before the call, is listed in `skippedHolidays`, and its
round is listed for its week in the missing summary; and, session ids being unique,
every candidate outside the holidays has a session with its own (week, round). -/
theorem generate_round_numbering :
    (∀ (base w : Nat) (dows : List Nat) (timeSpecs : List TimeSpec),
      (weekCandidates base w dows timeSpecs).map (fun c => c.round)
        = List.range' 1 (dows.length * timeSpecs.length) ∧
      ((weekCandidates base w dows timeSpecs).map
        (fun c => (⟨c.startAt, c.endAt⟩ : Slot))).Perm (allSlots base w dows timeSpecs) ∧
      (∀ c ∈ weekCandidates base w dows timeSpecs, c.week = ((w + 1 : Nat) : Int)) ∧
      (∀ a ∈ weekCandidates base w dows timeSpecs,
        ∀ b ∈ weekCandidates base w dows timeSpecs,
          a.round < b.round → a.startAt ≤ b.startAt)) ∧
    (∀ (db : Db) (env : Env) (user : SessionUser) (courseId : Nat) (body : GenerateBody)
      (db1 : Db) (summary : GenSummary),
      body.makeups = [] →
      generateSessions db env user courseId body = (201, db1, some summary) →
      ∃ base dows, body.baseDate = some base ∧
        normalizeMeetingDays body.meetingDays = some dows ∧
        (∀ s ∈ db1.sessions, s ∈ db.sessions ∨
          ∃ c ∈ allCandidates base body.weeks dows (body.times.filterMap toTimeSpec),
            toYmd c.startAt ∉ body.holidays ∧ s.courseId = courseId ∧ s.week = c.week ∧
            s.round = c.round ∧ s.startAt = some c.startAt ∧ s.endAt = some c.endAt) ∧
        (∀ c ∈ allCandidates base body.weeks dows (body.times.filterMap toTimeSpec),
          toYmd c.startAt ∈ body.holidays →
          (∀ s ∈ db1.sessions, s.courseId = courseId → s.week = c.week → s.round = c.round →
            s ∈ db.sessions) ∧
          (c.week, c.round, toYmd c.startAt) ∈ summary.skippedHolidays ∧
          ∃ rs, (c.week, rs) ∈ summary.missingSummary ∧ c.round ∈ rs) ∧
        ((db.sessions.map (fun s => s.id)).Nodup →
          ∀ c ∈ allCandidates base body.weeks dows (body.times.filterMap toTimeSpec),
            toYmd c.startAt ∉ body.holidays →
            ∃ s ∈ db1.sessions, s.courseId = courseId ∧ s.week = c.week ∧
              s.round = c.round)) := by
  constructor
  · intro base w dows timeSpecs
    refine ⟨weekCandidates_rounds base w dows timeSpecs, ?_, ?_,
      weekCandidates_ordered base w dows timeSpecs⟩
    · rw [weekCandidates_slots]
      exact List.perm_insertionSort _ _
    · intro c hc
      exact ((mem_weekCandidates _ _ _ _ _).1 hc).1
  · intro db env user courseId body db1 summary hmk hres
    rcases generateSessions_cases db env user courseId body with ⟨hcode, -⟩ |
      ⟨course, base, dows, st, -, -, hb, -, -, hn, -, -, -, -, -, hg, heq⟩
    · rw [hres] at hcode
      simp at hcode
    · rw [hres] at heq
      simp only [Prod.mk.injEq, Option.some.injEq, true_and] at heq
      obtain ⟨hdb, hsum⟩ := heq
      have hreg : generateRegular env courseId body.room (body.attendanceMethod.getD "CODE")
          (body.defaultStatus.getD "CLOSED") (body.mode.getD "skipExisting") body.holidays
          (allCandidates base body.weeks dows (body.times.filterMap toTimeSpec))
          ⟨db.sessions, 0, 0, 0, [], [], []⟩ = .ok st := by
        unfold generateAll at hg
        rw [hmk] at hg
        cases hr : generateRegular env courseId body.room (body.attendanceMethod.getD "CODE")
            (body.defaultStatus.getD "CLOSED") (body.mode.getD "skipExisting") body.holidays
            (allCandidates base body.weeks dows (body.times.filterMap toTimeSpec))
            ⟨db.sessions, 0, 0, 0, [], [], []⟩ with
        | error e => rw [hr] at hg; cases hg
        | ok st0 =>
          rw [hr] at hg
          simp only [List.foldlM_nil, pure, Except.pure, Except.ok.injEq] at hg
          rw [hg]
      have hrows := generateRegular_rows _ _ _ _ _ _ _ db.sessions _ _ _ (fun s hs => hs) hreg
      have hhol := generateRegular_holidays _ _ _ _ _ _ _ _ _ _ hreg
      have hses : db1.sessions = st.sessions := by rw [hdb]
      have hrows2 : ∀ s ∈ db1.sessions, s ∈ db.sessions ∨
          ∃ c ∈ allCandidates base body.weeks dows (body.times.filterMap toTimeSpec),
            toYmd c.startAt ∉ body.holidays ∧ s.courseId = courseId ∧ s.week = c.week ∧
            s.round = c.round ∧ s.startAt = some c.startAt ∧ s.endAt = some c.endAt := by
        intro s hs
        rw [hses] at hs
        rcases hrows s hs with h1 | ⟨c, hc, hh, hsc⟩
        · exact Or.inl h1
        · refine Or.inr ⟨c, hc, hh, ?_⟩
          rw [hsc]
          exact ⟨rfl, rfl, rfl, rfl, rfl⟩
      refine ⟨base, dows, hb, hn, hrows2, ?_, ?_⟩
      · intro c hc hh
        obtain ⟨h1, rs, h2, h3⟩ := hhol c hc hh
        refine ⟨?_, ?_, ?_⟩
        · intro s hs hk1 hk2 hk3
          rcases hrows2 s hs with h | ⟨c2, hc2, hh2, -, hw2, hr2, -, -⟩
          · exact h
          · exfalso
            have hcc : c = c2 := allCandidates_key_inj _ _ _ _ c c2 hc hc2
              (hk2.symm.trans hw2) (hk3.symm.trans hr2)
            rw [hcc] at hh
            exact hh2 hh
        · rw [hsum]
          exact h1
        · rw [hsum]
          refine ⟨rs.insertionSort (fun a b => a ≤ b), ?_, ?_⟩
          · rw [List.mem_map]
            refine ⟨(c.week, rs), ?_, rfl⟩
            rw [List.mem_filter]
            refine ⟨h2, ?_⟩
            have : 0 < rs.length := List.length_pos_of_mem h3
            simpa using this
          · exact (List.perm_insertionSort _ rs).mem_iff.2 h3
      · intro hnd c hc hh
        rw [hses]
        exact generateRegular_written _ _ _ _ _ _ _ _ _ _ hnd hreg c hc hh

/-- C20, the worked example: base date 2025-03-03, two weeks, Mondays at 09:00, holiday
2025-03-10, no session before. The candidates are week 1 round 1 on 2025-03-03 and
week 2 round 1 on 2025-03-10; the answer is 201 with exactly one session, week 1
round 1, and week 2 round 1 is reported skipped and missing. -/
theorem generate_round_numbering_witness :
    exampleGenerateBody.makeups = [] ∧
    generateSessions exampleCourseOnly exampleEnv exampleAdmin 1 exampleGenerateBody
      = (201, exampleGenerated, some exampleGenSummary) ∧
    exampleGenerated.sessions.map (fun s => (s.week, s.round)) = [(1, 1)] ∧
    exampleGenSummary.missingSummary = [(2, [1])] ∧
    allCandidates (daysFromCivil 2025 3 3) 2 [1] [⟨9, 0, 60⟩]
      = [⟨1, 1, buildDateTime (daysFromCivil 2025 3 3) 9 0,
            buildDateTime (daysFromCivil 2025 3 3) 10 0⟩,
          ⟨2, 1, buildDateTime (daysFromCivil 2025 3 10) 9 0,
            buildDateTime (daysFromCivil 2025 3 10) 10 0⟩] ∧
    (∃ base dows, exampleGenerateBody.baseDate = some base ∧
      normalizeMeetingDays exampleGenerateBody.meetingDays = some dows ∧
      (∀ s ∈ exampleGenerated.sessions, s ∈ exampleCourseOnly.sessions ∨
        ∃ c ∈ allCandidates base exampleGenerateBody.weeks dows
            (exampleGenerateBody.times.filterMap toTimeSpec),
          toYmd c.startAt ∉ exampleGenerateBody.holidays ∧ s.courseId = 1 ∧ s.week = c.week ∧
          s.round = c.round ∧ s.startAt = some c.startAt ∧ s.endAt = some c.endAt) ∧
      (∀ c ∈ allCandidates base exampleGenerateBody.weeks dows
          (exampleGenerateBody.times.filterMap toTimeSpec),
        toYmd c.startAt ∈ exampleGenerateBody.holidays →
        (∀ s ∈ exampleGenerated.sessions,
          s.courseId = 1 → s.week = c.week → s.round = c.round →
          s ∈ exampleCourseOnly.sessions) ∧
        (c.week, c.round, toYmd c.startAt) ∈ exampleGenSummary.skippedHolidays ∧
        ∃ rs, (c.week, rs) ∈ exampleGenSummary.missingSummary ∧ c.round ∈ rs) ∧
      ((exampleCourseOnly.sessions.map (fun s => s.id)).Nodup →
        ∀ c ∈ allCandidates base exampleGenerateBody.weeks dows
            (exampleGenerateBody.times.filterMap toTimeSpec),
          toYmd c.startAt ∉ exampleGenerateBody.holidays →
          ∃ s ∈ exampleGenerated.sessions,
            s.courseId = 1 ∧ s.week = c.week ∧ s.round = c.round)) :=
  ⟨rfl, by decide, by decide, by decide, by decide,
    generate_round_numbering.2 exampleCourseOnly exampleEnv exampleAdmin 1 exampleGenerateBody
      exampleGenerated exampleGenSummary rfl (by decide)⟩

theorem foldl_min_spec (l : List Nat) (acc : Nat) :
    l.foldl min acc ≤ acc ∧ (∀ x ∈ l, l.foldl min acc ≤ x) ∧
      (l.foldl min acc = acc ∨ l.foldl min acc ∈ l) := by
  induction l generalizing acc with
  | nil => simp
  | cons y rest ih =>
    simp only [List.foldl_cons, List.mem_cons]
    obtain ⟨h1, h2, h3⟩ := ih (min acc y)
    refine ⟨le_trans h1 (min_le_left _ _), ?_, ?_⟩
    · rintro x (rfl | hx)
      · exact le_trans h1 (min_le_right _ _)
      · exact h2 x hx
    · rcases h3 with h3 | h3
      · rw [h3]
        rcases min_choice acc y with hm | hm
        · left; exact hm
        · right; left; exact hm
      · right; right; exact h3

theorem foldl_max_attained (l : List Nat) (acc : Nat) :
    l.foldl max acc = acc ∨ l.foldl max acc ∈ l := by
  induction l generalizing acc with
  | nil => simp
  | cons y rest ih =>
    simp only [List.foldl_cons, List.mem_cons]
    rcases ih (max acc y) with h | h
    · rw [h]
      rcases max_choice acc y with hm | hm
      · left; exact hm
      · right; left; exact hm
    · right; right; exact h

theorem getMaxRound_ge (rows : List ClassSession) (courseId : Nat) (week : Int)
    (s : ClassSession) (hs : s ∈ rows) (hc : s.courseId = courseId) (hw : s.week = week) :
    s.round ≤ getMaxRound rows courseId week := by
  unfold getMaxRound
  apply (foldl_max_ge _ 0).2
  rw [List.mem_map]
  refine ⟨s, ?_, rfl⟩
  rw [List.mem_filter]
  exact ⟨hs, by simp [hc, hw]⟩

theorem getMaxRound_attained (rows : List ClassSession) (courseId : Nat) (week : Int) :
    getMaxRound rows courseId week = 0 ∨
      ∃ s ∈ rows, s.courseId = courseId ∧ s.week = week ∧
        s.round = getMaxRound rows courseId week := by
  unfold getMaxRound
  rcases foldl_max_attained
    ((rows.filter (fun s => decide (s.courseId = courseId ∧ s.week = week))).map
      (fun s => s.round)) 0 with h | h
  · left; exact h
  · right
    rw [List.mem_map] at h
    obtain ⟨s, hs, hr⟩ := h
    rw [List.mem_filter] at hs
    have hk : s.courseId = courseId ∧ s.week = week := by simpa using hs.2
    exact ⟨s, hs.1, hk.1, hk.2, hr⟩

theorem missingRounds_map (m : List (Int × List Nat)) (f : Int × List Nat → Int × List Nat)
    (hf : ∀ e, (f e).1 = e.1) (wk : Int) :
    missingRounds (m.map f) wk
      = ((m.find? (fun e => decide (e.1 = wk))).map (fun e => (f e).2)).getD [] := by
  unfold missingRounds
  rw [List.find?_map]
  have hp : ((fun (e : Int × List Nat) => decide (e.1 = wk)) ∘ f)
      = fun (e : Int × List Nat) => decide (e.1 = wk) := by
    funext e
    simp only [Function.comp, hf e]
  rw [hp, Option.map_map]
  rfl

theorem takeMakeupRound_missing (st : GenState) (courseId : Nat) (week : Int)
    (hne : missingRounds st.missingByWeek week ≠ []) :
    (takeMakeupRound st courseId week).1 ∈ missingRounds st.missingByWeek week ∧
    (∀ r ∈ missingRounds st.missingByWeek week, (takeMakeupRound st courseId week).1 ≤ r) ∧
    missingRounds (takeMakeupRound st courseId week).2 week
      = (missingRounds st.missingByWeek week).erase (takeMakeupRound st courseId week).1 ∧
    ∀ wk, wk ≠ week →
      missingRounds (takeMakeupRound st courseId week).2 wk
        = missingRounds st.missingByWeek wk := by
  unfold takeMakeupRound
  cases hf : st.missingByWeek.find? (fun e => decide (e.1 = week)) with
  | none =>
    exfalso
    apply hne
    unfold missingRounds
    rw [hf]
    rfl
  | some e =>
    have hk : e.1 = week := by
      have := List.find?_some hf
      simpa using this
    have hmr : missingRounds st.missingByWeek week = e.2 := by
      unfold missingRounds
      rw [hf]
      rfl
    cases he2 : e.2 with
    | nil =>
      exfalso
      apply hne
      rw [hmr, he2]
    | cons r rs =>
      simp only [Option.map_some', he2]
      have hmin := foldl_min_spec (r :: rs) r
      refine ⟨?_, ?_, ?_, ?_⟩
      · rw [hmr, he2]
        rcases hmin.2.2 with h | h
        · rw [h]; exact List.mem_cons_self _ _
        · exact h
      · rw [hmr, he2]
        exact hmin.2.1
      · rw [missingRounds_map _ _ (fun e1 => by
          by_cases h1 : e1.1 = week
          · rw [if_pos h1]
          · rw [if_neg h1]), hf, hmr, he2]
        simp only [Option.map_some', Option.getD_some]
        rw [if_pos hk, he2]
      · intro wk hwk
        rw [missingRounds_map _ _ (fun e1 => by
          by_cases h1 : e1.1 = week
          · rw [if_pos h1]
          · rw [if_neg h1])]
        unfold missingRounds
        cases hf2 : st.missingByWeek.find? (fun e => decide (e.1 = wk)) with
        | none => rfl
        | some e2 =>
          have hk2 : e2.1 = wk := by
            have := List.find?_some hf2
            simpa using this
          have hne2 : ¬ e2.1 = week := by
            rw [hk2]
            exact hwk
          simp only [Option.map_some', Option.getD_some]
          rw [if_neg hne2]

theorem takeMakeupRound_none (st : GenState) (courseId : Nat) (week : Int)
    (hnil : missingRounds st.missingByWeek week = []) :
    takeMakeupRound st courseId week
      = (getMaxRound st.sessions courseId week + 1, st.missingByWeek) := by
  unfold takeMakeupRound
  cases hf : st.missingByWeek.find? (fun e => decide (e.1 = week)) with
  | none => rfl
  | some e =>
    have hmr : e.2 = [] := by
      unfold missingRounds at hnil
      rw [hf] at hnil
      exact hnil
    simp only [Option.map_some', hmr]
/-- C21 as the code has it: a makeup that the loop accepts has a date `d`, and week and
round are chosen independently of each other. The week is the explicit one when it is
given and otherwise the `week` with `base + 7 (week - 1) ≤ d < base + 7 week`, that
is floor((d - base) / 7) + 1. The round is the explicit one when it is given; otherwise
it is the smallest missing round of the chosen week, which is removed from the missing
rounds of that week while the other weeks keep theirs, or, when that week misses no
round, the largest round of the sessions of the course in that week plus one (1 when
there is none). Afterwards the table holds a session of the course with this (week,
round) and `appliedMakeups` ends with an entry for it. -/
theorem makeup_placement (env : Env) (courseId base : Nat) (room : Option String)
    (attendanceMethod defaultStatus mode : String) (defaultDuration : Nat)
    (st st1 : GenState) (m : MakeupInput)
    (h : generateMakeup env courseId base room attendanceMethod defaultStatus mode
      defaultDuration st m = .ok st1) :
    ∃ (d : Nat) (week : Int) (round : Nat),
      m.date = some d ∧
      (m.week ≠ 0 → week = m.week) ∧
      (m.week = 0 →
        7 * (week - 1) ≤ (d : Int) - (base : Int) ∧ (d : Int) - (base : Int) < 7 * week) ∧
      (m.round ≠ 0 → round = m.round ∧ st1.missingByWeek = st.missingByWeek) ∧
      (m.round = 0 → missingRounds st.missingByWeek week ≠ [] →
        round ∈ missingRounds st.missingByWeek week ∧
        (∀ r ∈ missingRounds st.missingByWeek week, round ≤ r) ∧
        missingRounds st1.missingByWeek week
          = (missingRounds st.missingByWeek week).erase round ∧
        ((missingRounds st.missingByWeek week).Nodup →
          round ∉ missingRounds st1.missingByWeek week) ∧
        ∀ wk, wk ≠ week →
          missingRounds st1.missingByWeek wk = missingRounds st.missingByWeek wk) ∧
      (m.round = 0 → missingRounds st.missingByWeek week = [] →
        round = getMaxRound st.sessions courseId week + 1 ∧
        (∀ s ∈ st.sessions, s.courseId = courseId → s.week = week → s.round < round) ∧
        (getMaxRound st.sessions courseId week = 0 ∨
          ∃ s ∈ st.sessions, s.courseId = courseId ∧ s.week = week ∧
            s.round = getMaxRound st.sessions courseId week) ∧
        st1.missingByWeek = st.missingByWeek) ∧
      (∃ s ∈ st1.sessions, s.courseId = courseId ∧ s.week = week ∧ s.round = round) ∧
      ∃ action sid, st1.appliedMakeups = st.appliedMakeups ++ [⟨action, week, round, sid⟩] := by
  obtain ⟨d, hh, mm, hd, -, -, -, st2, action, sid, hw, hst⟩ :=
    generateMakeup_ok _ _ _ _ _ _ _ _ _ _ _ h
  obtain ⟨-, hmiss, happ, hcase⟩ := writePayload_ok _ _ _ _ _ _ hw
  have hmiss1 : st1.missingByWeek = (makeupRound st courseId (makeupWeek base d m) m).2 := by
    rw [hst]
    exact hmiss
  have happ1 : st1.appliedMakeups = st.appliedMakeups ++
      [⟨action ++ "_makeup", makeupWeek base d m,
        (makeupRound st courseId (makeupWeek base d m) m).1, sid⟩] := by
    rw [hst]
    dsimp only
    rw [happ]
  have hses1 : st1.sessions = st2.sessions := by rw [hst]
  refine ⟨d, makeupWeek base d m, (makeupRound st courseId (makeupWeek base d m) m).1, hd,
    ?_, ?_, ?_, ?_, ?_, ?_, ⟨action ++ "_makeup", sid, happ1⟩⟩
  · intro hw0
    unfold makeupWeek
    rw [if_pos hw0]
  · intro hw0
    unfold makeupWeek
    rw [if_neg (not_not.2 hw0)]
    constructor <;> omega
  · intro hr0
    rw [hmiss1]
    unfold makeupRound
    rw [if_pos hr0]
    exact ⟨rfl, rfl⟩
  · intro hr0 hne
    have hmr : makeupRound st courseId (makeupWeek base d m) m
        = takeMakeupRound st courseId (makeupWeek base d m) := by
      unfold makeupRound
      rw [if_neg (not_not.2 hr0)]
    rw [hmiss1, hmr]
    obtain ⟨h1, h2, h3, h4⟩ := takeMakeupRound_missing st courseId (makeupWeek base d m) hne
    refine ⟨h1, h2, h3, ?_, h4⟩
    intro hnd
    rw [h3]
    exact List.Nodup.not_mem_erase hnd
  · intro hr0 hnil
    have hmr : makeupRound st courseId (makeupWeek base d m) m
        = (getMaxRound st.sessions courseId (makeupWeek base d m) + 1, st.missingByWeek) := by
      unfold makeupRound
      rw [if_neg (not_not.2 hr0)]
      exact takeMakeupRound_none st courseId (makeupWeek base d m) hnil
    rw [hmiss1, hmr]
    refine ⟨rfl, ?_, getMaxRound_attained _ _ _, rfl⟩
    intro s hs hc hwk
    exact Nat.lt_succ_of_le (getMaxRound_ge _ _ _ s hs hc hwk)
  · rw [hses1]
    rcases hcase with ⟨-, hs2, -⟩ | ⟨-, e, hfind, -, hov | hsk⟩
    · rw [hs2]
      exact ⟨_, List.mem_append_right _ (List.mem_singleton.2 rfl), rfl, rfl, rfl⟩
    · obtain ⟨he, hk1, hk2, hk3⟩ := findSessionByKey_some _ _ _ _ _ hfind
      rw [hov.2]
      refine ⟨(makeupPayload env courseId base room attendanceMethod defaultStatus
        defaultDuration m d hh mm
        (makeupRound st courseId (makeupWeek base d m) m).1).toSession e.id, ?_, rfl, rfl, rfl⟩
      unfold updateSession
      exact List.mem_map.2 ⟨e, he, by rw [if_pos rfl]⟩
    · obtain ⟨he, hk1, hk2, hk3⟩ := findSessionByKey_some _ _ _ _ _ hfind
      rw [hsk.2]
      exact ⟨e, he, hk1, hk2, hk3⟩
/-- C21, counterexample to the claim as worded: a makeup on 2025-03-12 that gives the
week 1 and no round is not placed in the week floor((date - baseDate) / 7) + 1 = 2.
The code keeps the given week: the session is created as week 1, round 2, and week 2
round 1 stays missing. -/
theorem makeup_week_only_keeps_week :
    exampleMakeupWeekOnly.week = 1 ∧ exampleMakeupWeekOnly.round = 0 ∧
    ((daysFromCivil 2025 3 12 : Int) - (daysFromCivil 2025 3 3 : Int)) / 7 + 1 = 2 ∧
    (generateSessions exampleCourseOnly exampleEnv exampleAdmin 1
      { exampleGenerateBody with makeups := [exampleMakeupWeekOnly] }).1 = 201 ∧
    (generateSessions exampleCourseOnly exampleEnv exampleAdmin 1
      { exampleGenerateBody with makeups := [exampleMakeupWeekOnly] }).2.1.sessions.map
        (fun s => (s.week, s.round)) = [(1, 1), (1, 2)] ∧
    (generateSessions exampleCourseOnly exampleEnv exampleAdmin 1
      { exampleGenerateBody with makeups := [exampleMakeupWeekOnly] }).2.2.map
        (fun s => (s.appliedMakeups, s.missingSummary))
      = some ([⟨"created_makeup", 1, 2, 2⟩], [(2, [1])]) := by
  decide

/-- C21, the worked example: after the holiday 2025-03-10 left week 2 round 1 missing
(base date 2025-03-03), the makeup on 2025-03-12 without week or round is created as
week 2, round 1, and week 2 is no longer in the missing summary. -/
theorem makeup_placement_witness :
    generateMakeup exampleEnv 1 (daysFromCivil 2025 3 3) none "CODE" "CLOSED" "skipExisting" 60
      exampleRegularState exampleMakeup = .ok exampleMakeupState ∧
    (generateSessions exampleCourseOnly exampleEnv exampleAdmin 1
      { exampleGenerateBody with makeups := [exampleMakeup] }).2.1.sessions.map
        (fun s => (s.week, s.round)) = [(1, 1), (2, 1)] ∧
    (generateSessions exampleCourseOnly exampleEnv exampleAdmin 1
      { exampleGenerateBody with makeups := [exampleMakeup] }).2.2.map
        (fun s => (s.appliedMakeups, s.missingSummary))
      = some ([⟨"created_makeup", 2, 1, 2⟩], []) ∧
    (∃ (d : Nat) (week : Int) (round : Nat),
      exampleMakeup.date = some d ∧
      (exampleMakeup.week ≠ 0 → week = exampleMakeup.week) ∧
      (exampleMakeup.week = 0 →
        7 * (week - 1) ≤ (d : Int) - (daysFromCivil 2025 3 3 : Int) ∧
        (d : Int) - (daysFromCivil 2025 3 3 : Int) < 7 * week) ∧
      (exampleMakeup.round ≠ 0 → round = exampleMakeup.round ∧
        exampleMakeupState.missingByWeek = exampleRegularState.missingByWeek) ∧
      (exampleMakeup.round = 0 → missingRounds exampleRegularState.missingByWeek week ≠ [] →
        round ∈ missingRounds exampleRegularState.missingByWeek week ∧
        (∀ r ∈ missingRounds exampleRegularState.missingByWeek week, round ≤ r) ∧
        missingRounds exampleMakeupState.missingByWeek week
          = (missingRounds exampleRegularState.missingByWeek week).erase round ∧
        ((missingRounds exampleRegularState.missingByWeek week).Nodup →
          round ∉ missingRounds exampleMakeupState.missingByWeek week) ∧
        ∀ wk, wk ≠ week →
          missingRounds exampleMakeupState.missingByWeek wk
            = missingRounds exampleRegularState.missingByWeek wk) ∧
      (exampleMakeup.round = 0 → missingRounds exampleRegularState.missingByWeek week = [] →
        round = getMaxRound exampleRegularState.sessions 1 week + 1 ∧
        (∀ s ∈ exampleRegularState.sessions, s.courseId = 1 → s.week = week →
          s.round < round) ∧
        (getMaxRound exampleRegularState.sessions 1 week = 0 ∨
          ∃ s ∈ exampleRegularState.sessions, s.courseId = 1 ∧ s.week = week ∧
            s.round = getMaxRound exampleRegularState.sessions 1 week) ∧
        exampleMakeupState.missingByWeek = exampleRegularState.missingByWeek) ∧
      (∃ s ∈ exampleMakeupState.sessions, s.courseId = 1 ∧ s.week = week ∧ s.round = round) ∧
      ∃ action sid, exampleMakeupState.appliedMakeups
        = exampleRegularState.appliedMakeups ++ [⟨action, week, round, sid⟩]) :=
  ⟨by rfl, by decide, by decide,
    makeup_placement exampleEnv 1 (daysFromCivil 2025 3 3) none "CODE" "CLOSED" "skipExisting"
      60 exampleRegularState exampleMakeupState exampleMakeup (by rfl)⟩

theorem meetingDayList_le (l : List DayInput) (out : List Nat)
    (h : meetingDayList l = some out) : ∀ d ∈ out, d ≤ 6 := by
  induction l generalizing out with
  | nil =>
    simp only [meetingDayList, Option.some.injEq] at h
    subst h
    simp
  | cons x rest ih =>
    cases x with
    | number n =>
      simp only [meetingDayList] at h
      by_cases hn : n > 6
      · rw [if_pos hn] at h; cases h
      · rw [if_neg hn] at h
        cases hr : meetingDayList rest with
        | none => rw [hr] at h; cases h
        | some l1 =>
          rw [hr] at h
          simp only [Option.map_some', Option.some.injEq] at h
          subst h
          intro d hd
          rcases List.mem_cons.1 hd with rfl | hd
          · omega
          · exact ih l1 hr d hd
    | name key =>
      simp only [meetingDayList] at h
      cases hk : DAY_MAP.lookup key with
      | none => rw [hk] at h; cases h
      | some n =>
        rw [hk] at h
        dsimp only at h
        cases hr : meetingDayList rest with
        | none => rw [hr] at h; cases h
        | some l1 =>
          rw [hr] at h
          simp only [Option.map_some', Option.some.injEq] at h
          subst h
          have hn : n ≤ 6 := by
            unfold DAY_MAP at hk
            simp only [List.lookup] at hk
            repeat' split at hk
            all_goals first
              | (injection hk with hk; omega)
              | cases hk
          intro d hd
          rcases List.mem_cons.1 hd with rfl | hd
          · exact hn
          · exact ih l1 hr d hd

theorem normalizeMeetingDays_le (meetingDays : List DayInput) (dows : List Nat)
    (h : normalizeMeetingDays meetingDays = some dows) : ∀ d ∈ dows, d ≤ 6 := by
  unfold normalizeMeetingDays at h
  by_cases h0 : meetingDays.length = 0
  · rw [if_pos h0] at h; cases h
  · rw [if_neg h0] at h
    cases hr : meetingDayList meetingDays with
    | none => rw [hr] at h; cases h
    | some l1 =>
      rw [hr] at h
      simp only [Option.map_some', Option.some.injEq] at h
      subst h
      intro d hd
      have h1 : d ∈ l1.dedup := (List.perm_insertionSort _ _).mem_iff.1 hd
      exact meetingDayList_le _ _ hr d (List.mem_dedup.1 h1)

theorem mem_allSlots (base w : Nat) (dows : List Nat) (timeSpecs : List TimeSpec) (s : Slot) :
    s ∈ allSlots base w dows timeSpecs ↔
      ∃ dow ∈ dows, ∃ ts ∈ timeSpecs,
        s = ⟨buildDateTime (meetingDate base w dow) ts.hh ts.mm,
          addMinutes (buildDateTime (meetingDate base w dow) ts.hh ts.mm) ts.durationMinutes⟩ := by
  unfold allSlots
  rw [List.mem_flatMap]
  constructor
  · rintro ⟨dow, hd, hs⟩
    rw [List.mem_map] at hs
    obtain ⟨ts, ht, rfl⟩ := hs
    exact ⟨dow, hd, ts, ht, rfl⟩
  · rintro ⟨dow, hd, ts, ht, rfl⟩
    exact ⟨dow, hd, List.mem_map.2 ⟨ts, ht, rfl⟩⟩

/-- C27: for a week index `w` and a weekday `d` in 0..6 the day generated for (w, d) is
base + 7 w + ((d - weekday(base) + 7) mod 7). It falls on weekday `d`, is not before
base + 7 w, is fewer than 7 days after it, and no day from base + 7 w on that falls on
weekday `d` is earlier. The weekdays that generation uses are in 0..6, and every slot
of week index `w` starts on such a day at the hour and minute of its time slot. -/
theorem meetingDate_first_occurrence :
    (∀ (base w d : Nat), d ≤ 6 →
      meetingDate base w d = base + 7 * w + (d + 7 - getDay base) % 7 ∧
      ((meetingDate base w d : Nat) : Int)
        = (base : Int) + 7 * (w : Int) + ((d : Int) - (getDay base : Int) + 7) % 7 ∧
      getDay (meetingDate base w d) = d ∧
      base + 7 * w ≤ meetingDate base w d ∧
      meetingDate base w d < base + 7 * w + 7 ∧
      ∀ x, base + 7 * w ≤ x → getDay x = d → meetingDate base w d ≤ x) ∧
    (∀ (meetingDays : List DayInput) (dows : List Nat),
      normalizeMeetingDays meetingDays = some dows → ∀ d ∈ dows, d ≤ 6) ∧
    (∀ (base w : Nat) (dows : List Nat) (timeSpecs : List TimeSpec),
      ∀ s ∈ allSlots base w dows timeSpecs, ∃ d ∈ dows, ∃ ts ∈ timeSpecs,
        s.startAt = buildDateTime (meetingDate base w d) ts.hh ts.mm) := by
  refine ⟨?_, normalizeMeetingDays_le, ?_⟩
  · intro base w d hd
    unfold meetingDate addDays getDay
    refine ⟨by omega, by omega, by omega, by omega, by omega, ?_⟩
    intro x hx hxd
    omega
  · intro base w dows timeSpecs s hs
    obtain ⟨d, hd, ts, ht, rfl⟩ := (mem_allSlots _ _ _ _ _).1 hs
    exact ⟨d, hd, ts, ht, rfl⟩

/-- C27 at 2025-03-03, a Monday: in week index 1 the Wednesday (weekday 3) is
2025-03-12 and the Monday (weekday 1) is 2025-03-10; in week index 0 the Sunday
(weekday 0) is 2025-03-09. -/
theorem meetingDate_first_occurrence_witness :
    (3 : Nat) ≤ 6 ∧ getDay (daysFromCivil 2025 3 3) = 1 ∧
    meetingDate (daysFromCivil 2025 3 3) 1 3 = daysFromCivil 2025 3 12 ∧
    meetingDate (daysFromCivil 2025 3 3) 1 1 = daysFromCivil 2025 3 10 ∧
    meetingDate (daysFromCivil 2025 3 3) 0 0 = daysFromCivil 2025 3 9 ∧
    (meetingDate (daysFromCivil 2025 3 3) 1 3
        = daysFromCivil 2025 3 3 + 7 * 1 + (3 + 7 - getDay (daysFromCivil 2025 3 3)) % 7 ∧
      ((meetingDate (daysFromCivil 2025 3 3) 1 3 : Nat) : Int)
        = ((daysFromCivil 2025 3 3 : Nat) : Int) + 7 * ((1 : Nat) : Int)
          + (((3 : Nat) : Int) - (getDay (daysFromCivil 2025 3 3) : Int) + 7) % 7 ∧
      getDay (meetingDate (daysFromCivil 2025 3 3) 1 3) = 3 ∧
      daysFromCivil 2025 3 3 + 7 * 1 ≤ meetingDate (daysFromCivil 2025 3 3) 1 3 ∧
      meetingDate (daysFromCivil 2025 3 3) 1 3 < daysFromCivil 2025 3 3 + 7 * 1 + 7 ∧
      ∀ x, daysFromCivil 2025 3 3 + 7 * 1 ≤ x → getDay x = 3 →
        meetingDate (daysFromCivil 2025 3 3) 1 3 ≤ x) :=
  ⟨by decide, by decide, by decide, by decide, by decide,
    meetingDate_first_occurrence.1 (daysFromCivil 2025 3 3) 1 3 (by decide)⟩

theorem hasRun_of_trailing (kind : Nat → Prop) (l : List Nat) (n : Nat)
    (h : HasTrailingRun kind l n) : HasRun kind l n := by
  obtain ⟨before, run, hl, hlen, hall⟩ := h
  exact ⟨before, run, [], by rw [List.append_nil]; exact hl, hlen, hall⟩

theorem hasRun_le_length (kind : Nat → Prop) (l : List Nat) (n : Nat)
    (h : HasRun kind l n) : n ≤ l.length := by
  obtain ⟨before, run, after, hl, hlen, -⟩ := h
  rw [hl, List.length_append, List.length_append, hlen]
  omega

theorem hasRun_mono (kind1 kind2 : Nat → Prop) (himp : ∀ st, kind1 st → kind2 st)
    (l : List Nat) (n : Nat) (h : HasRun kind1 l n) : HasRun kind2 l n := by
  obtain ⟨before, run, after, hl, hlen, hall⟩ := h
  exact ⟨before, run, after, hl, hlen, fun st hst => himp st (hall st hst)⟩

theorem hasTrailingRun_mono (kind1 kind2 : Nat → Prop) (himp : ∀ st, kind1 st → kind2 st)
    (l : List Nat) (n : Nat) (h : HasTrailingRun kind1 l n) : HasTrailingRun kind2 l n := by
  obtain ⟨before, run, hl, hlen, hall⟩ := h
  exact ⟨before, run, hl, hlen, fun st hst => himp st (hall st hst)⟩

/-- C28: for every status sequence and either value of includeUnknown, each current
streak that calcStreaks returns is at most the maximal streak of its kind, the maximal
late-or-absent streak is at least the larger of the maximal late and the maximal absent
streak, and every one of the six values lies between 0 and the length of the sequence. -/
theorem calcStreaks_bounds (includeUnknown : Bool) (statusSeq : List Nat) :
    (calcStreaks includeUnknown statusSeq).currentLateStreak
      ≤ (calcStreaks includeUnknown statusSeq).maxLateStreak ∧
    (calcStreaks includeUnknown statusSeq).currentAbsentStreak
      ≤ (calcStreaks includeUnknown statusSeq).maxAbsentStreak ∧
    (calcStreaks includeUnknown statusSeq).currentLateOrAbsentStreak
      ≤ (calcStreaks includeUnknown statusSeq).maxLateOrAbsentStreak ∧
    max (calcStreaks includeUnknown statusSeq).maxLateStreak
        (calcStreaks includeUnknown statusSeq).maxAbsentStreak
      ≤ (calcStreaks includeUnknown statusSeq).maxLateOrAbsentStreak ∧
    (0 ≤ (calcStreaks includeUnknown statusSeq).maxLateStreak ∧
      (calcStreaks includeUnknown statusSeq).maxLateStreak ≤ statusSeq.length) ∧
    (0 ≤ (calcStreaks includeUnknown statusSeq).maxAbsentStreak ∧
      (calcStreaks includeUnknown statusSeq).maxAbsentStreak ≤ statusSeq.length) ∧
    (0 ≤ (calcStreaks includeUnknown statusSeq).maxLateOrAbsentStreak ∧
      (calcStreaks includeUnknown statusSeq).maxLateOrAbsentStreak ≤ statusSeq.length) ∧
    (0 ≤ (calcStreaks includeUnknown statusSeq).currentLateStreak ∧
      (calcStreaks includeUnknown statusSeq).currentLateStreak ≤ statusSeq.length) ∧
    (0 ≤ (calcStreaks includeUnknown statusSeq).currentAbsentStreak ∧
      (calcStreaks includeUnknown statusSeq).currentAbsentStreak ≤ statusSeq.length) ∧
    (0 ≤ (calcStreaks includeUnknown statusSeq).currentLateOrAbsentStreak ∧
      (calcStreaks includeUnknown statusSeq).currentLateOrAbsentStreak ≤ statusSeq.length) := by
  obtain ⟨-, -, -, h4, h5, h6⟩ := streakLoop_invariant includeUnknown statusSeq
  have t1 := trailing_isGreatest isLate statusSeq
  have t2 := trailing_isGreatest isAbsent statusSeq
  have t3 := trailing_isGreatest (isLA includeUnknown) statusSeq
  have c1 : (calcStreaks includeUnknown statusSeq).currentLateStreak
      ≤ (calcStreaks includeUnknown statusSeq).maxLateStreak :=
    h4.2 (hasRun_of_trailing _ _ _ t1.1)
  have c2 : (calcStreaks includeUnknown statusSeq).currentAbsentStreak
      ≤ (calcStreaks includeUnknown statusSeq).maxAbsentStreak :=
    h5.2 (hasRun_of_trailing _ _ _ t2.1)
  have c3 : (calcStreaks includeUnknown statusSeq).currentLateOrAbsentStreak
      ≤ (calcStreaks includeUnknown statusSeq).maxLateOrAbsentStreak :=
    h6.2 (hasRun_of_trailing _ _ _ t3.1)
  have m1 : (calcStreaks includeUnknown statusSeq).maxLateStreak
      ≤ (calcStreaks includeUnknown statusSeq).maxLateOrAbsentStreak := by
    apply h6.2
    refine hasRun_mono _ _ ?_ _ _ h4.1
    intro st hst
    simp only [isLate, decide_eq_true_eq] at hst
    simp [isLA, hst]
  have m2 : (calcStreaks includeUnknown statusSeq).maxAbsentStreak
      ≤ (calcStreaks includeUnknown statusSeq).maxLateOrAbsentStreak := by
    apply h6.2
    refine hasRun_mono _ _ ?_ _ _ h5.1
    intro st hst
    simp only [isAbsent, decide_eq_true_eq] at hst
    simp [isLA, hst]
  have l1 : (calcStreaks includeUnknown statusSeq).maxLateStreak ≤ statusSeq.length :=
    hasRun_le_length _ _ _ h4.1
  have l2 : (calcStreaks includeUnknown statusSeq).maxAbsentStreak ≤ statusSeq.length :=
    hasRun_le_length _ _ _ h5.1
  have l3 : (calcStreaks includeUnknown statusSeq).maxLateOrAbsentStreak ≤ statusSeq.length :=
    hasRun_le_length _ _ _ h6.1
  exact ⟨c1, c2, c3, max_le m1 m2, ⟨Nat.zero_le _, l1⟩, ⟨Nat.zero_le _, l2⟩,
    ⟨Nat.zero_le _, l3⟩, ⟨Nat.zero_le _, le_trans c1 l1⟩, ⟨Nat.zero_le _, le_trans c2 l2⟩,
    ⟨Nat.zero_le _, le_trans c3 l3⟩⟩

/-! ### Risk report -/

theorem riskCount_foldl (statusSeq : List Nat) (t : RiskTotals) :
    (statusSeq.foldl riskCount t).present = t.present + statusSeq.count 1 ∧
    (statusSeq.foldl riskCount t).late = t.late + statusSeq.count 2 ∧
    (statusSeq.foldl riskCount t).absent = t.absent + statusSeq.count 3 ∧
    (statusSeq.foldl riskCount t).excused = t.excused + statusSeq.count 4 ∧
    (statusSeq.foldl riskCount t).sessionsCount = t.sessionsCount := by
  induction statusSeq generalizing t with
  | nil => simp
  | cons st rest ih =>
    rw [List.foldl_cons]
    obtain ⟨h1, h2, h3, h4, h5⟩ := ih (riskCount t st)
    rw [h1, h2, h3, h4, h5]
    simp only [List.count_cons]
    unfold riskCount
    by_cases c1 : st = 1
    · subst c1; simp; omega
    · rw [if_neg c1]
      by_cases c2 : st = 2
      · subst c2; simp; omega
      · rw [if_neg c2]
        by_cases c3 : st = 3
        · subst c3; simp; omega
        · rw [if_neg c3]
          by_cases c4 : st = 4
          · subst c4; simp; omega
          · rw [if_neg c4]
            simp [c1, c2, c3, c4]

theorem riskTotals_counts (statusSeq : List Nat) :
    (riskTotals statusSeq).present = statusSeq.count 1 ∧
    (riskTotals statusSeq).late = statusSeq.count 2 ∧
    (riskTotals statusSeq).absent = statusSeq.count 3 ∧
    (riskTotals statusSeq).excused = statusSeq.count 4 ∧
    (riskTotals statusSeq).sessionsCount = statusSeq.length := by
  unfold riskTotals
  obtain ⟨h1, h2, h3, h4, h5⟩ := riskCount_foldl statusSeq ⟨0, 0, 0, 0, 0, statusSeq.length⟩
  rw [h1, h2, h3, h4, h5]
  simp

theorem riskFlags_pos (absentMin lateStreakMin absentStreakMin lateOrAbsentStreakMin : Int)
    (totals : RiskTotals) (streak : Streaks) :
    (riskFlags absentMin lateStreakMin absentStreakMin lateOrAbsentStreakMin totals
        streak).length > 0 ↔
      (absentMin ≤ (totals.absent : Int) ∨ lateStreakMin ≤ (streak.maxLateStreak : Int) ∨
        absentStreakMin ≤ (streak.maxAbsentStreak : Int) ∨
        lateOrAbsentStreakMin ≤ (streak.maxLateOrAbsentStreak : Int)) := by
  unfold riskFlags
  by_cases h1 : (totals.absent : Int) ≥ absentMin <;>
  by_cases h2 : (streak.maxLateStreak : Int) ≥ lateStreakMin <;>
  by_cases h3 : (streak.maxAbsentStreak : Int) ≥ absentStreakMin <;>
  by_cases h4 : (streak.maxLateOrAbsentStreak : Int) ≥ lateOrAbsentStreakMin <;>
  simp [h1, h2, h3, h4]

theorem mem_riskStudentIds (db : Db) (courseId sid : Nat) :
    sid ∈ riskStudentIds db courseId ↔
      sid ≠ 0 ∧ ∃ e ∈ db.enrollments, e.courseId = courseId ∧ e.studentId = sid := by
  unfold riskStudentIds
  rw [List.mem_filter, List.mem_map]
  constructor
  · rintro ⟨⟨e, he, rfl⟩, h0⟩
    rw [List.mem_filter] at he
    exact ⟨by simpa using h0, e, he.1, by simpa using he.2, rfl⟩
  · rintro ⟨h0, e, he, hc, rfl⟩
    refine ⟨⟨e, ?_, rfl⟩, by simpa using h0⟩
    rw [List.mem_filter]
    exact ⟨he, by simpa using hc⟩

theorem riskReport_ok (db : Db) (user : SessionUser) (q : RiskQuery) (course : Course)
    (hq : q.courseId ≠ 0) (hc : findCourse db q.courseId = some course)
    (ho : notOwner user course = false) (hs : riskSessions db q.courseId ≠ []) :
    (riskReport db user q).1 = 200 ∧
    ∀ row, row ∈ (riskReport db user q).2 ↔
      ∃ sid ∈ riskStudentIds db q.courseId,
        row = riskRow (toInt q.absentMin 3) (toInt q.lateStreakMin 3)
          (toInt q.absentStreakMin 2) (toInt q.lateOrAbsentStreakMin 3) q.includeUnknown
          (riskStatusSeq db q.courseId sid) sid ∧
        row.flags.length > 0 := by
  have hlen : ¬ (riskSessions db q.courseId).length = 0 := by
    intro h
    exact hs (List.length_eq_zero.1 h)
  unfold riskReport
  rw [if_neg hq, hc]
  dsimp only
  rw [ho]
  simp only [Bool.false_eq_true, if_false]
  rw [if_neg hlen]
  by_cases hst : (riskStudentIds db q.courseId).length = 0
  · rw [if_pos hst]
    refine ⟨rfl, ?_⟩
    intro row
    have hnil := List.length_eq_zero.1 hst
    rw [hnil]
    simp
  · rw [if_neg hst]
    refine ⟨rfl, ?_⟩
    intro row
    dsimp only
    rw [(List.perm_insertionSort _ _).mem_iff, List.mem_filter, List.mem_map]
    constructor
    · rintro ⟨⟨sid, hsid, rfl⟩, hf⟩
      exact ⟨sid, hsid, rfl, by simpa using hf⟩
    · rintro ⟨sid, hsid, rfl, hf⟩
      exact ⟨⟨sid, hsid, rfl⟩, by simpa using hf⟩

theorem riskReport_no_sessions (db : Db) (user : SessionUser) (q : RiskQuery) (course : Course)
    (hq : q.courseId ≠ 0) (hc : findCourse db q.courseId = some course)
    (ho : notOwner user course = false) (hs : riskSessions db q.courseId = []) :
    riskReport db user q = (200, []) := by
  unfold riskReport
  rw [if_neg hq, hc]
  dsimp only
  rw [ho]
  simp only [Bool.false_eq_true, if_false]
  rw [if_pos (by rw [hs]; rfl)]

/-- C25 as the code has it: a request with a non-zero courseId for an existing course,
by a user who may read it, is answered 200. When the course has at least one session, a
student enrolled in the course (with a non-zero id) has a row in the result list iff
at least one of these holds: the number of sessions with status 3 is at least
absentMin, maxLateStreak is at least lateStreakMin, maxAbsentStreak is at least
absentStreakMin, maxLateOrAbsentStreak is at least lateOrAbsentStreakMin. When the
course has no session, the result list is empty whatever the thresholds, the
enrollments and the attendance are. A threshold that is not supplied, or is not a
finite number, is 3, 3, 2 and 3 respectively. Every row of the list belongs to an
enrolled student. -/
theorem risk_list_membership (db : Db) (user : SessionUser) (q : RiskQuery) (course : Course)
    (hq : q.courseId ≠ 0) (hc : findCourse db q.courseId = some course)
    (ho : notOwner user course = false) :
    (riskReport db user q).1 = 200 ∧
    (riskSessions db q.courseId ≠ [] →
      ∀ sid, sid ≠ 0 →
        (∃ e ∈ db.enrollments, e.courseId = q.courseId ∧ e.studentId = sid) →
        ((∃ row ∈ (riskReport db user q).2, row.studentId = sid) ↔
          (toInt q.absentMin 3 ≤ (((riskStatusSeq db q.courseId sid).count 3 : Nat) : Int) ∨
            toInt q.lateStreakMin 3 ≤
              (((calcStreaks q.includeUnknown
                (riskStatusSeq db q.courseId sid)).maxLateStreak : Nat) : Int) ∨
            toInt q.absentStreakMin 2 ≤
              (((calcStreaks q.includeUnknown
                (riskStatusSeq db q.courseId sid)).maxAbsentStreak : Nat) : Int) ∨
            toInt q.lateOrAbsentStreakMin 3 ≤
              (((calcStreaks q.includeUnknown
                (riskStatusSeq db q.courseId sid)).maxLateOrAbsentStreak : Nat) : Int)))) ∧
    (riskSessions db q.courseId = [] → (riskReport db user q).2 = []) ∧
    (∀ row ∈ (riskReport db user q).2, row.studentId ≠ 0 ∧
      ∃ e ∈ db.enrollments, e.courseId = q.courseId ∧ e.studentId = row.studentId) ∧
    (∀ d : Int, toInt .missing d = d ∧ toInt .notFinite d = d ∧
      ∀ n : Int, toInt (.finite n) d = n) := by
  by_cases hs : riskSessions db q.courseId = []
  · have hrep := riskReport_no_sessions db user q course hq hc ho hs
    rw [hrep]
    refine ⟨rfl, fun hne => absurd hs hne, fun _ => rfl, ?_, fun d => ⟨rfl, rfl, fun n => rfl⟩⟩
    intro row hrow
    cases hrow
  obtain ⟨hcode, hmem⟩ := riskReport_ok db user q course hq hc ho hs
  refine ⟨hcode, fun _ => ?_, fun hnil => absurd hnil hs, ?_, fun d => ⟨rfl, rfl, fun n => rfl⟩⟩
  · intro sid h0 henr
    have hsid : sid ∈ riskStudentIds db q.courseId :=
      (mem_riskStudentIds db q.courseId sid).2 ⟨h0, henr⟩
    have hflags := riskFlags_pos (toInt q.absentMin 3) (toInt q.lateStreakMin 3)
      (toInt q.absentStreakMin 2) (toInt q.lateOrAbsentStreakMin 3)
      (riskTotals (riskStatusSeq db q.courseId sid))
      (calcStreaks q.includeUnknown (riskStatusSeq db q.courseId sid))
    rw [(riskTotals_counts (riskStatusSeq db q.courseId sid)).2.2.1] at hflags
    rw [← hflags]
    constructor
    · rintro ⟨row, hrow, hrs⟩
      obtain ⟨sid1, -, hr, hf⟩ := (hmem row).1 hrow
      have : sid1 = sid := by
        rw [hr] at hrs
        exact hrs
      subst this
      rw [hr] at hf
      exact hf
    · intro hf
      exact ⟨_, (hmem _).2 ⟨sid, hsid, rfl, hf⟩, rfl⟩
  · intro row hrow
    obtain ⟨sid1, hs1, hr, -⟩ := (hmem row).1 hrow
    have : row.studentId = sid1 := by rw [hr]; rfl
    rw [this]
    exact (mem_riskStudentIds db q.courseId sid1).1 hs1

/-- C25, counterexample to the claim as worded: course 1 has an enrolled student 7
and no session, and the query gives `absentMin=0`. The student has 0 absences, which is
at least absentMin, yet the result list is empty, because the handler answers with an
empty list whenever the course has no session. -/
theorem risk_list_empty_without_sessions :
    (∃ e ∈ exampleNoSessionDb.enrollments, e.courseId = 1 ∧ e.studentId = 7) ∧
    toInt exampleZeroQuery.absentMin 3 ≤
      (((riskStatusSeq exampleNoSessionDb 1 7).count 3 : Nat) : Int) ∧
    riskReport exampleNoSessionDb exampleAdmin exampleZeroQuery = (200, []) := by
  decide

/-- C25 at concrete requests. On a course with three sessions and no threshold
supplied, student 7, absent three times, is in the list and student 8, present three
times, is not. On a course with an enrolled student and no session the list is empty
although the query gives `absentMin=0`. -/
theorem risk_list_membership_witness :
    exampleRiskQuery.courseId ≠ 0 ∧
    findCourse exampleRiskDb exampleRiskQuery.courseId
      = some ⟨1, 2, "2025-2", some "소프트웨어"⟩ ∧
    riskSessions exampleRiskDb exampleRiskQuery.courseId ≠ [] ∧
    (riskReport exampleRiskDb exampleAdmin exampleRiskQuery).2.map (fun r => r.studentId)
      = [7] ∧
    (∃ row ∈ (riskReport exampleRiskDb exampleAdmin exampleRiskQuery).2, row.studentId = 7) ∧
    ¬ (∃ row ∈ (riskReport exampleRiskDb exampleAdmin exampleRiskQuery).2, row.studentId = 8) ∧
    riskSessions exampleNoSessionDb exampleZeroQuery.courseId = [] ∧
    (riskReport exampleNoSessionDb exampleAdmin exampleZeroQuery).2 = [] :=
  have h := risk_list_membership exampleRiskDb exampleAdmin exampleRiskQuery
    ⟨1, 2, "2025-2", some "소프트웨어"⟩ (by decide) (by decide) (by decide)
  have h0 := risk_list_membership exampleNoSessionDb exampleAdmin exampleZeroQuery
    ⟨1, 2, "2025-2", some "소프트웨어"⟩ (by decide) (by decide) (by decide)
  ⟨by decide, by decide, by decide, by decide,
    (h.2.1 (by decide) 7 (by decide) (by decide)).2 (by decide),
    fun hex => absurd ((h.2.1 (by decide) 8 (by decide) (by decide)).1 hex) (by decide),
    by decide, h0.2.2.1 (by decide)⟩

/-- C29: the includeUnknown flag changes only the late-or-absent streaks. For every
status sequence, thresholds and student the rows computed with includeUnknown = true and
with includeUnknown = false have the same totals, the same maximal and current late
streak, the same maximal and current absent streak, and the same outcome of the
cumulative-absence, late-streak and absent-streak tests; the maximal and the current
late-or-absent streak with includeUnknown = true are each at least their value with
includeUnknown = false (and so is the risk score). On the sequence [3, 0, 3] the
maximal late-or-absent streak is 3 with the flag and 1 without it. -/
theorem includeUnknown_only_late_or_absent
    (absentMin lateStreakMin absentStreakMin lateOrAbsentStreakMin : Int)
    (statusSeq : List Nat) (sid : Nat) :
    (riskRow absentMin lateStreakMin absentStreakMin lateOrAbsentStreakMin true statusSeq
        sid).totals
      = (riskRow absentMin lateStreakMin absentStreakMin lateOrAbsentStreakMin false statusSeq
        sid).totals ∧
    (calcStreaks true statusSeq).maxLateStreak = (calcStreaks false statusSeq).maxLateStreak ∧
    (calcStreaks true statusSeq).currentLateStreak
      = (calcStreaks false statusSeq).currentLateStreak ∧
    (calcStreaks true statusSeq).maxAbsentStreak
      = (calcStreaks false statusSeq).maxAbsentStreak ∧
    (calcStreaks true statusSeq).currentAbsentStreak
      = (calcStreaks false statusSeq).currentAbsentStreak ∧
    (RiskFlag.absentTotal absentMin ∈
        (riskRow absentMin lateStreakMin absentStreakMin lateOrAbsentStreakMin true statusSeq
          sid).flags ↔
      RiskFlag.absentTotal absentMin ∈
        (riskRow absentMin lateStreakMin absentStreakMin lateOrAbsentStreakMin false statusSeq
          sid).flags) ∧
    (RiskFlag.absentTotal absentMin ∈
        (riskRow absentMin lateStreakMin absentStreakMin lateOrAbsentStreakMin false statusSeq
          sid).flags ↔ absentMin ≤ ((statusSeq.count 3 : Nat) : Int)) ∧
    (RiskFlag.lateStreak lateStreakMin ∈
        (riskRow absentMin lateStreakMin absentStreakMin lateOrAbsentStreakMin true statusSeq
          sid).flags ↔
      RiskFlag.lateStreak lateStreakMin ∈
        (riskRow absentMin lateStreakMin absentStreakMin lateOrAbsentStreakMin false statusSeq
          sid).flags) ∧
    (RiskFlag.absentStreak absentStreakMin ∈
        (riskRow absentMin lateStreakMin absentStreakMin lateOrAbsentStreakMin true statusSeq
          sid).flags ↔
      RiskFlag.absentStreak absentStreakMin ∈
        (riskRow absentMin lateStreakMin absentStreakMin lateOrAbsentStreakMin false statusSeq
          sid).flags) ∧
    (calcStreaks false statusSeq).maxLateOrAbsentStreak
      ≤ (calcStreaks true statusSeq).maxLateOrAbsentStreak ∧
    (calcStreaks false statusSeq).currentLateOrAbsentStreak
      ≤ (calcStreaks true statusSeq).currentLateOrAbsentStreak ∧
    (riskRow absentMin lateStreakMin absentStreakMin lateOrAbsentStreakMin false statusSeq
        sid).riskScore
      ≤ (riskRow absentMin lateStreakMin absentStreakMin lateOrAbsentStreakMin true statusSeq
        sid).riskScore ∧
    (calcStreaks true [3, 0, 3]).maxLateOrAbsentStreak = 3 ∧
    (calcStreaks false [3, 0, 3]).maxLateOrAbsentStreak = 1 := by
  obtain ⟨-, -, -, a4, a5, a6⟩ := streakLoop_invariant true statusSeq
  obtain ⟨-, -, -, b4, b5, b6⟩ := streakLoop_invariant false statusSeq
  have ta := trailing_isGreatest (isLA true) statusSeq
  have tb := trailing_isGreatest (isLA false) statusSeq
  have hkind : ∀ st, isLA false st = true → isLA true st = true := by
    intro st hst
    simp only [isLA, Bool.false_and, Bool.or_false, Bool.true_and] at hst ⊢
    rw [hst]
    rfl
  have e1 : (calcStreaks true statusSeq).maxLateStreak
      = (calcStreaks false statusSeq).maxLateStreak := a4.unique b4
  have e2 : (calcStreaks true statusSeq).maxAbsentStreak
      = (calcStreaks false statusSeq).maxAbsentStreak := a5.unique b5
  have m1 : (calcStreaks false statusSeq).maxLateOrAbsentStreak
      ≤ (calcStreaks true statusSeq).maxLateOrAbsentStreak :=
    a6.2 (hasRun_mono _ _ hkind _ _ b6.1)
  have m2 : (calcStreaks false statusSeq).currentLateOrAbsentStreak
      ≤ (calcStreaks true statusSeq).currentLateOrAbsentStreak :=
    ta.2 (hasTrailingRun_mono _ _ hkind _ _ tb.1)
  have habs : ∀ b : Bool, (RiskFlag.absentTotal absentMin ∈
      (riskRow absentMin lateStreakMin absentStreakMin lateOrAbsentStreakMin b statusSeq
        sid).flags ↔ absentMin ≤ ((statusSeq.count 3 : Nat) : Int)) := by
    intro b
    simp only [riskRow, riskFlags, (riskTotals_counts statusSeq).2.2.1]
    by_cases h1 : ((statusSeq.count 3 : Nat) : Int) ≥ absentMin <;>
    by_cases h2 : (((calcStreaks b statusSeq).maxLateStreak : Nat) : Int) ≥ lateStreakMin <;>
    by_cases h3 : (((calcStreaks b statusSeq).maxAbsentStreak : Nat) : Int)
      ≥ absentStreakMin <;>
    by_cases h4 : (((calcStreaks b statusSeq).maxLateOrAbsentStreak : Nat) : Int)
      ≥ lateOrAbsentStreakMin <;>
    simp [h1, h2, h3, h4]
  have hlate : ∀ b : Bool, (RiskFlag.lateStreak lateStreakMin ∈
      (riskRow absentMin lateStreakMin absentStreakMin lateOrAbsentStreakMin b statusSeq
        sid).flags ↔
      lateStreakMin ≤ (((calcStreaks b statusSeq).maxLateStreak : Nat) : Int)) := by
    intro b
    simp only [riskRow, riskFlags]
    by_cases h1 : (((riskTotals statusSeq).absent : Nat) : Int) ≥ absentMin <;>
    by_cases h2 : (((calcStreaks b statusSeq).maxLateStreak : Nat) : Int) ≥ lateStreakMin <;>
    by_cases h3 : (((calcStreaks b statusSeq).maxAbsentStreak : Nat) : Int)
      ≥ absentStreakMin <;>
    by_cases h4 : (((calcStreaks b statusSeq).maxLateOrAbsentStreak : Nat) : Int)
      ≥ lateOrAbsentStreakMin <;>
    simp [h1, h2, h3, h4]
  have habst : ∀ b : Bool, (RiskFlag.absentStreak absentStreakMin ∈
      (riskRow absentMin lateStreakMin absentStreakMin lateOrAbsentStreakMin b statusSeq
        sid).flags ↔
      absentStreakMin ≤ (((calcStreaks b statusSeq).maxAbsentStreak : Nat) : Int)) := by
    intro b
    simp only [riskRow, riskFlags]
    by_cases h1 : (((riskTotals statusSeq).absent : Nat) : Int) ≥ absentMin <;>
    by_cases h2 : (((calcStreaks b statusSeq).maxLateStreak : Nat) : Int) ≥ lateStreakMin <;>
    by_cases h3 : (((calcStreaks b statusSeq).maxAbsentStreak : Nat) : Int)
      ≥ absentStreakMin <;>
    by_cases h4 : (((calcStreaks b statusSeq).maxLateOrAbsentStreak : Nat) : Int)
      ≥ lateOrAbsentStreakMin <;>
    simp [h1, h2, h3, h4]
  refine ⟨rfl, e1, ?_, e2, ?_, ?_, habs false, ?_, ?_, m1, m2, ?_, by decide, by decide⟩
  · rfl
  · rfl
  · rw [habs true, habs false]
  · rw [hlate true, hlate false, e1]
  · rw [habst true, habst false, e2]
  · simp only [riskRow]
    omega

/-- The outcome of a correction whose row and session exist, whose user may correct
and whose audit write succeeds. -/
theorem correctAttendance_authorised (db : Db) (env : Env) (user : SessionUser)
    (attendanceId status : Nat) (a : Attendance) (session : ClassSession)
    (hfind : db.attendances.find? (fun x => decide (x.id = attendanceId)) = some a)
    (hsess : findSession db a.sessionId = some session)
    (hauth : user.role = Role.ADMIN ∨
      ∃ course, findCourse db session.courseId = some course ∧ course.instructorId = user.id)
    (haudit : env.auditFails = false) :
    correctAttendance db env user attendanceId status =
      if status ∉ [1, 2, 3, 4] then (400, db)
      else (200, { db with
        attendances := saveCorrection db.attendances a.id status user.id
        auditLogs := db.auditLogs ++
          [{ id := nextId (db.auditLogs.map (fun l => l.id))
             targetType := "ATTENDANCE"
             targetId := a.id
             action := "UPDATE"
             actorId := user.id
             beforeValue := AuditValue.attendanceRow a
             afterValue := AuditValue.attendanceRow
               { a with status := status, updatedBy := some user.id } }] }) := by
  unfold correctAttendance
  rw [hfind]
  dsimp only
  rw [hsess]
  dsimp only
  have href : (match findCourse db session.courseId with
      | none => if user.role = Role.INSTRUCTOR then (Except.error 500 : Except Nat Unit)
          else Except.ok ()
      | some course => if notOwner user course = true then Except.error 403
          else Except.ok ()) = Except.ok () := by
    rcases hauth with hadmin | ⟨course, hc, hown⟩
    · cases hc : findCourse db session.courseId with
      | none =>
        dsimp only
        rw [if_neg (by rw [hadmin]; decide)]
      | some course =>
        dsimp only
        have : notOwner user course = false := by
          unfold notOwner
          rw [hadmin]
          rfl
        rw [this]
        rfl
    · rw [hc]
      dsimp only
      have : notOwner user course = false := by
        unfold notOwner
        simp [hown]
      rw [this]
      rfl
  rw [href]
  dsimp only
  by_cases h4 : status ∉ [1, 2, 3, 4]
  · rw [if_pos h4, if_pos h4]
  · rw [if_neg h4, if_neg h4, haudit]
    rfl

/-- C26: a correction of an existing Attendance row by an ADMIN or by the instructor
of the course, the audit write succeeding. With a status `s` in {1, 2, 3, 4}, equal to
the previous status or not, the answer is 200, the row has status `s` and the user as
`updatedBy`, rows with another id are as before, and the AuditLog table is the one
before followed by exactly one row with targetType ATTENDANCE, action UPDATE, the id of
the row as target, the row before the change (with its previous status) as beforeValue
and the row with status `s` as afterValue. With any other status the answer is 400 and
the database, Attendance and AuditLog included, is unchanged. -/
theorem correction_sets_status_and_audits (db : Db) (env : Env) (user : SessionUser)
    (attendanceId : Nat) (a : Attendance) (session : ClassSession)
    (hfind : db.attendances.find? (fun x => decide (x.id = attendanceId)) = some a)
    (hsess : findSession db a.sessionId = some session)
    (hauth : user.role = Role.ADMIN ∨
      ∃ course, findCourse db session.courseId = some course ∧ course.instructorId = user.id)
    (haudit : env.auditFails = false) :
    (∀ s, s ∈ [1, 2, 3, 4] →
      (correctAttendance db env user attendanceId s).1 = 200 ∧
      (correctAttendance db env user attendanceId s).2.attendances.find?
          (fun x => decide (x.id = attendanceId))
        = some { a with status := s, updatedBy := some user.id } ∧
      (∀ r ∈ db.attendances, r.id ≠ attendanceId →
        r ∈ (correctAttendance db env user attendanceId s).2.attendances) ∧
      (correctAttendance db env user attendanceId s).2.attendances.length
        = db.attendances.length ∧
      ∃ log : AuditLog,
        (correctAttendance db env user attendanceId s).2.auditLogs = db.auditLogs ++ [log] ∧
        log.targetType = "ATTENDANCE" ∧ log.action = "UPDATE" ∧ log.targetId = attendanceId ∧
        log.actorId = user.id ∧
        log.beforeValue = AuditValue.attendanceRow a ∧
        log.afterValue = AuditValue.attendanceRow
          { a with status := s, updatedBy := some user.id }) ∧
    (∀ s, s ∉ [1, 2, 3, 4] → correctAttendance db env user attendanceId s = (400, db)) := by
  have hid : a.id = attendanceId := by
    have := List.find?_some hfind
    simpa using this
  constructor
  · intro s hs
    rw [correctAttendance_authorised db env user attendanceId s a session hfind hsess hauth
      haudit, if_neg (not_not.2 hs)]
    dsimp only
    refine ⟨rfl, ?_, ?_, ?_, ⟨_, rfl, rfl, rfl, hid, rfl, rfl, rfl⟩⟩
    · unfold saveCorrection
      rw [List.find?_map]
      have hp : ((fun (x : Attendance) => decide (x.id = attendanceId)) ∘
          fun (r : Attendance) =>
            if r.id = a.id then { r with status := s, updatedBy := some user.id } else r)
          = fun (x : Attendance) => decide (x.id = attendanceId) := by
        funext r
        dsimp only [Function.comp]
        by_cases h : r.id = a.id
        · rw [if_pos h]
        · rw [if_neg h]
      rw [hp, hfind]
      simp
    · intro r hr hne
      unfold saveCorrection
      rw [List.mem_map]
      refine ⟨r, hr, ?_⟩
      rw [if_neg (by rw [hid]; exact hne)]
    · unfold saveCorrection
      rw [List.length_map]
  · intro s hs
    rw [correctAttendance_authorised db env user attendanceId s a session hfind hsess hauth
      haudit, if_pos hs]

/-- C26 on the example database: the ADMIN corrects row 1, whose status is 3, to the
same status 3. The answer is 200 and one audit row with before 3 and after 3 is
appended; with status 5 the answer is 400 and nothing changes. -/
theorem correction_sets_status_and_audits_witness :
    exampleDb.attendances.find? (fun x => decide (x.id = 1)) = some ⟨1, 1, 7, 3, none, none⟩ ∧
    correctAttendance exampleDb exampleEnv exampleAdmin 1 3
      = (200, { exampleDb with
          attendances := [⟨1, 1, 7, 3, none, some 1⟩]
          auditLogs := [⟨1, "ATTENDANCE", 1, "UPDATE", 1,
            AuditValue.attendanceRow ⟨1, 1, 7, 3, none, none⟩,
            AuditValue.attendanceRow ⟨1, 1, 7, 3, none, some 1⟩⟩] }) ∧
    (correctAttendance exampleDb exampleEnv exampleAdmin 1 3).1 = 200 ∧
    correctAttendance exampleDb exampleEnv exampleAdmin 1 5 = (400, exampleDb) :=
  have h := correction_sets_status_and_audits exampleDb exampleEnv exampleAdmin 1
    ⟨1, 1, 7, 3, none, none⟩ ⟨1, 1, 1, 1, none, none, none, "CODE", "OPEN", some "123456"⟩
    (by decide) (by decide) (Or.inl rfl) rfl
  ⟨by decide, by decide, (h.1 3 (by decide)).1, h.2 5 (by decide)⟩

/-- C30: when the approval of a PENDING excuse succeeds and no Attendance row existed
for (session, student), the row is created with status 4 and the audit log gets the
EXCUSE row followed by exactly one ATTENDANCE row, with action UPDATE and the id of the
created row as target, whose beforeValue and afterValue both hold status 4: the
before-snapshot is taken from the row that `findOrCreate` has just created. -/
theorem created_row_audited_as_excused (db : Db) (env : Env) (user : SessionUser)
    (excuseId : Nat) (replyText : Option String) (e : ExcuseRequest) (s : ClassSession)
    (he : db.excuses.find? (fun x => decide (x.id = excuseId)) = some e)
    (hs : findSession db e.sessionId = some s)
    (hok : (resolveExcuse db env user excuseId "APPROVED" replyText).1 = 200)
    (hnone : findAttendance db.attendances s.id e.studentId = none) :
    (resolveExcuse db env user excuseId "APPROVED" replyText).2.attendances
      = db.attendances ++
        [⟨nextId (db.attendances.map (fun a => a.id)), s.id, e.studentId, 4, some env.now,
          some user.id⟩] ∧
    (resolveExcuse db env user excuseId "APPROVED" replyText).2.auditLogs
      = db.auditLogs ++
        [⟨nextId (db.auditLogs.map (fun l => l.id)), "EXCUSE", e.id, "APPROVE", user.id,
            AuditValue.excuse "PENDING" none, AuditValue.excuse "APPROVED" replyText⟩,
          ⟨nextId (db.auditLogs.map (fun l => l.id)) + 1, "ATTENDANCE",
            nextId (db.attendances.map (fun a => a.id)), "UPDATE", user.id,
            AuditValue.attendanceStatus 4, AuditValue.attendanceStatus 4⟩] := by
  have hmem : ¬ ("APPROVED" ∉ ["APPROVED", "REJECTED"]) := by decide
  unfold resolveExcuse at hok ⊢
  rw [if_neg hmem, he] at hok
  rw [if_neg hmem, he]
  simp only at hok ⊢
  by_cases h2 : e.status ≠ "PENDING"
  · rw [if_pos h2] at hok; simp at hok
  rw [if_neg h2, hs] at hok
  rw [if_neg h2, hs]
  simp only at hok ⊢
  cases hc : findCourse db s.courseId with
  | none => rw [hc] at hok; simp at hok
  | some course =>
    rw [hc] at hok
    simp only at hok ⊢
    by_cases h3 : notOwner user course = true
    · rw [if_pos h3] at hok; simp at hok
    rw [if_neg h3] at hok
    rw [if_neg h3]
    by_cases h4 : env.auditFails = true
    · rw [if_pos h4] at hok; simp at hok
    rw [if_neg h4]
    have hpend : e.status = "PENDING" := not_not.mp h2
    simp only [if_true]
    rw [hnone]
    simp only
    refine ⟨trivial, ?_⟩
    simp [bulkCreateAudit, hpend, nextId, List.foldl_append]

/-- C30 on the example with a PENDING excuse and no Attendance row: the approval
creates row 1 with status 4 and appends the EXCUSE audit row and an ATTENDANCE audit
row with before 4 and after 4. -/
theorem created_row_audited_as_excused_witness :
    examplePendingNoRows.excuses.find? (fun x => decide (x.id = 1))
      = some ⟨1, 1, 7, "PENDING"⟩ ∧
    findAttendance examplePendingNoRows.attendances 1 7 = none ∧
    (resolveExcuse examplePendingNoRows exampleEnv exampleAdmin 1 "APPROVED" none).1 = 200 ∧
    (resolveExcuse examplePendingNoRows exampleEnv exampleAdmin 1 "APPROVED" none).2.attendances
      = [⟨1, 1, 7, 4, some 1000, some 1⟩] ∧
    (resolveExcuse examplePendingNoRows exampleEnv exampleAdmin 1 "APPROVED" none).2.auditLogs
      = [⟨1, "EXCUSE", 1, "APPROVE", 1, AuditValue.excuse "PENDING" none,
            AuditValue.excuse "APPROVED" none⟩,
          ⟨2, "ATTENDANCE", 1, "UPDATE", 1, AuditValue.attendanceStatus 4,
            AuditValue.attendanceStatus 4⟩] :=
  have h := created_row_audited_as_excused examplePendingNoRows exampleEnv exampleAdmin 1 none
    ⟨1, 1, 7, "PENDING"⟩ ⟨1, 1, 1, 1, none, none, none, "CODE", "OPEN", some "123456"⟩
    (by decide) (by decide) (by decide) (by decide)
  ⟨by decide, by decide, by decide, h.1, h.2⟩

/-! ### Absence warnings -/

theorem foldl_invariant_mem {α β : Type} (f : β → α → β) (P : β → Prop) (l : List α)
    (hstep : ∀ b, ∀ a ∈ l, P b → P (f b a)) (b : β) (hb : P b) : P (l.foldl f b) := by
  induction l generalizing b with
  | nil => exact hb
  | cons a rest ih =>
    rw [List.foldl_cons]
    apply ih
    · intro b1 a1 ha1 hp
      exact hstep b1 a1 (List.mem_cons_of_mem _ ha1) hp
    · exact hstep b a (List.mem_cons_self _ _) hb

theorem foldl_establish {α β : Type} (f : β → α → β) (Q : α → β → Prop) (l : List α)
    (hstep : ∀ b, ∀ a ∈ l, Q a (f b a))
    (hmono : ∀ b a x, Q x b → Q x (f b a)) :
    ∀ b, ∀ x ∈ l, Q x (l.foldl f b) := by
  induction l with
  | nil => intro b x hx; cases hx
  | cons a rest ih =>
    intro b x hx
    rw [List.foldl_cons]
    rcases List.mem_cons.1 hx with rfl | hx
    · apply foldl_invariant_mem f (fun b1 => Q x b1) rest
      · intro b1 a1 _ hq
        exact hmono b1 a1 x hq
      · exact hstep b x (List.mem_cons_self _ _)
    · exact ih (fun b1 a1 ha1 => hstep b1 a1 (List.mem_cons_of_mem _ ha1)) (f b a) x hx

theorem courseLink_ne_empty (s : String) : "/courses/" ++ s ≠ "" := by
  intro h
  have := congrArg String.length h
  simp only [String.length_append] at this
  have h9 : "/courses/".length = 9 := by decide
  rw [h9] at this
  have h0 : "".length = 0 := by decide
  rw [h0] at this
  omega

theorem warningFor_link (courseId : Nat) (thresholds : Thresholds) (stat : AbsStat) (sid : Nat)
    (p : NotificationPayload) (h : warningFor courseId thresholds stat sid = some p) :
    p.linkUrl ≠ "" := by
  unfold warningFor at h
  cases hl : decideLevel (absenceEquivalent thresholds stat) thresholds with
  | none => rw [hl] at h; cases h
  | some level =>
    rw [hl] at h
    simp only [Option.map_some', Option.some.injEq] at h
    rw [← h]
    exact courseLink_ne_empty _

theorem create_of_found (rows : List Notification) (p : NotificationPayload)
    (h : ∃ n ∈ rows, sameNotification p n = true) :
    createNotificationIfNotExists rows p = (rows, false) := by
  unfold createNotificationIfNotExists
  cases hf : rows.find? (sameNotification p) with
  | some n => rfl
  | none =>
    exfalso
    obtain ⟨n, hn, hs⟩ := h
    rw [List.find?_eq_none] at hf
    exact hf n hn hs

theorem create_grows (rows : List Notification) (p : NotificationPayload) :
    ∀ n ∈ rows, n ∈ (createNotificationIfNotExists rows p).1 := by
  intro n hn
  unfold createNotificationIfNotExists
  cases hf : rows.find? (sameNotification p) with
  | some n1 => exact hn
  | none => exact List.mem_append_left _ hn

theorem create_found (rows : List Notification) (p : NotificationPayload)
    (hlink : p.linkUrl ≠ "") :
    ∃ n ∈ (createNotificationIfNotExists rows p).1, sameNotification p n = true := by
  unfold createNotificationIfNotExists
  cases hf : rows.find? (sameNotification p) with
  | some n1 =>
    exact ⟨n1, List.mem_of_find?_eq_some hf, List.find?_some hf⟩
  | none =>
    refine ⟨_, List.mem_append_right _ (List.mem_singleton.2 rfl), ?_⟩
    simp [sameNotification, hlink]

theorem create_flag (rows : List Notification) (p : NotificationPayload) :
    ((createNotificationIfNotExists rows p).2 = false →
      (createNotificationIfNotExists rows p).1 = rows) ∧
    ((createNotificationIfNotExists rows p).2 = true →
      ∃ n, (createNotificationIfNotExists rows p).1 = rows ++ [n] ∧
        n.userId = p.userId ∧ n.type = p.type ∧ n.title = p.title ∧
        n.linkUrl = some p.linkUrl ∧ ¬ ∃ n1 ∈ rows, sameNotification p n1 = true) := by
  unfold createNotificationIfNotExists
  cases hf : rows.find? (sameNotification p) with
  | some n1 => simp
  | none =>
    refine ⟨fun h => by simp at h, fun _ => ⟨_, rfl, rfl, rfl, rfl, rfl, ?_⟩⟩
    rintro ⟨n1, hn1, hs⟩
    rw [List.find?_eq_none] at hf
    exact hf n1 hn1 hs

theorem warnStudent_grows (dryRun : Bool) (courseId : Nat) (thresholds : Thresholds)
    (stats : Nat → AbsStat) (acc : WarnLoop) (sid : Nat) :
    ∀ n ∈ acc.notifications,
      n ∈ (warnStudent dryRun courseId thresholds stats acc sid).notifications := by
  intro n hn
  unfold warnStudent
  cases hw : warningFor courseId thresholds (stats sid) sid with
  | none => exact hn
  | some p =>
    dsimp only
    by_cases hd : dryRun = true
    · rw [if_pos hd]; exact hn
    · rw [if_neg hd]
      by_cases hc : (createNotificationIfNotExists acc.notifications p).2 = true
      · rw [if_pos hc]
        exact create_grows _ _ n hn
      · rw [if_neg hc]; exact hn

theorem warnStudent_found (courseId : Nat) (thresholds : Thresholds)
    (stats : Nat → AbsStat) (acc : WarnLoop) (sid : Nat) (p : NotificationPayload)
    (hp : warningFor courseId thresholds (stats sid) sid = some p) :
    ∃ n ∈ (warnStudent false courseId thresholds stats acc sid).notifications,
      sameNotification p n = true := by
  have hfound := create_found acc.notifications p (warningFor_link _ _ _ _ _ hp)
  unfold warnStudent
  rw [hp]
  dsimp only
  rw [if_neg (by decide)]
  by_cases hc : (createNotificationIfNotExists acc.notifications p).2 = true
  · rw [if_pos hc]
    exact hfound
  · rw [if_neg hc]
    have := (create_flag acc.notifications p).1 (by simpa using hc)
    rw [this] at hfound
    exact hfound

theorem warnStudent_dry (courseId : Nat) (thresholds : Thresholds)
    (stats : Nat → AbsStat) (acc : WarnLoop) (sid : Nat) :
    (warnStudent true courseId thresholds stats acc sid).notifications = acc.notifications ∧
    (warnStudent true courseId thresholds stats acc sid).createdCount = acc.createdCount ∧
    (warnStudent true courseId thresholds stats acc sid).skippedCount = acc.skippedCount ∧
    (warnStudent true courseId thresholds stats acc sid).courseCreated = acc.courseCreated := by
  unfold warnStudent
  cases hw : warningFor courseId thresholds (stats sid) sid with
  | none => exact ⟨rfl, rfl, rfl, rfl⟩
  | some p =>
    dsimp only
    rw [if_pos rfl]
    exact ⟨rfl, rfl, rfl, rfl⟩

theorem warnStudent_all_found (courseId : Nat) (thresholds : Thresholds)
    (stats : Nat → AbsStat) (acc : WarnLoop) (sid : Nat)
    (hall : ∀ p, warningFor courseId thresholds (stats sid) sid = some p →
      ∃ n ∈ acc.notifications, sameNotification p n = true) :
    (warnStudent false courseId thresholds stats acc sid).notifications = acc.notifications ∧
    (warnStudent false courseId thresholds stats acc sid).createdCount = acc.createdCount ∧
    (warnStudent false courseId thresholds stats acc sid).courseCreated = acc.courseCreated := by
  unfold warnStudent
  cases hw : warningFor courseId thresholds (stats sid) sid with
  | none => exact ⟨rfl, rfl, rfl⟩
  | some p =>
    dsimp only
    rw [if_neg (by decide), create_of_found _ _ (hall p hw)]
    exact ⟨rfl, rfl, rfl⟩
theorem warnCourse_grows (db : Db) (policyOf : Nat → Option AttendancePolicy) (dryRun : Bool)
    (run : WarnRun) (course : Course) :
    ∀ n ∈ run.notifications, n ∈ (warnCourse db policyOf dryRun run course).notifications := by
  intro n hn
  unfold warnCourse
  dsimp only
  by_cases h0 : (enrolledIds db course.id).length = 0
  · rw [if_pos h0]; exact hn
  · rw [if_neg h0]
    dsimp only
    exact foldl_invariant_mem _ (fun (acc : WarnLoop) => n ∈ acc.notifications) _
      (fun b a _ hb => warnStudent_grows _ _ _ _ b a n hb) _ hn

theorem warnCourse_found (db : Db) (policyOf : Nat → Option AttendancePolicy)
    (run : WarnRun) (course : Course) :
    ∀ sid ∈ mapKeys (enrolledIds db course.id), ∀ p,
      courseWarning db policyOf course sid = some p →
      ∃ n ∈ (warnCourse db policyOf false run course).notifications,
        sameNotification p n = true := by
  intro sid hsid p hp
  unfold warnCourse
  dsimp only
  by_cases h0 : (enrolledIds db course.id).length = 0
  · exfalso
    rw [List.length_eq_zero.1 h0] at hsid
    simp [mapKeys] at hsid
  · rw [if_neg h0]
    dsimp only
    exact foldl_establish
      (warnStudent false course.id (pickPolicy (policyOf course.id))
        (absenceStats (enrolledIds db course.id)
          (courseAttendances db course.id (enrolledIds db course.id))))
      (fun (x : Nat) (acc : WarnLoop) => ∀ q, courseWarning db policyOf course x = some q →
        ∃ n ∈ acc.notifications, sameNotification q n = true)
      (mapKeys (enrolledIds db course.id))
      (fun b a _ q hq => warnStudent_found _ _ _ b a q hq)
      (fun b a x hx q hq => by
        obtain ⟨n, hn, hs⟩ := hx q hq
        exact ⟨n, warnStudent_grows _ _ _ _ b a n hn, hs⟩)
      _ sid hsid p hp

theorem warnCourse_all_found (db : Db) (policyOf : Nat → Option AttendancePolicy)
    (run : WarnRun) (course : Course)
    (hall : ∀ sid ∈ mapKeys (enrolledIds db course.id), ∀ p,
      courseWarning db policyOf course sid = some p →
      ∃ n ∈ run.notifications, sameNotification p n = true) :
    (warnCourse db policyOf false run course).notifications = run.notifications ∧
    (warnCourse db policyOf false run course).createdCount = run.createdCount := by
  unfold warnCourse
  dsimp only
  by_cases h0 : (enrolledIds db course.id).length = 0
  · rw [if_pos h0]
    exact ⟨rfl, rfl⟩
  · rw [if_neg h0]
    dsimp only
    exact foldl_invariant_mem _
      (fun (acc : WarnLoop) => acc.notifications = run.notifications ∧
        acc.createdCount = run.createdCount)
      (mapKeys (enrolledIds db course.id))
      (fun b a ha hb => by
        have hfound : ∀ p, warningFor course.id (pickPolicy (policyOf course.id))
            ((absenceStats (enrolledIds db course.id)
              (courseAttendances db course.id (enrolledIds db course.id))) a) a = some p →
            ∃ n ∈ b.notifications, sameNotification p n = true := by
          intro p hp
          rw [hb.1]
          exact hall a ha p hp
        obtain ⟨h1, h2, -⟩ := warnStudent_all_found _ _ _ b a hfound
        exact ⟨h1.trans hb.1, h2.trans hb.2⟩)
      _ ⟨rfl, rfl⟩

theorem warnCourse_dry (db : Db) (policyOf : Nat → Option AttendancePolicy)
    (run : WarnRun) (course : Course) :
    (warnCourse db policyOf true run course).notifications = run.notifications ∧
    (warnCourse db policyOf true run course).createdCount = run.createdCount ∧
    (warnCourse db policyOf true run course).skippedCount = run.skippedCount := by
  unfold warnCourse
  dsimp only
  by_cases h0 : (enrolledIds db course.id).length = 0
  · rw [if_pos h0]
    exact ⟨rfl, rfl, rfl⟩
  · rw [if_neg h0]
    dsimp only
    exact foldl_invariant_mem _
      (fun (acc : WarnLoop) => acc.notifications = run.notifications ∧
        acc.createdCount = run.createdCount ∧ acc.skippedCount = run.skippedCount)
      (mapKeys (enrolledIds db course.id))
      (fun b a _ hb => by
        obtain ⟨h1, h2, h3, -⟩ := warnStudent_dry course.id (pickPolicy (policyOf course.id))
          (absenceStats (enrolledIds db course.id)
            (courseAttendances db course.id (enrolledIds db course.id))) b a
        exact ⟨h1.trans hb.1, h2.trans hb.2.1, h3.trans hb.2.2⟩)
      _ ⟨rfl, rfl, rfl⟩

theorem warnRun_dry (db : Db) (policyOf : Nat → Option AttendancePolicy)
    (courses : List Course) :
    (warnRun db policyOf true courses).notifications = db.notifications ∧
    (warnRun db policyOf true courses).createdCount = 0 ∧
    (warnRun db policyOf true courses).skippedCount = 0 := by
  unfold warnRun
  exact foldl_invariant_mem _
    (fun (run : WarnRun) => run.notifications = db.notifications ∧ run.createdCount = 0 ∧
      run.skippedCount = 0)
    courses
    (fun b a _ hb => by
      obtain ⟨h1, h2, h3⟩ := warnCourse_dry db policyOf b a
      exact ⟨h1.trans hb.1, h2.trans hb.2.1, h3.trans hb.2.2⟩)
    _ ⟨rfl, rfl, rfl⟩

theorem warnFold_found (db : Db) (policyOf : Nat → Option AttendancePolicy)
    (courses : List Course) (run : WarnRun) :
    ∀ course ∈ courses, ∀ sid ∈ mapKeys (enrolledIds db course.id), ∀ p,
      courseWarning db policyOf course sid = some p →
      ∃ n ∈ (courses.foldl (warnCourse db policyOf false) run).notifications,
        sameNotification p n = true := by
  intro course hc
  exact foldl_establish (warnCourse db policyOf false)
    (fun (c : Course) (r : WarnRun) => ∀ sid ∈ mapKeys (enrolledIds db c.id), ∀ p,
      courseWarning db policyOf c sid = some p →
      ∃ n ∈ r.notifications, sameNotification p n = true)
    courses
    (fun b a _ sid hsid p hp => warnCourse_found db policyOf b a sid hsid p hp)
    (fun b a x hx sid hsid p hp => by
      obtain ⟨n, hn, hs⟩ := hx sid hsid p hp
      exact ⟨n, warnCourse_grows db policyOf false b a n hn, hs⟩)
    run course hc

theorem warnFold_all_found (db : Db) (policyOf : Nat → Option AttendancePolicy)
    (courses : List Course) (run : WarnRun)
    (hall : ∀ course ∈ courses, ∀ sid ∈ mapKeys (enrolledIds db course.id), ∀ p,
      courseWarning db policyOf course sid = some p →
      ∃ n ∈ run.notifications, sameNotification p n = true) :
    (courses.foldl (warnCourse db policyOf false) run).notifications = run.notifications ∧
    (courses.foldl (warnCourse db policyOf false) run).createdCount = run.createdCount := by
  exact foldl_invariant_mem _
    (fun (r : WarnRun) => r.notifications = run.notifications ∧
      r.createdCount = run.createdCount)
    courses
    (fun b a ha hb => by
      have hfound : ∀ sid ∈ mapKeys (enrolledIds db a.id), ∀ p,
          courseWarning db policyOf a sid = some p →
          ∃ n ∈ b.notifications, sameNotification p n = true := by
        intro sid hsid p hp
        rw [hb.1]
        exact hall a ha sid hsid p hp
      obtain ⟨h1, h2⟩ := warnCourse_all_found db policyOf b a hfound
      exact ⟨h1.trans hb.1, h2.trans hb.2⟩)
    _ ⟨rfl, rfl⟩

/-- C22: a run of the absence-warning job that is not a dry run changes only the
Notification table, and a second such run on the database left by the first, with the
same policies, user and request, creates no Notification: after it the database, the
Notification table in particular, is the one left by the first run and the reported
`created` is 0. -/
theorem absence_run_twice (db : Db) (policyOf : Nat → Option AttendancePolicy)
    (user : SessionUser) (body : WarnBody) (hdry : body.dryRun = false) :
    (runAbsenceWarnings db policyOf user body).2.1
      = { db with notifications := (runAbsenceWarnings db policyOf user body).2.1.notifications } ∧
    (runAbsenceWarnings (runAbsenceWarnings db policyOf user body).2.1 policyOf user body).2.1
      = (runAbsenceWarnings db policyOf user body).2.1 ∧
    (runAbsenceWarnings (runAbsenceWarnings db policyOf user body).2.1 policyOf user
        body).2.1.notifications
      = (runAbsenceWarnings db policyOf user body).2.1.notifications ∧
    (runAbsenceWarnings (runAbsenceWarnings db policyOf user body).2.1 policyOf user
        body).2.2.created = 0 := by
  by_cases hc : (selectCourses db user body).length = 0
  · have h1 : runAbsenceWarnings db policyOf user body = (200, db, ⟨false, 0, 0, 0, 0, []⟩) := by
      unfold runAbsenceWarnings
      dsimp only
      rw [if_pos hc]
    rw [h1]
    dsimp only
    rw [h1]
    exact ⟨rfl, rfl, rfl, rfl⟩
  · have h1 : runAbsenceWarnings db policyOf user body
        = (200, { db with notifications :=
              (warnRun db policyOf false (selectCourses db user body)).notifications },
            ⟨false, (selectCourses db user body).length,
              (warnRun db policyOf false (selectCourses db user body)).checkedStudents,
              (warnRun db policyOf false (selectCourses db user body)).createdCount,
              (warnRun db policyOf false (selectCourses db user body)).skippedCount,
              (warnRun db policyOf false (selectCourses db user body)).perCourseSummary⟩) := by
      unfold runAbsenceWarnings
      dsimp only
      rw [if_neg hc, hdry]
      rfl
    have hsecond := warnFold_all_found db policyOf (selectCourses db user body)
      ⟨(warnRun db policyOf false (selectCourses db user body)).notifications, 0, 0, 0, []⟩
      (fun course hcourse sid hsid p hp =>
        warnFold_found db policyOf (selectCourses db user body) ⟨db.notifications, 0, 0, 0, []⟩
          course hcourse sid hsid p hp)
    have h2 : runAbsenceWarnings
        { db with notifications :=
          (warnRun db policyOf false (selectCourses db user body)).notifications }
        policyOf user body
        = (200, { db with notifications :=
              ((selectCourses db user body).foldl (warnCourse db policyOf false)
                ⟨(warnRun db policyOf false (selectCourses db user body)).notifications,
                  0, 0, 0, []⟩).notifications },
            ⟨false, (selectCourses db user body).length,
              ((selectCourses db user body).foldl (warnCourse db policyOf false)
                ⟨(warnRun db policyOf false (selectCourses db user body)).notifications,
                  0, 0, 0, []⟩).checkedStudents,
              ((selectCourses db user body).foldl (warnCourse db policyOf false)
                ⟨(warnRun db policyOf false (selectCourses db user body)).notifications,
                  0, 0, 0, []⟩).createdCount,
              ((selectCourses db user body).foldl (warnCourse db policyOf false)
                ⟨(warnRun db policyOf false (selectCourses db user body)).notifications,
                  0, 0, 0, []⟩).skippedCount,
              ((selectCourses db user body).foldl (warnCourse db policyOf false)
                ⟨(warnRun db policyOf false (selectCourses db user body)).notifications,
                  0, 0, 0, []⟩).perCourseSummary⟩) := by
      unfold runAbsenceWarnings
      dsimp only
      have hsel : selectCourses { db with notifications :=
          (warnRun db policyOf false (selectCourses db user body)).notifications } user body
          = selectCourses db user body := rfl
      rw [hsel, if_neg hc, hdry]
      rfl
    rw [h1]
    dsimp only
    rw [h2]
    dsimp only
    rw [hsecond.1, hsecond.2]
    exact ⟨rfl, rfl, rfl, rfl⟩

/-- C24: a dry run of the absence-warning job answers 200 with the database, the
Notification table included, exactly as before the call and reports created = 0,
whatever warnings it computes; no Notification is written inside the transaction
either. -/
theorem absence_dry_run (db : Db) (policyOf : Nat → Option AttendancePolicy)
    (user : SessionUser) (body : WarnBody) (hdry : body.dryRun = true) :
    (runAbsenceWarnings db policyOf user body).1 = 200 ∧
    (runAbsenceWarnings db policyOf user body).2.1 = db ∧
    (runAbsenceWarnings db policyOf user body).2.1.notifications = db.notifications ∧
    (runAbsenceWarnings db policyOf user body).2.2.created = 0 ∧
    (warnRun db policyOf body.dryRun (selectCourses db user body)).notifications
      = db.notifications ∧
    (warnRun db policyOf body.dryRun (selectCourses db user body)).createdCount = 0 := by
  have hrun := warnRun_dry db policyOf (selectCourses db user body)
  rw [hdry]
  refine ⟨?_, ?_, ?_, ?_, hrun.1, hrun.2.1⟩
  all_goals
    unfold runAbsenceWarnings
    dsimp only
    by_cases hc : (selectCourses db user body).length = 0
    · rw [if_pos hc]
    · rw [if_neg hc, hdry]
      rfl
/-- C22 on the example: student 7 of course 1 has 2 absences and 2 late arrivals, the
first run creates one ABSENCE_WARN notification, the second run creates none and
leaves the table with that one row. -/
theorem absence_run_twice_witness :
    exampleWarnBody.dryRun = false ∧
    (runAbsenceWarnings exampleWarnDb exampleNoPolicy exampleAdmin exampleWarnBody).2.2.created
      = 1 ∧
    (runAbsenceWarnings exampleWarnDb exampleNoPolicy exampleAdmin
        exampleWarnBody).2.1.notifications
      = [⟨1, 7, "ABSENCE_WARN", "결석 누적 경고", some "/courses/1"⟩] ∧
    (runAbsenceWarnings
        (runAbsenceWarnings exampleWarnDb exampleNoPolicy exampleAdmin exampleWarnBody).2.1
        exampleNoPolicy exampleAdmin exampleWarnBody).2.1.notifications
      = (runAbsenceWarnings exampleWarnDb exampleNoPolicy exampleAdmin
        exampleWarnBody).2.1.notifications ∧
    (runAbsenceWarnings
        (runAbsenceWarnings exampleWarnDb exampleNoPolicy exampleAdmin exampleWarnBody).2.1
        exampleNoPolicy exampleAdmin exampleWarnBody).2.2.created = 0 :=
  have h := absence_run_twice exampleWarnDb exampleNoPolicy exampleAdmin exampleWarnBody rfl
  ⟨rfl, by decide, by decide, h.2.2.1, h.2.2.2⟩

/-- C24 on the example: the dry run computes one warning, counted as skipped for the
course, creates nothing and reports created = 0, where the real run creates one
notification. -/
theorem absence_dry_run_witness :
    exampleDryBody.dryRun = true ∧
    (runAbsenceWarnings exampleWarnDb exampleNoPolicy exampleAdmin exampleDryBody).2.1
      = exampleWarnDb ∧
    (runAbsenceWarnings exampleWarnDb exampleNoPolicy exampleAdmin exampleDryBody).2.2.created
      = 0 ∧
    (runAbsenceWarnings exampleWarnDb exampleNoPolicy exampleAdmin
        exampleDryBody).2.2.perCourseSummary = [⟨1, 1, 0, 1⟩] ∧
    (runAbsenceWarnings exampleWarnDb exampleNoPolicy exampleAdmin exampleWarnBody).2.2.created
      = 1 :=
  have h := absence_dry_run exampleWarnDb exampleNoPolicy exampleAdmin exampleDryBody rfl
  ⟨rfl, h.2.1, h.2.2.2.1, by decide, by decide⟩
theorem absenceStats_foldl (studentIds : List Nat) (rows : List Attendance)
    (m : Nat → AbsStat) (sid : Nat) (hsid : sid ∈ studentIds) :
    ((rows.foldl
      (fun m a =>
        if a.studentId ∈ studentIds then
          if a.status = 3 then
            Function.update m a.studentId
              { m a.studentId with abs := (m a.studentId).abs + 1 }
          else if a.status = 2 then
            Function.update m a.studentId
              { m a.studentId with late := (m a.studentId).late + 1 }
          else m
        else m) m) sid).abs
      = (m sid).abs + rows.countP (fun a => decide (a.studentId = sid ∧ a.status = 3)) ∧
    ((rows.foldl
      (fun m a =>
        if a.studentId ∈ studentIds then
          if a.status = 3 then
            Function.update m a.studentId
              { m a.studentId with abs := (m a.studentId).abs + 1 }
          else if a.status = 2 then
            Function.update m a.studentId
              { m a.studentId with late := (m a.studentId).late + 1 }
          else m
        else m) m) sid).late
      = (m sid).late + rows.countP (fun a => decide (a.studentId = sid ∧ a.status = 2)) := by
  induction rows generalizing m with
  | nil => simp
  | cons a rest ih =>
    rw [List.foldl_cons]
    obtain ⟨e1, e2⟩ := ih
      (if a.studentId ∈ studentIds then
        if a.status = 3 then
          Function.update m a.studentId { m a.studentId with abs := (m a.studentId).abs + 1 }
        else if a.status = 2 then
          Function.update m a.studentId { m a.studentId with late := (m a.studentId).late + 1 }
        else m
      else m)
    rw [e1, e2]
    simp only [List.countP_cons]
    by_cases hs : a.studentId = sid
    · subst hs
      rw [if_pos hsid]
      by_cases h3 : a.status = 3
      · rw [if_pos h3, Function.update_same]
        simp only [h3, and_self, decide_True, if_true]
        constructor
        · ring
        · simp
      · rw [if_neg h3]
        by_cases h2 : a.status = 2
        · rw [if_pos h2, Function.update_same]
          simp only [h2, and_self, decide_True, if_true]
          constructor
          · simp
          · ring
        · rw [if_neg h2]
          simp [h2, h3]
    · have hne : sid ≠ a.studentId := fun h => hs h.symm
      have hsame : (if a.studentId ∈ studentIds then
          if a.status = 3 then
            Function.update m a.studentId
              { m a.studentId with abs := (m a.studentId).abs + 1 }
          else if a.status = 2 then
            Function.update m a.studentId
              { m a.studentId with late := (m a.studentId).late + 1 }
          else m
        else m) sid = m sid := by
        by_cases hin : a.studentId ∈ studentIds
        · rw [if_pos hin]
          by_cases h3 : a.status = 3
          · rw [if_pos h3, Function.update_noteq hne]
          · rw [if_neg h3]
            by_cases h2 : a.status = 2
            · rw [if_pos h2, Function.update_noteq hne]
            · rw [if_neg h2]
        · rw [if_neg hin]
      rw [hsame]
      simp [hs]

theorem absenceStats_counts (studentIds : List Nat) (rows : List Attendance) (sid : Nat)
    (hsid : sid ∈ studentIds) :
    (absenceStats studentIds rows sid).abs
      = rows.countP (fun a => decide (a.studentId = sid ∧ a.status = 3)) ∧
    (absenceStats studentIds rows sid).late
      = rows.countP (fun a => decide (a.studentId = sid ∧ a.status = 2)) := by
  unfold absenceStats
  obtain ⟨h1, h2⟩ := absenceStats_foldl studentIds rows (fun _ => ⟨0, 0⟩) sid hsid
  rw [h1, h2]
  simp

/-- C23: for thresholds with warnAbsences < dangerAbsences < failAbsences and a
lateToAbsent of at least 1, the absence-equivalent of a student is
absences + floor(lateCount / lateToAbsent), where absences and lateCount are the
numbers of the student's Attendance rows of the course with status 3 and status 2. The
level is FAIL iff absEq >= failAbsences, DANGER iff dangerAbsences <= absEq <
failAbsences, WARN iff warnAbsences <= absEq < dangerAbsences, and there is no level
iff absEq < warnAbsences. Without a level the student's turn leaves the Notification
table as it is; with a level, outside a dry run, the table afterwards holds a
notification for the student with the type and title of that level and the link of the
course. The thresholds that the job takes from a policy always satisfy
warnAbsences < dangerAbsences < failAbsences. -/
theorem absence_classification (t : Thresholds)
    (hwd : t.warnAbsences < t.dangerAbsences) (hdf : t.dangerAbsences < t.failAbsences)
    (hl : 0 < t.lateToAbsent) :
    (∀ stat : AbsStat, absenceEquivalent t stat = stat.abs + stat.late / t.lateToAbsent) ∧
    (∀ (studentIds : List Nat) (rows : List Attendance) (sid : Nat), sid ∈ studentIds →
      (absenceStats studentIds rows sid).abs
        = rows.countP (fun a => decide (a.studentId = sid ∧ a.status = 3)) ∧
      (absenceStats studentIds rows sid).late
        = rows.countP (fun a => decide (a.studentId = sid ∧ a.status = 2))) ∧
    (∀ absEq : Nat,
      (decideLevel absEq t = some "FAIL" ↔ t.failAbsences ≤ absEq) ∧
      (decideLevel absEq t = some "DANGER" ↔ t.dangerAbsences ≤ absEq ∧ absEq < t.failAbsences) ∧
      (decideLevel absEq t = some "WARN" ↔ t.warnAbsences ≤ absEq ∧ absEq < t.dangerAbsences) ∧
      (decideLevel absEq t = none ↔ absEq < t.warnAbsences)) ∧
    (∀ (dryRun : Bool) (courseId : Nat) (stats : Nat → AbsStat) (acc : WarnLoop) (sid : Nat),
      decideLevel (absenceEquivalent t (stats sid)) t = none →
      (warnStudent dryRun courseId t stats acc sid).notifications = acc.notifications) ∧
    (∀ (courseId : Nat) (stats : Nat → AbsStat) (acc : WarnLoop) (sid : Nat) (level : String),
      decideLevel (absenceEquivalent t (stats sid)) t = some level →
      ∃ n ∈ (warnStudent false courseId t stats acc sid).notifications,
        n.userId = sid ∧ n.type = buildType level ∧ n.title = buildTitle level ∧
        n.linkUrl = some ("/courses/" ++ toString courseId)) ∧
    (∀ policyRow : Option AttendancePolicy,
      (pickPolicy policyRow).warnAbsences < (pickPolicy policyRow).dangerAbsences ∧
      (pickPolicy policyRow).dangerAbsences < (pickPolicy policyRow).failAbsences) := by
  refine ⟨?_, absenceStats_counts, ?_, ?_, ?_, ?_⟩
  · intro stat
    unfold absenceEquivalent
    rw [if_neg (by omega), Nat.max_eq_right (by omega)]
  · intro absEq
    unfold decideLevel
    by_cases h1 : absEq ≥ t.failAbsences
    · rw [if_pos h1]
      refine ⟨?_, ?_, ?_, ?_⟩
      · simp; omega
      · simp; omega
      · simp; omega
      · simp; omega
    · rw [if_neg h1]
      by_cases h2 : absEq ≥ t.dangerAbsences
      · rw [if_pos h2]
        refine ⟨?_, ?_, ?_, ?_⟩
        · simp; omega
        · simp; omega
        · simp; omega
        · simp; omega
      · rw [if_neg h2]
        by_cases h3 : absEq ≥ t.warnAbsences
        · rw [if_pos h3]
          refine ⟨?_, ?_, ?_, ?_⟩
          · simp; omega
          · simp; omega
          · simp; omega
          · simp; omega
        · rw [if_neg h3]
          refine ⟨?_, ?_, ?_, ?_⟩
          · simp; omega
          · simp; omega
          · simp; omega
          · simp; omega
  · intro dryRun courseId stats acc sid hnone
    unfold warnStudent warningFor
    rw [hnone]
    rfl
  · intro courseId stats acc sid level hlevel
    have hp : warningFor courseId t (stats sid) sid
        = some ⟨sid, buildType level, buildTitle level, "/courses/" ++ toString courseId⟩ := by
      unfold warningFor
      rw [hlevel]
      rfl
    obtain ⟨n, hn, hs⟩ := warnStudent_found courseId t stats acc sid _ hp
    refine ⟨n, hn, ?_⟩
    simp only [sameNotification, Bool.and_eq_true, decide_eq_true_eq] at hs
    rw [if_neg (courseLink_ne_empty _)] at hs
    exact ⟨hs.1.1.1, hs.1.1.2, hs.1.2, hs.2⟩
  · intro policyRow
    cases policyRow with
    | none => decide
    | some p => exact ⟨by show (2 : Nat) < 4; decide, by show (4 : Nat) < 6; decide⟩

/-- C23 on the default thresholds 2 < 4 < 6 with lateToAbsent 3: two absences and two
late arrivals give absEq 2, level WARN; one absence and two late arrivals give absEq 1
and no level; two absences and six late arrivals give absEq 4, level DANGER; six
absences give FAIL. -/
theorem absence_classification_witness :
    DEFAULT_THRESHOLDS.warnAbsences < DEFAULT_THRESHOLDS.dangerAbsences ∧
    DEFAULT_THRESHOLDS.dangerAbsences < DEFAULT_THRESHOLDS.failAbsences ∧
    0 < DEFAULT_THRESHOLDS.lateToAbsent ∧
    absenceEquivalent DEFAULT_THRESHOLDS ⟨2, 2⟩ = 2 + 2 / 3 ∧
    decideLevel (absenceEquivalent DEFAULT_THRESHOLDS ⟨2, 2⟩) DEFAULT_THRESHOLDS = some "WARN" ∧
    decideLevel (absenceEquivalent DEFAULT_THRESHOLDS ⟨1, 2⟩) DEFAULT_THRESHOLDS = none ∧
    decideLevel (absenceEquivalent DEFAULT_THRESHOLDS ⟨2, 6⟩) DEFAULT_THRESHOLDS
      = some "DANGER" ∧
    decideLevel (absenceEquivalent DEFAULT_THRESHOLDS ⟨6, 0⟩) DEFAULT_THRESHOLDS = some "FAIL" ∧
    (decideLevel 2 DEFAULT_THRESHOLDS = some "WARN" ↔
      DEFAULT_THRESHOLDS.warnAbsences ≤ 2 ∧ 2 < DEFAULT_THRESHOLDS.dangerAbsences) :=
  have h := absence_classification DEFAULT_THRESHOLDS (by decide) (by decide) (by decide)
  ⟨by decide, by decide, by decide, h.1 ⟨2, 2⟩, by decide, by decide, by decide, by decide,
    (h.2.2.1 2).2.2.1⟩

end AttendanceSystem
